import Mathlib

/-!
# remove-all-default-vpc: the dependency-ordered VPC cleanup workflow

A shallow embedding of `main.go` (region and VPC discovery, the cleaners,
`cleanupVPCResources`, `deleteVPC` and the goroutine that
`DeleteAllDefaultVPCs` starts for one region) over the `EC2API` interface of
`ec2.go`.

* Go pointers (`*string`, `*bool`) are `Option`s: `none` is the nil pointer.
* A value of the `error` interface is a `GoError`; a nil `error` is `none`.
* The client behind `EC2API` is an arbitrary deterministic object with private
  state `σ`: every method maps the current state and the request to a response
  and a next state.
* Every call made through the interface is appended, with its response, to the
  trace of the `World`; every `fmt.Printf` appends one entry to `out`.
* Dereferencing a nil pointer is the outcome `Outcome.panic`.
* The goroutine of a region is run on its own, with the client of the region
  as a parameter; `os.Exit(1)` is the ending `Ending.exited 1`.
* `DeleteAllDefaultVPCs` is a step function on the state of the process: the
  scheduler picks the goroutine that moves next, the function itself or the
  goroutine of a region, which completes the next call of its run.
-/

namespace RemoveDefaultVpc

/-! ## Data model -/

/-- Values of Go's `error` interface that are not nil: either an error made by
the remote client (any leaf error, carrying its `Error()` text) or the
`*fmt.wrapError` built by `fmt.Errorf` with one `%w` verb. -/
inductive GoError where
  | errorString (text : String)
  | wrapError (msg : String) (err : GoError)
  deriving DecidableEq, Repr

/-- The method `Error()` of an error value. -/
def GoError.Error : GoError → String
  | .errorString text => text
  | .wrapError msg _ => msg

/-- The method `Unwrap()` as seen by `errors.Unwrap`: the wrapped cause, if any. -/
def GoError.Unwrap : GoError → Option GoError
  | .errorString _ => none
  | .wrapError _ err => some err

/-- The call `fmt.Errorf(format, ..., err)` where the format is `text` followed
by `: %w`, with the `%s` arguments already substituted into `text`. -/
def Errorf (text : String) (err : GoError) : GoError :=
  .wrapError (text ++ ": " ++ err.Error) err

/-- The helper `aws.ToString`: the pointed-to string, or the empty string for nil. -/
def awsToString : Option String → String
  | some s => s
  | none => ""

/-- The SDK type `types.Filter`, with the two fields the program sets. -/
structure Filter where
  Name : Option String
  Values : List String
  deriving DecidableEq, Repr

/-- The SDK type `types.Region`, with the field the program reads. -/
structure Region where
  RegionName : Option String
  deriving DecidableEq, Repr

/-- The SDK type `types.Vpc`, with the fields the program reads. -/
structure Vpc where
  VpcId : Option String
  IsDefault : Option Bool
  deriving DecidableEq, Repr

/-- The SDK type `types.Subnet`, with the field the program reads. -/
structure Subnet where
  SubnetId : Option String
  deriving DecidableEq, Repr

/-- The SDK type `types.RouteTableAssociation`, with the field the program reads. -/
structure RouteTableAssociation where
  Main : Option Bool
  deriving DecidableEq, Repr

/-- The SDK type `types.RouteTable`, with the fields the program reads. -/
structure RouteTable where
  RouteTableId : Option String
  Associations : List RouteTableAssociation
  deriving DecidableEq, Repr

/-- The SDK type `types.InternetGateway`, with the field the program reads. -/
structure InternetGateway where
  InternetGatewayId : Option String
  deriving DecidableEq, Repr

/-- The SDK type `types.SecurityGroup`, with the fields the program reads. -/
structure SecurityGroup where
  GroupId : Option String
  GroupName : Option String
  deriving DecidableEq, Repr

/-- The SDK type `types.NetworkAcl`, with the fields the program reads. -/
structure NetworkAcl where
  NetworkAclId : Option String
  IsDefault : Option Bool
  deriving DecidableEq, Repr

/-- What a `Describe...` method returns, a pair `(*Output, error)`:
`failed e` when the error is not nil (the program never looks at the output
then), `nilOutput` for a nil output pointer with a nil error, and `listed xs`
for an output whose slice holds `xs` (a nil slice is the empty list). -/
inductive ListResp (α : Type) where
  | failed (e : GoError)
  | nilOutput
  | listed (xs : List α)
  deriving DecidableEq, Repr

/-- One call through the `EC2API` interface together with what it returned.
For the delete and detach methods only the returned `error` is kept, since the
program discards their output. -/
inductive Event where
  | DescribeRegions (resp : ListResp Region)
  | DescribeVpcs (resp : ListResp Vpc)
  | DeleteVpc (vpcId : Option String) (err : Option GoError)
  | DescribeSecurityGroups (filters : List Filter) (resp : ListResp SecurityGroup)
  | DeleteSecurityGroup (groupId : Option String) (err : Option GoError)
  | DescribeSubnets (filters : List Filter) (resp : ListResp Subnet)
  | DeleteSubnet (subnetId : Option String) (err : Option GoError)
  | DescribeRouteTables (filters : List Filter) (resp : ListResp RouteTable)
  | DeleteRouteTable (routeTableId : Option String) (err : Option GoError)
  | DescribeInternetGateways (filters : List Filter) (resp : ListResp InternetGateway)
  | DetachInternetGateway (internetGatewayId vpcId : Option String) (err : Option GoError)
  | DeleteInternetGateway (internetGatewayId : Option String) (err : Option GoError)
  | DescribeNetworkAcls (filters : List Filter) (resp : ListResp NetworkAcl)
  | DeleteNetworkAcl (networkAclId : Option String) (err : Option GoError)
  deriving DecidableEq, Repr

/-- The interface `EC2API` of `ec2.go`, implemented by a client with private
state `σ`. Each method takes the state and the fields of its input that the
program sets, and returns its response and the next state. -/
structure EC2API (σ : Type) where
  DescribeRegions : σ → ListResp Region × σ
  DescribeVpcs : σ → ListResp Vpc × σ
  DeleteVpc : σ → Option String → Option GoError × σ
  DescribeSecurityGroups : σ → List Filter → ListResp SecurityGroup × σ
  DeleteSecurityGroup : σ → Option String → Option GoError × σ
  DescribeSubnets : σ → List Filter → ListResp Subnet × σ
  DeleteSubnet : σ → Option String → Option GoError × σ
  DescribeRouteTables : σ → List Filter → ListResp RouteTable × σ
  DeleteRouteTable : σ → Option String → Option GoError × σ
  DescribeInternetGateways : σ → List Filter → ListResp InternetGateway × σ
  DetachInternetGateway : σ → Option String → Option String → Option GoError × σ
  DeleteInternetGateway : σ → Option String → Option GoError × σ
  DescribeNetworkAcls : σ → List Filter → ListResp NetworkAcl × σ
  DeleteNetworkAcl : σ → Option String → Option GoError × σ

/-- Everything a run can change: the client's private state, the calls made so
far with their responses (oldest first), and the text written to standard
output (one entry per `fmt.Printf`). -/
structure World (σ : Type) where
  gw : σ
  trace : List Event
  out : List String
  deriving DecidableEq, Repr

/-- A world in which nothing has been called or printed yet. -/
def World.init {σ : Type} (s : σ) : World σ :=
  { gw := s, trace := [], out := [] }

/-- Record one call: the client moves to state `s` and the event is appended. -/
def World.record {σ : Type} (w : World σ) (ev : Event) (s : σ) : World σ :=
  { gw := s, trace := w.trace ++ [ev], out := w.out }

/-- The statement `fmt.Printf(line)`. -/
def World.printf {σ : Type} (w : World σ) (line : String) : World σ :=
  { gw := w.gw, trace := w.trace, out := w.out ++ [line] }

/-- How a Go function call ends: it returns a value, or the goroutine panics
on a nil pointer dereference. -/
inductive Outcome (α : Type) where
  | ret (v : α)
  | panic
  deriving DecidableEq, Repr

/-! ## Calls through the interface -/

/-- The call `client.DescribeSubnets(ctx, input)` with `input.Filters = filters`. -/
def callDescribeSubnets {σ : Type} (client : EC2API σ) (filters : List Filter)
    (w : World σ) : ListResp Subnet × World σ :=
  let r := client.DescribeSubnets w.gw filters
  (r.1, w.record (.DescribeSubnets filters r.1) r.2)

/-- The call `client.DeleteSubnet(ctx, input)` with `input.SubnetId = id`. -/
def callDeleteSubnet {σ : Type} (client : EC2API σ) (id : Option String)
    (w : World σ) : Option GoError × World σ :=
  let r := client.DeleteSubnet w.gw id
  (r.1, w.record (.DeleteSubnet id r.1) r.2)

/-- The call `client.DescribeRouteTables(ctx, input)` with `input.Filters = filters`. -/
def callDescribeRouteTables {σ : Type} (client : EC2API σ) (filters : List Filter)
    (w : World σ) : ListResp RouteTable × World σ :=
  let r := client.DescribeRouteTables w.gw filters
  (r.1, w.record (.DescribeRouteTables filters r.1) r.2)

/-- The call `client.DeleteRouteTable(ctx, input)` with `input.RouteTableId = id`. -/
def callDeleteRouteTable {σ : Type} (client : EC2API σ) (id : Option String)
    (w : World σ) : Option GoError × World σ :=
  let r := client.DeleteRouteTable w.gw id
  (r.1, w.record (.DeleteRouteTable id r.1) r.2)

/-- The call `client.DescribeInternetGateways(ctx, input)` with `input.Filters = filters`. -/
def callDescribeInternetGateways {σ : Type} (client : EC2API σ) (filters : List Filter)
    (w : World σ) : ListResp InternetGateway × World σ :=
  let r := client.DescribeInternetGateways w.gw filters
  (r.1, w.record (.DescribeInternetGateways filters r.1) r.2)

/-- The call `client.DetachInternetGateway(ctx, input)` with
`input.InternetGatewayId = id` and `input.VpcId = vpcId`. -/
def callDetachInternetGateway {σ : Type} (client : EC2API σ) (id vpcId : Option String)
    (w : World σ) : Option GoError × World σ :=
  let r := client.DetachInternetGateway w.gw id vpcId
  (r.1, w.record (.DetachInternetGateway id vpcId r.1) r.2)

/-- The call `client.DeleteInternetGateway(ctx, input)` with
`input.InternetGatewayId = id`. -/
def callDeleteInternetGateway {σ : Type} (client : EC2API σ) (id : Option String)
    (w : World σ) : Option GoError × World σ :=
  let r := client.DeleteInternetGateway w.gw id
  (r.1, w.record (.DeleteInternetGateway id r.1) r.2)

/-- The call `client.DescribeSecurityGroups(ctx, input)` with `input.Filters = filters`. -/
def callDescribeSecurityGroups {σ : Type} (client : EC2API σ) (filters : List Filter)
    (w : World σ) : ListResp SecurityGroup × World σ :=
  let r := client.DescribeSecurityGroups w.gw filters
  (r.1, w.record (.DescribeSecurityGroups filters r.1) r.2)

/-- The call `client.DeleteSecurityGroup(ctx, input)` with `input.GroupId = id`. -/
def callDeleteSecurityGroup {σ : Type} (client : EC2API σ) (id : Option String)
    (w : World σ) : Option GoError × World σ :=
  let r := client.DeleteSecurityGroup w.gw id
  (r.1, w.record (.DeleteSecurityGroup id r.1) r.2)

/-- The call `client.DescribeNetworkAcls(ctx, input)` with `input.Filters = filters`. -/
def callDescribeNetworkAcls {σ : Type} (client : EC2API σ) (filters : List Filter)
    (w : World σ) : ListResp NetworkAcl × World σ :=
  let r := client.DescribeNetworkAcls w.gw filters
  (r.1, w.record (.DescribeNetworkAcls filters r.1) r.2)

/-- The call `client.DeleteNetworkAcl(ctx, input)` with `input.NetworkAclId = id`. -/
def callDeleteNetworkAcl {σ : Type} (client : EC2API σ) (id : Option String)
    (w : World σ) : Option GoError × World σ :=
  let r := client.DeleteNetworkAcl w.gw id
  (r.1, w.record (.DeleteNetworkAcl id r.1) r.2)

/-- The filter list every cleaner but the internet-gateway one sends:
one filter, named `vpc-id`, whose only value is the VPC id. -/
def vpcIdFilter (vpcID : String) : List Filter :=
  [{ Name := some "vpc-id", Values := [vpcID] }]

/-- The filter list `deleteInternetGateways` sends:
one filter, named `attachment.vpc-id`, whose only value is the VPC id. -/
def attachmentVpcIdFilter (vpcID : String) : List Filter :=
  [{ Name := some "attachment.vpc-id", Values := [vpcID] }]

/-! ## The cleaners of `main.go` -/

/-- The loop `for _, subnet := range resp.Subnets` of `deleteSubnets`. -/
def deleteSubnetsLoop {σ : Type} (client : EC2API σ) :
    List Subnet → World σ → Outcome (Option GoError) × World σ
  | [], w => (.ret none, w)
  | subnet :: rest, w =>
    match callDeleteSubnet client subnet.SubnetId w with
    | (some err, w1) =>
      (.ret (some (Errorf ("failed to delete subnet " ++ awsToString subnet.SubnetId) err)), w1)
    | (none, w1) =>
      deleteSubnetsLoop client rest
        (w1.printf ("Deleted subnet: " ++ awsToString subnet.SubnetId ++ "\n"))

/-- The function `deleteSubnets` of `main.go`. -/
def deleteSubnets {σ : Type} (client : EC2API σ) (vpcID : String) (w : World σ) :
    Outcome (Option GoError) × World σ :=
  match callDescribeSubnets client (vpcIdFilter vpcID) w with
  | (.failed err, w1) => (.ret (some err), w1)
  | (.nilOutput, w1) => (.panic, w1)
  | (.listed subnets, w1) => deleteSubnetsLoop client subnets w1

/-- The function `isMainRouteTable` of `main.go`: the loop over
`rt.Associations` returns true at the first association whose `Main` pointer is
not nil and points to true, and false when the loop ends. -/
def isMainRouteTableLoop : List RouteTableAssociation → Bool
  | [] => false
  | association :: rest =>
    if association.Main ≠ none ∧ association.Main = some true then true
    else isMainRouteTableLoop rest

/-- The function `isMainRouteTable` of `main.go`. -/
def isMainRouteTable (rt : RouteTable) : Bool :=
  isMainRouteTableLoop rt.Associations

/-- The loop of `isMainRouteTable` with the dereference `*association.Main`
written out as a step that panics on nil. Go evaluates the right operand of
`&&` only when the left one, `association.Main != nil`, is true. -/
def isMainRouteTableLoopDeref : List RouteTableAssociation → Outcome Bool
  | [] => .ret false
  | association :: rest =>
    if association.Main ≠ none then
      match association.Main with
      | none => .panic
      | some main => if main then .ret true else isMainRouteTableLoopDeref rest
    else isMainRouteTableLoopDeref rest

/-- The function `isMainRouteTable` of `main.go` with its dereference written out. -/
def isMainRouteTableDeref (rt : RouteTable) : Outcome Bool :=
  isMainRouteTableLoopDeref rt.Associations

/-- The loop `for _, rt := range resp.RouteTables` of `deleteRouteTables`. -/
def deleteRouteTablesLoop {σ : Type} (client : EC2API σ) :
    List RouteTable → World σ → Outcome (Option GoError) × World σ
  | [], w => (.ret none, w)
  | rt :: rest, w =>
    if isMainRouteTable rt then deleteRouteTablesLoop client rest w
    else
      match callDeleteRouteTable client rt.RouteTableId w with
      | (some err, w1) =>
        (.ret (some (Errorf ("failed to delete route table " ++ awsToString rt.RouteTableId) err)),
          w1)
      | (none, w1) =>
        deleteRouteTablesLoop client rest
          (w1.printf ("Deleted route table: " ++ awsToString rt.RouteTableId ++ "\n"))

/-- The function `deleteRouteTables` of `main.go`. -/
def deleteRouteTables {σ : Type} (client : EC2API σ) (vpcID : String) (w : World σ) :
    Outcome (Option GoError) × World σ :=
  match callDescribeRouteTables client (vpcIdFilter vpcID) w with
  | (.failed err, w1) => (.ret (some (Errorf "failed to describe route tables" err)), w1)
  | (.nilOutput, w1) => (.panic, w1)
  | (.listed routeTables, w1) => deleteRouteTablesLoop client routeTables w1

/-- The loop `for _, igw := range resp.InternetGateways` of
`deleteInternetGateways`: detach from the VPC, then delete. -/
def deleteInternetGatewaysLoop {σ : Type} (client : EC2API σ) (vpcID : String) :
    List InternetGateway → World σ → Outcome (Option GoError) × World σ
  | [], w => (.ret none, w)
  | igw :: rest, w =>
    match callDetachInternetGateway client igw.InternetGatewayId (some vpcID) w with
    | (some err, w1) =>
      (.ret (some (Errorf
        ("failed to detach internet gateway " ++ awsToString igw.InternetGatewayId) err)), w1)
    | (none, w1) =>
      match callDeleteInternetGateway client igw.InternetGatewayId w1 with
      | (some err, w2) =>
        (.ret (some (Errorf
          ("failed to delete internet gateway " ++ awsToString igw.InternetGatewayId) err)), w2)
      | (none, w2) =>
        deleteInternetGatewaysLoop client vpcID rest
          (w2.printf
            ("Deleted internet gateway: " ++ awsToString igw.InternetGatewayId ++ "\n"))

/-- The function `deleteInternetGateways` of `main.go`. -/
def deleteInternetGateways {σ : Type} (client : EC2API σ) (vpcID : String) (w : World σ) :
    Outcome (Option GoError) × World σ :=
  match callDescribeInternetGateways client (attachmentVpcIdFilter vpcID) w with
  | (.failed err, w1) => (.ret (some err), w1)
  | (.nilOutput, w1) => (.panic, w1)
  | (.listed gateways, w1) => deleteInternetGatewaysLoop client vpcID gateways w1

/-- The loop `for _, sg := range resp.SecurityGroups` of `deleteSecurityGroups`.
The test `*sg.GroupName == "default"` dereferences the name pointer. -/
def deleteSecurityGroupsLoop {σ : Type} (client : EC2API σ) :
    List SecurityGroup → World σ → Outcome (Option GoError) × World σ
  | [], w => (.ret none, w)
  | sg :: rest, w =>
    match sg.GroupName with
    | none => (.panic, w)
    | some groupName =>
      if groupName = "default" then deleteSecurityGroupsLoop client rest w
      else
        match callDeleteSecurityGroup client sg.GroupId w with
        | (some err, w1) =>
          (.ret (some (Errorf ("failed to delete security group " ++ awsToString sg.GroupId) err)),
            w1)
        | (none, w1) =>
          deleteSecurityGroupsLoop client rest
            (w1.printf ("Deleted security group: " ++ awsToString sg.GroupId ++ "\n"))

/-- The function `deleteSecurityGroups` of `main.go`. -/
def deleteSecurityGroups {σ : Type} (client : EC2API σ) (vpcID : String) (w : World σ) :
    Outcome (Option GoError) × World σ :=
  match callDescribeSecurityGroups client (vpcIdFilter vpcID) w with
  | (.failed err, w1) => (.ret (some err), w1)
  | (.nilOutput, w1) => (.panic, w1)
  | (.listed groups, w1) => deleteSecurityGroupsLoop client groups w1

/-- The loop `for _, acl := range resp.NetworkAcls` of `deleteNetworkACLs`.
The test `*acl.IsDefault` dereferences the flag pointer. -/
def deleteNetworkACLsLoop {σ : Type} (client : EC2API σ) :
    List NetworkAcl → World σ → Outcome (Option GoError) × World σ
  | [], w => (.ret none, w)
  | acl :: rest, w =>
    match acl.IsDefault with
    | none => (.panic, w)
    | some isDefault =>
      if isDefault then deleteNetworkACLsLoop client rest w
      else
        match callDeleteNetworkAcl client acl.NetworkAclId w with
        | (some err, w1) =>
          (.ret (some (Errorf ("failed to delete network ACL " ++ awsToString acl.NetworkAclId) err)),
            w1)
        | (none, w1) =>
          deleteNetworkACLsLoop client rest
            (w1.printf ("Deleted network ACL: " ++ awsToString acl.NetworkAclId ++ "\n"))

/-- The function `deleteNetworkACLs` of `main.go`. -/
def deleteNetworkACLs {σ : Type} (client : EC2API σ) (vpcID : String) (w : World σ) :
    Outcome (Option GoError) × World σ :=
  match callDescribeNetworkAcls client (vpcIdFilter vpcID) w with
  | (.failed err, w1) => (.ret (some err), w1)
  | (.nilOutput, w1) => (.panic, w1)
  | (.listed acls, w1) => deleteNetworkACLsLoop client acls w1

/-- The function `cleanupVPCResources` of `main.go`: each cleaner runs in turn;
a cleaner that returns an error ends the function with that error, and a panic
inside a cleaner unwinds through it. -/
def cleanupVPCResources {σ : Type} (client : EC2API σ) (vpcID : String) (w : World σ) :
    Outcome (Option GoError) × World σ :=
  match deleteInternetGateways client vpcID w with
  | (.panic, w1) => (.panic, w1)
  | (.ret (some err), w1) => (.ret (some err), w1)
  | (.ret none, w1) =>
    match deleteSubnets client vpcID w1 with
    | (.panic, w2) => (.panic, w2)
    | (.ret (some err), w2) => (.ret (some err), w2)
    | (.ret none, w2) =>
      match deleteRouteTables client vpcID w2 with
      | (.panic, w3) => (.panic, w3)
      | (.ret (some err), w3) => (.ret (some err), w3)
      | (.ret none, w3) =>
        match deleteNetworkACLs client vpcID w3 with
        | (.panic, w4) => (.panic, w4)
        | (.ret (some err), w4) => (.ret (some err), w4)
        | (.ret none, w4) =>
          match deleteSecurityGroups client vpcID w4 with
          | (.panic, w5) => (.panic, w5)
          | (.ret (some err), w5) => (.ret (some err), w5)
          | (.ret none, w5) => (.ret none, w5)

/-! ## Region and VPC discovery, VPC deletion and the region worker -/

/-- The call `client.DescribeRegions(ctx, input)`; the input has no field set. -/
def callDescribeRegions {σ : Type} (client : EC2API σ) (w : World σ) :
    ListResp Region × World σ :=
  let r := client.DescribeRegions w.gw
  (r.1, w.record (.DescribeRegions r.1) r.2)

/-- The call `client.DescribeVpcs(ctx, input)`; the input has no field set. -/
def callDescribeVpcs {σ : Type} (client : EC2API σ) (w : World σ) :
    ListResp Vpc × World σ :=
  let r := client.DescribeVpcs w.gw
  (r.1, w.record (.DescribeVpcs r.1) r.2)

/-- The call `client.DeleteVpc(ctx, input)` with `input.VpcId = id`. -/
def callDeleteVpc {σ : Type} (client : EC2API σ) (id : Option String)
    (w : World σ) : Option GoError × World σ :=
  let r := client.DeleteVpc w.gw id
  (r.1, w.record (.DeleteVpc id r.1) r.2)

/-- The loop `for _, region := range output.Regions` of `getRegions`; the second
argument is the slice `regions` built so far. The append dereferences the
name pointer. -/
def getRegionsLoop : List Region → List String → Outcome (List String)
  | [], regions => .ret regions
  | region :: rest, regions =>
    match region.RegionName with
    | none => .panic
    | some name => getRegionsLoop rest (regions ++ [name])

/-- The function `getRegions` of `main.go`. It returns a pair `([]string, error)`;
a nil slice is `none`, the empty slice `[]string{}` is `some []`. -/
def getRegions {σ : Type} (client : EC2API σ) (w : World σ) :
    Outcome (Option (List String) × Option GoError) × World σ :=
  match callDescribeRegions client w with
  | (.failed err, w1) => (.ret (none, some err), w1)
  | (.nilOutput, w1) => (.panic, w1)
  | (.listed regions, w1) =>
    if regions.length = 0 then (.ret (some [], none), w1)
    else
      match getRegionsLoop regions [] with
      | .panic => (.panic, w1)
      | .ret names => (.ret (some names, none), w1)

/-- The loop `for _, vpc := range output.Vpcs` of `getDefaultVPCs`; the second
argument is the slice `vpcs` built so far. The test dereferences the default
flag, the append dereferences the id. -/
def getDefaultVPCsLoop : List Vpc → List String → Outcome (List String)
  | [], vpcs => .ret vpcs
  | vpc :: rest, vpcs =>
    match vpc.IsDefault with
    | none => .panic
    | some isDefault =>
      if isDefault then
        match vpc.VpcId with
        | none => .panic
        | some vpcId => getDefaultVPCsLoop rest (vpcs ++ [vpcId])
      else getDefaultVPCsLoop rest vpcs

/-- The function `getDefaultVPCs` of `main.go`, with the same result type as
`getRegions`. -/
def getDefaultVPCs {σ : Type} (client : EC2API σ) (w : World σ) :
    Outcome (Option (List String) × Option GoError) × World σ :=
  match callDescribeVpcs client w with
  | (.failed err, w1) => (.ret (none, some err), w1)
  | (.nilOutput, w1) => (.panic, w1)
  | (.listed vpcs, w1) =>
    if vpcs.length = 0 then (.ret (some [], none), w1)
    else
      match getDefaultVPCsLoop vpcs [] with
      | .panic => (.panic, w1)
      | .ret ids => (.ret (some ids, none), w1)

/-- The function `deleteVPC` of `main.go`. -/
def deleteVPC {σ : Type} (client : EC2API σ) (vpcID : String) (w : World σ) :
    Outcome (Option GoError) × World σ :=
  match callDeleteVpc client (some vpcID) w with
  | (some err, w1) => (.ret (some (Errorf ("failed to delete VPC " ++ vpcID) err)), w1)
  | (none, w1) => (.ret none, w1.printf ("Deleted VPC: " ++ vpcID ++ "\n"))

/-- How the goroutine that `DeleteAllDefaultVPCs` starts for one region ends:
its function returns, it calls `os.Exit(status)`, which ends the whole process,
or it panics. -/
inductive Ending where
  | returned
  | exited (status : Nat)
  | panicked
  deriving DecidableEq, Repr

/-- The loop `for _, vpcID := range vpcs` in the goroutine of
`DeleteAllDefaultVPCs`, run with the client of the region. -/
def regionWorkerLoop {σ : Type} (ec2Client : EC2API σ) (region : String) :
    List String → World σ → Ending × World σ
  | [], w => (.returned, w)
  | vpcID :: rest, w =>
    match cleanupVPCResources ec2Client vpcID w with
    | (.panic, w1) => (.panicked, w1)
    | (.ret (some err), w1) =>
      (.exited 1,
        w1.printf ("Error cleaning up resources for VPC " ++ vpcID ++ ": " ++ err.Error))
    | (.ret none, w1) =>
      match deleteVPC ec2Client vpcID
          (w1.printf ("Deleting default VPC " ++ vpcID ++ " in region " ++ region ++ "\n")) with
      | (.panic, w2) => (.panicked, w2)
      | (.ret (some err), w2) =>
        (.exited 1,
          w2.printf ("Error deleting VPC " ++ vpcID ++ " in region " ++ region ++ ": " ++
            err.Error))
      | (.ret none, w2) => regionWorkerLoop ec2Client region rest w2

/-- The body of the goroutine that `DeleteAllDefaultVPCs` starts for `region`.
The client `ec2Client`, which the source builds from the region's copy of the
configuration, is a parameter. A nil slice of VPC ids ranges over nothing. -/
def regionWorker {σ : Type} (ec2Client : EC2API σ) (region : String) (w : World σ) :
    Ending × World σ :=
  match getDefaultVPCs ec2Client (w.printf ("Processing region: " ++ region ++ "\n")) with
  | (.panic, w1) => (.panicked, w1)
  | (.ret (_, some err), w1) =>
    (.returned,
      w1.printf ("Error fetching default VPCs in region " ++ region ++ ": " ++ err.Error ++ "\n"))
  | (.ret (vpcs, none), w1) => regionWorkerLoop ec2Client region (vpcs.getD []) w1

/-! ## `DeleteAllDefaultVPCs`: one goroutine per region and a wait group -/

/-- What a run of `DeleteAllDefaultVPCs` is given, besides the context: the
regions, the client `ec2.NewFromConfig` builds from the configuration of a
region, and the state of the service of that region when the client is built.
The goroutine of a region works on a state of its own, which no other
goroutine reads or writes; what it prints is kept with its own run. -/
structure Deployment (σ : Type) where
  regions : List String
  newClient : String → EC2API σ
  remote : String → σ

/-- What the goroutine of `region` does when it runs alone to its end. -/
def Deployment.run {σ : Type} (d : Deployment σ) (region : String) : Ending × World σ :=
  regionWorker (d.newClient region) region (World.init (d.remote region))

/-- Where the goroutine of one region stands: the `go` statement for it has not
been reached; it is running and has completed `calls` calls through its
client; its function has returned and the deferred `wg.Done()` has run; or it
panicked, the deferred `wg.Done()` has run and the runtime is about to end the
process. -/
inductive Goroutine where
  | notStarted
  | running (calls : Nat)
  | finished
  | panicking
  deriving DecidableEq, Repr

/-- Where `DeleteAllDefaultVPCs` itself stands: in the loop over the regions,
before the iteration for the region with index `next`; blocked in `wg.Wait()`;
or returned, after the final `fmt.Println`. -/
inductive MainPoint where
  | spawning (next : Nat)
  | waiting
  | returned
  deriving DecidableEq, Repr

/-- The state of the process during `DeleteAllDefaultVPCs`: where the function
stands, the counter of the `sync.WaitGroup`, where the goroutine of each region
stands (in the order of the regions), what the function itself has printed,
and the status the process has ended with, if it has. -/
structure Process where
  main : MainPoint
  wg : Nat
  goroutines : List Goroutine
  out : List String
  ended : Option Nat
  deriving DecidableEq, Repr

/-- Whom the scheduler lets take the next step: the goroutine that runs
`DeleteAllDefaultVPCs`, or the goroutine of the region with index `i`. -/
inductive Choice where
  | main
  | goroutine (i : Nat)
  deriving DecidableEq, Repr

/-- The process when `DeleteAllDefaultVPCs` is called: `var wg sync.WaitGroup`
is zero and no goroutine has been started. -/
def Deployment.init {σ : Type} (d : Deployment σ) : Process where
  main := .spawning 0
  wg := 0
  goroutines := d.regions.map (fun _ => .notStarted)
  out := []
  ended := none

/-- One step of `DeleteAllDefaultVPCs` itself: an iteration of the loop runs
`wg.Add(1)` and the `go` statement; after the last iteration the function
reaches `wg.Wait()`, which lets it go on only when the counter is zero, to
print the final line and return. -/
def Deployment.stepMain {σ : Type} (d : Deployment σ) (p : Process) : Option Process :=
  match p.main with
  | .spawning i =>
    if i < d.regions.length then
      some { p with
        main := .spawning (i + 1)
        wg := p.wg + 1
        goroutines := p.goroutines.set i (.running 0) }
    else some { p with main := .waiting }
  | .waiting =>
    if p.wg = 0 then
      some { p with main := .returned, out := p.out ++ ["All default VPCs deleted.\n"] }
    else none
  | .returned => none

/-- One step of the goroutine of the region with index `i`. While calls of its
run are left, its next call completes. After its last call it ends the way its
run ends: its function returns and the deferred `wg.Done()` runs; or it calls
`os.Exit`, which ends the process at once, deferred calls not run; or it
panics, the deferred `wg.Done()` runs, and in a later step the runtime ends the
process with status 2. The counter is positive whenever `wg.Done()` runs (see
`Deployment.Sound`), so it never becomes negative. -/
def Deployment.stepGoroutine {σ : Type} (d : Deployment σ) (i : Nat) (p : Process) :
    Option Process :=
  match d.regions[i]?, p.goroutines[i]? with
  | some region, some (.running calls) =>
    if calls < (d.run region).2.trace.length then
      some { p with goroutines := p.goroutines.set i (.running (calls + 1)) }
    else
      match (d.run region).1 with
      | .returned => some { p with goroutines := p.goroutines.set i .finished, wg := p.wg - 1 }
      | .exited status => some { p with ended := some status }
      | .panicked =>
        some { p with goroutines := p.goroutines.set i .panicking, wg := p.wg - 1 }
  | some _, some .panicking => some { p with ended := some 2 }
  | _, _ => none

/-- One step of the process under the scheduler's choice; `none` when the
chosen goroutine cannot move: the process has ended, the goroutine is blocked,
or it has nothing left to do. -/
def Deployment.step {σ : Type} (d : Deployment σ) (c : Choice) (p : Process) :
    Option Process :=
  if p.ended ≠ none then none
  else
    match c with
    | .main => d.stepMain p
    | .goroutine i => d.stepGoroutine i p

/-- The process after the steps of a schedule, from `p`. -/
def Deployment.exec {σ : Type} (d : Deployment σ) : List Choice → Process → Option Process
  | [], p => some p
  | c :: rest, p =>
    match d.step c p with
    | none => none
    | some p1 => d.exec rest p1

/-- The function `DeleteAllDefaultVPCs` of `main.go` under a schedule: the
process the schedule leads to from the call of the function. -/
def DeleteAllDefaultVPCs {σ : Type} (d : Deployment σ) (schedule : List Choice) :
    Option Process :=
  d.exec schedule d.init

/-! ## Vocabulary for statements about traces -/

/-- Whether the recorded call returned what the caller asked for: a listing
returned a result set, a delete or detach returned a nil error. -/
def Event.succeeded : Event → Bool
  | .DescribeRegions (.listed _) => true
  | .DescribeVpcs (.listed _) => true
  | .DescribeSecurityGroups _ (.listed _) => true
  | .DescribeSubnets _ (.listed _) => true
  | .DescribeRouteTables _ (.listed _) => true
  | .DescribeInternetGateways _ (.listed _) => true
  | .DescribeNetworkAcls _ (.listed _) => true
  | .DeleteVpc _ none => true
  | .DeleteSecurityGroup _ none => true
  | .DeleteSubnet _ none => true
  | .DeleteRouteTable _ none => true
  | .DetachInternetGateway _ _ none => true
  | .DeleteInternetGateway _ none => true
  | .DeleteNetworkAcl _ none => true
  | _ => false

/-- Whether the recorded call is a listing (`Describe...`) call. -/
def Event.isListing : Event → Bool
  | .DescribeRegions _ => true
  | .DescribeVpcs _ => true
  | .DescribeSecurityGroups _ _ => true
  | .DescribeSubnets _ _ => true
  | .DescribeRouteTables _ _ => true
  | .DescribeInternetGateways _ _ => true
  | .DescribeNetworkAcls _ _ => true
  | _ => false

/-- The place of the call's resource kind in the order internet gateways (0),
subnets (1), route tables (2), network ACLs (3), security groups (4); calls
about regions and VPCs, which no cleaner makes, get 5. -/
def Event.rank : Event → Nat
  | .DescribeInternetGateways _ _ => 0
  | .DetachInternetGateway _ _ _ => 0
  | .DeleteInternetGateway _ _ => 0
  | .DescribeSubnets _ _ => 1
  | .DeleteSubnet _ _ => 1
  | .DescribeRouteTables _ _ => 2
  | .DeleteRouteTable _ _ => 2
  | .DescribeNetworkAcls _ _ => 3
  | .DeleteNetworkAcl _ _ => 3
  | .DescribeSecurityGroups _ _ => 4
  | .DeleteSecurityGroup _ _ => 4
  | .DescribeRegions _ => 5
  | .DescribeVpcs _ => 5
  | .DeleteVpc _ _ => 5

/-- Whether every record of a recorded listing carries the optional field its
cleaner dereferences: the default flag of a network ACL, the name of a
security group. Other calls dereference nothing. -/
def Event.fieldsPresent : Event → Bool
  | .DescribeNetworkAcls _ (.listed acls) => acls.all (fun acl => acl.IsDefault.isSome)
  | .DescribeSecurityGroups _ (.listed groups) => groups.all (fun sg => sg.GroupName.isSome)
  | _ => true

/-- The cleaners in the order the specification gives them:
internet gateways, subnets, route tables, network ACLs, security groups. -/
def cleanerAt {σ : Type} :
    Nat → EC2API σ → String → World σ → Outcome (Option GoError) × World σ
  | 0 => deleteInternetGateways
  | 1 => deleteSubnets
  | 2 => deleteRouteTables
  | 3 => deleteNetworkACLs
  | _ => deleteSecurityGroups

/-- Run the first `k` cleaners of the specified order one after the other;
the result is the world they leave when each of them returned a nil error, and
`none` as soon as one of them returned an error or panicked. -/
def runFirstCleaners {σ : Type} (client : EC2API σ) (vpcID : String) :
    Nat → World σ → Option (World σ)
  | 0, w => some w
  | k + 1, w =>
    match runFirstCleaners client vpcID k w with
    | none => none
    | some wk =>
      match cleanerAt k client vpcID wk with
      | (.ret none, w1) => some w1
      | _ => none

/-! ## Vocabulary for statements about the answers of the client -/

/-- The client state after the calls `call s id` for the ids of `ids`, made one
after the other from state `s`, when each of them returns a nil error; `none`
as soon as one of them returns an error. -/
def succeedFrom {σ : Type} (call : σ → Option String → Option GoError × σ) :
    List (Option String) → σ → Option σ
  | [], s => some s
  | id :: rest, s =>
    match call s id with
    | (none, s1) => succeedFrom call rest s1
    | (some _, _) => none

/-- The client state after detaching from the VPC and then deleting each gateway
of `ids`, one gateway after the other from state `s`, when each of these calls
returns a nil error; `none` as soon as one of them returns an error. -/
def detachAndDeleteFrom {σ : Type} (client : EC2API σ) (vpcID : String) :
    List (Option String) → σ → Option σ
  | [], s => some s
  | id :: rest, s =>
    match client.DetachInternetGateway s id (some vpcID) with
    | (some _, _) => none
    | (none, s1) =>
      match client.DeleteInternetGateway s1 id with
      | (some _, _) => none
      | (none, s2) => detachAndDeleteFrom client vpcID rest s2

/-! ## Runs of a cleaner, as relations on the calls it makes -/

/-- What one pass of a delete loop can do. `skip x` is the loop's skip test on
record `x` (`none` when the test dereferences a nil pointer), `idOf x` the id
sent to the delete call and `failText` the start of the error text. A run over
the listed records yields the delete calls made, each with the error it
returned, and the loop's outcome. -/
inductive LoopRun {α : Type} (skip : α → Option Bool) (idOf : α → Option String)
    (failText : String) :
    List α → List (Option String × Option GoError) → Outcome (Option GoError) → Prop
  | done : LoopRun skip idOf failText [] [] (.ret none)
  | nilDeref (x : α) (rest : List α) :
      skip x = none → LoopRun skip idOf failText (x :: rest) [] .panic
  | skipped (x : α) (rest : List α) (recs : List (Option String × Option GoError))
      (o : Outcome (Option GoError)) :
      skip x = some true → LoopRun skip idOf failText rest recs o →
      LoopRun skip idOf failText (x :: rest) recs o
  | failed (x : α) (rest : List α) (e : GoError) :
      skip x = some false →
      LoopRun skip idOf failText (x :: rest) [(idOf x, some e)]
        (.ret (some (Errorf (failText ++ awsToString (idOf x)) e)))
  | deleted (x : α) (rest : List α) (recs : List (Option String × Option GoError))
      (o : Outcome (Option GoError)) :
      skip x = some false → LoopRun skip idOf failText rest recs o →
      LoopRun skip idOf failText (x :: rest) ((idOf x, none) :: recs) o

/-- What one pass of the detach-then-delete loop of `deleteInternetGateways`
can do: the calls made, with their responses, and the loop's outcome. -/
inductive IgwLoopRun (vpcID : String) :
    List InternetGateway → List Event → Outcome (Option GoError) → Prop
  | done : IgwLoopRun vpcID [] [] (.ret none)
  | detachFailed (igw : InternetGateway) (rest : List InternetGateway) (e : GoError) :
      IgwLoopRun vpcID (igw :: rest)
        [.DetachInternetGateway igw.InternetGatewayId (some vpcID) (some e)]
        (.ret (some (Errorf
          ("failed to detach internet gateway " ++ awsToString igw.InternetGatewayId) e)))
  | deleteFailed (igw : InternetGateway) (rest : List InternetGateway) (e : GoError) :
      IgwLoopRun vpcID (igw :: rest)
        [.DetachInternetGateway igw.InternetGatewayId (some vpcID) none,
          .DeleteInternetGateway igw.InternetGatewayId (some e)]
        (.ret (some (Errorf
          ("failed to delete internet gateway " ++ awsToString igw.InternetGatewayId) e)))
  | deleted (igw : InternetGateway) (rest : List InternetGateway) (evs : List Event)
      (o : Outcome (Option GoError)) :
      IgwLoopRun vpcID rest evs o →
      IgwLoopRun vpcID (igw :: rest)
        (.DetachInternetGateway igw.InternetGatewayId (some vpcID) none ::
          .DeleteInternetGateway igw.InternetGatewayId none :: evs) o

/-- The skip test of `deleteSubnets`: there is none, every subnet is deleted. -/
def skipSubnet (_ : Subnet) : Option Bool := some false

/-- The skip test of `deleteRouteTables`. -/
def skipRouteTable (rt : RouteTable) : Option Bool := some (isMainRouteTable rt)

/-- The skip test of `deleteNetworkACLs`: the dereferenced default flag. -/
def skipNetworkAcl (acl : NetworkAcl) : Option Bool := acl.IsDefault

/-- The skip test of `deleteSecurityGroups`: the dereferenced name equals `default`. -/
def skipSecurityGroup (sg : SecurityGroup) : Option Bool :=
  sg.GroupName.map (fun groupName => decide (groupName = "default"))

/-- The delete call of a loop as an event. -/
def delEvent (mk : Option String → Option GoError → Event)
    (r : Option String × Option GoError) : Event :=
  mk r.1 r.2

/-- The calls of a delete loop whose delete call is recorded by `mk`: the
events of some `LoopRun`. -/
def DelLoopRun {α : Type} (mk : Option String → Option GoError → Event)
    (skip : α → Option Bool) (idOf : α → Option String) (failText : String)
    (xs : List α) (evs : List Event) (o : Outcome (Option GoError)) : Prop :=
  ∃ recs, evs = recs.map (delEvent mk) ∧ LoopRun skip idOf failText xs recs o

/-- What a whole cleaner can do: its listing call, recorded by `describe`,
fails (the cleaner returns `onListError e`), returns no output, or lists
records over which the loop then runs. -/
inductive CleanerRun {α : Type} (describe : ListResp α → Event)
    (onListError : GoError → GoError)
    (loop : List α → List Event → Outcome (Option GoError) → Prop) :
    List Event → Outcome (Option GoError) → Prop
  | listFailed (e : GoError) :
      CleanerRun describe onListError loop [describe (.failed e)] (.ret (some (onListError e)))
  | nilOutput : CleanerRun describe onListError loop [describe .nilOutput] .panic
  | listed (xs : List α) (evs : List Event) (o : Outcome (Option GoError)) :
      loop xs evs o → CleanerRun describe onListError loop (describe (.listed xs) :: evs) o

/-- The runs of `deleteInternetGateways`. -/
def InternetGatewaysRun (vpcID : String) : List Event → Outcome (Option GoError) → Prop :=
  CleanerRun (.DescribeInternetGateways (attachmentVpcIdFilter vpcID)) id (IgwLoopRun vpcID)

/-- The runs of `deleteSubnets`. -/
def SubnetsRun (vpcID : String) : List Event → Outcome (Option GoError) → Prop :=
  CleanerRun (.DescribeSubnets (vpcIdFilter vpcID)) id
    (DelLoopRun .DeleteSubnet skipSubnet Subnet.SubnetId "failed to delete subnet ")

/-- The runs of `deleteRouteTables`. -/
def RouteTablesRun (vpcID : String) : List Event → Outcome (Option GoError) → Prop :=
  CleanerRun (.DescribeRouteTables (vpcIdFilter vpcID)) (Errorf "failed to describe route tables")
    (DelLoopRun .DeleteRouteTable skipRouteTable RouteTable.RouteTableId
      "failed to delete route table ")

/-- The runs of `deleteNetworkACLs`. -/
def NetworkACLsRun (vpcID : String) : List Event → Outcome (Option GoError) → Prop :=
  CleanerRun (.DescribeNetworkAcls (vpcIdFilter vpcID)) id
    (DelLoopRun .DeleteNetworkAcl skipNetworkAcl NetworkAcl.NetworkAclId
      "failed to delete network ACL ")

/-- The runs of `deleteSecurityGroups`. -/
def SecurityGroupsRun (vpcID : String) : List Event → Outcome (Option GoError) → Prop :=
  CleanerRun (.DescribeSecurityGroups (vpcIdFilter vpcID)) id
    (DelLoopRun .DeleteSecurityGroup skipSecurityGroup SecurityGroup.GroupId
      "failed to delete security group ")

/-- Runs of a sequence of steps in which the first step that does not return a
nil error ends the sequence with its outcome. -/
inductive SeqRun :
    List (List Event → Outcome (Option GoError) → Prop) → List Event →
      Outcome (Option GoError) → Prop
  | nil : SeqRun [] [] (.ret none)
  | stop (R : List Event → Outcome (Option GoError) → Prop)
      (Rs : List (List Event → Outcome (Option GoError) → Prop)) (evs : List Event)
      (o : Outcome (Option GoError)) :
      R evs o → o ≠ .ret none → SeqRun (R :: Rs) evs o
  | next (R : List Event → Outcome (Option GoError) → Prop)
      (Rs : List (List Event → Outcome (Option GoError) → Prop)) (evs evs2 : List Event)
      (o : Outcome (Option GoError)) :
      R evs (.ret none) → SeqRun Rs evs2 o → SeqRun (R :: Rs) (evs ++ evs2) o

/-- The step relations of `cleanupVPCResources`, in source order. -/
def cleanupSteps (vpcID : String) : List (List Event → Outcome (Option GoError) → Prop) :=
  [InternetGatewaysRun vpcID, SubnetsRun vpcID, RouteTablesRun vpcID, NetworkACLsRun vpcID,
    SecurityGroupsRun vpcID]

/-- What the ordering statements need to know about the calls `evs` of one
cleaner that ended with outcome `o`: every call is of the kind with rank `k`,
exactly one of them is a listing, and when every call succeeded and every
listed record carries the dereferenced fields the cleaner returned a nil error. -/
structure Segment (k : Nat) (evs : List Event) (o : Outcome (Option GoError)) : Prop where
  rank_eq : ∀ ev ∈ evs, ev.rank = k
  listing : (evs.filter Event.isListing).map Event.rank = [k]
  ok : (∀ ev ∈ evs, ev.succeeded = true) → (∀ ev ∈ evs, ev.fieldsPresent = true) →
    o = .ret none

/-- Every delete call for a route table, a network ACL or a security group has
a reason: `ev`, made after the calls `pre`, is such a delete call only if `pre`
holds this VPC's listing of that kind and the listing holds a record with the
deleted id that the cleaner's skip test rejects (a route table that is not
main, an ACL whose default flag is false, a group whose name is not `default`). -/
def Justified (vpcID : String) (pre : List Event) (ev : Event) : Prop :=
  (∀ id err, ev = .DeleteRouteTable id err →
    ∃ rts, .DescribeRouteTables (vpcIdFilter vpcID) (.listed rts) ∈ pre ∧
      ∃ rt ∈ rts, rt.RouteTableId = id ∧ isMainRouteTable rt = false) ∧
  (∀ id err, ev = .DeleteNetworkAcl id err →
    ∃ acls, .DescribeNetworkAcls (vpcIdFilter vpcID) (.listed acls) ∈ pre ∧
      ∃ acl ∈ acls, acl.NetworkAclId = id ∧ acl.IsDefault = some false) ∧
  (∀ id err, ev = .DeleteSecurityGroup id err →
    ∃ groups, .DescribeSecurityGroups (vpcIdFilter vpcID) (.listed groups) ∈ pre ∧
      ∃ sg ∈ groups, sg.GroupId = id ∧ ∃ name, sg.GroupName = some name ∧ name ≠ "default")

/-- Every call in `evs` is justified by the calls before it. -/
def AllJustified (vpcID : String) (evs : List Event) : Prop :=
  ∀ pre ev post, evs = pre ++ ev :: post → Justified vpcID pre ev

/-- The two calls `deleteInternetGateways` makes for a gateway when both
succeed: detach it from the VPC, then delete it. -/
def detachThenDelete (vpcID : String) (igw : InternetGateway) : List Event :=
  [.DetachInternetGateway igw.InternetGatewayId (some vpcID) none,
    .DeleteInternetGateway igw.InternetGatewayId none]

/-- The calls of one kind in a run: all of rank `k`, with at most one listing
among them. -/
def Block (k : Nat) (evs : List Event) : Prop :=
  (∀ ev ∈ evs, ev.rank = k) ∧
    ∀ a ∈ evs, ∀ b ∈ evs, a.isListing = true → b.isListing = true → a = b

/-- The error a recorded call returned, if it returned one. -/
def Event.failure : Event → Option GoError
  | .DescribeRegions (.failed e) => some e
  | .DescribeVpcs (.failed e) => some e
  | .DescribeSecurityGroups _ (.failed e) => some e
  | .DescribeSubnets _ (.failed e) => some e
  | .DescribeRouteTables _ (.failed e) => some e
  | .DescribeInternetGateways _ (.failed e) => some e
  | .DescribeNetworkAcls _ (.failed e) => some e
  | .DeleteVpc _ err => err
  | .DeleteSecurityGroup _ err => err
  | .DeleteSubnet _ err => err
  | .DeleteRouteTable _ err => err
  | .DetachInternetGateway _ _ err => err
  | .DeleteInternetGateway _ err => err
  | .DeleteNetworkAcl _ err => err
  | _ => none

/-- The id a recorded delete-VPC call carries; `none` for every other call. -/
def Event.deletedVpc : Event → Option (Option String)
  | .DeleteVpc vpcId _ => some vpcId
  | _ => none

/-- The error `err` hands the failure `e` on: it is `e` or it wraps `e`. -/
def Carries (err e : GoError) : Prop :=
  err = e ∨ err.Unwrap = some e

/-- A step of `cleanupVPCResources` hands every failure of a call on: whenever
one of its calls returned an error, the step returns an error that carries it. -/
def HandsOn (R : List Event → Outcome (Option GoError) → Prop) : Prop :=
  ∀ evs o, R evs o → ∀ ev ∈ evs, ∀ e, ev.failure = some e →
    ∃ err, o = .ret (some err) ∧ Carries err e

/-- The id a recorded delete call for a dependent resource carries; `none` for
every other call. -/
def Event.deletedId : Event → Option (Option String)
  | .DeleteSecurityGroup id _ => some id
  | .DeleteSubnet id _ => some id
  | .DeleteRouteTable id _ => some id
  | .DeleteInternetGateway id _ => some id
  | .DeleteNetworkAcl id _ => some id
  | _ => none

/-- The id a recorded detach call carries; `none` for every other call. -/
def Event.detachedId : Event → Option (Option String)
  | .DetachInternetGateway id _ _ => some id
  | _ => none

/-- The ids of the records a recorded resource listing returned, in listing
order; empty for a listing that failed or returned no output and for every
call that is not a resource listing. -/
def Event.listedIds : Event → List (Option String)
  | .DescribeSecurityGroups _ (.listed groups) => groups.map SecurityGroup.GroupId
  | .DescribeSubnets _ (.listed subnets) => subnets.map Subnet.SubnetId
  | .DescribeRouteTables _ (.listed routeTables) => routeTables.map RouteTable.RouteTableId
  | .DescribeInternetGateways _ (.listed gateways) =>
    gateways.map InternetGateway.InternetGatewayId
  | .DescribeNetworkAcls _ (.listed acls) => acls.map NetworkAcl.NetworkAclId
  | _ => []

/-- The line the program prints right after a recorded call: one notification
for every delete call that succeeded (`aws.ToString` of the id it carried);
no other call is followed by a line of its own. -/
def Event.notification : Event → Option String
  | .DeleteSubnet id none => some ("Deleted subnet: " ++ awsToString id ++ "\n")
  | .DeleteRouteTable id none => some ("Deleted route table: " ++ awsToString id ++ "\n")
  | .DeleteInternetGateway id none =>
    some ("Deleted internet gateway: " ++ awsToString id ++ "\n")
  | .DeleteSecurityGroup id none => some ("Deleted security group: " ++ awsToString id ++ "\n")
  | .DeleteNetworkAcl id none => some ("Deleted network ACL: " ++ awsToString id ++ "\n")
  | .DeleteVpc id none => some ("Deleted VPC: " ++ awsToString id ++ "\n")
  | _ => none

/-- The world `w1` comes from `w` by calls and by printing exactly the
notifications of those calls, in call order. -/
def Reports {σ : Type} (w w1 : World σ) : Prop :=
  ∃ evs, w1.trace = w.trace ++ evs ∧ w1.out = w.out ++ evs.filterMap Event.notification

/-- What a gateway holds, seen from outside: for every VPC id, the records of
each kind associated with that VPC (for internet gateways: attached to it),
in the order a listing returns them. -/
structure Holdings where
  gateways : String → List InternetGateway
  subnets : String → List Subnet
  routeTables : String → List RouteTable
  acls : String → List NetworkAcl
  groups : String → List SecurityGroup

/-- The holdings after the internet gateway named `id` is detached from `vpc`. -/
def Holdings.detachGateway (h : Holdings) (vpc : String) (id : Option String) : Holdings :=
  { h with
    gateways := fun u =>
      if u = vpc then (h.gateways u).filter (fun x => decide (x.InternetGatewayId ≠ id))
      else h.gateways u }

/-- The holdings after the internet gateway named `id` is removed. -/
def Holdings.removeGateway (h : Holdings) (id : Option String) : Holdings :=
  { h with
    gateways := fun u => (h.gateways u).filter (fun x => decide (x.InternetGatewayId ≠ id)) }

/-- The holdings after the subnet named `id` is removed. -/
def Holdings.removeSubnet (h : Holdings) (id : Option String) : Holdings :=
  { h with subnets := fun u => (h.subnets u).filter (fun x => decide (x.SubnetId ≠ id)) }

/-- The holdings after the route table named `id` is removed. -/
def Holdings.removeRouteTable (h : Holdings) (id : Option String) : Holdings :=
  { h with
    routeTables := fun u => (h.routeTables u).filter (fun x => decide (x.RouteTableId ≠ id)) }

/-- The holdings after the network ACL named `id` is removed. -/
def Holdings.removeAcl (h : Holdings) (id : Option String) : Holdings :=
  { h with acls := fun u => (h.acls u).filter (fun x => decide (x.NetworkAclId ≠ id)) }

/-- The holdings after the security group named `id` is removed. -/
def Holdings.removeGroup (h : Holdings) (id : Option String) : Holdings :=
  { h with groups := fun u => (h.groups u).filter (fun x => decide (x.GroupId ≠ id)) }

/-- An id names one resource: two records of one kind with the same id are the
same record, held for the same VPC. -/
structure Holdings.Keyed (h : Holdings) : Prop where
  gateways : ∀ u1 u2, ∀ x ∈ h.gateways u1, ∀ y ∈ h.gateways u2,
    x.InternetGatewayId = y.InternetGatewayId → u1 = u2 ∧ x = y
  subnets : ∀ u1 u2, ∀ x ∈ h.subnets u1, ∀ y ∈ h.subnets u2,
    x.SubnetId = y.SubnetId → u1 = u2 ∧ x = y
  routeTables : ∀ u1 u2, ∀ x ∈ h.routeTables u1, ∀ y ∈ h.routeTables u2,
    x.RouteTableId = y.RouteTableId → u1 = u2 ∧ x = y
  acls : ∀ u1 u2, ∀ x ∈ h.acls u1, ∀ y ∈ h.acls u2,
    x.NetworkAclId = y.NetworkAclId → u1 = u2 ∧ x = y
  groups : ∀ u1 u2, ∀ x ∈ h.groups u1, ∀ y ∈ h.groups u2,
    x.GroupId = y.GroupId → u1 = u2 ∧ x = y

/-- The client behaves as an in-memory gateway whose state `s` holds `holds s`:
a listing filtered by a VPC id returns exactly the records held for that VPC
and changes nothing; a detach or delete call never fails and removes the
named resource (a detach: from the named VPC) and nothing else. -/
structure InMemoryGateway {σ : Type} (client : EC2API σ) (holds : σ → Holdings) : Prop where
  listGateways : ∀ s v,
    (client.DescribeInternetGateways s
        [{ Name := some "attachment.vpc-id", Values := [v] }]).1 =
      .listed ((holds s).gateways v) ∧
    holds (client.DescribeInternetGateways s
        [{ Name := some "attachment.vpc-id", Values := [v] }]).2 = holds s
  listSubnets : ∀ s v,
    (client.DescribeSubnets s [{ Name := some "vpc-id", Values := [v] }]).1 =
      .listed ((holds s).subnets v) ∧
    holds (client.DescribeSubnets s [{ Name := some "vpc-id", Values := [v] }]).2 = holds s
  listRouteTables : ∀ s v,
    (client.DescribeRouteTables s [{ Name := some "vpc-id", Values := [v] }]).1 =
      .listed ((holds s).routeTables v) ∧
    holds (client.DescribeRouteTables s [{ Name := some "vpc-id", Values := [v] }]).2 =
      holds s
  listAcls : ∀ s v,
    (client.DescribeNetworkAcls s [{ Name := some "vpc-id", Values := [v] }]).1 =
      .listed ((holds s).acls v) ∧
    holds (client.DescribeNetworkAcls s [{ Name := some "vpc-id", Values := [v] }]).2 =
      holds s
  listGroups : ∀ s v,
    (client.DescribeSecurityGroups s [{ Name := some "vpc-id", Values := [v] }]).1 =
      .listed ((holds s).groups v) ∧
    holds (client.DescribeSecurityGroups s [{ Name := some "vpc-id", Values := [v] }]).2 =
      holds s
  detachGateway : ∀ s id v,
    (client.DetachInternetGateway s id (some v)).1 = none ∧
    holds (client.DetachInternetGateway s id (some v)).2 = (holds s).detachGateway v id
  deleteGateway : ∀ s id,
    (client.DeleteInternetGateway s id).1 = none ∧
    holds (client.DeleteInternetGateway s id).2 = (holds s).removeGateway id
  deleteSubnet : ∀ s id,
    (client.DeleteSubnet s id).1 = none ∧
    holds (client.DeleteSubnet s id).2 = (holds s).removeSubnet id
  deleteRouteTable : ∀ s id,
    (client.DeleteRouteTable s id).1 = none ∧
    holds (client.DeleteRouteTable s id).2 = (holds s).removeRouteTable id
  deleteAcl : ∀ s id,
    (client.DeleteNetworkAcl s id).1 = none ∧
    holds (client.DeleteNetworkAcl s id).2 = (holds s).removeAcl id
  deleteGroup : ∀ s id,
    (client.DeleteSecurityGroup s id).1 = none ∧
    holds (client.DeleteSecurityGroup s id).2 = (holds s).removeGroup id

/-- The holdings after every internet gateway held for `v` is detached from
`v` and removed. -/
def Holdings.dropGateways (h : Holdings) (v : String) : Holdings :=
  ((h.gateways v).map InternetGateway.InternetGatewayId).foldl
    (fun g id => (g.detachGateway v id).removeGateway id) h

/-- The holdings after every subnet held for `v` is removed. -/
def Holdings.dropSubnets (h : Holdings) (v : String) : Holdings :=
  ((h.subnets v).map Subnet.SubnetId).foldl Holdings.removeSubnet h

/-- The holdings after every route table held for `v` that is not a main route
table is removed. -/
def Holdings.dropRouteTables (h : Holdings) (v : String) : Holdings :=
  (((h.routeTables v).filter (fun rt => !isMainRouteTable rt)).map
    RouteTable.RouteTableId).foldl Holdings.removeRouteTable h

/-- The holdings after every network ACL held for `v` whose default flag is
false is removed. -/
def Holdings.dropAcls (h : Holdings) (v : String) : Holdings :=
  (((h.acls v).filter (fun acl => decide (acl.IsDefault = some false))).map
    NetworkAcl.NetworkAclId).foldl Holdings.removeAcl h

/-- The holdings after every security group held for `v` whose name is not
`default` is removed. -/
def Holdings.dropGroups (h : Holdings) (v : String) : Holdings :=
  (((h.groups v).filter (fun sg => decide (sg.GroupName ≠ some "default"))).map
    SecurityGroup.GroupId).foldl Holdings.removeGroup h

/-- Whether the goroutine is running. -/
def Goroutine.isRunning : Goroutine → Bool
  | .running _ => true
  | _ => false

/-- What holds of the process at every point of a run of `DeleteAllDefaultVPCs`:
there is one goroutine state for every region; the counter of the wait group
is the number of running goroutines; the goroutines not yet started are those
of the regions the loop has not reached; a running goroutine has completed no
more calls than its run has; a goroutine has finished only if its run returns
and is panicking only if its run panics; once the function has returned the
counter is zero; and the function has printed its final line, and nothing
else, exactly when it has returned. -/
structure Deployment.Sound {σ : Type} (d : Deployment σ) (p : Process) : Prop where
  length : p.goroutines.length = d.regions.length
  counter : p.wg = p.goroutines.countP Goroutine.isRunning
  notStarted : ∀ (j : Nat) (g : Goroutine), p.goroutines[j]? = some g →
    (g = Goroutine.notStarted ↔ ∃ i, p.main = MainPoint.spawning i ∧ i ≤ j)
  calls : ∀ (j : Nat) (region : String) (k : Nat), d.regions[j]? = some region →
    p.goroutines[j]? = some (Goroutine.running k) → k ≤ (d.run region).2.trace.length
  finished : ∀ (j : Nat) (region : String), d.regions[j]? = some region →
    p.goroutines[j]? = some Goroutine.finished → (d.run region).1 = .returned
  panicking : ∀ (j : Nat) (region : String), d.regions[j]? = some region →
    p.goroutines[j]? = some Goroutine.panicking → (d.run region).1 = .panicked
  joined : p.main = .returned → p.wg = 0
  printed : p.out = if p.main = .returned then ["All default VPCs deleted.\n"] else []

/-- The steps a goroutine standing at `g` can still take, for a run of `calls`
calls: every call left, the step that ends it, and the step in which the
runtime ends the process after a panic. -/
def Goroutine.stepsLeft (calls : Nat) : Goroutine → Nat
  | .notStarted => calls + 2
  | .running done => calls - done + 2
  | .finished => 0
  | .panicking => 1

/-- The steps `DeleteAllDefaultVPCs` itself can still take: the iterations of
the loop left, leaving the loop, and returning from `wg.Wait()`. -/
def MainPoint.stepsLeft (regions : Nat) : MainPoint → Nat
  | .spawning next => regions - next + 2
  | .waiting => 1
  | .returned => 0

/-- A bound on the number of steps the process can still take. -/
def Deployment.stepsLeft {σ : Type} (d : Deployment σ) (p : Process) : Nat :=
  p.main.stepsLeft d.regions.length +
    (List.zipWith (fun region g => g.stepsLeft (d.run region).2.trace.length)
      d.regions p.goroutines).sum +
    (if p.ended = none then 1 else 0)

/-! ## In-memory clients for the worked examples -/

/-- What an example client answers: the records each listing returns, the error
every listing fails with (if any), and the ids whose detach or delete fails. -/
structure Fixture where
  gateways : List InternetGateway
  subnets : List Subnet
  routeTables : List RouteTable
  acls : List NetworkAcl
  groups : List SecurityGroup
  listError : Option GoError
  failDetach : List String
  failDelete : List String

/-- The answer of an example client to a listing call. -/
def Fixture.list {α : Type} (fx : Fixture) (xs : List α) : ListResp α :=
  match fx.listError with
  | some e => .failed e
  | none => .listed xs

/-- The answer of an example client to a detach call. -/
def Fixture.detach (fx : Fixture) (id : Option String) : Option GoError :=
  if awsToString id ∈ fx.failDetach then some (.errorString "Gateway.NotAttached") else none

/-- The answer of an example client to a delete call. -/
def Fixture.delete (fx : Fixture) (id : Option String) : Option GoError :=
  if awsToString id ∈ fx.failDelete then some (.errorString "DependencyViolation") else none

/-- The example client of a fixture; its state counts the calls it has served. -/
def Fixture.client (fx : Fixture) : EC2API Nat where
  DescribeRegions := fun n => (fx.list [], n + 1)
  DescribeVpcs := fun n => (fx.list [], n + 1)
  DeleteVpc := fun n id => (fx.delete id, n + 1)
  DescribeSecurityGroups := fun n _ => (fx.list fx.groups, n + 1)
  DeleteSecurityGroup := fun n id => (fx.delete id, n + 1)
  DescribeSubnets := fun n _ => (fx.list fx.subnets, n + 1)
  DeleteSubnet := fun n id => (fx.delete id, n + 1)
  DescribeRouteTables := fun n _ => (fx.list fx.routeTables, n + 1)
  DeleteRouteTable := fun n id => (fx.delete id, n + 1)
  DescribeInternetGateways := fun n _ => (fx.list fx.gateways, n + 1)
  DetachInternetGateway := fun n id _ => (fx.detach id, n + 1)
  DeleteInternetGateway := fun n id => (fx.delete id, n + 1)
  DescribeNetworkAcls := fun n _ => (fx.list fx.acls, n + 1)
  DeleteNetworkAcl := fun n id => (fx.delete id, n + 1)

/-- A VPC with one internet gateway, two subnets, a main and a custom route
table, a default and a custom network ACL, and the security groups `default`,
`custom` and `Default`; no call fails. -/
def sampleVpc : Fixture where
  gateways := [{ InternetGatewayId := some "igw-12345" }]
  subnets := [{ SubnetId := some "subnet-1" }, { SubnetId := some "subnet-2" }]
  routeTables :=
    [{ RouteTableId := some "rtb-1", Associations := [{ Main := some true }] },
      { RouteTableId := some "rtb-2", Associations := [{ Main := some false }, { Main := none }] }]
  acls :=
    [{ NetworkAclId := some "acl-12345", IsDefault := some true },
      { NetworkAclId := some "acl-67890", IsDefault := some false }]
  groups :=
    [{ GroupId := some "sg-12345", GroupName := some "default" },
      { GroupId := some "sg-67890", GroupName := some "custom" },
      { GroupId := some "sg-24680", GroupName := some "Default" }]
  listError := none
  failDetach := []
  failDelete := []

/-- An otherwise empty VPC whose only security group is listed without a name:
every call succeeds. -/
def namelessGroupVpc : Fixture where
  gateways := []
  subnets := []
  routeTables := []
  acls := []
  groups := [{ GroupId := some "sg-12345", GroupName := none }]
  listError := none
  failDetach := []
  failDelete := []

/-- The sample VPC with a client that fails to delete the second subnet. -/
def subnetFailureVpc : Fixture :=
  { sampleVpc with failDelete := ["subnet-2"] }

/-- The sample VPC with a client that fails to delete the second subnet, the
custom route table, the custom network ACL and the group `Default`. -/
def deleteFailureVpc : Fixture :=
  { sampleVpc with failDelete := ["subnet-2", "rtb-2", "acl-67890", "sg-24680"] }

/-- A VPC with two internet gateways and a client that fails to detach the
second one. -/
def detachFailureVpc : Fixture :=
  { sampleVpc with
    gateways := [{ InternetGatewayId := some "igw-1" }, { InternetGatewayId := some "igw-2" }]
    failDetach := ["igw-2"] }

/-- A VPC with two internet gateways and a client that detaches both but fails
to delete the second one. -/
def gatewayDeleteFailureVpc : Fixture :=
  { sampleVpc with
    gateways := [{ InternetGatewayId := some "igw-1" }, { InternetGatewayId := some "igw-2" }]
    failDelete := ["igw-2"] }

/-- The sample VPC with a client whose every listing call fails. -/
def listFailureVpc : Fixture :=
  { sampleVpc with listError := some (.errorString "RequestLimitExceeded") }

/-- The example client of a fixture in a region whose listings of regions and
VPCs return the given records (or fail like every other listing of the fixture). -/
def Fixture.regionClient (fx : Fixture) (regions : List Region) (vpcs : List Vpc) :
    EC2API Nat :=
  { fx.client with
    DescribeRegions := fun n => (fx.list regions, n + 1)
    DescribeVpcs := fun n => (fx.list vpcs, n + 1) }

/-- The regions of the worked examples. -/
def sampleRegions : List Region :=
  [{ RegionName := some "us-east-1" }, { RegionName := some "us-west-2" }]

/-- The VPCs of the worked examples: a default VPC, a custom one, and a second
default VPC. -/
def sampleVpcs : List Vpc :=
  [{ VpcId := some "vpc-12345", IsDefault := some true },
    { VpcId := some "vpc-24680", IsDefault := some false },
    { VpcId := some "vpc-67890", IsDefault := some true }]

/-- The sample VPC with a client that fails to delete the VPC itself. -/
def vpcDeleteFailure : Fixture :=
  { sampleVpc with failDelete := ["vpc-12345"] }

/-- The sample VPC with one internet gateway and a client that fails to detach it. -/
def onlyGatewayDetachFailure : Fixture :=
  { sampleVpc with failDetach := ["igw-12345"] }

/-- A VPC without dependent resources: every listing returns no record and no
call fails. -/
def emptyVpc : Fixture where
  gateways := []
  subnets := []
  routeTables := []
  acls := []
  groups := []
  listError := none
  failDetach := []
  failDelete := []

/-- A region with one default VPC and one custom VPC. -/
def oneDefaultVpc : List Vpc :=
  [{ VpcId := some "vpc-12345", IsDefault := some true },
    { VpcId := some "vpc-24680", IsDefault := some false }]

/-- An in-memory gateway: the records it holds, each with the id of the VPC
it is associated with (for an internet gateway: attached to). -/
structure Inventory where
  gateways : List (String × InternetGateway)
  subnets : List (String × Subnet)
  routeTables : List (String × RouteTable)
  acls : List (String × NetworkAcl)
  groups : List (String × SecurityGroup)
  deriving DecidableEq, Repr

/-- Whether a record of the VPC `u` passes the filters of a listing request:
every filter named `key` has `u` among its values. -/
def passesFilters (key : String) (filters : List Filter) (u : String) : Bool :=
  filters.all (fun f => decide (f.Name = some key → u ∈ f.Values))

/-- What an in-memory gateway holds for each VPC. -/
def Inventory.holdings (inv : Inventory) : Holdings where
  gateways := fun u => (inv.gateways.filter (fun p => decide (p.1 = u))).map Prod.snd
  subnets := fun u => (inv.subnets.filter (fun p => decide (p.1 = u))).map Prod.snd
  routeTables := fun u => (inv.routeTables.filter (fun p => decide (p.1 = u))).map Prod.snd
  acls := fun u => (inv.acls.filter (fun p => decide (p.1 = u))).map Prod.snd
  groups := fun u => (inv.groups.filter (fun p => decide (p.1 = u))).map Prod.snd

/-- The client of an in-memory gateway: its state is what it holds. A listing
returns the records that pass the filters, a detach call drops the attachment
of the named gateway to the named VPC, a delete call drops every record with
the given id; no call fails. It holds no regions and no VPC records. -/
def Inventory.client : EC2API Inventory where
  DescribeRegions := fun inv => (.listed [], inv)
  DescribeVpcs := fun inv => (.listed [], inv)
  DeleteVpc := fun inv _ => (none, inv)
  DescribeSecurityGroups := fun inv filters =>
    (.listed ((inv.groups.filter (fun p => passesFilters "vpc-id" filters p.1)).map Prod.snd),
      inv)
  DeleteSecurityGroup := fun inv id =>
    (none, { inv with groups := inv.groups.filter (fun p => decide (p.2.GroupId ≠ id)) })
  DescribeSubnets := fun inv filters =>
    (.listed ((inv.subnets.filter (fun p => passesFilters "vpc-id" filters p.1)).map Prod.snd),
      inv)
  DeleteSubnet := fun inv id =>
    (none, { inv with subnets := inv.subnets.filter (fun p => decide (p.2.SubnetId ≠ id)) })
  DescribeRouteTables := fun inv filters =>
    (.listed
      ((inv.routeTables.filter (fun p => passesFilters "vpc-id" filters p.1)).map Prod.snd),
      inv)
  DeleteRouteTable := fun inv id =>
    (none,
      { inv with
        routeTables := inv.routeTables.filter (fun p => decide (p.2.RouteTableId ≠ id)) })
  DescribeInternetGateways := fun inv filters =>
    (.listed
      ((inv.gateways.filter
        (fun p => passesFilters "attachment.vpc-id" filters p.1)).map Prod.snd),
      inv)
  DetachInternetGateway := fun inv id vpc =>
    (none,
      { inv with
        gateways := inv.gateways.filter
          (fun p => decide (¬ (some p.1 = vpc ∧ p.2.InternetGatewayId = id))) })
  DeleteInternetGateway := fun inv id =>
    (none,
      { inv with
        gateways := inv.gateways.filter (fun p => decide (p.2.InternetGatewayId ≠ id)) })
  DescribeNetworkAcls := fun inv filters =>
    (.listed ((inv.acls.filter (fun p => passesFilters "vpc-id" filters p.1)).map Prod.snd),
      inv)
  DeleteNetworkAcl := fun inv id =>
    (none, { inv with acls := inv.acls.filter (fun p => decide (p.2.NetworkAclId ≠ id)) })

/-- Two VPCs in one in-memory gateway: `vpc-12345` with an internet gateway,
two subnets, a main and a custom route table, a default and a custom network
ACL and the security groups `default` and `custom`; `vpc-67890` with a
subnet, a custom route table and a custom security group. -/
def sampleInventory : Inventory where
  gateways := [("vpc-12345", { InternetGatewayId := some "igw-12345" })]
  subnets :=
    [("vpc-12345", { SubnetId := some "subnet-1" }),
      ("vpc-67890", { SubnetId := some "subnet-9" }),
      ("vpc-12345", { SubnetId := some "subnet-2" })]
  routeTables :=
    [("vpc-12345", { RouteTableId := some "rtb-1", Associations := [{ Main := some true }] }),
      ("vpc-12345", { RouteTableId := some "rtb-2", Associations := [{ Main := some false }] }),
      ("vpc-67890", { RouteTableId := some "rtb-9", Associations := [] })]
  acls :=
    [("vpc-12345", { NetworkAclId := some "acl-12345", IsDefault := some true }),
      ("vpc-12345", { NetworkAclId := some "acl-67890", IsDefault := some false })]
  groups :=
    [("vpc-12345", { GroupId := some "sg-12345", GroupName := some "default" }),
      ("vpc-12345", { GroupId := some "sg-67890", GroupName := some "custom" }),
      ("vpc-67890", { GroupId := some "sg-9", GroupName := some "custom" })]

/-- Two regions: the listing of VPCs fails in `us-east-1`; `us-west-2` has one
default VPC without dependent resources. -/
def sampleDeployment : Deployment Nat where
  regions := ["us-east-1", "us-west-2"]
  newClient := fun region =>
    if region = "us-east-1" then listFailureVpc.regionClient sampleRegions oneDefaultVpc
    else emptyVpc.regionClient sampleRegions oneDefaultVpc
  remote := fun _ => 0

/-! ## Proofs -/

@[simp] theorem World.record_trace {σ : Type} (w : World σ) (ev : Event) (s : σ) :
    (w.record ev s).trace = w.trace ++ [ev] := rfl

@[simp] theorem World.printf_trace {σ : Type} (w : World σ) (line : String) :
    (w.printf line).trace = w.trace := rfl

theorem deleteSubnetsLoop_run {σ : Type} (client : EC2API σ) (xs : List Subnet) :
    ∀ w : World σ, ∃ recs,
      (deleteSubnetsLoop client xs w).2.trace = w.trace ++ recs.map (delEvent .DeleteSubnet) ∧
      LoopRun skipSubnet Subnet.SubnetId "failed to delete subnet " xs recs
        (deleteSubnetsLoop client xs w).1 := by
  induction xs with
  | nil => intro w; exact ⟨[], by simp [deleteSubnetsLoop], .done⟩
  | cons x rest ih =>
    intro w
    cases h : (client.DeleteSubnet w.gw x.SubnetId).1 with
    | some e =>
      refine ⟨[(x.SubnetId, some e)], ?_, ?_⟩
      · simp [deleteSubnetsLoop, callDeleteSubnet, h, delEvent]
      · simp only [deleteSubnetsLoop, callDeleteSubnet, h]
        exact .failed x rest e rfl
    | none =>
      obtain ⟨recs, ht, hr⟩ := ih ((w.record (.DeleteSubnet x.SubnetId none)
        (client.DeleteSubnet w.gw x.SubnetId).2).printf
          ("Deleted subnet: " ++ awsToString x.SubnetId ++ "\n"))
      refine ⟨(x.SubnetId, none) :: recs, ?_, ?_⟩
      · simp [deleteSubnetsLoop, callDeleteSubnet, h, ht, delEvent]
      · simp only [deleteSubnetsLoop, callDeleteSubnet, h]
        exact .deleted x rest recs _ rfl hr

theorem deleteRouteTablesLoop_run {σ : Type} (client : EC2API σ) (xs : List RouteTable) :
    ∀ w : World σ, ∃ recs,
      (deleteRouteTablesLoop client xs w).2.trace =
        w.trace ++ recs.map (delEvent .DeleteRouteTable) ∧
      LoopRun skipRouteTable RouteTable.RouteTableId "failed to delete route table " xs recs
        (deleteRouteTablesLoop client xs w).1 := by
  induction xs with
  | nil => intro w; exact ⟨[], by simp [deleteRouteTablesLoop], .done⟩
  | cons x rest ih =>
    intro w
    cases hm : isMainRouteTable x with
    | true =>
      obtain ⟨recs, ht, hr⟩ := ih w
      refine ⟨recs, ?_, ?_⟩
      · simp only [deleteRouteTablesLoop, hm, ht, if_true]
      · simp only [deleteRouteTablesLoop, hm, if_true]
        exact .skipped x rest recs _ (by simp [skipRouteTable, hm]) hr
    | false =>
      have hs : skipRouteTable x = some false := by simp [skipRouteTable, hm]
      cases h : (client.DeleteRouteTable w.gw x.RouteTableId).1 with
      | some e =>
        refine ⟨[(x.RouteTableId, some e)], ?_, ?_⟩
        · simp [deleteRouteTablesLoop, callDeleteRouteTable, h, hm, delEvent]
        · simp only [deleteRouteTablesLoop, callDeleteRouteTable, h, hm]
          exact .failed x rest e hs
      | none =>
        obtain ⟨recs, ht, hr⟩ := ih ((w.record (.DeleteRouteTable x.RouteTableId none)
          (client.DeleteRouteTable w.gw x.RouteTableId).2).printf
            ("Deleted route table: " ++ awsToString x.RouteTableId ++ "\n"))
        refine ⟨(x.RouteTableId, none) :: recs, ?_, ?_⟩
        · simp [deleteRouteTablesLoop, callDeleteRouteTable, h, hm, ht, delEvent]
        · simp only [deleteRouteTablesLoop, callDeleteRouteTable, h, hm]
          exact .deleted x rest recs _ hs hr

@[simp] theorem World.record_gw {σ : Type} (w : World σ) (ev : Event) (s : σ) :
    (w.record ev s).gw = s := rfl

@[simp] theorem World.printf_gw {σ : Type} (w : World σ) (line : String) :
    (w.printf line).gw = w.gw := rfl

theorem deleteNetworkACLsLoop_run {σ : Type} (client : EC2API σ) (xs : List NetworkAcl) :
    ∀ w : World σ, ∃ recs,
      (deleteNetworkACLsLoop client xs w).2.trace =
        w.trace ++ recs.map (delEvent .DeleteNetworkAcl) ∧
      LoopRun skipNetworkAcl NetworkAcl.NetworkAclId "failed to delete network ACL " xs recs
        (deleteNetworkACLsLoop client xs w).1 := by
  induction xs with
  | nil => intro w; exact ⟨[], by simp [deleteNetworkACLsLoop], .done⟩
  | cons x rest ih =>
    intro w
    cases hd : x.IsDefault with
    | none =>
      refine ⟨[], ?_, ?_⟩
      · simp [deleteNetworkACLsLoop, hd]
      · simp only [deleteNetworkACLsLoop, hd]
        exact .nilDeref x rest hd
    | some b =>
      cases b with
      | true =>
        obtain ⟨recs, ht, hr⟩ := ih w
        refine ⟨recs, ?_, ?_⟩
        · simp [deleteNetworkACLsLoop, hd, ht]
        · simp only [deleteNetworkACLsLoop, hd, if_true]
          exact .skipped x rest recs _ hd hr
      | false =>
        cases h : (client.DeleteNetworkAcl w.gw x.NetworkAclId).1 with
        | some e =>
          refine ⟨[(x.NetworkAclId, some e)], ?_, ?_⟩
          · simp [deleteNetworkACLsLoop, callDeleteNetworkAcl, h, hd, delEvent]
          · simp only [deleteNetworkACLsLoop, callDeleteNetworkAcl, h, hd]
            exact .failed x rest e hd
        | none =>
          obtain ⟨recs, ht, hr⟩ := ih ((w.record (.DeleteNetworkAcl x.NetworkAclId none)
            (client.DeleteNetworkAcl w.gw x.NetworkAclId).2).printf
              ("Deleted network ACL: " ++ awsToString x.NetworkAclId ++ "\n"))
          refine ⟨(x.NetworkAclId, none) :: recs, ?_, ?_⟩
          · simp [deleteNetworkACLsLoop, callDeleteNetworkAcl, h, hd, ht, delEvent]
          · simp only [deleteNetworkACLsLoop, callDeleteNetworkAcl, h, hd]
            exact .deleted x rest recs _ hd hr

theorem deleteSecurityGroupsLoop_run {σ : Type} (client : EC2API σ) (xs : List SecurityGroup) :
    ∀ w : World σ, ∃ recs,
      (deleteSecurityGroupsLoop client xs w).2.trace =
        w.trace ++ recs.map (delEvent .DeleteSecurityGroup) ∧
      LoopRun skipSecurityGroup SecurityGroup.GroupId "failed to delete security group " xs recs
        (deleteSecurityGroupsLoop client xs w).1 := by
  induction xs with
  | nil => intro w; exact ⟨[], by simp [deleteSecurityGroupsLoop], .done⟩
  | cons x rest ih =>
    intro w
    cases hd : x.GroupName with
    | none =>
      refine ⟨[], ?_, ?_⟩
      · simp [deleteSecurityGroupsLoop, hd]
      · simp only [deleteSecurityGroupsLoop, hd]
        exact .nilDeref x rest (by simp [skipSecurityGroup, hd])
    | some name =>
      by_cases hn : name = "default"
      · obtain ⟨recs, ht, hr⟩ := ih w
        refine ⟨recs, ?_, ?_⟩
        · simp [deleteSecurityGroupsLoop, hd, hn, ht]
        · simp only [deleteSecurityGroupsLoop, hd, hn, if_true]
          exact .skipped x rest recs _ (by simp [skipSecurityGroup, hd, hn]) hr
      · have hs : skipSecurityGroup x = some false := by simp [skipSecurityGroup, hd, hn]
        cases h : (client.DeleteSecurityGroup w.gw x.GroupId).1 with
        | some e =>
          refine ⟨[(x.GroupId, some e)], ?_, ?_⟩
          · simp [deleteSecurityGroupsLoop, callDeleteSecurityGroup, h, hd, hn, delEvent]
          · simp only [deleteSecurityGroupsLoop, callDeleteSecurityGroup, h, hd, hn, if_false]
            exact .failed x rest e hs
        | none =>
          obtain ⟨recs, ht, hr⟩ := ih ((w.record (.DeleteSecurityGroup x.GroupId none)
            (client.DeleteSecurityGroup w.gw x.GroupId).2).printf
              ("Deleted security group: " ++ awsToString x.GroupId ++ "\n"))
          refine ⟨(x.GroupId, none) :: recs, ?_, ?_⟩
          · simp [deleteSecurityGroupsLoop, callDeleteSecurityGroup, h, hd, hn, ht, delEvent]
          · simp only [deleteSecurityGroupsLoop, callDeleteSecurityGroup, h, hd, hn, if_false]
            exact .deleted x rest recs _ hs hr

theorem deleteInternetGatewaysLoop_run {σ : Type} (client : EC2API σ) (vpcID : String)
    (xs : List InternetGateway) :
    ∀ w : World σ, ∃ evs,
      (deleteInternetGatewaysLoop client vpcID xs w).2.trace = w.trace ++ evs ∧
      IgwLoopRun vpcID xs evs (deleteInternetGatewaysLoop client vpcID xs w).1 := by
  induction xs with
  | nil => intro w; exact ⟨[], by simp [deleteInternetGatewaysLoop], .done⟩
  | cons x rest ih =>
    intro w
    cases h : (client.DetachInternetGateway w.gw x.InternetGatewayId (some vpcID)).1 with
    | some e =>
      refine ⟨[.DetachInternetGateway x.InternetGatewayId (some vpcID) (some e)], ?_, ?_⟩
      · simp [deleteInternetGatewaysLoop, callDetachInternetGateway, h]
      · simp only [deleteInternetGatewaysLoop, callDetachInternetGateway, h]
        exact .detachFailed x rest e
    | none =>
      cases h2 : (client.DeleteInternetGateway
          (client.DetachInternetGateway w.gw x.InternetGatewayId (some vpcID)).2
          x.InternetGatewayId).1 with
      | some e =>
        refine ⟨[.DetachInternetGateway x.InternetGatewayId (some vpcID) none,
          .DeleteInternetGateway x.InternetGatewayId (some e)], ?_, ?_⟩
        · simp [deleteInternetGatewaysLoop, callDetachInternetGateway,
            callDeleteInternetGateway, h, h2, World.record]
        · simp only [deleteInternetGatewaysLoop, callDetachInternetGateway,
            callDeleteInternetGateway, h, h2, World.record]
          exact .deleteFailed x rest e
      | none =>
        have key : ∀ W : World σ,
            W.trace = w.trace ++ [.DetachInternetGateway x.InternetGatewayId (some vpcID) none,
              .DeleteInternetGateway x.InternetGatewayId none] →
            ∃ evs, (deleteInternetGatewaysLoop client vpcID rest W).2.trace = w.trace ++ evs ∧
              IgwLoopRun vpcID (x :: rest) evs
                (deleteInternetGatewaysLoop client vpcID rest W).1 := by
          intro W hW
          obtain ⟨evs, ht, hr⟩ := ih W
          exact ⟨_, by rw [ht, hW]; simp, .deleted x rest evs _ hr⟩
        simp only [deleteInternetGatewaysLoop, callDetachInternetGateway,
          callDeleteInternetGateway, h, World.record_gw, h2]
        exact key _ (by simp)

theorem deleteInternetGateways_run {σ : Type} (client : EC2API σ) (vpcID : String)
    (w : World σ) : ∃ evs,
      (deleteInternetGateways client vpcID w).2.trace = w.trace ++ evs ∧
      InternetGatewaysRun vpcID evs (deleteInternetGateways client vpcID w).1 := by
  cases h : (client.DescribeInternetGateways w.gw (attachmentVpcIdFilter vpcID)).1 with
  | failed e =>
    refine ⟨[.DescribeInternetGateways (attachmentVpcIdFilter vpcID) (.failed e)], ?_, ?_⟩
    · simp [deleteInternetGateways, callDescribeInternetGateways, h]
    · simp only [deleteInternetGateways, callDescribeInternetGateways, h]
      exact .listFailed e
  | nilOutput =>
    refine ⟨[.DescribeInternetGateways (attachmentVpcIdFilter vpcID) .nilOutput], ?_, ?_⟩
    · simp [deleteInternetGateways, callDescribeInternetGateways, h]
    · simp only [deleteInternetGateways, callDescribeInternetGateways, h]
      exact .nilOutput
  | listed xs =>
    obtain ⟨evs, ht, hr⟩ := deleteInternetGatewaysLoop_run client vpcID xs
      (w.record (.DescribeInternetGateways (attachmentVpcIdFilter vpcID) (.listed xs))
        (client.DescribeInternetGateways w.gw (attachmentVpcIdFilter vpcID)).2)
    refine ⟨.DescribeInternetGateways (attachmentVpcIdFilter vpcID) (.listed xs) :: evs, ?_, ?_⟩
    · simp [deleteInternetGateways, callDescribeInternetGateways, h, ht]
    · simp only [deleteInternetGateways, callDescribeInternetGateways, h]
      exact .listed xs evs _ hr

theorem deleteSubnets_run {σ : Type} (client : EC2API σ) (vpcID : String)
    (w : World σ) : ∃ evs,
      (deleteSubnets client vpcID w).2.trace = w.trace ++ evs ∧
      SubnetsRun vpcID evs (deleteSubnets client vpcID w).1 := by
  cases h : (client.DescribeSubnets w.gw (vpcIdFilter vpcID)).1 with
  | failed e =>
    refine ⟨[.DescribeSubnets (vpcIdFilter vpcID) (.failed e)], ?_, ?_⟩
    · simp [deleteSubnets, callDescribeSubnets, h]
    · simp only [deleteSubnets, callDescribeSubnets, h]
      exact .listFailed e
  | nilOutput =>
    refine ⟨[.DescribeSubnets (vpcIdFilter vpcID) .nilOutput], ?_, ?_⟩
    · simp [deleteSubnets, callDescribeSubnets, h]
    · simp only [deleteSubnets, callDescribeSubnets, h]
      exact .nilOutput
  | listed xs =>
    obtain ⟨recs, ht, hr⟩ := deleteSubnetsLoop_run client xs
      (w.record (.DescribeSubnets (vpcIdFilter vpcID) (.listed xs))
        (client.DescribeSubnets w.gw (vpcIdFilter vpcID)).2)
    refine ⟨.DescribeSubnets (vpcIdFilter vpcID) (.listed xs) ::
      recs.map (delEvent .DeleteSubnet), ?_, ?_⟩
    · simp [deleteSubnets, callDescribeSubnets, h, ht]
    · simp only [deleteSubnets, callDescribeSubnets, h]
      exact .listed xs _ _ ⟨recs, rfl, hr⟩

theorem deleteRouteTables_run {σ : Type} (client : EC2API σ) (vpcID : String)
    (w : World σ) : ∃ evs,
      (deleteRouteTables client vpcID w).2.trace = w.trace ++ evs ∧
      RouteTablesRun vpcID evs (deleteRouteTables client vpcID w).1 := by
  cases h : (client.DescribeRouteTables w.gw (vpcIdFilter vpcID)).1 with
  | failed e =>
    refine ⟨[.DescribeRouteTables (vpcIdFilter vpcID) (.failed e)], ?_, ?_⟩
    · simp [deleteRouteTables, callDescribeRouteTables, h]
    · simp only [deleteRouteTables, callDescribeRouteTables, h]
      exact .listFailed e
  | nilOutput =>
    refine ⟨[.DescribeRouteTables (vpcIdFilter vpcID) .nilOutput], ?_, ?_⟩
    · simp [deleteRouteTables, callDescribeRouteTables, h]
    · simp only [deleteRouteTables, callDescribeRouteTables, h]
      exact .nilOutput
  | listed xs =>
    obtain ⟨recs, ht, hr⟩ := deleteRouteTablesLoop_run client xs
      (w.record (.DescribeRouteTables (vpcIdFilter vpcID) (.listed xs))
        (client.DescribeRouteTables w.gw (vpcIdFilter vpcID)).2)
    refine ⟨.DescribeRouteTables (vpcIdFilter vpcID) (.listed xs) ::
      recs.map (delEvent .DeleteRouteTable), ?_, ?_⟩
    · simp [deleteRouteTables, callDescribeRouteTables, h, ht]
    · simp only [deleteRouteTables, callDescribeRouteTables, h]
      exact .listed xs _ _ ⟨recs, rfl, hr⟩

theorem deleteNetworkACLs_run {σ : Type} (client : EC2API σ) (vpcID : String)
    (w : World σ) : ∃ evs,
      (deleteNetworkACLs client vpcID w).2.trace = w.trace ++ evs ∧
      NetworkACLsRun vpcID evs (deleteNetworkACLs client vpcID w).1 := by
  cases h : (client.DescribeNetworkAcls w.gw (vpcIdFilter vpcID)).1 with
  | failed e =>
    refine ⟨[.DescribeNetworkAcls (vpcIdFilter vpcID) (.failed e)], ?_, ?_⟩
    · simp [deleteNetworkACLs, callDescribeNetworkAcls, h]
    · simp only [deleteNetworkACLs, callDescribeNetworkAcls, h]
      exact .listFailed e
  | nilOutput =>
    refine ⟨[.DescribeNetworkAcls (vpcIdFilter vpcID) .nilOutput], ?_, ?_⟩
    · simp [deleteNetworkACLs, callDescribeNetworkAcls, h]
    · simp only [deleteNetworkACLs, callDescribeNetworkAcls, h]
      exact .nilOutput
  | listed xs =>
    obtain ⟨recs, ht, hr⟩ := deleteNetworkACLsLoop_run client xs
      (w.record (.DescribeNetworkAcls (vpcIdFilter vpcID) (.listed xs))
        (client.DescribeNetworkAcls w.gw (vpcIdFilter vpcID)).2)
    refine ⟨.DescribeNetworkAcls (vpcIdFilter vpcID) (.listed xs) ::
      recs.map (delEvent .DeleteNetworkAcl), ?_, ?_⟩
    · simp [deleteNetworkACLs, callDescribeNetworkAcls, h, ht]
    · simp only [deleteNetworkACLs, callDescribeNetworkAcls, h]
      exact .listed xs _ _ ⟨recs, rfl, hr⟩

theorem deleteSecurityGroups_run {σ : Type} (client : EC2API σ) (vpcID : String)
    (w : World σ) : ∃ evs,
      (deleteSecurityGroups client vpcID w).2.trace = w.trace ++ evs ∧
      SecurityGroupsRun vpcID evs (deleteSecurityGroups client vpcID w).1 := by
  cases h : (client.DescribeSecurityGroups w.gw (vpcIdFilter vpcID)).1 with
  | failed e =>
    refine ⟨[.DescribeSecurityGroups (vpcIdFilter vpcID) (.failed e)], ?_, ?_⟩
    · simp [deleteSecurityGroups, callDescribeSecurityGroups, h]
    · simp only [deleteSecurityGroups, callDescribeSecurityGroups, h]
      exact .listFailed e
  | nilOutput =>
    refine ⟨[.DescribeSecurityGroups (vpcIdFilter vpcID) .nilOutput], ?_, ?_⟩
    · simp [deleteSecurityGroups, callDescribeSecurityGroups, h]
    · simp only [deleteSecurityGroups, callDescribeSecurityGroups, h]
      exact .nilOutput
  | listed xs =>
    obtain ⟨recs, ht, hr⟩ := deleteSecurityGroupsLoop_run client xs
      (w.record (.DescribeSecurityGroups (vpcIdFilter vpcID) (.listed xs))
        (client.DescribeSecurityGroups w.gw (vpcIdFilter vpcID)).2)
    refine ⟨.DescribeSecurityGroups (vpcIdFilter vpcID) (.listed xs) ::
      recs.map (delEvent .DeleteSecurityGroup), ?_, ?_⟩
    · simp [deleteSecurityGroups, callDescribeSecurityGroups, h, ht]
    · simp only [deleteSecurityGroups, callDescribeSecurityGroups, h]
      exact .listed xs _ _ ⟨recs, rfl, hr⟩

/-- One step of a sequence: when the step relation `R` describes what `f` does
from any world and the rest of the sequence is described by `Rs`, the
composition is described by `R :: Rs`. -/
theorem seqRun_step {σ : Type} (R : List Event → Outcome (Option GoError) → Prop)
    (Rs : List (List Event → Outcome (Option GoError) → Prop))
    (r1 : Outcome (Option GoError) × World σ) (k : World σ → Outcome (Option GoError) × World σ)
    (w : World σ)
    (h1 : ∃ evs, r1.2.trace = w.trace ++ evs ∧ R evs r1.1)
    (hk : ∀ w1 : World σ, ∃ evs, (k w1).2.trace = w1.trace ++ evs ∧ SeqRun Rs evs (k w1).1) :
    ∃ evs,
      (match r1 with
        | (.panic, w1) => (Outcome.panic, w1)
        | (.ret (some err), w1) => (.ret (some err), w1)
        | (.ret none, w1) => k w1).2.trace = w.trace ++ evs ∧
      SeqRun (R :: Rs) evs
        (match r1 with
        | (.panic, w1) => (Outcome.panic, w1)
        | (.ret (some err), w1) => (.ret (some err), w1)
        | (.ret none, w1) => k w1).1 := by
  obtain ⟨o, w1⟩ := r1
  obtain ⟨evs, ht, hr⟩ := h1
  cases o with
  | panic => exact ⟨evs, ht, .stop R Rs evs _ hr (by simp)⟩
  | ret v =>
    cases v with
    | some err => exact ⟨evs, ht, .stop R Rs evs _ hr (by simp)⟩
    | none =>
      obtain ⟨evs2, ht2, hr2⟩ := hk w1
      refine ⟨evs ++ evs2, ?_, .next R Rs evs evs2 _ hr hr2⟩
      simp only [ht2]
      simp only at ht
      rw [ht, List.append_assoc]

theorem cleanupVPCResources_run {σ : Type} (client : EC2API σ) (vpcID : String)
    (w : World σ) : ∃ evs,
      (cleanupVPCResources client vpcID w).2.trace = w.trace ++ evs ∧
      SeqRun (cleanupSteps vpcID) evs (cleanupVPCResources client vpcID w).1 := by
  unfold cleanupVPCResources cleanupSteps
  refine seqRun_step _ _ _ _ w (deleteInternetGateways_run client vpcID w) (fun w1 => ?_)
  refine seqRun_step _ _ _ _ w1 (deleteSubnets_run client vpcID w1) (fun w2 => ?_)
  refine seqRun_step _ _ _ _ w2 (deleteRouteTables_run client vpcID w2) (fun w3 => ?_)
  refine seqRun_step _ _ _ _ w3 (deleteNetworkACLs_run client vpcID w3) (fun w4 => ?_)
  obtain ⟨evs, ht, hr⟩ := deleteSecurityGroups_run client vpcID w4
  generalize deleteSecurityGroups client vpcID w4 = r at ht hr ⊢
  obtain ⟨o, w5⟩ := r
  cases o with
  | panic => exact ⟨evs, ht, .stop _ _ evs _ hr (by simp)⟩
  | ret v =>
    cases v with
    | some err => exact ⟨evs, ht, .stop _ _ evs _ hr (by simp)⟩
    | none =>
      refine ⟨evs ++ [], ?_, .next _ _ evs [] _ hr .nil⟩
      simpa using ht

theorem LoopRun.all_succeed {α : Type} {skip : α → Option Bool} {idOf : α → Option String}
    {failText : String} {xs : List α} {recs : List (Option String × Option GoError)}
    {o : Outcome (Option GoError)} (h : LoopRun skip idOf failText xs recs o)
    (hok : ∀ r ∈ recs, r.2 = none) (hpres : ∀ x ∈ xs, skip x ≠ none) :
    o = .ret none ∧
      recs = (xs.filter (fun x => skip x == some false)).map (fun x => (idOf x, none)) := by
  induction h with
  | done => simp
  | nilDeref x rest hs => exact absurd hs (hpres x (by simp))
  | skipped x rest recs o hs _ ih =>
    have := ih hok (fun y hy => hpres y (by simp [hy]))
    simpa [hs] using this
  | failed x rest e hs => simpa using hok (idOf x, some e) (by simp)
  | deleted x rest recs o hs _ ih =>
    have := ih (fun r hr => hok r (by simp [hr])) (fun y hy => hpres y (by simp [hy]))
    simpa [hs] using this

theorem LoopRun.fail_fast {α : Type} {skip : α → Option Bool} {idOf : α → Option String}
    {failText : String} {xs : List α} {recs : List (Option String × Option GoError)}
    {o : Outcome (Option GoError)} (h : LoopRun skip idOf failText xs recs o) :
    ∀ (i : Nat) (id : Option String) (e : GoError), recs[i]? = some (id, some e) →
      recs = ((xs.filter (fun x => skip x == some false)).take i).map
          (fun x => (idOf x, none)) ++ [(id, some e)] ∧
        ((xs.filter (fun x => skip x == some false)).map idOf)[i]? = some id ∧
        o = .ret (some (Errorf (failText ++ awsToString id) e)) := by
  induction h with
  | done => intro i id e hi; simp at hi
  | nilDeref x rest hs => intro i id e hi; simp at hi
  | skipped x rest recs o hs _ ih =>
    intro i id e hi
    simpa [hs] using ih i id e hi
  | failed x rest e hs =>
    intro i id e' hi
    cases i with
    | zero =>
      simp at hi
      obtain ⟨h1, h2⟩ := hi
      subst h1 h2
      simp [hs]
    | succ n => simp at hi
  | deleted x rest recs o hs _ ih =>
    intro i id e hi
    cases i with
    | zero => simp at hi
    | succ n =>
      simp at hi
      simpa [hs] using ih n id e hi

theorem LoopRun.justified {α : Type} {skip : α → Option Bool} {idOf : α → Option String}
    {failText : String} {xs : List α} {recs : List (Option String × Option GoError)}
    {o : Outcome (Option GoError)} (h : LoopRun skip idOf failText xs recs o) :
    ∀ r ∈ recs, ∃ x ∈ xs, skip x = some false ∧ idOf x = r.1 := by
  induction h with
  | done => simp
  | nilDeref x rest hs => simp
  | skipped x rest recs o hs _ ih =>
    intro r hr
    obtain ⟨y, hy, h1, h2⟩ := ih r hr
    exact ⟨y, by simp [hy], h1, h2⟩
  | failed x rest e hs =>
    intro r hr
    simp at hr
    subst hr
    exact ⟨x, by simp, hs, rfl⟩
  | deleted x rest recs o hs _ ih =>
    intro r hr
    simp at hr
    rcases hr with hr | hr
    · subst hr
      exact ⟨x, by simp, hs, rfl⟩
    · obtain ⟨y, hy, h1, h2⟩ := ih r hr
      exact ⟨y, by simp [hy], h1, h2⟩

theorem IgwLoopRun.rank_eq {vpcID : String} {xs : List InternetGateway} {evs : List Event}
    {o : Outcome (Option GoError)} (h : IgwLoopRun vpcID xs evs o) :
    ∀ ev ∈ evs, ev.rank = 0 ∧ ev.isListing = false := by
  induction h with
  | done => simp
  | detachFailed igw rest e => simp [Event.rank, Event.isListing]
  | deleteFailed igw rest e => simp [Event.rank, Event.isListing]
  | deleted igw rest evs o _ ih =>
    intro ev hev
    simp at hev
    rcases hev with rfl | rfl | hev
    · simp [Event.rank, Event.isListing]
    · simp [Event.rank, Event.isListing]
    · exact ih ev hev

theorem IgwLoopRun.igw_all_succeed {vpcID : String} {xs : List InternetGateway}
    {evs : List Event} {o : Outcome (Option GoError)} (h : IgwLoopRun vpcID xs evs o)
    (hok : ∀ ev ∈ evs, ev.succeeded = true) :
    o = .ret none ∧
      evs = xs.flatMap (fun igw =>
        [.DetachInternetGateway igw.InternetGatewayId (some vpcID) none,
          .DeleteInternetGateway igw.InternetGatewayId none]) := by
  induction h with
  | done => simp
  | detachFailed igw rest e => simp [Event.succeeded] at hok
  | deleteFailed igw rest e => simp [Event.succeeded] at hok
  | deleted igw rest evs o _ ih =>
    have := ih (fun ev hev => hok ev (by simp [hev]))
    simpa using this

theorem InternetGatewaysRun.igwSegment {vpcID : String} {evs : List Event}
    {o : Outcome (Option GoError)} (h : InternetGatewaysRun vpcID evs o) : Segment 0 evs o := by
  cases h with
  | listFailed e =>
    exact ⟨by simp [Event.rank], by simp [Event.rank, Event.isListing],
      fun hs _ => by simp [Event.succeeded] at hs⟩
  | nilOutput =>
    exact ⟨by simp [Event.rank], by simp [Event.rank, Event.isListing],
      fun hs _ => by simp [Event.succeeded] at hs⟩
  | listed xs evs o hl =>
    refine ⟨?_, ?_, fun hs _ => ?_⟩
    · intro ev hev
      simp at hev
      rcases hev with rfl | hev
      · simp [Event.rank]
      · exact (hl.rank_eq ev hev).1
    · have : evs.filter Event.isListing = [] := by
        rw [List.filter_eq_nil_iff]
        intro ev hev
        simp [(hl.rank_eq ev hev).2]
      simp [List.filter_cons, Event.isListing, this, Event.rank]
    · exact (hl.igw_all_succeed (fun ev hev => hs ev (by simp [hev]))).1

/-- Facts shared by the four cleaners whose loop makes one delete call per
record that is not skipped. -/
theorem CleanerRun.delSegment {α : Type} {describe : ListResp α → Event}
    {onListError : GoError → GoError} {mk : Option String → Option GoError → Event}
    {skip : α → Option Bool} {idOf : α → Option String} {failText : String} {k : Nat}
    {evs : List Event} {o : Outcome (Option GoError)}
    (hd : ∀ r, (describe r).rank = k ∧ (describe r).isListing = true)
    (hdf : ∀ r, (describe r).succeeded = true → ∃ xs, r = .listed xs)
    (hdp : ∀ xs, (describe (.listed xs)).fieldsPresent = true → ∀ x ∈ xs, skip x ≠ none)
    (hm : ∀ id e, (mk id e).rank = k ∧ (mk id e).isListing = false)
    (hms : ∀ id e, (mk id e).succeeded = true → e = none)
    (h : CleanerRun describe onListError (DelLoopRun mk skip idOf failText) evs o) :
    Segment k evs o := by
  cases h with
  | listFailed e =>
    refine ⟨by simp [hd], by simp [hd], fun hs _ => ?_⟩
    obtain ⟨xs, hx⟩ := hdf (.failed e) (hs _ (by simp))
    cases hx
  | nilOutput =>
    refine ⟨by simp [hd], by simp [hd], fun hs _ => ?_⟩
    obtain ⟨xs, hx⟩ := hdf .nilOutput (hs _ (by simp))
    cases hx
  | listed xs evs o hl =>
    obtain ⟨recs, rfl, hr⟩ := hl
    refine ⟨?_, ?_, fun hs hp => ?_⟩
    · intro ev hev
      simp at hev
      rcases hev with rfl | ⟨a, b, _, rfl⟩
      · exact (hd _).1
      · exact (hm _ _).1
    · have : (recs.map (delEvent mk)).filter Event.isListing = [] := by
        rw [List.filter_eq_nil_iff]
        intro ev hev
        simp at hev
        obtain ⟨a, b, _, rfl⟩ := hev
        simp [delEvent, hm]
      simp [List.filter_cons, hd, this]
    · refine (hr.all_succeed (fun r hr => ?_) (hdp xs (hp _ (by simp)))).1
      exact hms r.1 r.2 (hs _ (List.mem_cons_of_mem _ (List.mem_map.mpr ⟨r, hr, rfl⟩)))

theorem SubnetsRun.subnetSegment {vpcID : String} {evs : List Event}
    {o : Outcome (Option GoError)} (h : SubnetsRun vpcID evs o) : Segment 1 evs o := by
  refine CleanerRun.delSegment ?_ ?_ ?_ ?_ ?_ h
  · intro r; simp [Event.rank, Event.isListing]
  · intro r hr; cases r <;> simp [Event.succeeded] at hr ⊢
  · intro xs _ x _; simp [skipSubnet]
  · intro id e; simp [Event.rank, Event.isListing]
  · intro id e he; cases e <;> simp [Event.succeeded] at he ⊢

theorem RouteTablesRun.routeTableSegment {vpcID : String} {evs : List Event}
    {o : Outcome (Option GoError)} (h : RouteTablesRun vpcID evs o) : Segment 2 evs o := by
  refine CleanerRun.delSegment ?_ ?_ ?_ ?_ ?_ h
  · intro r; simp [Event.rank, Event.isListing]
  · intro r hr; cases r <;> simp [Event.succeeded] at hr ⊢
  · intro xs _ x _; simp [skipRouteTable]
  · intro id e; simp [Event.rank, Event.isListing]
  · intro id e he; cases e <;> simp [Event.succeeded] at he ⊢

theorem NetworkACLsRun.aclSegment {vpcID : String} {evs : List Event}
    {o : Outcome (Option GoError)} (h : NetworkACLsRun vpcID evs o) : Segment 3 evs o := by
  refine CleanerRun.delSegment ?_ ?_ ?_ ?_ ?_ h
  · intro r; simp [Event.rank, Event.isListing]
  · intro r hr; cases r <;> simp [Event.succeeded] at hr ⊢
  · intro xs hp x hx
    simp [Event.fieldsPresent] at hp
    have := hp x hx
    simp [skipNetworkAcl]
    intro h0; simp [h0] at this
  · intro id e; simp [Event.rank, Event.isListing]
  · intro id e he; cases e <;> simp [Event.succeeded] at he ⊢

theorem SecurityGroupsRun.groupSegment {vpcID : String} {evs : List Event}
    {o : Outcome (Option GoError)} (h : SecurityGroupsRun vpcID evs o) : Segment 4 evs o := by
  refine CleanerRun.delSegment ?_ ?_ ?_ ?_ ?_ h
  · intro r; simp [Event.rank, Event.isListing]
  · intro r hr; cases r <;> simp [Event.succeeded] at hr ⊢
  · intro xs hp x hx
    simp [Event.fieldsPresent] at hp
    have := hp x hx
    simp [skipSecurityGroup]
    intro h0; simp [h0] at this
  · intro id e; simp [Event.rank, Event.isListing]
  · intro id e he; cases e <;> simp [Event.succeeded] at he ⊢

theorem pairwise_rank_of_const {k : Nat} {evs : List Event} (h : ∀ ev ∈ evs, ev.rank = k) :
    evs.Pairwise (fun a b => a.rank ≤ b.rank) := by
  induction evs with
  | nil => simp
  | cons a rest ih =>
    rw [List.pairwise_cons]
    refine ⟨fun b hb => ?_, ih (fun ev hev => h ev (by simp [hev]))⟩
    rw [h a (by simp), h b (by simp [hb])]

/-- C1 (as amended). For every VPC id and every client: when every call made
during the run of `cleanupVPCResources` succeeded, and every listed network ACL
carries its default flag and every listed security group its name, the result
is a nil error, no call of a later kind precedes a call of an earlier kind (in
the order internet gateways, subnets, route tables, network ACLs, security
groups), and the listing calls made are one per kind, in that order. -/
theorem cleanupVPCResources_runs_cleaners_in_order {σ : Type} (client : EC2API σ)
    (vpcID : String) (s : σ)
    (hsucc : ∀ ev ∈ (cleanupVPCResources client vpcID (World.init s)).2.trace,
      ev.succeeded = true)
    (hpres : ∀ ev ∈ (cleanupVPCResources client vpcID (World.init s)).2.trace,
      ev.fieldsPresent = true) :
    (cleanupVPCResources client vpcID (World.init s)).1 = .ret none ∧
    (cleanupVPCResources client vpcID (World.init s)).2.trace.Pairwise
      (fun a b => a.rank ≤ b.rank) ∧
    ((cleanupVPCResources client vpcID (World.init s)).2.trace.filter Event.isListing).map
      Event.rank = [0, 1, 2, 3, 4] := by
  obtain ⟨evs, ht, hr⟩ := cleanupVPCResources_run client vpcID (World.init s)
  simp only [World.init, List.nil_append] at ht
  simp only [World.init] at hsucc hpres hr ⊢
  rw [ht] at hsucc hpres ⊢
  generalize (cleanupVPCResources client vpcID { gw := s, trace := [], out := [] }).1 = o at hr ⊢
  clear ht
  unfold cleanupSteps at hr
  cases hr with
  | stop _ _ _ _ h1 hne => exact absurd (h1.igwSegment.ok hsucc hpres) hne
  | next _ _ e1 r1 _ h1 hr =>
  cases hr with
  | stop _ _ _ _ h2 hne =>
    exact absurd (h2.subnetSegment.ok (fun ev h => hsucc ev (by simp [h]))
      (fun ev h => hpres ev (by simp [h]))) hne
  | next _ _ e2 r2 _ h2 hr =>
  cases hr with
  | stop _ _ _ _ h3 hne =>
    exact absurd (h3.routeTableSegment.ok (fun ev h => hsucc ev (by simp [h]))
      (fun ev h => hpres ev (by simp [h]))) hne
  | next _ _ e3 r3 _ h3 hr =>
  cases hr with
  | stop _ _ _ _ h4 hne =>
    exact absurd (h4.aclSegment.ok (fun ev h => hsucc ev (by simp [h]))
      (fun ev h => hpres ev (by simp [h]))) hne
  | next _ _ e4 r4 _ h4 hr =>
  cases hr with
  | stop _ _ _ _ h5 hne =>
    exact absurd (h5.groupSegment.ok (fun ev h => hsucc ev (by simp [h]))
      (fun ev h => hpres ev (by simp [h]))) hne
  | next _ _ e5 r5 _ h5 hr =>
  cases hr
  have s1 := h1.igwSegment
  have s2 := h2.subnetSegment
  have s3 := h3.routeTableSegment
  have s4 := h4.aclSegment
  have s5 := h5.groupSegment
  refine ⟨rfl, ?_, ?_⟩
  · simp only [List.append_nil, List.pairwise_append, List.mem_append]
    refine ⟨pairwise_rank_of_const s1.rank_eq, ⟨pairwise_rank_of_const s2.rank_eq,
      ⟨pairwise_rank_of_const s3.rank_eq, ⟨pairwise_rank_of_const s4.rank_eq,
        pairwise_rank_of_const s5.rank_eq, ?_⟩, ?_⟩, ?_⟩, ?_⟩
    · intro a ha b hb
      rw [s4.rank_eq a ha, s5.rank_eq b hb]; omega
    · intro a ha b hb
      rw [s3.rank_eq a ha]
      rcases hb with hb | hb
      · rw [s4.rank_eq b hb]; omega
      · rw [s5.rank_eq b hb]; omega
    · intro a ha b hb
      rw [s2.rank_eq a ha]
      rcases hb with hb | hb | hb
      · rw [s3.rank_eq b hb]; omega
      · rw [s4.rank_eq b hb]; omega
      · rw [s5.rank_eq b hb]; omega
    · intro a ha b hb
      rw [s1.rank_eq a ha]; omega
  · simp only [List.filter_append, List.map_append, s1.listing, s2.listing, s3.listing,
      s4.listing, s5.listing]
    simp

/-- C1, worked example: the sample VPC, where no call fails. -/
theorem cleanupVPCResources_runs_cleaners_in_order_witness :
    (cleanupVPCResources sampleVpc.client "vpc-12345" (World.init 0)).1 = .ret none ∧
    (cleanupVPCResources sampleVpc.client "vpc-12345" (World.init 0)).2.trace.Pairwise
      (fun a b => a.rank ≤ b.rank) ∧
    ((cleanupVPCResources sampleVpc.client "vpc-12345"
      (World.init 0)).2.trace.filter Event.isListing).map Event.rank = [0, 1, 2, 3, 4] :=
  cleanupVPCResources_runs_cleaners_in_order sampleVpc.client "vpc-12345" 0
    (by decide) (by decide)

/-- C1 as stated fails: a client whose calls all succeed but which lists a
security group without a name makes `cleanupVPCResources` panic on the nil
name instead of returning a nil error. -/
theorem cleanupVPCResources_panics_though_all_calls_succeed :
    (∀ ev ∈ (cleanupVPCResources namelessGroupVpc.client "vpc-12345" (World.init 0)).2.trace,
      ev.succeeded = true) ∧
    (cleanupVPCResources namelessGroupVpc.client "vpc-12345" (World.init 0)).1 = .panic := by
  decide

theorem cleanerAt_rank {σ : Type} (client : EC2API σ) (vpcID : String) (k : Nat)
    (w : World σ) : ∃ evs,
      (cleanerAt k client vpcID w).2.trace = w.trace ++ evs ∧ ∀ ev ∈ evs, ev.rank ≤ k := by
  match k with
  | 0 =>
    obtain ⟨evs, ht, hr⟩ := deleteInternetGateways_run client vpcID w
    exact ⟨evs, ht, fun ev hev => (hr.igwSegment.rank_eq ev hev).le⟩
  | 1 =>
    obtain ⟨evs, ht, hr⟩ := deleteSubnets_run client vpcID w
    exact ⟨evs, ht, fun ev hev => (hr.subnetSegment.rank_eq ev hev).le⟩
  | 2 =>
    obtain ⟨evs, ht, hr⟩ := deleteRouteTables_run client vpcID w
    exact ⟨evs, ht, fun ev hev => (hr.routeTableSegment.rank_eq ev hev).le⟩
  | 3 =>
    obtain ⟨evs, ht, hr⟩ := deleteNetworkACLs_run client vpcID w
    exact ⟨evs, ht, fun ev hev => (hr.aclSegment.rank_eq ev hev).le⟩
  | n + 4 =>
    obtain ⟨evs, ht, hr⟩ := deleteSecurityGroups_run client vpcID w
    exact ⟨evs, ht, fun ev hev => by rw [hr.groupSegment.rank_eq ev hev]; omega⟩

theorem runFirstCleaners_succ {σ : Type} (client : EC2API σ) (vpcID : String) (k : Nat)
    (w w1 : World σ) (h : runFirstCleaners client vpcID (k + 1) w = some w1) :
    ∃ wk, runFirstCleaners client vpcID k w = some wk ∧
      cleanerAt k client vpcID wk = (.ret none, w1) := by
  simp only [runFirstCleaners] at h
  cases hk : runFirstCleaners client vpcID k w with
  | none => simp [hk] at h
  | some wk =>
    simp only [hk] at h
    refine ⟨wk, rfl, ?_⟩
    generalize cleanerAt k client vpcID wk = r at h ⊢
    obtain ⟨o, w2⟩ := r
    cases o with
    | panic => simp at h
    | ret v =>
      cases v with
      | some e => simp at h
      | none => simp at h; rw [h]

theorem runFirstCleaners_rank {σ : Type} (client : EC2API σ) (vpcID : String) (k : Nat) :
    ∀ (w wk : World σ), runFirstCleaners client vpcID k w = some wk →
      ∃ evs, wk.trace = w.trace ++ evs ∧ ∀ ev ∈ evs, ev.rank < k := by
  induction k with
  | zero =>
    intro w wk h
    simp only [runFirstCleaners, Option.some.injEq] at h
    exact ⟨[], by simp [h], by simp⟩
  | succ n ih =>
    intro w w1 h
    obtain ⟨wk, h1, h2⟩ := runFirstCleaners_succ client vpcID n w w1 h
    obtain ⟨evs, ht, hr⟩ := ih w wk h1
    obtain ⟨evs2, ht2, hr2⟩ := cleanerAt_rank client vpcID n wk
    rw [h2] at ht2
    refine ⟨evs ++ evs2, by rw [ht2, ht, List.append_assoc], ?_⟩
    intro ev hev
    rcases List.mem_append.mp hev with hev | hev
    · exact Nat.lt_succ_of_lt (hr ev hev)
    · exact Nat.lt_succ_of_le (hr2 ev hev)

/-- C2. For every VPC id and every client: if the cleaners before position `k`
of the order (internet gateways, subnets, route tables, network ACLs, security
groups) each returned a nil error and the cleaner at position `k` returns the
error `e`, then `cleanupVPCResources` returns exactly `e`, in the world that
cleaner left, and the trace holds no call of a kind later than `k`. -/
theorem cleanupVPCResources_stops_at_first_error {σ : Type} (client : EC2API σ)
    (vpcID : String) (s : σ) (k : Nat) (hk : k < 5) (wk w1 : World σ) (e : GoError)
    (hfirst : runFirstCleaners client vpcID k (World.init s) = some wk)
    (herr : cleanerAt k client vpcID wk = (.ret (some e), w1)) :
    cleanupVPCResources client vpcID (World.init s) = (.ret (some e), w1) ∧
      ∀ ev ∈ w1.trace, ev.rank ≤ k := by
  constructor
  · match k, hk with
    | 0, _ =>
      simp only [runFirstCleaners, Option.some.injEq] at hfirst
      subst hfirst
      simp only [cleanerAt] at herr
      simp only [cleanupVPCResources, herr]
    | 1, _ =>
      obtain ⟨w0, h0, c0⟩ := runFirstCleaners_succ client vpcID 0 _ _ hfirst
      simp only [runFirstCleaners, Option.some.injEq] at h0
      subst h0
      simp only [cleanerAt] at herr c0
      simp only [cleanupVPCResources, herr, c0]
    | 2, _ =>
      obtain ⟨w1, h1, c1⟩ := runFirstCleaners_succ client vpcID 1 _ _ hfirst
      obtain ⟨w0, h0, c0⟩ := runFirstCleaners_succ client vpcID 0 _ _ h1
      simp only [runFirstCleaners, Option.some.injEq] at h0
      subst h0
      simp only [cleanerAt] at herr c0 c1
      simp only [cleanupVPCResources, herr, c0, c1]
    | 3, _ =>
      obtain ⟨w2, h2, c2⟩ := runFirstCleaners_succ client vpcID 2 _ _ hfirst
      obtain ⟨w1, h1, c1⟩ := runFirstCleaners_succ client vpcID 1 _ _ h2
      obtain ⟨w0, h0, c0⟩ := runFirstCleaners_succ client vpcID 0 _ _ h1
      simp only [runFirstCleaners, Option.some.injEq] at h0
      subst h0
      simp only [cleanerAt] at herr c0 c1 c2
      simp only [cleanupVPCResources, herr, c0, c1, c2]
    | 4, _ =>
      obtain ⟨w3, h3, c3⟩ := runFirstCleaners_succ client vpcID 3 _ _ hfirst
      obtain ⟨w2, h2, c2⟩ := runFirstCleaners_succ client vpcID 2 _ _ h3
      obtain ⟨w1, h1, c1⟩ := runFirstCleaners_succ client vpcID 1 _ _ h2
      obtain ⟨w0, h0, c0⟩ := runFirstCleaners_succ client vpcID 0 _ _ h1
      simp only [runFirstCleaners, Option.some.injEq] at h0
      subst h0
      simp only [cleanerAt] at herr c0 c1 c2 c3
      simp only [cleanupVPCResources, herr, c0, c1, c2, c3]
  · obtain ⟨evs, ht, hr⟩ := runFirstCleaners_rank client vpcID k _ _ hfirst
    obtain ⟨evs2, ht2, hr2⟩ := cleanerAt_rank client vpcID k wk
    rw [herr] at ht2
    simp only at ht2
    intro ev hev
    rw [ht2, ht] at hev
    simp only [World.init, List.nil_append, List.mem_append] at hev
    rcases hev with hev | hev
    · exact (hr ev hev).le
    · exact hr2 ev hev


/-- C2, worked example: deleting the second subnet fails, so the subnet cleaner
(position 1) is the first to return an error. -/
theorem cleanupVPCResources_stops_at_first_error_witness :
    cleanupVPCResources subnetFailureVpc.client "vpc-12345" (World.init 0) =
      (.ret (some (.wrapError "failed to delete subnet subnet-2: DependencyViolation"
        (.errorString "DependencyViolation"))),
        (deleteSubnets subnetFailureVpc.client "vpc-12345"
          (deleteInternetGateways subnetFailureVpc.client "vpc-12345" (World.init 0)).2).2) ∧
      ∀ ev ∈ (deleteSubnets subnetFailureVpc.client "vpc-12345"
          (deleteInternetGateways subnetFailureVpc.client "vpc-12345" (World.init 0)).2).2.trace,
        ev.rank ≤ 1 :=
  cleanupVPCResources_stops_at_first_error subnetFailureVpc.client "vpc-12345" 0 1 (by decide)
    (deleteInternetGateways subnetFailureVpc.client "vpc-12345" (World.init 0)).2
    (deleteSubnets subnetFailureVpc.client "vpc-12345"
      (deleteInternetGateways subnetFailureVpc.client "vpc-12345" (World.init 0)).2).2
    (.wrapError "failed to delete subnet subnet-2: DependencyViolation"
      (.errorString "DependencyViolation"))
    (by decide) (by decide)

theorem Justified.mono {vpcID : String} {pre : List Event} {ev : Event} (a : List Event)
    (h : Justified vpcID pre ev) : Justified vpcID (a ++ pre) ev := by
  obtain ⟨h1, h2, h3⟩ := h
  refine ⟨fun id err he => ?_, fun id err he => ?_, fun id err he => ?_⟩
  · obtain ⟨xs, hm, hx⟩ := h1 id err he
    exact ⟨xs, List.mem_append_right a hm, hx⟩
  · obtain ⟨xs, hm, hx⟩ := h2 id err he
    exact ⟨xs, List.mem_append_right a hm, hx⟩
  · obtain ⟨xs, hm, hx⟩ := h3 id err he
    exact ⟨xs, List.mem_append_right a hm, hx⟩

theorem Justified.of_rank_lt {vpcID : String} {pre : List Event} {ev : Event}
    (h : ev.rank < 2) : Justified vpcID pre ev := by
  refine ⟨fun id err he => ?_, fun id err he => ?_, fun id err he => ?_⟩ <;>
    (subst he; simp [Event.rank] at h)

theorem Justified.of_isListing {vpcID : String} {pre : List Event} {ev : Event}
    (h : ev.isListing = true) : Justified vpcID pre ev := by
  refine ⟨fun id err he => ?_, fun id err he => ?_, fun id err he => ?_⟩ <;>
    (subst he; simp [Event.isListing] at h)

theorem AllJustified.nil (vpcID : String) : AllJustified vpcID [] := by
  intro pre ev post h
  simp at h

theorem AllJustified.append {vpcID : String} {a b : List Event}
    (ha : AllJustified vpcID a) (hb : AllJustified vpcID b) : AllJustified vpcID (a ++ b) := by
  intro pre ev post h
  rcases List.append_eq_append_iff.mp h with ⟨c, rfl, hc⟩ | ⟨c, rfl, hc⟩
  · exact (hb c ev post hc).mono a
  · cases c with
    | nil =>
      have := (hb [] ev post (by simpa using hc.symm)).mono pre
      simpa using this
    | cons x c1 =>
      simp only [List.cons_append, List.cons.injEq] at hc
      obtain ⟨rfl, _⟩ := hc
      exact ha pre ev c1 rfl

theorem AllJustified.of_forall {vpcID : String} {evs : List Event}
    (h : ∀ ev ∈ evs, ∀ pre, Justified vpcID pre ev) : AllJustified vpcID evs := by
  intro pre ev post he
  exact h ev (by simp [he]) pre

theorem InternetGatewaysRun.igwJustified {vpcID : String} {evs : List Event}
    {o : Outcome (Option GoError)} (h : InternetGatewaysRun vpcID evs o) :
    AllJustified vpcID evs :=
  .of_forall (fun ev hev _ => .of_rank_lt (by rw [h.igwSegment.rank_eq ev hev]; omega))

theorem SubnetsRun.subnetJustified {vpcID : String} {evs : List Event}
    {o : Outcome (Option GoError)} (h : SubnetsRun vpcID evs o) : AllJustified vpcID evs :=
  .of_forall (fun ev hev _ => .of_rank_lt (by rw [h.subnetSegment.rank_eq ev hev]; omega))

/-- In the run of a cleaner with a delete loop, a call that is not the first is
a delete call for a listed record that the skip test rejected. -/
theorem CleanerRun.delete_of_split {α : Type} {describe : ListResp α → Event}
    {onListError : GoError → GoError} {mk : Option String → Option GoError → Event}
    {skip : α → Option Bool} {idOf : α → Option String} {failText : String}
    {evs : List Event} {o : Outcome (Option GoError)}
    (h : CleanerRun describe onListError (DelLoopRun mk skip idOf failText) evs o)
    (p : Event) (pre : List Event) (ev : Event) (post : List Event)
    (hsplit : evs = (p :: pre) ++ ev :: post) :
    ∃ xs, p = describe (.listed xs) ∧
      ∃ x ∈ xs, skip x = some false ∧ ∃ err, ev = mk (idOf x) err := by
  cases h with
  | listFailed e =>
    simp at hsplit
  | nilOutput =>
    simp at hsplit
  | listed xs evs o hl =>
    obtain ⟨recs, rfl, hr⟩ := hl
    simp only [List.cons_append, List.cons.injEq] at hsplit
    obtain ⟨rfl, hrest⟩ := hsplit
    have hmem : ev ∈ recs.map (delEvent mk) := by rw [hrest]; simp
    obtain ⟨r, hr1, rfl⟩ := List.mem_map.mp hmem
    obtain ⟨x, hx, hs, hid⟩ := hr.justified r hr1
    exact ⟨xs, rfl, x, hx, hs, r.2, by simp [delEvent, hid]⟩

theorem CleanerRun.head_isListing {α : Type} {describe : ListResp α → Event}
    {onListError : GoError → GoError}
    {loop : List α → List Event → Outcome (Option GoError) → Prop}
    {evs : List Event} {o : Outcome (Option GoError)}
    (hd : ∀ r, (describe r).isListing = true)
    (h : CleanerRun describe onListError loop evs o)
    (ev : Event) (post : List Event) (hsplit : evs = ev :: post) : ev.isListing = true := by
  cases h with
  | listFailed e => simp at hsplit; rw [← hsplit.1]; exact hd _
  | nilOutput => simp at hsplit; rw [← hsplit.1]; exact hd _
  | listed xs evs o hl => simp at hsplit; rw [← hsplit.1]; exact hd _

theorem RouteTablesRun.routeTableJustified {vpcID : String} {evs : List Event}
    {o : Outcome (Option GoError)} (h : RouteTablesRun vpcID evs o) :
    AllJustified vpcID evs := by
  intro pre ev post hsplit
  cases pre with
  | nil =>
    exact .of_isListing (CleanerRun.head_isListing (by intro r; rfl) h ev post
      (by simpa using hsplit))
  | cons p pre =>
    obtain ⟨xs, rfl, x, hx, hs, err, rfl⟩ := h.delete_of_split p pre ev post hsplit
    refine ⟨fun id err he => ?_, fun id err he => ?_, fun id err he => ?_⟩
    · simp only [Event.DeleteRouteTable.injEq] at he
      refine ⟨xs, by simp, x, hx, he.1, ?_⟩
      simpa [skipRouteTable] using hs
    · cases he
    · cases he

theorem NetworkACLsRun.aclJustified {vpcID : String} {evs : List Event}
    {o : Outcome (Option GoError)} (h : NetworkACLsRun vpcID evs o) :
    AllJustified vpcID evs := by
  intro pre ev post hsplit
  cases pre with
  | nil =>
    exact .of_isListing (CleanerRun.head_isListing (by intro r; rfl) h ev post
      (by simpa using hsplit))
  | cons p pre =>
    obtain ⟨xs, rfl, x, hx, hs, err, rfl⟩ := h.delete_of_split p pre ev post hsplit
    refine ⟨fun id err he => ?_, fun id err he => ?_, fun id err he => ?_⟩
    · cases he
    · simp only [Event.DeleteNetworkAcl.injEq] at he
      exact ⟨xs, by simp, x, hx, he.1, hs⟩
    · cases he

theorem SecurityGroupsRun.groupJustified {vpcID : String} {evs : List Event}
    {o : Outcome (Option GoError)} (h : SecurityGroupsRun vpcID evs o) :
    AllJustified vpcID evs := by
  intro pre ev post hsplit
  cases pre with
  | nil =>
    exact .of_isListing (CleanerRun.head_isListing (by intro r; rfl) h ev post
      (by simpa using hsplit))
  | cons p pre =>
    obtain ⟨xs, rfl, x, hx, hs, err, rfl⟩ := h.delete_of_split p pre ev post hsplit
    refine ⟨fun id err he => ?_, fun id err he => ?_, fun id err he => ?_⟩
    · cases he
    · cases he
    · simp only [Event.DeleteSecurityGroup.injEq] at he
      refine ⟨xs, by simp, x, hx, he.1, ?_⟩
      cases hn : x.GroupName with
      | none => simp [skipSecurityGroup, hn] at hs
      | some name =>
        refine ⟨name, rfl, ?_⟩
        simpa [skipSecurityGroup, hn] using hs

theorem SeqRun.seqJustified {vpcID : String}
    {Rs : List (List Event → Outcome (Option GoError) → Prop)} {evs : List Event}
    {o : Outcome (Option GoError)} (h : SeqRun Rs evs o)
    (hR : ∀ R ∈ Rs, ∀ evs o, R evs o → AllJustified vpcID evs) : AllJustified vpcID evs := by
  induction h with
  | nil => exact .nil vpcID
  | stop R Rs evs o h1 _ => exact hR R (by simp) evs o h1
  | next R Rs evs evs2 o h1 _ ih =>
    exact (hR R (by simp) evs _ h1).append (ih (fun R1 hR1 => hR R1 (by simp [hR1])))

theorem deleteSubnets_listed_run {σ : Type} (client : EC2API σ) (vpcID : String) (s : σ)
    (xs : List Subnet)
    (hlist : (client.DescribeSubnets s (vpcIdFilter vpcID)).1 = .listed xs) :
    ∃ recs,
      (deleteSubnets client vpcID (World.init s)).2.trace =
        .DescribeSubnets (vpcIdFilter vpcID) (.listed xs) ::
          recs.map (delEvent .DeleteSubnet) ∧
      LoopRun skipSubnet Subnet.SubnetId "failed to delete subnet " xs recs
        (deleteSubnets client vpcID (World.init s)).1 := by
  obtain ⟨recs, ht, hr⟩ := deleteSubnetsLoop_run client xs
    ((World.init s).record (.DescribeSubnets (vpcIdFilter vpcID) (.listed xs))
      (client.DescribeSubnets s (vpcIdFilter vpcID)).2)
  refine ⟨recs, ?_, ?_⟩
  · simpa [deleteSubnets, callDescribeSubnets, World.init, hlist, World.record] using ht
  · simpa [deleteSubnets, callDescribeSubnets, World.init, hlist, World.record] using hr

theorem deleteRouteTables_listed_run {σ : Type} (client : EC2API σ) (vpcID : String) (s : σ)
    (xs : List RouteTable)
    (hlist : (client.DescribeRouteTables s (vpcIdFilter vpcID)).1 = .listed xs) :
    ∃ recs,
      (deleteRouteTables client vpcID (World.init s)).2.trace =
        .DescribeRouteTables (vpcIdFilter vpcID) (.listed xs) ::
          recs.map (delEvent .DeleteRouteTable) ∧
      LoopRun skipRouteTable RouteTable.RouteTableId "failed to delete route table " xs recs
        (deleteRouteTables client vpcID (World.init s)).1 := by
  obtain ⟨recs, ht, hr⟩ := deleteRouteTablesLoop_run client xs
    ((World.init s).record (.DescribeRouteTables (vpcIdFilter vpcID) (.listed xs))
      (client.DescribeRouteTables s (vpcIdFilter vpcID)).2)
  refine ⟨recs, ?_, ?_⟩
  · simpa [deleteRouteTables, callDescribeRouteTables, World.init, hlist, World.record] using ht
  · simpa [deleteRouteTables, callDescribeRouteTables, World.init, hlist, World.record] using hr

theorem deleteNetworkACLs_listed_run {σ : Type} (client : EC2API σ) (vpcID : String) (s : σ)
    (xs : List NetworkAcl)
    (hlist : (client.DescribeNetworkAcls s (vpcIdFilter vpcID)).1 = .listed xs) :
    ∃ recs,
      (deleteNetworkACLs client vpcID (World.init s)).2.trace =
        .DescribeNetworkAcls (vpcIdFilter vpcID) (.listed xs) ::
          recs.map (delEvent .DeleteNetworkAcl) ∧
      LoopRun skipNetworkAcl NetworkAcl.NetworkAclId "failed to delete network ACL " xs recs
        (deleteNetworkACLs client vpcID (World.init s)).1 := by
  obtain ⟨recs, ht, hr⟩ := deleteNetworkACLsLoop_run client xs
    ((World.init s).record (.DescribeNetworkAcls (vpcIdFilter vpcID) (.listed xs))
      (client.DescribeNetworkAcls s (vpcIdFilter vpcID)).2)
  refine ⟨recs, ?_, ?_⟩
  · simpa [deleteNetworkACLs, callDescribeNetworkAcls, World.init, hlist, World.record] using ht
  · simpa [deleteNetworkACLs, callDescribeNetworkAcls, World.init, hlist, World.record] using hr

theorem deleteSecurityGroups_listed_run {σ : Type} (client : EC2API σ) (vpcID : String)
    (s : σ) (xs : List SecurityGroup)
    (hlist : (client.DescribeSecurityGroups s (vpcIdFilter vpcID)).1 = .listed xs) :
    ∃ recs,
      (deleteSecurityGroups client vpcID (World.init s)).2.trace =
        .DescribeSecurityGroups (vpcIdFilter vpcID) (.listed xs) ::
          recs.map (delEvent .DeleteSecurityGroup) ∧
      LoopRun skipSecurityGroup SecurityGroup.GroupId "failed to delete security group " xs recs
        (deleteSecurityGroups client vpcID (World.init s)).1 := by
  obtain ⟨recs, ht, hr⟩ := deleteSecurityGroupsLoop_run client xs
    ((World.init s).record (.DescribeSecurityGroups (vpcIdFilter vpcID) (.listed xs))
      (client.DescribeSecurityGroups s (vpcIdFilter vpcID)).2)
  refine ⟨recs, ?_, ?_⟩
  · simpa [deleteSecurityGroups, callDescribeSecurityGroups, World.init, hlist, World.record]
      using ht
  · simpa [deleteSecurityGroups, callDescribeSecurityGroups, World.init, hlist, World.record]
      using hr

theorem deleteInternetGateways_listed_run {σ : Type} (client : EC2API σ) (vpcID : String)
    (s : σ) (xs : List InternetGateway)
    (hlist : (client.DescribeInternetGateways s (attachmentVpcIdFilter vpcID)).1 = .listed xs) :
    ∃ evs,
      (deleteInternetGateways client vpcID (World.init s)).2.trace =
        .DescribeInternetGateways (attachmentVpcIdFilter vpcID) (.listed xs) :: evs ∧
      IgwLoopRun vpcID xs evs (deleteInternetGateways client vpcID (World.init s)).1 := by
  obtain ⟨evs, ht, hr⟩ := deleteInternetGatewaysLoop_run client vpcID xs
    ((World.init s).record (.DescribeInternetGateways (attachmentVpcIdFilter vpcID) (.listed xs))
      (client.DescribeInternetGateways s (attachmentVpcIdFilter vpcID)).2)
  refine ⟨evs, ?_, ?_⟩
  · simpa [deleteInternetGateways, callDescribeInternetGateways, World.init, hlist,
      World.record] using ht
  · simpa [deleteInternetGateways, callDescribeInternetGateways, World.init, hlist,
      World.record] using hr

/-- C4. For every listed sequence of route tables: when every delete call of the
run succeeds, `deleteRouteTables` returns a nil error and the calls it makes are
the listing followed by one delete call for each table that `isMainRouteTable`
rejects, in listing order and with that table's id; main tables are passed
over wherever they stand in the list. -/
theorem deleteRouteTables_deletes_exactly_the_non_main_tables {σ : Type} (client : EC2API σ)
    (vpcID : String) (s : σ) (rts : List RouteTable)
    (hlist : (client.DescribeRouteTables s (vpcIdFilter vpcID)).1 = .listed rts)
    (hdel : ∀ id err, Event.DeleteRouteTable id err ∈
      (deleteRouteTables client vpcID (World.init s)).2.trace → err = none) :
    (deleteRouteTables client vpcID (World.init s)).1 = .ret none ∧
    (deleteRouteTables client vpcID (World.init s)).2.trace =
      .DescribeRouteTables (vpcIdFilter vpcID) (.listed rts) ::
        (rts.filter (fun rt => !isMainRouteTable rt)).map
          (fun rt => .DeleteRouteTable rt.RouteTableId none) := by
  obtain ⟨recs, ht, hr⟩ := deleteRouteTables_listed_run client vpcID s rts hlist
  have hok : ∀ r ∈ recs, r.2 = none := by
    intro r hrm
    refine hdel r.1 r.2 ?_
    rw [ht]
    exact List.mem_cons_of_mem _ (List.mem_map.mpr ⟨r, hrm, rfl⟩)
  obtain ⟨ho, hrecs⟩ := hr.all_succeed hok (by intro x _; simp [skipRouteTable])
  refine ⟨ho, ?_⟩
  rw [ht, hrecs]
  simp [delEvent, skipRouteTable, Function.comp_def]

/-- C5. For every listed sequence of security groups that all carry a name:
when every delete call of the run succeeds, `deleteSecurityGroups` returns a
nil error and the calls it makes are the listing followed by one delete call
for each group whose name is not exactly the string `default`, in listing
order and with that group's id; every delete call is for a group whose name
is not `default`. -/
theorem deleteSecurityGroups_deletes_exactly_the_non_default_groups {σ : Type}
    (client : EC2API σ) (vpcID : String) (s : σ) (groups : List SecurityGroup)
    (hlist : (client.DescribeSecurityGroups s (vpcIdFilter vpcID)).1 = .listed groups)
    (hname : ∀ sg ∈ groups, sg.GroupName ≠ none)
    (hdel : ∀ id err, Event.DeleteSecurityGroup id err ∈
      (deleteSecurityGroups client vpcID (World.init s)).2.trace → err = none) :
    (deleteSecurityGroups client vpcID (World.init s)).1 = .ret none ∧
    (deleteSecurityGroups client vpcID (World.init s)).2.trace =
      .DescribeSecurityGroups (vpcIdFilter vpcID) (.listed groups) ::
        (groups.filter (fun sg => decide (sg.GroupName ≠ some "default"))).map
          (fun sg => .DeleteSecurityGroup sg.GroupId none) ∧
    ∀ id err, Event.DeleteSecurityGroup id err ∈
      (deleteSecurityGroups client vpcID (World.init s)).2.trace →
        ∃ sg ∈ groups, sg.GroupId = id ∧ sg.GroupName ≠ some "default" := by
  obtain ⟨recs, ht, hr⟩ := deleteSecurityGroups_listed_run client vpcID s groups hlist
  have hok : ∀ r ∈ recs, r.2 = none := by
    intro r hrm
    refine hdel r.1 r.2 ?_
    rw [ht]
    exact List.mem_cons_of_mem _ (List.mem_map.mpr ⟨r, hrm, rfl⟩)
  have hpres : ∀ sg ∈ groups, skipSecurityGroup sg ≠ none := by
    intro sg hsg
    have := hname sg hsg
    cases hn : sg.GroupName with
    | none => exact absurd hn this
    | some name => simp [skipSecurityGroup, hn]
  obtain ⟨ho, hrecs⟩ := hr.all_succeed hok hpres
  have hfilter : groups.filter (fun sg => skipSecurityGroup sg == some false) =
      groups.filter (fun sg => decide (sg.GroupName ≠ some "default")) := by
    apply List.filter_congr
    intro sg hsg
    have := hname sg hsg
    cases hn : sg.GroupName with
    | none => exact absurd hn this
    | some name => by_cases hd : name = "default" <;> simp [skipSecurityGroup, hn, hd]
  have htrace : (deleteSecurityGroups client vpcID (World.init s)).2.trace =
      .DescribeSecurityGroups (vpcIdFilter vpcID) (.listed groups) ::
        (groups.filter (fun sg => decide (sg.GroupName ≠ some "default"))).map
          (fun sg => .DeleteSecurityGroup sg.GroupId none) := by
    rw [ht, hrecs, hfilter]
    simp [delEvent, Function.comp_def]
  refine ⟨ho, htrace, ?_⟩
  intro id err hmem
  rw [htrace] at hmem
  simp only [List.mem_cons, List.mem_map, List.mem_filter, decide_eq_true_eq] at hmem
  rcases hmem with hmem | ⟨sg, ⟨hsg, hne⟩, he⟩
  · cases hmem
  · simp only [Event.DeleteSecurityGroup.injEq] at he
    exact ⟨sg, hsg, he.1, hne⟩

/-- C6. For every listed sequence of network ACLs that all carry a default
flag: when every delete call of the run succeeds, `deleteNetworkACLs` returns a
nil error and the calls it makes are the listing followed by one delete call
for each ACL whose default flag is false, in listing order and with that
ACL's id. -/
theorem deleteNetworkACLs_deletes_exactly_the_non_default_acls {σ : Type}
    (client : EC2API σ) (vpcID : String) (s : σ) (acls : List NetworkAcl)
    (hlist : (client.DescribeNetworkAcls s (vpcIdFilter vpcID)).1 = .listed acls)
    (hflag : ∀ acl ∈ acls, acl.IsDefault ≠ none)
    (hdel : ∀ id err, Event.DeleteNetworkAcl id err ∈
      (deleteNetworkACLs client vpcID (World.init s)).2.trace → err = none) :
    (deleteNetworkACLs client vpcID (World.init s)).1 = .ret none ∧
    (deleteNetworkACLs client vpcID (World.init s)).2.trace =
      .DescribeNetworkAcls (vpcIdFilter vpcID) (.listed acls) ::
        (acls.filter (fun acl => decide (acl.IsDefault = some false))).map
          (fun acl => .DeleteNetworkAcl acl.NetworkAclId none) := by
  obtain ⟨recs, ht, hr⟩ := deleteNetworkACLs_listed_run client vpcID s acls hlist
  have hok : ∀ r ∈ recs, r.2 = none := by
    intro r hrm
    refine hdel r.1 r.2 ?_
    rw [ht]
    exact List.mem_cons_of_mem _ (List.mem_map.mpr ⟨r, hrm, rfl⟩)
  obtain ⟨ho, hrecs⟩ := hr.all_succeed hok hflag
  have hfilter : acls.filter (fun acl => skipNetworkAcl acl == some false) =
      acls.filter (fun acl => decide (acl.IsDefault = some false)) := by
    apply List.filter_congr
    intro acl _
    cases hd : acl.IsDefault with
    | none => simp [skipNetworkAcl, hd]
    | some b => cases b <;> simp [skipNetworkAcl, hd]
  refine ⟨ho, ?_⟩
  rw [ht, hrecs, hfilter]
  simp [delEvent, Function.comp_def]

/-- C8. For every listed sequence of subnets: when every delete call of the run
succeeds, `deleteSubnets` returns a nil error and the calls it makes are the
listing followed by exactly one delete call per listed subnet, in listing
order and with that subnet's id. -/
theorem deleteSubnets_deletes_every_listed_subnet {σ : Type}
    (client : EC2API σ) (vpcID : String) (s : σ) (subnets : List Subnet)
    (hlist : (client.DescribeSubnets s (vpcIdFilter vpcID)).1 = .listed subnets)
    (hdel : ∀ id err, Event.DeleteSubnet id err ∈
      (deleteSubnets client vpcID (World.init s)).2.trace → err = none) :
    (deleteSubnets client vpcID (World.init s)).1 = .ret none ∧
    (deleteSubnets client vpcID (World.init s)).2.trace =
      .DescribeSubnets (vpcIdFilter vpcID) (.listed subnets) ::
        subnets.map (fun subnet => .DeleteSubnet subnet.SubnetId none) := by
  obtain ⟨recs, ht, hr⟩ := deleteSubnets_listed_run client vpcID s subnets hlist
  have hok : ∀ r ∈ recs, r.2 = none := by
    intro r hrm
    refine hdel r.1 r.2 ?_
    rw [ht]
    exact List.mem_cons_of_mem _ (List.mem_map.mpr ⟨r, hrm, rfl⟩)
  obtain ⟨ho, hrecs⟩ := hr.all_succeed hok (by intro x _; simp [skipSubnet])
  refine ⟨ho, ?_⟩
  rw [ht, hrecs]
  simp [delEvent, skipSubnet, Function.comp_def]

/-- C4, worked example: of the sample VPC's route tables only `rtb-2`, listed
after the main table `rtb-1`, is deleted. -/
theorem deleteRouteTables_deletes_exactly_the_non_main_tables_witness :
    (deleteRouteTables sampleVpc.client "vpc-12345" (World.init 0)).1 = .ret none ∧
    (deleteRouteTables sampleVpc.client "vpc-12345" (World.init 0)).2.trace =
      .DescribeRouteTables (vpcIdFilter "vpc-12345") (.listed sampleVpc.routeTables) ::
        (sampleVpc.routeTables.filter (fun rt => !isMainRouteTable rt)).map
          (fun rt => .DeleteRouteTable rt.RouteTableId none) :=
  deleteRouteTables_deletes_exactly_the_non_main_tables sampleVpc.client "vpc-12345" 0
    sampleVpc.routeTables rfl (by
      have ht : (deleteRouteTables sampleVpc.client "vpc-12345" (World.init 0)).2.trace =
          [.DescribeRouteTables (vpcIdFilter "vpc-12345") (.listed sampleVpc.routeTables),
            .DeleteRouteTable (some "rtb-2") none] := by decide
      intro id err h
      rw [ht] at h
      simp at h
      exact h.2)

/-- C5, worked example: of the sample VPC's groups `default`, `custom` and
`Default`, the last two are deleted. -/
theorem deleteSecurityGroups_deletes_exactly_the_non_default_groups_witness :
    (deleteSecurityGroups sampleVpc.client "vpc-12345" (World.init 0)).2.trace =
      [.DescribeSecurityGroups (vpcIdFilter "vpc-12345") (.listed sampleVpc.groups),
        .DeleteSecurityGroup (some "sg-67890") none,
        .DeleteSecurityGroup (some "sg-24680") none] :=
  (deleteSecurityGroups_deletes_exactly_the_non_default_groups sampleVpc.client "vpc-12345" 0
    sampleVpc.groups rfl (by decide) (by
      have ht : (deleteSecurityGroups sampleVpc.client "vpc-12345" (World.init 0)).2.trace =
          [.DescribeSecurityGroups (vpcIdFilter "vpc-12345") (.listed sampleVpc.groups),
            .DeleteSecurityGroup (some "sg-67890") none,
            .DeleteSecurityGroup (some "sg-24680") none] := by decide
      intro id err h
      rw [ht] at h
      simp at h
      rcases h with h | h <;> exact h.2)).2.1

/-- C6, worked example: of the sample VPC's ACLs only the non-default
`acl-67890` is deleted. -/
theorem deleteNetworkACLs_deletes_exactly_the_non_default_acls_witness :
    (deleteNetworkACLs sampleVpc.client "vpc-12345" (World.init 0)).1 = .ret none ∧
    (deleteNetworkACLs sampleVpc.client "vpc-12345" (World.init 0)).2.trace =
      .DescribeNetworkAcls (vpcIdFilter "vpc-12345") (.listed sampleVpc.acls) ::
        (sampleVpc.acls.filter (fun acl => decide (acl.IsDefault = some false))).map
          (fun acl => .DeleteNetworkAcl acl.NetworkAclId none) :=
  deleteNetworkACLs_deletes_exactly_the_non_default_acls sampleVpc.client "vpc-12345" 0
    sampleVpc.acls rfl (by decide) (by
      have ht : (deleteNetworkACLs sampleVpc.client "vpc-12345" (World.init 0)).2.trace =
          [.DescribeNetworkAcls (vpcIdFilter "vpc-12345") (.listed sampleVpc.acls),
            .DeleteNetworkAcl (some "acl-67890") none] := by decide
      intro id err h
      rw [ht] at h
      simp at h
      exact h.2)

/-- C8, worked example: both subnets of the sample VPC are deleted, in order. -/
theorem deleteSubnets_deletes_every_listed_subnet_witness :
    (deleteSubnets sampleVpc.client "vpc-12345" (World.init 0)).1 = .ret none ∧
    (deleteSubnets sampleVpc.client "vpc-12345" (World.init 0)).2.trace =
      .DescribeSubnets (vpcIdFilter "vpc-12345") (.listed sampleVpc.subnets) ::
        sampleVpc.subnets.map (fun subnet => .DeleteSubnet subnet.SubnetId none) :=
  deleteSubnets_deletes_every_listed_subnet sampleVpc.client "vpc-12345" 0
    sampleVpc.subnets rfl (by
      have ht : (deleteSubnets sampleVpc.client "vpc-12345" (World.init 0)).2.trace =
          [.DescribeSubnets (vpcIdFilter "vpc-12345") (.listed sampleVpc.subnets),
            .DeleteSubnet (some "subnet-1") none, .DeleteSubnet (some "subnet-2") none] := by
        decide
      intro id err h
      rw [ht] at h
      simp at h
      rcases h with h | h <;> exact h.2)

theorem LoopRun.fail_fast_events {α : Type} {skip : α → Option Bool}
    {idOf : α → Option String} {failText : String} {xs : List α}
    {recs : List (Option String × Option GoError)} {o : Outcome (Option GoError)}
    {mk : Option String → Option GoError → Event}
    (hinj : ∀ a b c d, mk a b = mk c d → a = c ∧ b = d)
    (h : LoopRun skip idOf failText xs recs o) (i : Nat) (id : Option String) (e : GoError)
    (hi : (recs.map (delEvent mk))[i]? = some (mk id (some e))) :
    o = .ret (some (Errorf (failText ++ awsToString id) e)) ∧
      recs.map (delEvent mk) =
        ((xs.filter (fun x => skip x == some false)).take i).map (fun x => mk (idOf x) none) ++
          [mk id (some e)] ∧
      ((xs.filter (fun x => skip x == some false)).map idOf)[i]? = some id := by
  have hrec : recs[i]? = some (id, some e) := by
    rw [List.getElem?_map] at hi
    cases hr : recs[i]? with
    | none => simp [hr] at hi
    | some r =>
      simp only [hr, Option.map_some', Option.some.injEq, delEvent] at hi
      obtain ⟨h1, h2⟩ := hinj _ _ _ _ hi
      obtain ⟨a, b⟩ := r
      simp only at h1 h2
      rw [h1, h2]
  obtain ⟨h1, h2, h3⟩ := h.fail_fast i id e hrec
  refine ⟨h3, ?_, h2⟩
  conv_lhs => rw [h1]
  simp [delEvent, Function.comp_def]

theorem filter_skipNetworkAcl (acls : List NetworkAcl) :
    acls.filter (fun acl => skipNetworkAcl acl == some false) =
      acls.filter (fun acl => decide (acl.IsDefault = some false)) := by
  apply List.filter_congr
  intro acl _
  cases hd : acl.IsDefault with
  | none => simp [skipNetworkAcl, hd]
  | some b => cases b <;> simp [skipNetworkAcl, hd]

theorem filter_skipSecurityGroup (groups : List SecurityGroup) :
    groups.filter (fun sg => skipSecurityGroup sg == some false) =
      groups.filter
        (fun sg => decide (sg.GroupName ≠ none ∧ sg.GroupName ≠ some "default")) := by
  apply List.filter_congr
  intro sg _
  cases hn : sg.GroupName with
  | none => simp [skipSecurityGroup, hn]
  | some name => by_cases hd : name = "default" <;> simp [skipSecurityGroup, hn, hd]

theorem filter_skipRouteTable (rts : List RouteTable) :
    rts.filter (fun rt => skipRouteTable rt == some false) =
      rts.filter (fun rt => !isMainRouteTable rt) := by
  apply List.filter_congr
  intro rt _
  cases hm : isMainRouteTable rt <;> simp [skipRouteTable, hm]

theorem filter_skipSubnet (subnets : List Subnet) :
    subnets.filter (fun subnet => skipSubnet subnet == some false) = subnets := by
  simp [skipSubnet]

/-- C7. For each of `deleteSubnets`, `deleteRouteTables`, `deleteNetworkACLs` and
`deleteSecurityGroups` and every listed sequence: if the delete call number `i`
of the run (the call at place `i + 1` of the trace, after the listing) failed
with error `e`, then the cleaner returns an error, built from `e` and the id of
the failing call; the calls made are the listing, the successful delete calls
for the deletion candidates at positions `0..i-1` in listing order, and the
failing call, which carries the id of the candidate at position `i`. Nothing is
called after the failure: no later resource is tried and nothing is undone.
The deletion candidates are all subnets, the route tables that
`isMainRouteTable` rejects, the ACLs whose default flag is false, and the
groups that have a name other than `default`. -/
theorem cleaners_stop_at_the_first_failed_delete {σ : Type} (client : EC2API σ)
    (vpcID : String) (s : σ) (i : Nat) (id : Option String) (e : GoError) :
    (∀ subnets : List Subnet,
      (client.DescribeSubnets s (vpcIdFilter vpcID)).1 = .listed subnets →
      (deleteSubnets client vpcID (World.init s)).2.trace[i + 1]? =
        some (.DeleteSubnet id (some e)) →
      (deleteSubnets client vpcID (World.init s)).1 =
        .ret (some (Errorf ("failed to delete subnet " ++ awsToString id) e)) ∧
      (deleteSubnets client vpcID (World.init s)).2.trace =
        .DescribeSubnets (vpcIdFilter vpcID) (.listed subnets) ::
          ((subnets.take i).map (fun subnet => .DeleteSubnet subnet.SubnetId none) ++
            [.DeleteSubnet id (some e)]) ∧
      (subnets.map Subnet.SubnetId)[i]? = some id) ∧
    (∀ rts : List RouteTable,
      (client.DescribeRouteTables s (vpcIdFilter vpcID)).1 = .listed rts →
      (deleteRouteTables client vpcID (World.init s)).2.trace[i + 1]? =
        some (.DeleteRouteTable id (some e)) →
      (deleteRouteTables client vpcID (World.init s)).1 =
        .ret (some (Errorf ("failed to delete route table " ++ awsToString id) e)) ∧
      (deleteRouteTables client vpcID (World.init s)).2.trace =
        .DescribeRouteTables (vpcIdFilter vpcID) (.listed rts) ::
          (((rts.filter (fun rt => !isMainRouteTable rt)).take i).map
              (fun rt => .DeleteRouteTable rt.RouteTableId none) ++
            [.DeleteRouteTable id (some e)]) ∧
      ((rts.filter (fun rt => !isMainRouteTable rt)).map RouteTable.RouteTableId)[i]? =
        some id) ∧
    (∀ acls : List NetworkAcl,
      (client.DescribeNetworkAcls s (vpcIdFilter vpcID)).1 = .listed acls →
      (deleteNetworkACLs client vpcID (World.init s)).2.trace[i + 1]? =
        some (.DeleteNetworkAcl id (some e)) →
      (deleteNetworkACLs client vpcID (World.init s)).1 =
        .ret (some (Errorf ("failed to delete network ACL " ++ awsToString id) e)) ∧
      (deleteNetworkACLs client vpcID (World.init s)).2.trace =
        .DescribeNetworkAcls (vpcIdFilter vpcID) (.listed acls) ::
          (((acls.filter (fun acl => decide (acl.IsDefault = some false))).take i).map
              (fun acl => .DeleteNetworkAcl acl.NetworkAclId none) ++
            [.DeleteNetworkAcl id (some e)]) ∧
      ((acls.filter (fun acl => decide (acl.IsDefault = some false))).map
        NetworkAcl.NetworkAclId)[i]? = some id) ∧
    (∀ groups : List SecurityGroup,
      (client.DescribeSecurityGroups s (vpcIdFilter vpcID)).1 = .listed groups →
      (deleteSecurityGroups client vpcID (World.init s)).2.trace[i + 1]? =
        some (.DeleteSecurityGroup id (some e)) →
      (deleteSecurityGroups client vpcID (World.init s)).1 =
        .ret (some (Errorf ("failed to delete security group " ++ awsToString id) e)) ∧
      (deleteSecurityGroups client vpcID (World.init s)).2.trace =
        .DescribeSecurityGroups (vpcIdFilter vpcID) (.listed groups) ::
          (((groups.filter (fun sg =>
              decide (sg.GroupName ≠ none ∧ sg.GroupName ≠ some "default"))).take i).map
              (fun sg => .DeleteSecurityGroup sg.GroupId none) ++
            [.DeleteSecurityGroup id (some e)]) ∧
      ((groups.filter (fun sg =>
          decide (sg.GroupName ≠ none ∧ sg.GroupName ≠ some "default"))).map
        SecurityGroup.GroupId)[i]? = some id) := by
  refine ⟨fun xs hlist hfail => ?_, fun xs hlist hfail => ?_, fun xs hlist hfail => ?_,
    fun xs hlist hfail => ?_⟩
  · obtain ⟨recs, ht, hr⟩ := deleteSubnets_listed_run client vpcID s xs hlist
    rw [ht, List.getElem?_cons_succ] at hfail
    obtain ⟨h1, h2, h3⟩ := hr.fail_fast_events
      (by intro a b c d h; simpa using h) i id e hfail
    rw [filter_skipSubnet] at h2 h3
    exact ⟨h1, by rw [ht, h2], h3⟩
  · obtain ⟨recs, ht, hr⟩ := deleteRouteTables_listed_run client vpcID s xs hlist
    rw [ht, List.getElem?_cons_succ] at hfail
    obtain ⟨h1, h2, h3⟩ := hr.fail_fast_events
      (by intro a b c d h; simpa using h) i id e hfail
    rw [filter_skipRouteTable] at h2 h3
    exact ⟨h1, by rw [ht, h2], h3⟩
  · obtain ⟨recs, ht, hr⟩ := deleteNetworkACLs_listed_run client vpcID s xs hlist
    rw [ht, List.getElem?_cons_succ] at hfail
    obtain ⟨h1, h2, h3⟩ := hr.fail_fast_events
      (by intro a b c d h; simpa using h) i id e hfail
    rw [filter_skipNetworkAcl] at h2 h3
    exact ⟨h1, by rw [ht, h2], h3⟩
  · obtain ⟨recs, ht, hr⟩ := deleteSecurityGroups_listed_run client vpcID s xs hlist
    rw [ht, List.getElem?_cons_succ] at hfail
    obtain ⟨h1, h2, h3⟩ := hr.fail_fast_events
      (by intro a b c d h; simpa using h) i id e hfail
    rw [filter_skipSecurityGroup] at h2 h3
    exact ⟨h1, by rw [ht, h2], h3⟩

/-- C7, worked example: a client that fails to delete `subnet-2`, `rtb-2`,
`acl-67890` and `sg-24680` makes each of the four cleaners return an error
naming that resource. -/
theorem cleaners_stop_at_the_first_failed_delete_witness :
    (deleteSubnets deleteFailureVpc.client "vpc-12345" (World.init 0)).1 =
        .ret (some (Errorf ("failed to delete subnet " ++ awsToString (some "subnet-2"))
          (.errorString "DependencyViolation"))) ∧
      (deleteRouteTables deleteFailureVpc.client "vpc-12345" (World.init 0)).1 =
        .ret (some (Errorf ("failed to delete route table " ++ awsToString (some "rtb-2"))
          (.errorString "DependencyViolation"))) ∧
      (deleteNetworkACLs deleteFailureVpc.client "vpc-12345" (World.init 0)).1 =
        .ret (some (Errorf ("failed to delete network ACL " ++ awsToString (some "acl-67890"))
          (.errorString "DependencyViolation"))) ∧
      (deleteSecurityGroups deleteFailureVpc.client "vpc-12345" (World.init 0)).1 =
        .ret (some (Errorf ("failed to delete security group " ++ awsToString (some "sg-24680"))
          (.errorString "DependencyViolation"))) :=
  ⟨((cleaners_stop_at_the_first_failed_delete deleteFailureVpc.client "vpc-12345" 0 1
      (some "subnet-2") (.errorString "DependencyViolation")).1
      deleteFailureVpc.subnets rfl (by decide)).1,
    ((cleaners_stop_at_the_first_failed_delete deleteFailureVpc.client "vpc-12345" 0 0
      (some "rtb-2") (.errorString "DependencyViolation")).2.1
      deleteFailureVpc.routeTables rfl (by decide)).1,
    ((cleaners_stop_at_the_first_failed_delete deleteFailureVpc.client "vpc-12345" 0 0
      (some "acl-67890") (.errorString "DependencyViolation")).2.2.1
      deleteFailureVpc.acls rfl (by decide)).1,
    ((cleaners_stop_at_the_first_failed_delete deleteFailureVpc.client "vpc-12345" 0 1
      (some "sg-24680") (.errorString "DependencyViolation")).2.2.2
      deleteFailureVpc.groups rfl (by decide)).1⟩

theorem IgwLoopRun.all_succeed_pairs {vpcID : String} {xs : List InternetGateway}
    {evs : List Event} {o : Outcome (Option GoError)} (h : IgwLoopRun vpcID xs evs o)
    (hok : ∀ ev ∈ evs, ev.succeeded = true) :
    o = .ret none ∧ evs = xs.flatMap (detachThenDelete vpcID) := by
  simpa [detachThenDelete] using h.igw_all_succeed hok

theorem IgwLoopRun.detach_failed {vpcID : String} {xs : List InternetGateway}
    {evs : List Event} {o : Outcome (Option GoError)} (h : IgwLoopRun vpcID xs evs o)
    (id vp : Option String) (e : GoError)
    (hmem : Event.DetachInternetGateway id vp (some e) ∈ evs) :
    ∃ k, (xs.map InternetGateway.InternetGatewayId)[k]? = some id ∧
      evs = (xs.take k).flatMap (detachThenDelete vpcID) ++
        [.DetachInternetGateway id (some vpcID) (some e)] ∧
      o = .ret (some (Errorf ("failed to detach internet gateway " ++ awsToString id) e)) := by
  induction h with
  | done => simp at hmem
  | detachFailed igw rest e1 =>
    simp at hmem
    obtain ⟨rfl, rfl, rfl⟩ := hmem
    exact ⟨0, by simp, by simp, rfl⟩
  | deleteFailed igw rest e1 => simp at hmem
  | deleted igw rest evs o _ ih =>
    simp at hmem
    obtain ⟨k, h1, h2, h3⟩ := ih hmem
    refine ⟨k + 1, by simpa using h1, ?_, h3⟩
    rw [h2]
    simp [detachThenDelete]

theorem IgwLoopRun.detach_followed {vpcID : String} {xs : List InternetGateway}
    {evs : List Event} {o : Outcome (Option GoError)} (h : IgwLoopRun vpcID xs evs o) :
    ∀ (pre post : List Event) (id vp : Option String),
      evs = pre ++ Event.DetachInternetGateway id vp none :: post →
      vp = some vpcID ∧ ∃ err rest, post = Event.DeleteInternetGateway id err :: rest := by
  induction h with
  | done => intro pre post id vp hs; simp at hs
  | detachFailed igw rest e1 =>
    intro pre post id vp hs
    cases pre with
    | nil => simp at hs
    | cons p pre => simp at hs
  | deleteFailed igw rest e1 =>
    intro pre post id vp hs
    cases pre with
    | nil =>
      simp at hs
      obtain ⟨⟨rfl, rfl⟩, rfl⟩ := hs
      exact ⟨rfl, _, _, rfl⟩
    | cons p pre =>
      cases pre with
      | nil => simp at hs
      | cons q pre => simp at hs
  | deleted igw rest evs o _ ih =>
    intro pre post id vp hs
    cases pre with
    | nil =>
      simp at hs
      obtain ⟨⟨rfl, rfl⟩, rfl⟩ := hs
      exact ⟨rfl, _, _, rfl⟩
    | cons p pre =>
      cases pre with
      | nil => simp at hs
      | cons q pre =>
        simp only [List.cons_append, List.cons.injEq] at hs
        exact ih pre post id vp hs.2.2

/-- C9. For every listed sequence of internet gateways: (1) when every call of
the run succeeds, `deleteInternetGateways` returns a nil error and the calls
after the listing are, gateway by gateway in listing order, a detach call
carrying the gateway id and the VPC id followed at once by a delete call for
the same id; (2) in every run, each detach call that succeeded carries the
VPC id and is followed at once by a delete call for the same gateway id;
(3) if a detach call failed with `e`, it is the last call of the run (no
delete call for that gateway, no call for a later one), the gateways before
it were each detached and deleted, and an error built from `e` and the
gateway id is returned. -/
theorem deleteInternetGateways_detaches_then_deletes {σ : Type} (client : EC2API σ)
    (vpcID : String) (s : σ) (gateways : List InternetGateway)
    (hlist : (client.DescribeInternetGateways s (attachmentVpcIdFilter vpcID)).1 =
      .listed gateways) :
    ((∀ ev ∈ (deleteInternetGateways client vpcID (World.init s)).2.trace,
        ev.succeeded = true) →
      (deleteInternetGateways client vpcID (World.init s)).1 = .ret none ∧
      (deleteInternetGateways client vpcID (World.init s)).2.trace =
        .DescribeInternetGateways (attachmentVpcIdFilter vpcID) (.listed gateways) ::
          gateways.flatMap (detachThenDelete vpcID)) ∧
    (∀ (pre post : List Event) (id vp : Option String),
      (deleteInternetGateways client vpcID (World.init s)).2.trace =
        pre ++ .DetachInternetGateway id vp none :: post →
      vp = some vpcID ∧ ∃ err rest, post = .DeleteInternetGateway id err :: rest) ∧
    (∀ (id vp : Option String) (e : GoError),
      .DetachInternetGateway id vp (some e) ∈
        (deleteInternetGateways client vpcID (World.init s)).2.trace →
      ∃ k, (gateways.map InternetGateway.InternetGatewayId)[k]? = some id ∧
        (deleteInternetGateways client vpcID (World.init s)).2.trace =
          .DescribeInternetGateways (attachmentVpcIdFilter vpcID) (.listed gateways) ::
            ((gateways.take k).flatMap (detachThenDelete vpcID) ++
              [.DetachInternetGateway id (some vpcID) (some e)]) ∧
        (deleteInternetGateways client vpcID (World.init s)).1 =
          .ret (some (Errorf ("failed to detach internet gateway " ++ awsToString id) e))) := by
  obtain ⟨evs, ht, hr⟩ := deleteInternetGateways_listed_run client vpcID s gateways hlist
  refine ⟨fun hok => ?_, fun pre post id vp hs => ?_, fun id vp e hmem => ?_⟩
  · obtain ⟨h1, h2⟩ := hr.all_succeed_pairs (fun ev hev => hok ev (by rw [ht]; simp [hev]))
    exact ⟨h1, by rw [ht, h2]⟩
  · rw [ht] at hs
    cases pre with
    | nil => simp at hs
    | cons p pre =>
      simp only [List.cons_append, List.cons.injEq] at hs
      exact hr.detach_followed pre post id vp hs.2
  · rw [ht] at hmem
    simp only [List.mem_cons] at hmem
    rcases hmem with hmem | hmem
    · cases hmem
    · obtain ⟨k, h1, h2, h3⟩ := hr.detach_failed id vp e hmem
      exact ⟨k, h1, by rw [ht, h2], h3⟩

/-- C9, worked example: the sample VPC (one gateway, no failure) and a VPC
with two gateways where detaching the second one fails. -/
theorem deleteInternetGateways_detaches_then_deletes_witness :
    ((deleteInternetGateways sampleVpc.client "vpc-12345" (World.init 0)).1 = .ret none ∧
      (deleteInternetGateways sampleVpc.client "vpc-12345" (World.init 0)).2.trace =
        .DescribeInternetGateways (attachmentVpcIdFilter "vpc-12345")
          (.listed sampleVpc.gateways) ::
          sampleVpc.gateways.flatMap (detachThenDelete "vpc-12345")) ∧
    ∃ k, (detachFailureVpc.gateways.map InternetGateway.InternetGatewayId)[k]? =
        some (some "igw-2") ∧
      (deleteInternetGateways detachFailureVpc.client "vpc-12345" (World.init 0)).2.trace =
        .DescribeInternetGateways (attachmentVpcIdFilter "vpc-12345")
          (.listed detachFailureVpc.gateways) ::
          ((detachFailureVpc.gateways.take k).flatMap (detachThenDelete "vpc-12345") ++
            [.DetachInternetGateway (some "igw-2") (some "vpc-12345")
              (some (.errorString "Gateway.NotAttached"))]) ∧
      (deleteInternetGateways detachFailureVpc.client "vpc-12345" (World.init 0)).1 =
        .ret (some (Errorf ("failed to detach internet gateway " ++ awsToString (some "igw-2"))
          (.errorString "Gateway.NotAttached"))) :=
  ⟨(deleteInternetGateways_detaches_then_deletes sampleVpc.client "vpc-12345" 0
      sampleVpc.gateways rfl).1 (by decide),
    (deleteInternetGateways_detaches_then_deletes detachFailureVpc.client "vpc-12345" 0
      detachFailureVpc.gateways rfl).2.2 (some "igw-2") (some "vpc-12345")
      (.errorString "Gateway.NotAttached") (by decide)⟩

/-- C10 (as amended). When the listing call of a cleaner fails with error `e`,
the cleaner makes no other call (the listing is the whole trace) and returns
an error at once: `deleteSubnets`, `deleteInternetGateways`,
`deleteNetworkACLs` and `deleteSecurityGroups` return `e` itself, while
`deleteRouteTables` returns `e` wrapped in an error whose text is
`failed to describe route tables: ` followed by the text of `e`. -/
theorem cleaners_fail_at_once_on_a_failed_listing {σ : Type} (client : EC2API σ)
    (vpcID : String) (s : σ) (e : GoError) :
    ((client.DescribeSubnets s (vpcIdFilter vpcID)).1 = .failed e →
      (deleteSubnets client vpcID (World.init s)).1 = .ret (some e) ∧
      (deleteSubnets client vpcID (World.init s)).2.trace =
        [.DescribeSubnets (vpcIdFilter vpcID) (.failed e)]) ∧
    ((client.DescribeInternetGateways s (attachmentVpcIdFilter vpcID)).1 = .failed e →
      (deleteInternetGateways client vpcID (World.init s)).1 = .ret (some e) ∧
      (deleteInternetGateways client vpcID (World.init s)).2.trace =
        [.DescribeInternetGateways (attachmentVpcIdFilter vpcID) (.failed e)]) ∧
    ((client.DescribeNetworkAcls s (vpcIdFilter vpcID)).1 = .failed e →
      (deleteNetworkACLs client vpcID (World.init s)).1 = .ret (some e) ∧
      (deleteNetworkACLs client vpcID (World.init s)).2.trace =
        [.DescribeNetworkAcls (vpcIdFilter vpcID) (.failed e)]) ∧
    ((client.DescribeSecurityGroups s (vpcIdFilter vpcID)).1 = .failed e →
      (deleteSecurityGroups client vpcID (World.init s)).1 = .ret (some e) ∧
      (deleteSecurityGroups client vpcID (World.init s)).2.trace =
        [.DescribeSecurityGroups (vpcIdFilter vpcID) (.failed e)]) ∧
    ((client.DescribeRouteTables s (vpcIdFilter vpcID)).1 = .failed e →
      (deleteRouteTables client vpcID (World.init s)).1 =
        .ret (some (.wrapError ("failed to describe route tables: " ++ e.Error) e)) ∧
      (deleteRouteTables client vpcID (World.init s)).2.trace =
        [.DescribeRouteTables (vpcIdFilter vpcID) (.failed e)]) := by
  refine ⟨fun h => ?_, fun h => ?_, fun h => ?_, fun h => ?_, fun h => ?_⟩
  · simp [deleteSubnets, callDescribeSubnets, World.init, h]
  · simp [deleteInternetGateways, callDescribeInternetGateways, World.init, h]
  · simp [deleteNetworkACLs, callDescribeNetworkAcls, World.init, h]
  · simp [deleteSecurityGroups, callDescribeSecurityGroups, World.init, h]
  · simp [deleteRouteTables, callDescribeRouteTables, World.init, h, Errorf]

/-- C10, worked example: every listing of the client fails with
`RequestLimitExceeded`; four cleaners return that error, `deleteRouteTables`
returns it wrapped. -/
theorem cleaners_fail_at_once_on_a_failed_listing_witness :
    (deleteSubnets listFailureVpc.client "vpc-12345" (World.init 0)).1 =
        .ret (some (.errorString "RequestLimitExceeded")) ∧
      (deleteInternetGateways listFailureVpc.client "vpc-12345" (World.init 0)).1 =
        .ret (some (.errorString "RequestLimitExceeded")) ∧
      (deleteNetworkACLs listFailureVpc.client "vpc-12345" (World.init 0)).1 =
        .ret (some (.errorString "RequestLimitExceeded")) ∧
      (deleteSecurityGroups listFailureVpc.client "vpc-12345" (World.init 0)).1 =
        .ret (some (.errorString "RequestLimitExceeded")) ∧
      (deleteRouteTables listFailureVpc.client "vpc-12345" (World.init 0)).1 =
        .ret (some (.wrapError
          ("failed to describe route tables: " ++
            (GoError.errorString "RequestLimitExceeded").Error)
          (.errorString "RequestLimitExceeded"))) :=
  ⟨((cleaners_fail_at_once_on_a_failed_listing listFailureVpc.client "vpc-12345" 0
      (.errorString "RequestLimitExceeded")).1 rfl).1,
    ((cleaners_fail_at_once_on_a_failed_listing listFailureVpc.client "vpc-12345" 0
      (.errorString "RequestLimitExceeded")).2.1 rfl).1,
    ((cleaners_fail_at_once_on_a_failed_listing listFailureVpc.client "vpc-12345" 0
      (.errorString "RequestLimitExceeded")).2.2.1 rfl).1,
    ((cleaners_fail_at_once_on_a_failed_listing listFailureVpc.client "vpc-12345" 0
      (.errorString "RequestLimitExceeded")).2.2.2.1 rfl).1,
    ((cleaners_fail_at_once_on_a_failed_listing listFailureVpc.client "vpc-12345" 0
      (.errorString "RequestLimitExceeded")).2.2.2.2 rfl).1⟩

/-- C10 as stated fails for `deleteRouteTables`: when its listing call fails
with `RequestLimitExceeded`, the error it returns is not that error but a new
one that wraps it. -/
theorem deleteRouteTables_does_not_return_the_listing_error :
    (listFailureVpc.client.DescribeRouteTables 0 (vpcIdFilter "vpc-12345")).1 =
        .failed (.errorString "RequestLimitExceeded") ∧
      (deleteRouteTables listFailureVpc.client "vpc-12345" (World.init 0)).1 =
        .ret (some (.wrapError "failed to describe route tables: RequestLimitExceeded"
          (.errorString "RequestLimitExceeded"))) ∧
      (deleteRouteTables listFailureVpc.client "vpc-12345" (World.init 0)).1 ≠
        .ret (some (.errorString "RequestLimitExceeded")) := by
  decide

theorem Block.of_nil (k : Nat) : Block k [] := by
  constructor <;> simp

theorem Segment.block {k : Nat} {evs : List Event} {o : Outcome (Option GoError)}
    (h : Segment k evs o) : Block k evs := by
  refine ⟨h.rank_eq, ?_⟩
  intro a ha b hb hla hlb
  have hl := h.listing
  have hlen : (evs.filter Event.isListing).length = 1 := by
    have := congrArg List.length hl
    simpa using this
  obtain ⟨x, hx⟩ := List.length_eq_one.mp hlen
  have ha1 : a ∈ evs.filter Event.isListing := List.mem_filter.mpr ⟨ha, hla⟩
  have hb1 : b ∈ evs.filter Event.isListing := List.mem_filter.mpr ⟨hb, hlb⟩
  rw [hx] at ha1 hb1
  simp at ha1 hb1
  rw [ha1, hb1]

theorem cleanup_blocks {vpcID : String} {evs : List Event} {o : Outcome (Option GoError)}
    (h : SeqRun (cleanupSteps vpcID) evs o) :
    ∃ e0 e1 e2 e3 e4, evs = e0 ++ (e1 ++ (e2 ++ (e3 ++ e4))) ∧
      Block 0 e0 ∧ Block 1 e1 ∧ Block 2 e2 ∧ Block 3 e3 ∧ Block 4 e4 := by
  unfold cleanupSteps at h
  cases h with
  | stop _ _ _ _ h1 _ =>
    exact ⟨evs, [], [], [], [], by simp, h1.igwSegment.block, .of_nil _, .of_nil _, .of_nil _, .of_nil _⟩
  | next _ _ e0 r0 _ h1 hr =>
  cases hr with
  | stop _ _ _ _ h2 _ =>
    exact ⟨e0, r0, [], [], [], by simp, h1.igwSegment.block, h2.subnetSegment.block, .of_nil _,
      .of_nil _, .of_nil _⟩
  | next _ _ e1 r1 _ h2 hr =>
  cases hr with
  | stop _ _ _ _ h3 _ =>
    exact ⟨e0, e1, r1, [], [], by simp, h1.igwSegment.block, h2.subnetSegment.block,
      h3.routeTableSegment.block, .of_nil _, .of_nil _⟩
  | next _ _ e2 r2 _ h3 hr =>
  cases hr with
  | stop _ _ _ _ h4 _ =>
    exact ⟨e0, e1, e2, r2, [], by simp, h1.igwSegment.block, h2.subnetSegment.block,
      h3.routeTableSegment.block, h4.aclSegment.block, .of_nil _⟩
  | next _ _ e3 r3 _ h4 hr =>
  cases hr with
  | stop _ _ _ _ h5 _ =>
    exact ⟨e0, e1, e2, e3, r3, by simp, h1.igwSegment.block, h2.subnetSegment.block,
      h3.routeTableSegment.block, h4.aclSegment.block, h5.groupSegment.block⟩
  | next _ _ e4 r4 _ h5 hr =>
  cases hr
  exact ⟨e0, e1, e2, e3, e4, by simp, h1.igwSegment.block, h2.subnetSegment.block,
    h3.routeTableSegment.block, h4.aclSegment.block, h5.groupSegment.block⟩

/-- In a run of `cleanupVPCResources` two listing calls of the same kind are
the same call. -/
theorem cleanup_listing_unique {vpcID : String} {evs : List Event}
    {o : Outcome (Option GoError)} (h : SeqRun (cleanupSteps vpcID) evs o)
    (a b : Event) (ha : a ∈ evs) (hb : b ∈ evs) (hla : a.isListing = true)
    (hlb : b.isListing = true) (hrank : a.rank = b.rank) : a = b := by
  obtain ⟨e0, e1, e2, e3, e4, rfl, b0, b1, b2, b3, b4⟩ := cleanup_blocks h
  simp only [List.mem_append] at ha hb
  rcases ha with ha | ha | ha | ha | ha <;> rcases hb with hb | hb | hb | hb | hb <;>
    first
    | exact b0.2 a ha b hb hla hlb
    | exact b1.2 a ha b hb hla hlb
    | exact b2.2 a ha b hb hla hlb
    | exact b3.2 a ha b hb hla hlb
    | exact b4.2 a ha b hb hla hlb
    | (exfalso
       first
       | (have h1 := b0.1 a ha; first
            | (have h2 := b1.1 b hb; omega) | (have h2 := b2.1 b hb; omega)
            | (have h2 := b3.1 b hb; omega) | (have h2 := b4.1 b hb; omega))
       | (have h1 := b1.1 a ha; first
            | (have h2 := b0.1 b hb; omega) | (have h2 := b2.1 b hb; omega)
            | (have h2 := b3.1 b hb; omega) | (have h2 := b4.1 b hb; omega))
       | (have h1 := b2.1 a ha; first
            | (have h2 := b0.1 b hb; omega) | (have h2 := b1.1 b hb; omega)
            | (have h2 := b3.1 b hb; omega) | (have h2 := b4.1 b hb; omega))
       | (have h1 := b3.1 a ha; first
            | (have h2 := b0.1 b hb; omega) | (have h2 := b1.1 b hb; omega)
            | (have h2 := b2.1 b hb; omega) | (have h2 := b4.1 b hb; omega))
       | (have h1 := b4.1 a ha; first
            | (have h2 := b0.1 b hb; omega) | (have h2 := b1.1 b hb; omega)
            | (have h2 := b2.1 b hb; omega) | (have h2 := b3.1 b hb; omega)))

/-- C3. In every run of `cleanupVPCResources`, whatever its outcome:
(1) every delete call for a route table, a network ACL or a security group is
made for a record that this run listed before and that the cleaner does not
protect: the deleted id is that of a listed route table that
`isMainRouteTable` rejects, of a listed ACL whose default flag is false, or of
a listed group whose name is not `default`;
(2) no delete call carries the id of a listed route table that
`isMainRouteTable` accepts, (3) of a listed ACL whose default flag is true, or
(4) of a listed group named `default` (an id that the same listing also gives
to an unprotected record is the one exception: the call is then made for that
other record). -/
theorem cleanupVPCResources_never_deletes_protected {σ : Type} (client : EC2API σ)
    (vpcID : String) (s : σ) :
    (∀ (pre post : List Event) (ev : Event),
      (cleanupVPCResources client vpcID (World.init s)).2.trace = pre ++ ev :: post →
      (∀ id err, ev = .DeleteRouteTable id err →
        ∃ rts, .DescribeRouteTables (vpcIdFilter vpcID) (.listed rts) ∈ pre ∧
          ∃ rt ∈ rts, rt.RouteTableId = id ∧ isMainRouteTable rt = false) ∧
      (∀ id err, ev = .DeleteNetworkAcl id err →
        ∃ acls, .DescribeNetworkAcls (vpcIdFilter vpcID) (.listed acls) ∈ pre ∧
          ∃ acl ∈ acls, acl.NetworkAclId = id ∧ acl.IsDefault = some false) ∧
      (∀ id err, ev = .DeleteSecurityGroup id err →
        ∃ groups, .DescribeSecurityGroups (vpcIdFilter vpcID) (.listed groups) ∈ pre ∧
          ∃ sg ∈ groups, sg.GroupId = id ∧
            ∃ name, sg.GroupName = some name ∧ name ≠ "default")) ∧
    (∀ (filters : List Filter) (rts : List RouteTable) (rt : RouteTable),
      .DescribeRouteTables filters (.listed rts) ∈
        (cleanupVPCResources client vpcID (World.init s)).2.trace →
      rt ∈ rts → isMainRouteTable rt = true →
      (∀ other ∈ rts, other.RouteTableId = rt.RouteTableId → isMainRouteTable other = true) →
      ∀ err, .DeleteRouteTable rt.RouteTableId err ∉
        (cleanupVPCResources client vpcID (World.init s)).2.trace) ∧
    (∀ (filters : List Filter) (acls : List NetworkAcl) (acl : NetworkAcl),
      .DescribeNetworkAcls filters (.listed acls) ∈
        (cleanupVPCResources client vpcID (World.init s)).2.trace →
      acl ∈ acls → acl.IsDefault = some true →
      (∀ other ∈ acls, other.NetworkAclId = acl.NetworkAclId → other.IsDefault = some true) →
      ∀ err, .DeleteNetworkAcl acl.NetworkAclId err ∉
        (cleanupVPCResources client vpcID (World.init s)).2.trace) ∧
    (∀ (filters : List Filter) (groups : List SecurityGroup) (sg : SecurityGroup),
      .DescribeSecurityGroups filters (.listed groups) ∈
        (cleanupVPCResources client vpcID (World.init s)).2.trace →
      sg ∈ groups → sg.GroupName = some "default" →
      (∀ other ∈ groups, other.GroupId = sg.GroupId → other.GroupName = some "default") →
      ∀ err, .DeleteSecurityGroup sg.GroupId err ∉
        (cleanupVPCResources client vpcID (World.init s)).2.trace) := by
  obtain ⟨evs, ht, hr⟩ := cleanupVPCResources_run client vpcID (World.init s)
  simp only [World.init, List.nil_append] at ht
  simp only [World.init]
  rw [ht]
  have hA : AllJustified vpcID evs := by
    refine hr.seqJustified ?_
    intro R hR evs o h
    simp only [cleanupSteps, List.mem_cons, List.mem_singleton, List.not_mem_nil, or_false]
      at hR
    rcases hR with rfl | rfl | rfl | rfl | rfl
    · exact InternetGatewaysRun.igwJustified h
    · exact SubnetsRun.subnetJustified h
    · exact RouteTablesRun.routeTableJustified h
    · exact NetworkACLsRun.aclJustified h
    · exact SecurityGroupsRun.groupJustified h
  refine ⟨fun pre post ev hsplit => hA pre ev post hsplit, ?_, ?_, ?_⟩
  · intro filters rts rt hl hrt hmain hothers err hdel
    obtain ⟨pre, post, hsplit⟩ := List.append_of_mem hdel
    obtain ⟨rts1, hl1, rt1, hrt1, hid, hnot⟩ := (hA pre _ post hsplit).1 _ err rfl
    have hmem1 : Event.DescribeRouteTables (vpcIdFilter vpcID) (.listed rts1) ∈ evs := by
      rw [hsplit]; exact List.mem_append_left _ hl1
    have heq := cleanup_listing_unique hr _ _ hl hmem1 rfl rfl rfl
    simp only [Event.DescribeRouteTables.injEq, ListResp.listed.injEq] at heq
    rw [← heq.2] at hrt1
    rw [hothers rt1 hrt1 hid] at hnot
    cases hnot
  · intro filters acls acl hl hacl hdef hothers err hdel
    obtain ⟨pre, post, hsplit⟩ := List.append_of_mem hdel
    obtain ⟨acls1, hl1, acl1, hacl1, hid, hnot⟩ := (hA pre _ post hsplit).2.1 _ err rfl
    have hmem1 : Event.DescribeNetworkAcls (vpcIdFilter vpcID) (.listed acls1) ∈ evs := by
      rw [hsplit]; exact List.mem_append_left _ hl1
    have heq := cleanup_listing_unique hr _ _ hl hmem1 rfl rfl rfl
    simp only [Event.DescribeNetworkAcls.injEq, ListResp.listed.injEq] at heq
    rw [← heq.2] at hacl1
    rw [hothers acl1 hacl1 hid] at hnot
    cases hnot
  · intro filters groups sg hl hsg hdef hothers err hdel
    obtain ⟨pre, post, hsplit⟩ := List.append_of_mem hdel
    obtain ⟨groups1, hl1, sg1, hsg1, hid, name, hname, hne⟩ :=
      (hA pre _ post hsplit).2.2 _ err rfl
    have hmem1 : Event.DescribeSecurityGroups (vpcIdFilter vpcID) (.listed groups1) ∈ evs := by
      rw [hsplit]; exact List.mem_append_left _ hl1
    have heq := cleanup_listing_unique hr _ _ hl hmem1 rfl rfl rfl
    simp only [Event.DescribeSecurityGroups.injEq, ListResp.listed.injEq] at heq
    rw [← heq.2] at hsg1
    rw [hothers sg1 hsg1 hid] at hname
    simp only [Option.some.injEq] at hname
    exact hne hname.symm

/-- C3, worked example: in the cleanup of the sample VPC the eighth call deletes
route table `rtb-2`, which the listing made just before reports as not main,
and no call deletes the listed main table `rtb-1`. -/
theorem cleanupVPCResources_never_deletes_protected_witness :
    (∃ rts, .DescribeRouteTables (vpcIdFilter "vpc-12345") (.listed rts) ∈
        (cleanupVPCResources sampleVpc.client "vpc-12345" (World.init 0)).2.trace.take 7 ∧
      ∃ rt ∈ rts, rt.RouteTableId = some "rtb-2" ∧ isMainRouteTable rt = false) ∧
    ∀ err, .DeleteRouteTable (some "rtb-1") err ∉
      (cleanupVPCResources sampleVpc.client "vpc-12345" (World.init 0)).2.trace :=
  ⟨((cleanupVPCResources_never_deletes_protected sampleVpc.client "vpc-12345" 0).1
      ((cleanupVPCResources sampleVpc.client "vpc-12345" (World.init 0)).2.trace.take 7)
      ((cleanupVPCResources sampleVpc.client "vpc-12345" (World.init 0)).2.trace.drop 8)
      (.DeleteRouteTable (some "rtb-2") none) (by decide)).1 (some "rtb-2") none rfl,
    (cleanupVPCResources_never_deletes_protected sampleVpc.client "vpc-12345" 0).2.1
      (vpcIdFilter "vpc-12345") sampleVpc.routeTables
      { RouteTableId := some "rtb-1", Associations := [{ Main := some true }] }
      (by decide) (by decide) (by decide) (by decide)⟩

theorem isMainRouteTableLoop_iff (associations : List RouteTableAssociation) :
    isMainRouteTableLoop associations = true ↔
      ∃ association ∈ associations, association.Main = some true := by
  induction associations with
  | nil => simp [isMainRouteTableLoop]
  | cons a rest ih =>
    by_cases h : a.Main = some true
    · simp [isMainRouteTableLoop, h]
    · simp [isMainRouteTableLoop, h, ih]

/-- C12. For every route table, `isMainRouteTable` is true if and only if at
least one association of the table has a main flag that is present and true;
it is false for an empty association list, and an association whose main flag
is absent changes nothing (it counts as not main). -/
theorem isMainRouteTable_iff_an_association_is_main (rt : RouteTable) :
    (isMainRouteTable rt = true ↔
      ∃ association ∈ rt.Associations, association.Main = some true) ∧
    (∀ id, isMainRouteTable { RouteTableId := id, Associations := [] } = false) ∧
    (∀ id rest,
      isMainRouteTable { RouteTableId := id, Associations := { Main := none } :: rest } =
        isMainRouteTable { RouteTableId := id, Associations := rest }) := by
  refine ⟨isMainRouteTableLoop_iff rt.Associations, fun id => rfl, fun id rest => ?_⟩
  simp [isMainRouteTable, isMainRouteTableLoop]

theorem LoopRun.failed_result {α : Type} {skip : α → Option Bool}
    {idOf : α → Option String} {failText : String} {xs : List α}
    {recs : List (Option String × Option GoError)} {o : Outcome (Option GoError)}
    (h : LoopRun skip idOf failText xs recs o) (id : Option String) (e : GoError)
    (hmem : (id, some e) ∈ recs) :
    o = .ret (some (Errorf (failText ++ awsToString id) e)) := by
  obtain ⟨i, hi⟩ := List.getElem?_of_mem hmem
  exact (h.fail_fast i id e hi).2.2

theorem CleanerRun.delete_failed_result {α : Type} {describe : ListResp α → Event}
    {onListError : GoError → GoError} {mk : Option String → Option GoError → Event}
    {skip : α → Option Bool} {idOf : α → Option String} {failText : String}
    {evs : List Event} {o : Outcome (Option GoError)}
    (hd : ∀ r, (describe r).isListing = true)
    (hm : ∀ id e, (mk id e).isListing = false)
    (hinj : ∀ a b c d, mk a b = mk c d → a = c ∧ b = d)
    (h : CleanerRun describe onListError (DelLoopRun mk skip idOf failText) evs o)
    (id : Option String) (e : GoError) (hmem : mk id (some e) ∈ evs) :
    o = .ret (some (Errorf (failText ++ awsToString id) e)) := by
  have hne : ∀ r, mk id (some e) ≠ describe r := by
    intro r heq
    have h1 := hm id (some e)
    rw [heq, hd r] at h1
    cases h1
  cases h with
  | listFailed e1 => simp [hne] at hmem
  | nilOutput => simp [hne] at hmem
  | listed xs evs o hl =>
    obtain ⟨recs, rfl, hr⟩ := hl
    simp only [List.mem_cons, hne, false_or, List.mem_map] at hmem
    obtain ⟨r, hr1, hr2⟩ := hmem
    obtain ⟨h1, h2⟩ := hinj _ _ _ _ hr2
    refine hr.failed_result id e ?_
    obtain ⟨a, b⟩ := r
    simp only at h1 h2
    rw [← h1, ← h2]
    exact hr1

theorem IgwLoopRun.delete_failed {vpcID : String} {xs : List InternetGateway}
    {evs : List Event} {o : Outcome (Option GoError)} (h : IgwLoopRun vpcID xs evs o)
    (id : Option String) (e : GoError)
    (hmem : Event.DeleteInternetGateway id (some e) ∈ evs) :
    o = .ret (some (Errorf ("failed to delete internet gateway " ++ awsToString id) e)) := by
  induction h with
  | done => simp at hmem
  | detachFailed igw rest e1 => simp at hmem
  | deleteFailed igw rest e1 =>
    simp at hmem
    obtain ⟨rfl, rfl⟩ := hmem
    rfl
  | deleted igw rest evs o _ ih =>
    simp at hmem
    exact ih hmem

theorem InternetGatewaysRun.igw_failed_result {vpcID : String} {evs : List Event}
    {o : Outcome (Option GoError)} (h : InternetGatewaysRun vpcID evs o)
    (id : Option String) (e : GoError) :
    (∀ vp, Event.DetachInternetGateway id vp (some e) ∈ evs →
      o = .ret (some (Errorf ("failed to detach internet gateway " ++ awsToString id) e))) ∧
    (Event.DeleteInternetGateway id (some e) ∈ evs →
      o = .ret (some (Errorf ("failed to delete internet gateway " ++ awsToString id) e))) := by
  cases h with
  | listFailed e1 => simp
  | nilOutput => simp
  | listed xs evs o hl =>
    refine ⟨fun vp hmem => ?_, fun hmem => ?_⟩
    · simp only [List.mem_cons] at hmem
      rcases hmem with hmem | hmem
      · cases hmem
      · obtain ⟨k, _, _, h3⟩ := hl.detach_failed id vp e hmem
        exact h3
    · simp only [List.mem_cons] at hmem
      rcases hmem with hmem | hmem
      · cases hmem
      · exact hl.delete_failed id e hmem

/-- The text and the cause of the error `fmt.Errorf` builds. -/
theorem Errorf_text_and_cause (text : String) (c : GoError) :
    (Errorf text c).Error = text ++ ": " ++ c.Error ∧ (Errorf text c).Unwrap = some c :=
  ⟨rfl, rfl⟩

theorem deleteSubnetsLoop_fails_at {σ : Type} (client : EC2API σ) (x : Subnet)
    (post : List Subnet) (c : GoError) :
    ∀ (pre : List Subnet) (w : World σ) (s1 : σ),
      succeedFrom client.DeleteSubnet (pre.map Subnet.SubnetId) w.gw = some s1 →
      (client.DeleteSubnet s1 x.SubnetId).1 = some c →
      (deleteSubnetsLoop client (pre ++ x :: post) w).1 =
        .ret (some (Errorf ("failed to delete subnet " ++ awsToString x.SubnetId) c)) ∧
      Event.DeleteSubnet x.SubnetId (some c) ∈
        (deleteSubnetsLoop client (pre ++ x :: post) w).2.trace := by
  intro pre
  induction pre with
  | nil =>
    intro w s1 hs hc
    simp only [List.map_nil, succeedFrom, Option.some.injEq] at hs
    subst hs
    cases hr : client.DeleteSubnet w.gw x.SubnetId with
    | mk r s2 =>
      rw [hr] at hc
      simp only at hc
      subst hc
      simp [deleteSubnetsLoop, callDeleteSubnet, hr, World.record]
  | cons y pre ih =>
    intro w s1 hs hc
    cases hr : client.DeleteSubnet w.gw y.SubnetId with
    | mk r s2 =>
      cases r with
      | some e => simp [succeedFrom, hr] at hs
      | none =>
        simp only [List.map_cons, succeedFrom, hr] at hs
        simp only [List.cons_append, deleteSubnetsLoop, callDeleteSubnet, hr]
        exact ih _ s1 (by simpa [World.record, World.printf] using hs) hc

theorem deleteRouteTablesLoop_fails_at {σ : Type} (client : EC2API σ) (x : RouteTable)
    (post : List RouteTable) (c : GoError) (hx : isMainRouteTable x = false) :
    ∀ (pre : List RouteTable) (w : World σ) (s1 : σ),
      succeedFrom client.DeleteRouteTable
        ((pre.filter (fun rt => !isMainRouteTable rt)).map RouteTable.RouteTableId) w.gw =
          some s1 →
      (client.DeleteRouteTable s1 x.RouteTableId).1 = some c →
      (deleteRouteTablesLoop client (pre ++ x :: post) w).1 =
        .ret (some (Errorf ("failed to delete route table " ++ awsToString x.RouteTableId) c)) ∧
      Event.DeleteRouteTable x.RouteTableId (some c) ∈
        (deleteRouteTablesLoop client (pre ++ x :: post) w).2.trace := by
  intro pre
  induction pre with
  | nil =>
    intro w s1 hs hc
    simp only [List.filter_nil, List.map_nil, succeedFrom, Option.some.injEq] at hs
    subst hs
    cases hr : client.DeleteRouteTable w.gw x.RouteTableId with
    | mk r s2 =>
      rw [hr] at hc
      simp only at hc
      subst hc
      simp [deleteRouteTablesLoop, callDeleteRouteTable, hr, hx, World.record]
  | cons y pre ih =>
    intro w s1 hs hc
    cases hm : isMainRouteTable y with
    | true =>
      simp only [List.filter_cons, hm, Bool.not_true, Bool.false_eq_true, if_false] at hs
      simp only [List.cons_append, deleteRouteTablesLoop, hm, if_true]
      exact ih w s1 hs hc
    | false =>
      simp only [List.filter_cons, hm, Bool.not_false, if_true, List.map_cons] at hs
      cases hr : client.DeleteRouteTable w.gw y.RouteTableId with
      | mk r s2 =>
        cases r with
        | some e => simp [succeedFrom, hr] at hs
        | none =>
          simp only [succeedFrom, hr] at hs
          simp only [List.cons_append, deleteRouteTablesLoop, hm, Bool.false_eq_true, if_false,
            callDeleteRouteTable, hr]
          exact ih _ s1 (by simpa [World.record, World.printf] using hs) hc

theorem deleteNetworkACLsLoop_fails_at {σ : Type} (client : EC2API σ) (x : NetworkAcl)
    (post : List NetworkAcl) (c : GoError) (hx : x.IsDefault = some false) :
    ∀ (pre : List NetworkAcl) (w : World σ) (s1 : σ),
      (∀ acl ∈ pre, acl.IsDefault ≠ none) →
      succeedFrom client.DeleteNetworkAcl
        ((pre.filter (fun acl => decide (acl.IsDefault = some false))).map
          NetworkAcl.NetworkAclId) w.gw = some s1 →
      (client.DeleteNetworkAcl s1 x.NetworkAclId).1 = some c →
      (deleteNetworkACLsLoop client (pre ++ x :: post) w).1 =
        .ret (some (Errorf ("failed to delete network ACL " ++ awsToString x.NetworkAclId) c)) ∧
      Event.DeleteNetworkAcl x.NetworkAclId (some c) ∈
        (deleteNetworkACLsLoop client (pre ++ x :: post) w).2.trace := by
  intro pre
  induction pre with
  | nil =>
    intro w s1 _ hs hc
    simp only [List.filter_nil, List.map_nil, succeedFrom, Option.some.injEq] at hs
    subst hs
    cases hr : client.DeleteNetworkAcl w.gw x.NetworkAclId with
    | mk r s2 =>
      rw [hr] at hc
      simp only at hc
      subst hc
      simp [deleteNetworkACLsLoop, callDeleteNetworkAcl, hr, hx, World.record]
  | cons y pre ih =>
    intro w s1 hp hs hc
    have hp1 : ∀ acl ∈ pre, acl.IsDefault ≠ none := fun acl h => hp acl (by simp [h])
    cases hd : y.IsDefault with
    | none => exact absurd hd (hp y (by simp))
    | some b =>
      cases b with
      | true =>
        simp only [List.filter_cons, hd, Option.some.injEq, Bool.true_eq_false, decide_False,
          Bool.false_eq_true, if_false] at hs
        simp only [List.cons_append, deleteNetworkACLsLoop, hd, if_true]
        exact ih w s1 hp1 hs hc
      | false =>
        simp only [List.filter_cons, hd, decide_True, if_true, List.map_cons] at hs
        cases hr : client.DeleteNetworkAcl w.gw y.NetworkAclId with
        | mk r s2 =>
          cases r with
          | some e => simp [succeedFrom, hr] at hs
          | none =>
            simp only [succeedFrom, hr] at hs
            simp only [List.cons_append, deleteNetworkACLsLoop, hd, Bool.false_eq_true, if_false,
              callDeleteNetworkAcl, hr]
            exact ih _ s1 hp1 (by simpa [World.record, World.printf] using hs) hc

theorem deleteSecurityGroupsLoop_fails_at {σ : Type} (client : EC2API σ) (x : SecurityGroup)
    (post : List SecurityGroup) (c : GoError)
    (hx : x.GroupName ≠ none ∧ x.GroupName ≠ some "default") :
    ∀ (pre : List SecurityGroup) (w : World σ) (s1 : σ),
      (∀ sg ∈ pre, sg.GroupName ≠ none) →
      succeedFrom client.DeleteSecurityGroup
        ((pre.filter (fun sg =>
          decide (sg.GroupName ≠ none ∧ sg.GroupName ≠ some "default"))).map
          SecurityGroup.GroupId) w.gw = some s1 →
      (client.DeleteSecurityGroup s1 x.GroupId).1 = some c →
      (deleteSecurityGroupsLoop client (pre ++ x :: post) w).1 =
        .ret (some (Errorf ("failed to delete security group " ++ awsToString x.GroupId) c)) ∧
      Event.DeleteSecurityGroup x.GroupId (some c) ∈
        (deleteSecurityGroupsLoop client (pre ++ x :: post) w).2.trace := by
  intro pre
  induction pre with
  | nil =>
    intro w s1 _ hs hc
    simp only [List.filter_nil, List.map_nil, succeedFrom, Option.some.injEq] at hs
    subst hs
    cases hn : x.GroupName with
    | none => exact absurd hn hx.1
    | some name =>
      have hname : name ≠ "default" := fun h => hx.2 (by rw [hn, h])
      cases hr : client.DeleteSecurityGroup w.gw x.GroupId with
      | mk r s2 =>
        rw [hr] at hc
        simp only at hc
        subst hc
        simp [deleteSecurityGroupsLoop, callDeleteSecurityGroup, hr, hn, hname, World.record]
  | cons y pre ih =>
    intro w s1 hp hs hc
    have hp1 : ∀ sg ∈ pre, sg.GroupName ≠ none := fun sg h => hp sg (by simp [h])
    cases hn : y.GroupName with
    | none => exact absurd hn (hp y (by simp))
    | some name =>
      by_cases hname : name = "default"
      · have hf : decide (y.GroupName ≠ none ∧ y.GroupName ≠ some "default") = false := by
          simp [hn, hname]
        simp only [List.filter_cons, hf, Bool.false_eq_true, if_false] at hs
        simp only [List.cons_append, deleteSecurityGroupsLoop, hn, hname, if_true]
        exact ih w s1 hp1 hs hc
      · have hf : decide (y.GroupName ≠ none ∧ y.GroupName ≠ some "default") = true := by
          simp [hn, hname]
        simp only [List.filter_cons, hf, if_true, List.map_cons] at hs
        cases hr : client.DeleteSecurityGroup w.gw y.GroupId with
        | mk r s2 =>
          cases r with
          | some e => simp [succeedFrom, hr] at hs
          | none =>
            simp only [succeedFrom, hr] at hs
            simp only [List.cons_append, deleteSecurityGroupsLoop, hn, hname, if_false,
              callDeleteSecurityGroup, hr]
            exact ih _ s1 hp1 (by simpa [World.record, World.printf] using hs) hc

theorem deleteInternetGatewaysLoop_fails_at {σ : Type} (client : EC2API σ) (vpcID : String)
    (x : InternetGateway) (post : List InternetGateway) (c : GoError) :
    ∀ (pre : List InternetGateway) (w : World σ) (s1 : σ),
      detachAndDeleteFrom client vpcID (pre.map InternetGateway.InternetGatewayId) w.gw =
        some s1 →
      ((client.DetachInternetGateway s1 x.InternetGatewayId (some vpcID)).1 = some c →
        (deleteInternetGatewaysLoop client vpcID (pre ++ x :: post) w).1 =
          .ret (some (Errorf
            ("failed to detach internet gateway " ++ awsToString x.InternetGatewayId) c)) ∧
        Event.DetachInternetGateway x.InternetGatewayId (some vpcID) (some c) ∈
          (deleteInternetGatewaysLoop client vpcID (pre ++ x :: post) w).2.trace) ∧
      ((client.DetachInternetGateway s1 x.InternetGatewayId (some vpcID)).1 = none →
        (client.DeleteInternetGateway
          (client.DetachInternetGateway s1 x.InternetGatewayId (some vpcID)).2
          x.InternetGatewayId).1 = some c →
        (deleteInternetGatewaysLoop client vpcID (pre ++ x :: post) w).1 =
          .ret (some (Errorf
            ("failed to delete internet gateway " ++ awsToString x.InternetGatewayId) c)) ∧
        Event.DeleteInternetGateway x.InternetGatewayId (some c) ∈
          (deleteInternetGatewaysLoop client vpcID (pre ++ x :: post) w).2.trace) := by
  intro pre
  induction pre with
  | nil =>
    intro w s1 hs
    simp only [List.map_nil, detachAndDeleteFrom, Option.some.injEq] at hs
    subst hs
    cases hr : client.DetachInternetGateway w.gw x.InternetGatewayId (some vpcID) with
    | mk r s2 =>
      refine ⟨fun hc => ?_, fun hn hc => ?_⟩
      · simp only at hc
        subst hc
        simp [deleteInternetGatewaysLoop, callDetachInternetGateway, hr, World.record]
      · simp only at hn hc
        subst hn
        cases hr2 : client.DeleteInternetGateway s2 x.InternetGatewayId with
        | mk r2 s3 =>
          rw [hr2] at hc
          simp only at hc
          subst hc
          simp [deleteInternetGatewaysLoop, callDetachInternetGateway, hr,
            callDeleteInternetGateway, World.record, hr2]
  | cons y pre ih =>
    intro w s1 hs
    cases hr : client.DetachInternetGateway w.gw y.InternetGatewayId (some vpcID) with
    | mk r s2 =>
      cases r with
      | some e => simp [detachAndDeleteFrom, hr] at hs
      | none =>
        cases hr2 : client.DeleteInternetGateway s2 y.InternetGatewayId with
        | mk r2 s3 =>
          cases r2 with
          | some e => simp [detachAndDeleteFrom, hr, hr2] at hs
          | none =>
            simp only [List.map_cons, detachAndDeleteFrom, hr, hr2] at hs
            have hloop : deleteInternetGatewaysLoop client vpcID (y :: pre ++ x :: post) w =
                deleteInternetGatewaysLoop client vpcID (pre ++ x :: post)
                  (((w.record (.DetachInternetGateway y.InternetGatewayId (some vpcID) none)
                    s2).record (.DeleteInternetGateway y.InternetGatewayId none) s3).printf
                    ("Deleted internet gateway: " ++ awsToString y.InternetGatewayId ++
                      "\n")) := by
              simp [deleteInternetGatewaysLoop, callDetachInternetGateway, hr,
                callDeleteInternetGateway, World.record, hr2]
            rw [hloop]
            exact ih _ s1 (by simpa [World.record, World.printf] using hs)

/-- C11. For every cleaner, every listing and every listed resource `x` with a
present id `id` that the cleaner does not pass over: when the client answers
the calls for the resources before `x` with nil errors and fails the delete
call for `id` with cause `c` (for internet gateways: fails the detach call, or
answers the detach call with a nil error and fails the delete call), the
cleaner makes that call and returns an error whose text is
`failed to delete <kind> <id>: <text of c>` (`failed to detach internet gateway
<id>: <text of c>` for a detach), the kind being `subnet`, `route table`,
`internet gateway`, `network ACL` or `security group`, and unwrapping the
returned error yields `c`. -/
theorem cleaners_name_the_failed_resource {σ : Type} (client : EC2API σ) (vpcID : String)
    (s : σ) (id : String) (c : GoError) :
    (∀ (pre post : List Subnet) (x : Subnet) (s1 : σ),
      (client.DescribeSubnets s (vpcIdFilter vpcID)).1 = .listed (pre ++ x :: post) →
      x.SubnetId = some id →
      succeedFrom client.DeleteSubnet (pre.map Subnet.SubnetId)
        (client.DescribeSubnets s (vpcIdFilter vpcID)).2 = some s1 →
      (client.DeleteSubnet s1 (some id)).1 = some c →
      (∃ err, (deleteSubnets client vpcID (World.init s)).1 = .ret (some err) ∧
        err.Error = "failed to delete subnet " ++ id ++ ": " ++ c.Error ∧
        err.Unwrap = some c) ∧
      Event.DeleteSubnet (some id) (some c) ∈
        (deleteSubnets client vpcID (World.init s)).2.trace) ∧
    (∀ (pre post : List RouteTable) (x : RouteTable) (s1 : σ),
      (client.DescribeRouteTables s (vpcIdFilter vpcID)).1 = .listed (pre ++ x :: post) →
      x.RouteTableId = some id →
      isMainRouteTable x = false →
      succeedFrom client.DeleteRouteTable
        ((pre.filter (fun rt => !isMainRouteTable rt)).map RouteTable.RouteTableId)
        (client.DescribeRouteTables s (vpcIdFilter vpcID)).2 = some s1 →
      (client.DeleteRouteTable s1 (some id)).1 = some c →
      (∃ err, (deleteRouteTables client vpcID (World.init s)).1 = .ret (some err) ∧
        err.Error = "failed to delete route table " ++ id ++ ": " ++ c.Error ∧
        err.Unwrap = some c) ∧
      Event.DeleteRouteTable (some id) (some c) ∈
        (deleteRouteTables client vpcID (World.init s)).2.trace) ∧
    (∀ (pre post : List InternetGateway) (x : InternetGateway) (s1 : σ),
      (client.DescribeInternetGateways s (attachmentVpcIdFilter vpcID)).1 =
        .listed (pre ++ x :: post) →
      x.InternetGatewayId = some id →
      detachAndDeleteFrom client vpcID (pre.map InternetGateway.InternetGatewayId)
        (client.DescribeInternetGateways s (attachmentVpcIdFilter vpcID)).2 = some s1 →
      (client.DetachInternetGateway s1 (some id) (some vpcID)).1 = some c →
      (∃ err, (deleteInternetGateways client vpcID (World.init s)).1 = .ret (some err) ∧
        err.Error = "failed to detach internet gateway " ++ id ++ ": " ++ c.Error ∧
        err.Unwrap = some c) ∧
      Event.DetachInternetGateway (some id) (some vpcID) (some c) ∈
        (deleteInternetGateways client vpcID (World.init s)).2.trace) ∧
    (∀ (pre post : List InternetGateway) (x : InternetGateway) (s1 : σ),
      (client.DescribeInternetGateways s (attachmentVpcIdFilter vpcID)).1 =
        .listed (pre ++ x :: post) →
      x.InternetGatewayId = some id →
      detachAndDeleteFrom client vpcID (pre.map InternetGateway.InternetGatewayId)
        (client.DescribeInternetGateways s (attachmentVpcIdFilter vpcID)).2 = some s1 →
      (client.DetachInternetGateway s1 (some id) (some vpcID)).1 = none →
      (client.DeleteInternetGateway
        (client.DetachInternetGateway s1 (some id) (some vpcID)).2 (some id)).1 = some c →
      (∃ err, (deleteInternetGateways client vpcID (World.init s)).1 = .ret (some err) ∧
        err.Error = "failed to delete internet gateway " ++ id ++ ": " ++ c.Error ∧
        err.Unwrap = some c) ∧
      Event.DeleteInternetGateway (some id) (some c) ∈
        (deleteInternetGateways client vpcID (World.init s)).2.trace) ∧
    (∀ (pre post : List NetworkAcl) (x : NetworkAcl) (s1 : σ),
      (client.DescribeNetworkAcls s (vpcIdFilter vpcID)).1 = .listed (pre ++ x :: post) →
      x.NetworkAclId = some id →
      (∀ acl ∈ pre, acl.IsDefault ≠ none) →
      x.IsDefault = some false →
      succeedFrom client.DeleteNetworkAcl
        ((pre.filter (fun acl => decide (acl.IsDefault = some false))).map
          NetworkAcl.NetworkAclId)
        (client.DescribeNetworkAcls s (vpcIdFilter vpcID)).2 = some s1 →
      (client.DeleteNetworkAcl s1 (some id)).1 = some c →
      (∃ err, (deleteNetworkACLs client vpcID (World.init s)).1 = .ret (some err) ∧
        err.Error = "failed to delete network ACL " ++ id ++ ": " ++ c.Error ∧
        err.Unwrap = some c) ∧
      Event.DeleteNetworkAcl (some id) (some c) ∈
        (deleteNetworkACLs client vpcID (World.init s)).2.trace) ∧
    (∀ (pre post : List SecurityGroup) (x : SecurityGroup) (s1 : σ),
      (client.DescribeSecurityGroups s (vpcIdFilter vpcID)).1 = .listed (pre ++ x :: post) →
      x.GroupId = some id →
      (∀ sg ∈ pre, sg.GroupName ≠ none) →
      x.GroupName ≠ none ∧ x.GroupName ≠ some "default" →
      succeedFrom client.DeleteSecurityGroup
        ((pre.filter (fun sg =>
          decide (sg.GroupName ≠ none ∧ sg.GroupName ≠ some "default"))).map
          SecurityGroup.GroupId)
        (client.DescribeSecurityGroups s (vpcIdFilter vpcID)).2 = some s1 →
      (client.DeleteSecurityGroup s1 (some id)).1 = some c →
      (∃ err, (deleteSecurityGroups client vpcID (World.init s)).1 = .ret (some err) ∧
        err.Error = "failed to delete security group " ++ id ++ ": " ++ c.Error ∧
        err.Unwrap = some c) ∧
      Event.DeleteSecurityGroup (some id) (some c) ∈
        (deleteSecurityGroups client vpcID (World.init s)).2.trace) := by
  refine ⟨fun pre post x s1 hlist hid hs hc => ?_,
    fun pre post x s1 hlist hid hx hs hc => ?_,
    fun pre post x s1 hlist hid hs hc => ?_,
    fun pre post x s1 hlist hid hs hn hc => ?_,
    fun pre post x s1 hlist hid hp hx hs hc => ?_,
    fun pre post x s1 hlist hid hp hx hs hc => ?_⟩
  · have h := deleteSubnetsLoop_fails_at client x post c pre
      ((World.init s).record (.DescribeSubnets (vpcIdFilter vpcID) (.listed (pre ++ x :: post)))
        (client.DescribeSubnets s (vpcIdFilter vpcID)).2) s1 hs (by rw [hid]; exact hc)
    have e : deleteSubnets client vpcID (World.init s) =
        deleteSubnetsLoop client (pre ++ x :: post)
          ((World.init s).record
            (.DescribeSubnets (vpcIdFilter vpcID) (.listed (pre ++ x :: post)))
            (client.DescribeSubnets s (vpcIdFilter vpcID)).2) := by
      simp [deleteSubnets, callDescribeSubnets, World.init, hlist]
    rw [e]
    rw [hid] at h
    exact ⟨⟨_, h.1, rfl, rfl⟩, h.2⟩
  · have h := deleteRouteTablesLoop_fails_at client x post c hx pre
      ((World.init s).record
        (.DescribeRouteTables (vpcIdFilter vpcID) (.listed (pre ++ x :: post)))
        (client.DescribeRouteTables s (vpcIdFilter vpcID)).2) s1 hs (by rw [hid]; exact hc)
    have e : deleteRouteTables client vpcID (World.init s) =
        deleteRouteTablesLoop client (pre ++ x :: post)
          ((World.init s).record
            (.DescribeRouteTables (vpcIdFilter vpcID) (.listed (pre ++ x :: post)))
            (client.DescribeRouteTables s (vpcIdFilter vpcID)).2) := by
      simp [deleteRouteTables, callDescribeRouteTables, World.init, hlist]
    rw [e]
    rw [hid] at h
    exact ⟨⟨_, h.1, rfl, rfl⟩, h.2⟩
  · have h := (deleteInternetGatewaysLoop_fails_at client vpcID x post c pre
      ((World.init s).record
        (.DescribeInternetGateways (attachmentVpcIdFilter vpcID) (.listed (pre ++ x :: post)))
        (client.DescribeInternetGateways s (attachmentVpcIdFilter vpcID)).2) s1 hs).1
      (by rw [hid]; exact hc)
    have e : deleteInternetGateways client vpcID (World.init s) =
        deleteInternetGatewaysLoop client vpcID (pre ++ x :: post)
          ((World.init s).record
            (.DescribeInternetGateways (attachmentVpcIdFilter vpcID)
              (.listed (pre ++ x :: post)))
            (client.DescribeInternetGateways s (attachmentVpcIdFilter vpcID)).2) := by
      simp [deleteInternetGateways, callDescribeInternetGateways, World.init, hlist]
    rw [e]
    rw [hid] at h
    exact ⟨⟨_, h.1, rfl, rfl⟩, h.2⟩
  · have h := (deleteInternetGatewaysLoop_fails_at client vpcID x post c pre
      ((World.init s).record
        (.DescribeInternetGateways (attachmentVpcIdFilter vpcID) (.listed (pre ++ x :: post)))
        (client.DescribeInternetGateways s (attachmentVpcIdFilter vpcID)).2) s1 hs).2
      (by rw [hid]; exact hn) (by rw [hid]; exact hc)
    have e : deleteInternetGateways client vpcID (World.init s) =
        deleteInternetGatewaysLoop client vpcID (pre ++ x :: post)
          ((World.init s).record
            (.DescribeInternetGateways (attachmentVpcIdFilter vpcID)
              (.listed (pre ++ x :: post)))
            (client.DescribeInternetGateways s (attachmentVpcIdFilter vpcID)).2) := by
      simp [deleteInternetGateways, callDescribeInternetGateways, World.init, hlist]
    rw [e]
    rw [hid] at h
    exact ⟨⟨_, h.1, rfl, rfl⟩, h.2⟩
  · have h := deleteNetworkACLsLoop_fails_at client x post c hx pre
      ((World.init s).record
        (.DescribeNetworkAcls (vpcIdFilter vpcID) (.listed (pre ++ x :: post)))
        (client.DescribeNetworkAcls s (vpcIdFilter vpcID)).2) s1 hp hs (by rw [hid]; exact hc)
    have e : deleteNetworkACLs client vpcID (World.init s) =
        deleteNetworkACLsLoop client (pre ++ x :: post)
          ((World.init s).record
            (.DescribeNetworkAcls (vpcIdFilter vpcID) (.listed (pre ++ x :: post)))
            (client.DescribeNetworkAcls s (vpcIdFilter vpcID)).2) := by
      simp [deleteNetworkACLs, callDescribeNetworkAcls, World.init, hlist]
    rw [e]
    rw [hid] at h
    exact ⟨⟨_, h.1, rfl, rfl⟩, h.2⟩
  · have h := deleteSecurityGroupsLoop_fails_at client x post c hx pre
      ((World.init s).record
        (.DescribeSecurityGroups (vpcIdFilter vpcID) (.listed (pre ++ x :: post)))
        (client.DescribeSecurityGroups s (vpcIdFilter vpcID)).2) s1 hp hs
      (by rw [hid]; exact hc)
    have e : deleteSecurityGroups client vpcID (World.init s) =
        deleteSecurityGroupsLoop client (pre ++ x :: post)
          ((World.init s).record
            (.DescribeSecurityGroups (vpcIdFilter vpcID) (.listed (pre ++ x :: post)))
            (client.DescribeSecurityGroups s (vpcIdFilter vpcID)).2) := by
      simp [deleteSecurityGroups, callDescribeSecurityGroups, World.init, hlist]
    rw [e]
    rw [hid] at h
    exact ⟨⟨_, h.1, rfl, rfl⟩, h.2⟩

/-- C11, worked example: the failed delete of `subnet-2`, of the route table
`rtb-2`, of the network ACL `acl-67890` and of the group `sg-24680`, each after
the resources listed before it were deleted or passed over, the failed detach
of the gateway `igw-2` after `igw-1` was detached and deleted, and the failed
delete of `igw-2` after it was detached. -/
theorem cleaners_name_the_failed_resource_witness :
    ((∃ err, (deleteSubnets deleteFailureVpc.client "vpc-12345" (World.init 0)).1 =
          .ret (some err) ∧
        err.Error = "failed to delete subnet " ++ "subnet-2" ++ ": " ++
          (GoError.errorString "DependencyViolation").Error ∧
        err.Unwrap = some (.errorString "DependencyViolation")) ∧
      Event.DeleteSubnet (some "subnet-2") (some (.errorString "DependencyViolation")) ∈
        (deleteSubnets deleteFailureVpc.client "vpc-12345" (World.init 0)).2.trace) ∧
    ((∃ err, (deleteRouteTables deleteFailureVpc.client "vpc-12345" (World.init 0)).1 =
          .ret (some err) ∧
        err.Error = "failed to delete route table " ++ "rtb-2" ++ ": " ++
          (GoError.errorString "DependencyViolation").Error ∧
        err.Unwrap = some (.errorString "DependencyViolation")) ∧
      Event.DeleteRouteTable (some "rtb-2") (some (.errorString "DependencyViolation")) ∈
        (deleteRouteTables deleteFailureVpc.client "vpc-12345" (World.init 0)).2.trace) ∧
    ((∃ err, (deleteInternetGateways detachFailureVpc.client "vpc-12345" (World.init 0)).1 =
          .ret (some err) ∧
        err.Error = "failed to detach internet gateway " ++ "igw-2" ++ ": " ++
          (GoError.errorString "Gateway.NotAttached").Error ∧
        err.Unwrap = some (.errorString "Gateway.NotAttached")) ∧
      Event.DetachInternetGateway (some "igw-2") (some "vpc-12345")
          (some (.errorString "Gateway.NotAttached")) ∈
        (deleteInternetGateways detachFailureVpc.client "vpc-12345" (World.init 0)).2.trace) ∧
    ((∃ err,
        (deleteInternetGateways gatewayDeleteFailureVpc.client "vpc-12345" (World.init 0)).1 =
          .ret (some err) ∧
        err.Error = "failed to delete internet gateway " ++ "igw-2" ++ ": " ++
          (GoError.errorString "DependencyViolation").Error ∧
        err.Unwrap = some (.errorString "DependencyViolation")) ∧
      Event.DeleteInternetGateway (some "igw-2") (some (.errorString "DependencyViolation")) ∈
        (deleteInternetGateways gatewayDeleteFailureVpc.client "vpc-12345"
          (World.init 0)).2.trace) ∧
    ((∃ err, (deleteNetworkACLs deleteFailureVpc.client "vpc-12345" (World.init 0)).1 =
          .ret (some err) ∧
        err.Error = "failed to delete network ACL " ++ "acl-67890" ++ ": " ++
          (GoError.errorString "DependencyViolation").Error ∧
        err.Unwrap = some (.errorString "DependencyViolation")) ∧
      Event.DeleteNetworkAcl (some "acl-67890") (some (.errorString "DependencyViolation")) ∈
        (deleteNetworkACLs deleteFailureVpc.client "vpc-12345" (World.init 0)).2.trace) ∧
    ((∃ err, (deleteSecurityGroups deleteFailureVpc.client "vpc-12345" (World.init 0)).1 =
          .ret (some err) ∧
        err.Error = "failed to delete security group " ++ "sg-24680" ++ ": " ++
          (GoError.errorString "DependencyViolation").Error ∧
        err.Unwrap = some (.errorString "DependencyViolation")) ∧
      Event.DeleteSecurityGroup (some "sg-24680") (some (.errorString "DependencyViolation")) ∈
        (deleteSecurityGroups deleteFailureVpc.client "vpc-12345" (World.init 0)).2.trace) :=
  ⟨(cleaners_name_the_failed_resource deleteFailureVpc.client "vpc-12345" 0 "subnet-2"
      (.errorString "DependencyViolation")).1
      [{ SubnetId := some "subnet-1" }] [] { SubnetId := some "subnet-2" } 2
      rfl rfl (by decide) (by decide),
    (cleaners_name_the_failed_resource deleteFailureVpc.client "vpc-12345" 0 "rtb-2"
      (.errorString "DependencyViolation")).2.1
      [{ RouteTableId := some "rtb-1", Associations := [{ Main := some true }] }] []
      { RouteTableId := some "rtb-2", Associations := [{ Main := some false }, { Main := none }] }
      1 rfl rfl (by decide) (by decide) (by decide),
    (cleaners_name_the_failed_resource detachFailureVpc.client "vpc-12345" 0 "igw-2"
      (.errorString "Gateway.NotAttached")).2.2.1
      [{ InternetGatewayId := some "igw-1" }] [] { InternetGatewayId := some "igw-2" } 3
      rfl rfl (by decide) (by decide),
    (cleaners_name_the_failed_resource gatewayDeleteFailureVpc.client "vpc-12345" 0 "igw-2"
      (.errorString "DependencyViolation")).2.2.2.1
      [{ InternetGatewayId := some "igw-1" }] [] { InternetGatewayId := some "igw-2" } 3
      rfl rfl (by decide) (by decide) (by decide),
    (cleaners_name_the_failed_resource deleteFailureVpc.client "vpc-12345" 0 "acl-67890"
      (.errorString "DependencyViolation")).2.2.2.2.1
      [{ NetworkAclId := some "acl-12345", IsDefault := some true }] []
      { NetworkAclId := some "acl-67890", IsDefault := some false } 1
      rfl rfl (by decide) rfl (by decide) (by decide),
    (cleaners_name_the_failed_resource deleteFailureVpc.client "vpc-12345" 0 "sg-24680"
      (.errorString "DependencyViolation")).2.2.2.2.2
      [{ GroupId := some "sg-12345", GroupName := some "default" },
        { GroupId := some "sg-67890", GroupName := some "custom" }] []
      { GroupId := some "sg-24680", GroupName := some "Default" } 2
      rfl rfl (by decide) (by decide) (by decide) (by decide)⟩

theorem getRegionsLoop_present (regions : List Region) :
    ∀ acc : List String, (∀ region ∈ regions, region.RegionName ≠ none) →
      ∃ names, getRegionsLoop regions acc = .ret (acc ++ names) ∧
        names.map some = regions.map Region.RegionName := by
  induction regions with
  | nil => intro acc _; exact ⟨[], by simp [getRegionsLoop], rfl⟩
  | cons r rest ih =>
    intro acc h
    cases hn : r.RegionName with
    | none => exact absurd hn (h r (by simp))
    | some name =>
      obtain ⟨names, h1, h2⟩ := ih (acc ++ [name]) (fun x hx => h x (by simp [hx]))
      refine ⟨name :: names, ?_, ?_⟩
      · simp [getRegionsLoop, hn, h1]
      · simp [hn, h2]

/-- C13. For every successful region listing whose `N >= 0` regions all carry a
name, `getRegions` returns a nil error and a non-nil sequence of exactly `N`
names, which are the listed regions' names in listing order; for `N = 0` the
sequence is empty and not nil. -/
theorem getRegions_returns_the_listed_names {σ : Type} (client : EC2API σ) (s : σ)
    (regions : List Region)
    (hlist : (client.DescribeRegions s).1 = .listed regions)
    (hnames : ∀ region ∈ regions, region.RegionName ≠ none) :
    ∃ names, (getRegions client (World.init s)).1 = .ret (some names, none) ∧
      names.map some = regions.map Region.RegionName ∧
      names.length = regions.length := by
  obtain ⟨names, h1, h2⟩ := getRegionsLoop_present regions [] hnames
  have hlen : names.length = regions.length := by
    have := congrArg List.length h2
    simpa using this
  refine ⟨names, ?_, h2, hlen⟩
  by_cases h0 : regions.length = 0
  · have hr : regions = [] := List.length_eq_zero.mp h0
    subst hr
    have hn : names = [] := List.length_eq_zero.mp (by simpa using hlen)
    subst hn
    simp [getRegions, callDescribeRegions, World.init, hlist]
  · simp [getRegions, callDescribeRegions, World.init, hlist, h0, h1]

theorem getDefaultVPCsLoop_present (vpcs : List Vpc) :
    ∀ acc : List String, (∀ vpc ∈ vpcs, vpc.IsDefault ≠ none ∧ vpc.VpcId ≠ none) →
      ∃ ids, getDefaultVPCsLoop vpcs acc = .ret (acc ++ ids) ∧
        ids.map some =
          (vpcs.filter (fun vpc => decide (vpc.IsDefault = some true))).map Vpc.VpcId := by
  induction vpcs with
  | nil => intro acc _; exact ⟨[], by simp [getDefaultVPCsLoop], rfl⟩
  | cons v rest ih =>
    intro acc h
    obtain ⟨hd, hi⟩ := h v (by simp)
    cases hdv : v.IsDefault with
    | none => exact absurd hdv hd
    | some b =>
      cases b with
      | false =>
        obtain ⟨ids, h1, h2⟩ := ih acc (fun x hx => h x (by simp [hx]))
        exact ⟨ids, by simp [getDefaultVPCsLoop, hdv, h1], by simp [hdv, h2]⟩
      | true =>
        cases hiv : v.VpcId with
        | none => exact absurd hiv hi
        | some id =>
          obtain ⟨ids, h1, h2⟩ := ih (acc ++ [id]) (fun x hx => h x (by simp [hx]))
          exact ⟨id :: ids, by simp [getDefaultVPCsLoop, hdv, hiv, h1],
            by simp [hdv, hiv, h2]⟩

/-- C14. For every successful VPC listing whose VPCs all carry a default flag
and an id, `getDefaultVPCs` returns a nil error and a non-nil sequence holding
exactly the ids of the VPCs whose default flag is true, in listing order; the
other VPCs are left out, so an empty listing or one without a default VPC
gives the empty, non-nil sequence. -/
theorem getDefaultVPCs_returns_the_default_ids {σ : Type} (client : EC2API σ) (s : σ)
    (vpcs : List Vpc)
    (hlist : (client.DescribeVpcs s).1 = .listed vpcs)
    (hfields : ∀ vpc ∈ vpcs, vpc.IsDefault ≠ none ∧ vpc.VpcId ≠ none) :
    ∃ ids, (getDefaultVPCs client (World.init s)).1 = .ret (some ids, none) ∧
      ids.map some =
        (vpcs.filter (fun vpc => decide (vpc.IsDefault = some true))).map Vpc.VpcId := by
  obtain ⟨ids, h1, h2⟩ := getDefaultVPCsLoop_present vpcs [] hfields
  refine ⟨ids, ?_, h2⟩
  by_cases h0 : vpcs.length = 0
  · have hr : vpcs = [] := List.length_eq_zero.mp h0
    subst hr
    have hn : ids = [] := by simpa using h2
    subst hn
    simp [getDefaultVPCs, callDescribeVpcs, World.init, hlist]
  · simp [getDefaultVPCs, callDescribeVpcs, World.init, hlist, h0, h1]

/-- C15. `getRegions` and `getDefaultVPCs` each make exactly one call, their
listing call, and return an error if and only if it fails: when the listing
fails with `e` they return a nil sequence and `e` itself, and whenever they
return an error `e` the listing failed with `e`. -/
theorem discovery_returns_an_error_iff_the_listing_fails {σ : Type} (client : EC2API σ)
    (s : σ) :
    ((∀ e, (client.DescribeRegions s).1 = .failed e →
        (getRegions client (World.init s)).1 = .ret (none, some e)) ∧
      (∀ names e, (getRegions client (World.init s)).1 = .ret (names, some e) →
        (client.DescribeRegions s).1 = .failed e) ∧
      (getRegions client (World.init s)).2.trace =
        [.DescribeRegions (client.DescribeRegions s).1]) ∧
    ((∀ e, (client.DescribeVpcs s).1 = .failed e →
        (getDefaultVPCs client (World.init s)).1 = .ret (none, some e)) ∧
      (∀ ids e, (getDefaultVPCs client (World.init s)).1 = .ret (ids, some e) →
        (client.DescribeVpcs s).1 = .failed e) ∧
      (getDefaultVPCs client (World.init s)).2.trace =
        [.DescribeVpcs (client.DescribeVpcs s).1]) := by
  refine ⟨⟨fun e h => ?_, fun names e h => ?_, ?_⟩, ⟨fun e h => ?_, fun ids e h => ?_, ?_⟩⟩
  · simp [getRegions, callDescribeRegions, World.init, h]
  · cases hl : (client.DescribeRegions s).1 with
    | failed e1 =>
      simp [getRegions, callDescribeRegions, World.init, hl] at h
      rw [h.2]
    | nilOutput => simp [getRegions, callDescribeRegions, World.init, hl] at h
    | listed regions =>
      simp only [getRegions, callDescribeRegions, World.init, hl] at h
      split at h
      · simp at h
      · split at h <;> simp at h
  · cases hl : (client.DescribeRegions s).1 with
    | failed e1 => simp [getRegions, callDescribeRegions, World.init, hl, World.record]
    | nilOutput => simp [getRegions, callDescribeRegions, World.init, hl, World.record]
    | listed regions =>
      simp only [getRegions, callDescribeRegions, World.init, hl]
      split
      · simp [World.record]
      · split <;> simp [World.record]
  · simp [getDefaultVPCs, callDescribeVpcs, World.init, h]
  · cases hl : (client.DescribeVpcs s).1 with
    | failed e1 =>
      simp [getDefaultVPCs, callDescribeVpcs, World.init, hl] at h
      rw [h.2]
    | nilOutput => simp [getDefaultVPCs, callDescribeVpcs, World.init, hl] at h
    | listed vpcs =>
      simp only [getDefaultVPCs, callDescribeVpcs, World.init, hl] at h
      split at h
      · simp at h
      · split at h <;> simp at h
  · cases hl : (client.DescribeVpcs s).1 with
    | failed e1 => simp [getDefaultVPCs, callDescribeVpcs, World.init, hl, World.record]
    | nilOutput => simp [getDefaultVPCs, callDescribeVpcs, World.init, hl, World.record]
    | listed vpcs =>
      simp only [getDefaultVPCs, callDescribeVpcs, World.init, hl]
      split
      · simp [World.record]
      · split <;> simp [World.record]

/-- C16. For every VPC id, `deleteVPC` makes exactly one call through the
client, a delete-VPC call carrying that id, and it returns an error if and
only if that call fails (a nil error if and only if it succeeds). -/
theorem deleteVPC_makes_exactly_one_call {σ : Type} (client : EC2API σ) (vpcID : String)
    (s : σ) :
    (deleteVPC client vpcID (World.init s)).2.trace =
      [.DeleteVpc (some vpcID) (client.DeleteVpc s (some vpcID)).1] ∧
    ((∃ err, (deleteVPC client vpcID (World.init s)).1 = .ret (some err)) ↔
      (client.DeleteVpc s (some vpcID)).1 ≠ none) ∧
    ((deleteVPC client vpcID (World.init s)).1 = .ret none ↔
      (client.DeleteVpc s (some vpcID)).1 = none) := by
  cases h : (client.DeleteVpc s (some vpcID)).1 with
  | none => simp [deleteVPC, callDeleteVpc, World.init, h, World.record, World.printf]
  | some e => simp [deleteVPC, callDeleteVpc, World.init, h, World.record]

/-- C17 (as amended). When the delete-VPC call fails with error `e`, `deleteVPC`
returns `e` wrapped in an error whose text is `failed to delete VPC <id>: `
followed by the text of `e`; it makes no other call and prints nothing. The
same holds for every `e`: no branch looks at the text of `e`, so a
dependency violation is handled like any other failure. -/
theorem deleteVPC_wraps_the_call_error {σ : Type} (client : EC2API σ) (vpcID : String)
    (s : σ) (e : GoError) (hfail : (client.DeleteVpc s (some vpcID)).1 = some e) :
    (deleteVPC client vpcID (World.init s)).1 =
      .ret (some (.wrapError ("failed to delete VPC " ++ vpcID ++ ": " ++ e.Error) e)) ∧
    (deleteVPC client vpcID (World.init s)).2.trace = [.DeleteVpc (some vpcID) (some e)] ∧
    (deleteVPC client vpcID (World.init s)).2.out = [] := by
  simp [deleteVPC, callDeleteVpc, World.init, hfail, World.record, Errorf]

/-- C13, worked example: two listed regions, and an empty listing. -/
theorem getRegions_returns_the_listed_names_witness :
    (∃ names,
      (getRegions (sampleVpc.regionClient sampleRegions sampleVpcs) (World.init 0)).1 =
        .ret (some names, none) ∧
      names.map some = sampleRegions.map Region.RegionName ∧
      names.length = sampleRegions.length) ∧
    ∃ names,
      (getRegions (sampleVpc.regionClient [] sampleVpcs) (World.init 0)).1 =
        .ret (some names, none) ∧
      names.map some = ([] : List Region).map Region.RegionName ∧
      names.length = ([] : List Region).length :=
  ⟨getRegions_returns_the_listed_names (sampleVpc.regionClient sampleRegions sampleVpcs) 0
      sampleRegions rfl (by decide),
    getRegions_returns_the_listed_names (sampleVpc.regionClient [] sampleVpcs) 0 [] rfl
      (by decide)⟩

/-- C14, worked example: of the three sample VPCs the two default ones are
returned. -/
theorem getDefaultVPCs_returns_the_default_ids_witness :
    ∃ ids,
      (getDefaultVPCs (sampleVpc.regionClient sampleRegions sampleVpcs) (World.init 0)).1 =
        .ret (some ids, none) ∧
      ids.map some =
        (sampleVpcs.filter (fun vpc => decide (vpc.IsDefault = some true))).map Vpc.VpcId :=
  getDefaultVPCs_returns_the_default_ids (sampleVpc.regionClient sampleRegions sampleVpcs) 0
    sampleVpcs rfl (by decide)

/-- C15, worked example: a client whose listings fail with `RequestLimitExceeded`. -/
theorem discovery_returns_an_error_iff_the_listing_fails_witness :
    (getRegions (listFailureVpc.regionClient sampleRegions sampleVpcs) (World.init 0)).1 =
        .ret (none, some (.errorString "RequestLimitExceeded")) ∧
      (getDefaultVPCs (listFailureVpc.regionClient sampleRegions sampleVpcs)
        (World.init 0)).1 = .ret (none, some (.errorString "RequestLimitExceeded")) :=
  ⟨(discovery_returns_an_error_iff_the_listing_fails
      (listFailureVpc.regionClient sampleRegions sampleVpcs) 0).1.1
      (.errorString "RequestLimitExceeded") rfl,
    (discovery_returns_an_error_iff_the_listing_fails
      (listFailureVpc.regionClient sampleRegions sampleVpcs) 0).2.1
      (.errorString "RequestLimitExceeded") rfl⟩

/-- C16, worked example: the delete-VPC call fails, so `deleteVPC` returns an
error. -/
theorem deleteVPC_makes_exactly_one_call_witness :
    ∃ err, (deleteVPC vpcDeleteFailure.client "vpc-12345" (World.init 0)).1 =
      .ret (some err) :=
  (deleteVPC_makes_exactly_one_call vpcDeleteFailure.client "vpc-12345" 0).2.1.mpr
    (by decide)

/-- C17, worked example: the delete-VPC call fails with `DependencyViolation`. -/
theorem deleteVPC_wraps_the_call_error_witness :
    (deleteVPC vpcDeleteFailure.client "vpc-12345" (World.init 0)).1 =
        .ret (some (.wrapError
          ("failed to delete VPC " ++ "vpc-12345" ++ ": " ++
            (GoError.errorString "DependencyViolation").Error)
          (.errorString "DependencyViolation"))) ∧
      (deleteVPC vpcDeleteFailure.client "vpc-12345" (World.init 0)).2.trace =
        [.DeleteVpc (some "vpc-12345") (some (.errorString "DependencyViolation"))] ∧
      (deleteVPC vpcDeleteFailure.client "vpc-12345" (World.init 0)).2.out = [] :=
  deleteVPC_wraps_the_call_error vpcDeleteFailure.client "vpc-12345" 0
    (.errorString "DependencyViolation") rfl

/-- C17 as stated fails: when the delete-VPC call fails with
`DependencyViolation`, the error `deleteVPC` returns is not that error but a
new one that wraps it. -/
theorem deleteVPC_does_not_return_the_call_error :
    (vpcDeleteFailure.client.DeleteVpc 0 (some "vpc-12345")).1 =
        some (.errorString "DependencyViolation") ∧
      (deleteVPC vpcDeleteFailure.client "vpc-12345" (World.init 0)).1 =
        .ret (some (.wrapError "failed to delete VPC vpc-12345: DependencyViolation"
          (.errorString "DependencyViolation"))) ∧
      (deleteVPC vpcDeleteFailure.client "vpc-12345" (World.init 0)).1 ≠
        .ret (some (.errorString "DependencyViolation")) := by
  decide

/-- C12, worked example: the main route table of the sample VPC. -/
theorem isMainRouteTable_iff_an_association_is_main_witness :
    isMainRouteTable
      { RouteTableId := some "rtb-1", Associations := [{ Main := some true }] } = true :=
  (isMainRouteTable_iff_an_association_is_main
    { RouteTableId := some "rtb-1", Associations := [{ Main := some true }] }).1.mpr
    ⟨{ Main := some true }, by decide, rfl⟩

theorem cleanup_trace_ranks {σ : Type} (client : EC2API σ) (vpcID : String) (w : World σ) :
    ∃ evs, (cleanupVPCResources client vpcID w).2.trace = w.trace ++ evs ∧
      (∀ ev ∈ evs, ev.rank ≤ 4) ∧
      SeqRun (cleanupSteps vpcID) evs (cleanupVPCResources client vpcID w).1 := by
  obtain ⟨evs, ht, hr⟩ := cleanupVPCResources_run client vpcID w
  refine ⟨evs, ht, ?_, hr⟩
  obtain ⟨e0, e1, e2, e3, e4, rfl, b0, b1, b2, b3, b4⟩ := cleanup_blocks hr
  intro ev hev
  simp only [List.mem_append] at hev
  rcases hev with h | h | h | h | h
  · rw [b0.1 ev h]; omega
  · rw [b1.1 ev h]; omega
  · rw [b2.1 ev h]; omega
  · rw [b3.1 ev h]; omega
  · rw [b4.1 ev h]

theorem deleteVPC_cases {σ : Type} (client : EC2API σ) (vpcID : String) (w : World σ) :
    (∃ e w2, deleteVPC client vpcID w =
        (.ret (some (Errorf ("failed to delete VPC " ++ vpcID) e)), w2) ∧
        w2.trace = w.trace ++ [.DeleteVpc (some vpcID) (some e)] ∧ w2.out = w.out) ∨
    (∃ w2, deleteVPC client vpcID w = (.ret none, w2) ∧
        w2.trace = w.trace ++ [.DeleteVpc (some vpcID) none]) := by
  cases h : (client.DeleteVpc w.gw (some vpcID)).1 with
  | some e =>
    left
    refine ⟨e, w.record (.DeleteVpc (some vpcID) (some e))
      (client.DeleteVpc w.gw (some vpcID)).2, ?_, rfl, rfl⟩
    simp [deleteVPC, callDeleteVpc, h]
  | none =>
    right
    refine ⟨(w.record (.DeleteVpc (some vpcID) none)
      (client.DeleteVpc w.gw (some vpcID)).2).printf ("Deleted VPC: " ++ vpcID ++ "\n"), ?_, rfl⟩
    simp [deleteVPC, callDeleteVpc, h]

/-- The four ways one pass of the worker loop over the VPC `vpcID` can go. -/
theorem regionWorkerLoop_cons {σ : Type} (client : EC2API σ) (region vpcID : String)
    (rest : List String) (w : World σ) :
    ∃ o w1 evs, cleanupVPCResources client vpcID w = (o, w1) ∧
      w1.trace = w.trace ++ evs ∧ (∀ ev ∈ evs, ev.rank ≤ 4) ∧
      SeqRun (cleanupSteps vpcID) evs o ∧
      ((o = .panic ∧ regionWorkerLoop client region (vpcID :: rest) w = (.panicked, w1)) ∨
        (∃ err, o = .ret (some err) ∧
          regionWorkerLoop client region (vpcID :: rest) w =
            (.exited 1, w1.printf
              ("Error cleaning up resources for VPC " ++ vpcID ++ ": " ++ err.Error))) ∨
        (o = .ret none ∧
          ∃ e w2, deleteVPC client vpcID
              (w1.printf ("Deleting default VPC " ++ vpcID ++ " in region " ++ region ++ "\n")) =
              (.ret (some (Errorf ("failed to delete VPC " ++ vpcID) e)), w2) ∧
            w2.trace = w1.trace ++ [.DeleteVpc (some vpcID) (some e)] ∧
            regionWorkerLoop client region (vpcID :: rest) w =
              (.exited 1, w2.printf
                ("Error deleting VPC " ++ vpcID ++ " in region " ++ region ++ ": " ++
                  (Errorf ("failed to delete VPC " ++ vpcID) e).Error))) ∨
        (o = .ret none ∧
          ∃ w2, deleteVPC client vpcID
              (w1.printf ("Deleting default VPC " ++ vpcID ++ " in region " ++ region ++ "\n")) =
              (.ret none, w2) ∧
            w2.trace = w1.trace ++ [.DeleteVpc (some vpcID) none] ∧
            regionWorkerLoop client region (vpcID :: rest) w =
              regionWorkerLoop client region rest w2)) := by
  obtain ⟨evs, ht, hrank, hr⟩ := cleanup_trace_ranks client vpcID w
  cases hc : cleanupVPCResources client vpcID w with
  | mk o w1 =>
    rw [hc] at ht hr
    refine ⟨o, w1, evs, rfl, ht, hrank, hr, ?_⟩
    cases o with
    | panic => left; exact ⟨rfl, by simp [regionWorkerLoop, hc]⟩
    | ret v =>
      cases v with
      | some err => right; left; exact ⟨err, rfl, by simp [regionWorkerLoop, hc]⟩
      | none =>
        right; right
        rcases deleteVPC_cases client vpcID
          (w1.printf ("Deleting default VPC " ++ vpcID ++ " in region " ++ region ++ "\n"))
          with ⟨e, w2, h1, h2, _⟩ | ⟨w2, h1, h2⟩
        · left
          exact ⟨rfl, e, w2, h1, by simpa using h2, by simp [regionWorkerLoop, hc, h1]⟩
        · right
          exact ⟨rfl, w2, h1, by simpa using h2, by simp [regionWorkerLoop, hc, h1]⟩

theorem regionWorkerLoop_trace {σ : Type} (client : EC2API σ) (region : String)
    (ids : List String) :
    ∀ w : World σ, ∃ evs, (regionWorkerLoop client region ids w).2.trace = w.trace ++ evs := by
  induction ids with
  | nil => intro w; exact ⟨[], by simp [regionWorkerLoop]⟩
  | cons v rest ih =>
    intro w
    obtain ⟨o, w1, evs, hc, ht, _, _, hcase⟩ := regionWorkerLoop_cons client region v rest w
    rcases hcase with ⟨_, hl⟩ | ⟨err, _, hl⟩ | ⟨_, e, w2, _, ht2, hl⟩ | ⟨_, w2, _, ht2, hl⟩
    · exact ⟨evs, by rw [hl]; exact ht⟩
    · exact ⟨evs, by rw [hl]; exact ht⟩
    · exact ⟨evs ++ [.DeleteVpc (some v) (some e)], by
        rw [hl]; simp only [World.printf_trace, ht2, ht, List.append_assoc]⟩
    · obtain ⟨evs2, h2⟩ := ih w2
      exact ⟨evs ++ .DeleteVpc (some v) none :: evs2, by
        rw [hl, h2, ht2, ht]; simp⟩

theorem regionWorkerLoop_append {σ : Type} (client : EC2API σ) (region : String)
    (done more : List String) :
    ∀ w wv : World σ, regionWorkerLoop client region done w = (.returned, wv) →
      regionWorkerLoop client region (done ++ more) w =
        regionWorkerLoop client region more wv := by
  induction done with
  | nil =>
    intro w wv h
    simp only [regionWorkerLoop, Prod.mk.injEq, true_and] at h
    rw [← h]; rfl
  | cons v rest ih =>
    intro w wv h
    obtain ⟨o, w1, evs, hc, ht, _, _, hcase⟩ := regionWorkerLoop_cons client region v rest w
    obtain ⟨o', w1', evs', hc', _, _, _, hcase'⟩ :=
      regionWorkerLoop_cons client region v (rest ++ more) w
    rw [hc] at hc'
    simp only [Prod.mk.injEq] at hc'
    obtain ⟨rfl, rfl⟩ := hc'
    rcases hcase with ⟨_, hl⟩ | ⟨err, _, hl⟩ | ⟨_, e, w2, _, _, hl⟩ | ⟨ho, w2, hd, _, hl⟩
    · rw [hl] at h; simp at h
    · rw [hl] at h; simp at h
    · rw [hl] at h; simp at h
    · rcases hcase' with ⟨ho', _⟩ | ⟨err, ho', _⟩ | ⟨_, e, w2', hd', _, _⟩ |
        ⟨_, w2', hd', _, hl'⟩
      · rw [ho] at ho'; cases ho'
      · rw [ho] at ho'; cases ho'
      · rw [hd] at hd'; simp at hd'
      · rw [hd] at hd'
        simp only [Prod.mk.injEq, true_and] at hd'
        subst hd'
        rw [List.cons_append, hl']
        rw [hl] at h
        exact ih w2 wv h

theorem LoopRun.failure_result {α : Type} {skip : α → Option Bool}
    {idOf : α → Option String} {failText : String} {xs : List α}
    {recs : List (Option String × Option GoError)} {o : Outcome (Option GoError)}
    (h : LoopRun skip idOf failText xs recs o) (r : Option String × Option GoError)
    (e : GoError) (hmem : r ∈ recs) (he : r.2 = some e) :
    ∃ err, o = .ret (some err) ∧ Carries err e := by
  obtain ⟨id, x⟩ := r
  simp only at he
  subst he
  exact ⟨_, h.failed_result id e hmem, Or.inr rfl⟩

theorem IgwLoopRun.igw_failure_result {vpcID : String} {xs : List InternetGateway}
    {evs : List Event} {o : Outcome (Option GoError)} (h : IgwLoopRun vpcID xs evs o)
    (ev : Event) (e : GoError) (hmem : ev ∈ evs) (he : ev.failure = some e) :
    ∃ err, o = .ret (some err) ∧ Carries err e := by
  induction h with
  | done => simp at hmem
  | detachFailed igw rest e1 =>
    simp at hmem
    subst hmem
    simp only [Event.failure, Option.some.injEq] at he
    subst he
    exact ⟨_, rfl, Or.inr rfl⟩
  | deleteFailed igw rest e1 =>
    simp at hmem
    rcases hmem with rfl | rfl
    · simp [Event.failure] at he
    · simp only [Event.failure, Option.some.injEq] at he
      subst he
      exact ⟨_, rfl, Or.inr rfl⟩
  | deleted igw rest evs o _ ih =>
    simp at hmem
    rcases hmem with rfl | rfl | hmem
    · simp [Event.failure] at he
    · simp [Event.failure] at he
    · exact ih hmem

theorem CleanerRun.handsOn_del {α : Type} {describe : ListResp α → Event}
    {onListError : GoError → GoError} {mk : Option String → Option GoError → Event}
    {skip : α → Option Bool} {idOf : α → Option String} {failText : String}
    (hdf : ∀ e, (describe (.failed e)).failure = some e)
    (hdl : ∀ xs, (describe (.listed xs)).failure = none)
    (hdn : (describe .nilOutput).failure = none)
    (hon : ∀ e, Carries (onListError e) e)
    (hmf : ∀ id x, (mk id x).failure = x) :
    HandsOn (CleanerRun describe onListError (DelLoopRun mk skip idOf failText)) := by
  intro evs o h ev hmem e he
  cases h with
  | listFailed e1 =>
    simp at hmem
    subst hmem
    rw [hdf] at he
    simp only [Option.some.injEq] at he
    subst he
    exact ⟨_, rfl, hon _⟩
  | nilOutput =>
    simp at hmem
    subst hmem
    rw [hdn] at he
    cases he
  | listed xs evs o hl =>
    obtain ⟨recs, rfl, hr⟩ := hl
    simp only [List.mem_cons, List.mem_map] at hmem
    rcases hmem with rfl | ⟨r, hr1, rfl⟩
    · rw [hdl] at he; cases he
    · exact hr.failure_result r e hr1 (by simpa [delEvent, hmf] using he)

theorem handsOn_subnets (vpcID : String) : HandsOn (SubnetsRun vpcID) :=
  CleanerRun.handsOn_del (fun _ => rfl) (fun _ => rfl) rfl (fun _ => Or.inl rfl)
    (fun _ _ => rfl)

theorem handsOn_routeTables (vpcID : String) : HandsOn (RouteTablesRun vpcID) :=
  CleanerRun.handsOn_del (fun _ => rfl) (fun _ => rfl) rfl (fun _ => Or.inr rfl)
    (fun _ _ => rfl)

theorem handsOn_networkACLs (vpcID : String) : HandsOn (NetworkACLsRun vpcID) :=
  CleanerRun.handsOn_del (fun _ => rfl) (fun _ => rfl) rfl (fun _ => Or.inl rfl)
    (fun _ _ => rfl)

theorem handsOn_securityGroups (vpcID : String) : HandsOn (SecurityGroupsRun vpcID) :=
  CleanerRun.handsOn_del (fun _ => rfl) (fun _ => rfl) rfl (fun _ => Or.inl rfl)
    (fun _ _ => rfl)

theorem handsOn_internetGateways (vpcID : String) : HandsOn (InternetGatewaysRun vpcID) := by
  intro evs o h ev hmem e he
  cases h with
  | listFailed e1 =>
    simp at hmem
    subst hmem
    simp only [Event.failure, Option.some.injEq] at he
    subst he
    exact ⟨_, rfl, Or.inl rfl⟩
  | nilOutput =>
    simp at hmem
    subst hmem
    simp [Event.failure] at he
  | listed xs evs o hl =>
    simp only [List.mem_cons] at hmem
    rcases hmem with rfl | hmem
    · simp [Event.failure] at he
    · exact hl.igw_failure_result ev e hmem he

theorem SeqRun.handsOn {Rs : List (List Event → Outcome (Option GoError) → Prop)}
    {evs : List Event} {o : Outcome (Option GoError)} (h : SeqRun Rs evs o)
    (hR : ∀ R ∈ Rs, HandsOn R) (ev : Event) (hmem : ev ∈ evs) (e : GoError)
    (he : ev.failure = some e) : ∃ err, o = .ret (some err) ∧ Carries err e := by
  induction h with
  | nil => simp at hmem
  | stop R Rs evs o h1 _ => exact hR R (by simp) evs o h1 ev hmem e he
  | next R Rs evs evs2 o h1 _ ih =>
    rcases List.mem_append.mp hmem with hm | hm
    · obtain ⟨err, h2, _⟩ := hR R (by simp) evs _ h1 ev hm e he
      cases h2
    · exact ih (fun R1 hR1 => hR R1 (by simp [hR1])) hm

theorem cleanupSteps_handsOn (vpcID : String) : ∀ R ∈ cleanupSteps vpcID, HandsOn R := by
  intro R hR
  simp only [cleanupSteps, List.mem_cons, List.mem_singleton, List.not_mem_nil, or_false] at hR
  rcases hR with rfl | rfl | rfl | rfl | rfl
  · exact handsOn_internetGateways vpcID
  · exact handsOn_subnets vpcID
  · exact handsOn_routeTables vpcID
  · exact handsOn_networkACLs vpcID
  · exact handsOn_securityGroups vpcID

theorem filterMap_deletedVpc_of_rank {evs : List Event} (h : ∀ ev ∈ evs, ev.rank ≤ 4) :
    evs.filterMap Event.deletedVpc = [] := by
  rw [List.filterMap_eq_nil_iff]
  intro ev hev
  have := h ev hev
  cases ev <;> simp [Event.deletedVpc, Event.rank] at this ⊢

theorem regionWorkerLoop_order {σ : Type} (client : EC2API σ) (region : String)
    (ids : List String) :
    ∀ w : World σ, ∃ evs n,
      (regionWorkerLoop client region ids w).2.trace = w.trace ++ evs ∧
      evs.filterMap Event.deletedVpc = (ids.take n).map some := by
  induction ids with
  | nil => intro w; exact ⟨[], 0, by simp [regionWorkerLoop], rfl⟩
  | cons v rest ih =>
    intro w
    obtain ⟨o, w1, evs, hc, ht, hrank, _, hcase⟩ := regionWorkerLoop_cons client region v rest w
    have hnil := filterMap_deletedVpc_of_rank hrank
    rcases hcase with ⟨_, hl⟩ | ⟨err, _, hl⟩ | ⟨_, e, w2, _, ht2, hl⟩ | ⟨_, w2, _, ht2, hl⟩
    · exact ⟨evs, 0, by rw [hl]; exact ht, by simpa using hnil⟩
    · exact ⟨evs, 0, by rw [hl]; exact ht, by simpa using hnil⟩
    · refine ⟨evs ++ [.DeleteVpc (some v) (some e)], 1, ?_, ?_⟩
      · rw [hl]; simp only [World.printf_trace, ht2, ht, List.append_assoc]
      · simp [List.filterMap_append, hnil, Event.deletedVpc]
    · obtain ⟨evs2, n, h2, h3⟩ := ih w2
      refine ⟨evs ++ .DeleteVpc (some v) none :: evs2, n + 1, ?_, ?_⟩
      · rw [hl, h2, ht2, ht]; simp
      · simp [List.filterMap_append, hnil, Event.deletedVpc, h3]

theorem regionWorkerLoop_cons_ok {σ : Type} (client : EC2API σ) (region vpcID : String)
    (rest : List String) (w w1 w2 : World σ)
    (hc : cleanupVPCResources client vpcID w = (.ret none, w1))
    (hd : deleteVPC client vpcID
      (w1.printf ("Deleting default VPC " ++ vpcID ++ " in region " ++ region ++ "\n")) =
        (.ret none, w2)) :
    regionWorkerLoop client region (vpcID :: rest) w = regionWorkerLoop client region rest w2 := by
  simp [regionWorkerLoop, hc, hd]

theorem regionWorkerLoop_after_cleanup {σ : Type} (client : EC2API σ) (region : String)
    (ids : List String) :
    ∀ w : World σ, ∃ evs,
      (regionWorkerLoop client region ids w).2.trace = w.trace ++ evs ∧
      ∀ pre post vid r, evs = pre ++ Event.DeleteVpc vid r :: post →
        ∃ done v rest wv w1, ids = done ++ v :: rest ∧ vid = some v ∧
          regionWorkerLoop client region done w = (.returned, wv) ∧
          cleanupVPCResources client v wv = (.ret none, w1) ∧
          w1.trace = w.trace ++ pre := by
  induction ids with
  | nil =>
    intro w
    exact ⟨[], by simp [regionWorkerLoop], by intro pre post vid r h; simp at h⟩
  | cons v rest ih =>
    intro w
    obtain ⟨o, w1, evs, hc, ht, hrank, _, hcase⟩ := regionWorkerLoop_cons client region v rest w
    have hnot : ∀ pre post vid r, evs ≠ pre ++ Event.DeleteVpc vid r :: post := by
      intro pre post vid r h
      have := hrank (.DeleteVpc vid r) (by rw [h]; simp)
      simp [Event.rank] at this
    have hhere : ∀ vid pre, o = .ret none → vid = some v → pre = evs →
        ∃ done u rest1 wv w1, v :: rest = done ++ u :: rest1 ∧ vid = some u ∧
          regionWorkerLoop client region done w = (.returned, wv) ∧
          cleanupVPCResources client u wv = (.ret none, w1) ∧
          w1.trace = w.trace ++ pre := by
      intro vid pre ho hvid hpre
      subst ho hpre
      exact ⟨[], v, rest, w, w1, rfl, hvid, rfl, hc, ht⟩
    rcases hcase with ⟨_, hl⟩ | ⟨err, _, hl⟩ | ⟨ho, e, w2, _, ht2, hl⟩ | ⟨ho, w2, hd, ht2, hl⟩
    · exact ⟨evs, by rw [hl]; exact ht, fun pre post vid r h => absurd h (hnot _ _ _ _)⟩
    · exact ⟨evs, by rw [hl]; exact ht, fun pre post vid r h => absurd h (hnot _ _ _ _)⟩
    · refine ⟨evs ++ [.DeleteVpc (some v) (some e)], ?_, ?_⟩
      · rw [hl]; simp only [World.printf_trace, ht2, ht, List.append_assoc]
      · intro pre post vid r h
        rcases List.append_eq_append_iff.mp h with ⟨c, hpre, hc2⟩ | ⟨c, hevs, hc2⟩
        · cases c with
          | nil =>
            simp only [List.nil_append, List.cons.injEq, Event.DeleteVpc.injEq] at hc2
            exact hhere vid pre ho hc2.1.1.symm (by simpa using hpre)
          | cons x c1 =>
            simp only [List.cons_append, List.cons.injEq] at hc2
            have := hc2.2
            cases c1 <;> simp at this
        · cases c with
          | nil =>
            simp only [List.nil_append, List.cons.injEq, Event.DeleteVpc.injEq] at hc2
            exact hhere vid pre ho hc2.1.1 (by simpa using hevs.symm)
          | cons x c1 =>
            simp only [List.cons_append, List.cons.injEq] at hc2
            exact absurd hevs (by rw [← hc2.1]; exact hnot _ _ _ _)
    · obtain ⟨evs2, h2, h3⟩ := ih w2
      refine ⟨evs ++ .DeleteVpc (some v) none :: evs2, ?_, ?_⟩
      · rw [hl, h2, ht2, ht]; simp
      · intro pre post vid r h
        rcases List.append_eq_append_iff.mp h with ⟨c, hpre, hc2⟩ | ⟨c, hevs, hc2⟩
        · cases c with
          | nil =>
            simp only [List.nil_append, List.cons.injEq, Event.DeleteVpc.injEq] at hc2
            exact hhere vid pre ho hc2.1.1.symm (by simpa using hpre)
          | cons x c1 =>
            simp only [List.cons_append, List.cons.injEq] at hc2
            obtain ⟨done, u, rest1, wv, w1', hids, hvid, hreach, hcl, htr⟩ :=
              h3 c1 post vid r hc2.2
            subst ho
            refine ⟨v :: done, u, rest1, wv, w1', by rw [hids]; rfl, hvid, ?_, hcl, ?_⟩
            · rw [regionWorkerLoop_cons_ok client region v done w w1 w2 hc hd]
              exact hreach
            · rw [htr, ht2, ht, hpre, ← hc2.1]; simp
        · cases c with
          | nil =>
            simp only [List.nil_append, List.cons.injEq, Event.DeleteVpc.injEq] at hc2
            exact hhere vid pre ho hc2.1.1 (by simpa using hevs.symm)
          | cons x c1 =>
            simp only [List.cons_append, List.cons.injEq] at hc2
            exact absurd hevs (by rw [← hc2.1]; exact hnot _ _ _ _)

theorem regionWorkerLoop_failure {σ : Type} (client : EC2API σ) (region : String)
    (ids : List String) :
    ∀ w : World σ, ∃ evs,
      (regionWorkerLoop client region ids w).2.trace = w.trace ++ evs ∧
      (∀ ev ∈ evs, ∀ e, ev.failure = some e →
        (regionWorkerLoop client region ids w).1 = .exited 1) ∧
      ∀ status, (regionWorkerLoop client region ids w).1 = .exited status → status = 1 := by
  induction ids with
  | nil =>
    intro w
    exact ⟨[], by simp [regionWorkerLoop], by simp, by simp [regionWorkerLoop]⟩
  | cons v rest ih =>
    intro w
    obtain ⟨o, w1, evs, hc, ht, hrank, hr, hcase⟩ := regionWorkerLoop_cons client region v rest w
    have hfail := fun ev hev e he => hr.handsOn (cleanupSteps_handsOn v) ev hev e he
    rcases hcase with ⟨ho, hl⟩ | ⟨err, ho, hl⟩ | ⟨ho, e1, w2, _, ht2, hl⟩ | ⟨ho, w2, _, ht2, hl⟩
    · refine ⟨evs, by rw [hl]; exact ht, ?_, by rw [hl]; simp⟩
      intro ev hev e he
      obtain ⟨err, h1, _⟩ := hfail ev hev e he
      rw [ho] at h1; cases h1
    · refine ⟨evs, by rw [hl]; exact ht, ?_, by rw [hl]; simp⟩
      intro ev hev e he
      rw [hl]
    · refine ⟨evs ++ [.DeleteVpc (some v) (some e1)], ?_, ?_, by rw [hl]; simp⟩
      · rw [hl]; simp only [World.printf_trace, ht2, ht, List.append_assoc]
      · intro ev hev e he
        rw [hl]
    · obtain ⟨evs2, h2, h3, h4⟩ := ih w2
      refine ⟨evs ++ .DeleteVpc (some v) none :: evs2, ?_, ?_, by rw [hl]; exact h4⟩
      · rw [hl, h2, ht2, ht]; simp
      · intro ev hev e he
        rcases List.mem_append.mp hev with hm | hm
        · obtain ⟨err, h1, _⟩ := hfail ev hm e he
          rw [ho] at h1; cases h1
        · simp only [List.mem_cons] at hm
          rcases hm with rfl | hm
          · simp [Event.failure] at he
          · rw [hl]
            exact h3 ev hm e he

/-- C18. In a region worker of `DeleteAllDefaultVPCs`, which runs the worker
loop over the ids `getDefaultVPCs` returned: (1) the delete-VPC calls of the
loop are made for an initial part of the ids, one each and in listing order;
(2) whenever a delete-VPC call is made, it is for a VPC `v` of the list, all
VPCs before `v` have been processed to the end, and the calls made so far are
exactly those left by the run of `cleanupVPCResources` for `v`, which
returned a nil error; (3) if `cleanupVPCResources` returns an error for a VPC
`v` that the loop reaches, the worker makes no call after it, so no
delete-VPC call is made from the moment `v` is taken up. -/
theorem regionWorker_deletes_a_vpc_only_after_its_cleanup {σ : Type} (client : EC2API σ)
    (region : String) (ids : List String) (w : World σ) :
    (∀ w0 : World σ,
      getDefaultVPCs client (w0.printf ("Processing region: " ++ region ++ "\n")) =
        (.ret (some ids, none), w) →
      regionWorker client region w0 = regionWorkerLoop client region ids w) ∧
    (∃ n, ((regionWorkerLoop client region ids w).2.trace.drop w.trace.length).filterMap
      Event.deletedVpc = (ids.take n).map some) ∧
    (∀ pre post vid r,
      (regionWorkerLoop client region ids w).2.trace =
        w.trace ++ pre ++ .DeleteVpc vid r :: post →
      ∃ done v rest wv w1, ids = done ++ v :: rest ∧ vid = some v ∧
        regionWorkerLoop client region done w = (.returned, wv) ∧
        cleanupVPCResources client v wv = (.ret none, w1) ∧
        w1.trace = w.trace ++ pre) ∧
    (∀ done v rest wv err w1, ids = done ++ v :: rest →
      regionWorkerLoop client region done w = (.returned, wv) →
      cleanupVPCResources client v wv = (.ret (some err), w1) →
      (regionWorkerLoop client region ids w).2.trace = w1.trace ∧
        ∀ vid r, Event.DeleteVpc vid r ∉ w1.trace.drop wv.trace.length) := by
  refine ⟨fun w0 h => ?_, ?_, fun pre post vid r h => ?_,
    fun done v rest wv err w1 hids hreach hcl => ?_⟩
  · simp [regionWorker, h]
  · obtain ⟨evs, n, h1, h2⟩ := regionWorkerLoop_order client region ids w
    exact ⟨n, by rw [h1, List.drop_left]; exact h2⟩
  · obtain ⟨evs, h1, h2⟩ := regionWorkerLoop_after_cleanup client region ids w
    rw [h1, List.append_assoc] at h
    exact h2 pre post vid r (List.append_cancel_left h)
  · subst hids
    rw [regionWorkerLoop_append client region done (v :: rest) w wv hreach]
    obtain ⟨evs, ht, hrank, _⟩ := cleanup_trace_ranks client v wv
    rw [hcl] at ht
    simp only at ht
    refine ⟨by simp [regionWorkerLoop, hcl], ?_⟩
    intro vid r hmem
    rw [ht, List.drop_left] at hmem
    have := hrank _ hmem
    simp [Event.rank] at this

/-- C19. In a region worker of `DeleteAllDefaultVPCs`, when the loop reaches a
default VPC `v` (every VPC before it was cleaned up and deleted): if
`cleanupVPCResources` returns an error for `v`, or it returns none and
`deleteVPC` returns an error for `v`, the worker prints the error and calls
`os.Exit(1)` in the world that function left: no further call is made through
the client and no later VPC of the region is processed. Whenever the worker
ends the process, the exit status is 1. -/
theorem regionWorker_exits_on_the_first_vpc_error {σ : Type} (client : EC2API σ)
    (region : String) (done : List String) (v : String) (rest : List String)
    (w wv : World σ)
    (hreach : regionWorkerLoop client region done w = (.returned, wv)) :
    (∀ err w1, cleanupVPCResources client v wv = (.ret (some err), w1) →
      regionWorkerLoop client region (done ++ v :: rest) w =
        (.exited 1,
          w1.printf ("Error cleaning up resources for VPC " ++ v ++ ": " ++ err.Error))) ∧
    (∀ w1 err w2, cleanupVPCResources client v wv = (.ret none, w1) →
      deleteVPC client v
        (w1.printf ("Deleting default VPC " ++ v ++ " in region " ++ region ++ "\n")) =
          (.ret (some err), w2) →
      regionWorkerLoop client region (done ++ v :: rest) w =
        (.exited 1,
          w2.printf ("Error deleting VPC " ++ v ++ " in region " ++ region ++ ": " ++
            err.Error))) ∧
    (∀ status, (regionWorkerLoop client region (done ++ v :: rest) w).1 = .exited status →
      status = 1) := by
  refine ⟨fun err w1 hcl => ?_, fun w1 err w2 hcl hd => ?_, fun status h => ?_⟩
  · rw [regionWorkerLoop_append client region done (v :: rest) w wv hreach]
    simp [regionWorkerLoop, hcl]
  · rw [regionWorkerLoop_append client region done (v :: rest) w wv hreach]
    simp [regionWorkerLoop, hcl, hd]
  · obtain ⟨_, _, _, h4⟩ := regionWorkerLoop_failure client region (done ++ v :: rest) w
    exact h4 status h

/-- C18, worked example: with the sample VPC the fourteenth call of the loop is
the delete-VPC call for `vpc-12345`, made after its cleanup; when detaching
the only internet gateway fails, no delete-VPC call is made. -/
theorem regionWorker_deletes_a_vpc_only_after_its_cleanup_witness :
    (∃ done v rest wv w1, ["vpc-12345", "vpc-67890"] = done ++ v :: rest ∧
      some "vpc-12345" = some v ∧
      regionWorkerLoop sampleVpc.client "us-east-1" done (World.init 0) = (.returned, wv) ∧
      cleanupVPCResources sampleVpc.client v wv = (.ret none, w1) ∧
      w1.trace = (World.init 0 : World Nat).trace ++
        (regionWorkerLoop sampleVpc.client "us-east-1" ["vpc-12345", "vpc-67890"]
          (World.init 0)).2.trace.take 13) ∧
    ((regionWorkerLoop onlyGatewayDetachFailure.client "us-east-1" ["vpc-12345", "vpc-67890"]
        (World.init 0)).2.trace =
        (cleanupVPCResources onlyGatewayDetachFailure.client "vpc-12345"
          (World.init 0)).2.trace ∧
      ∀ vid r, Event.DeleteVpc vid r ∉
        (cleanupVPCResources onlyGatewayDetachFailure.client "vpc-12345"
          (World.init 0)).2.trace.drop (World.init 0 : World Nat).trace.length) :=
  ⟨(regionWorker_deletes_a_vpc_only_after_its_cleanup sampleVpc.client "us-east-1"
      ["vpc-12345", "vpc-67890"] (World.init 0)).2.2.1
      ((regionWorkerLoop sampleVpc.client "us-east-1" ["vpc-12345", "vpc-67890"]
        (World.init 0)).2.trace.take 13)
      ((regionWorkerLoop sampleVpc.client "us-east-1" ["vpc-12345", "vpc-67890"]
        (World.init 0)).2.trace.drop 14)
      (some "vpc-12345") none (by decide),
    (regionWorker_deletes_a_vpc_only_after_its_cleanup onlyGatewayDetachFailure.client
      "us-east-1" ["vpc-12345", "vpc-67890"] (World.init 0)).2.2.2
      [] "vpc-12345" ["vpc-67890"] (World.init 0)
      (.wrapError "failed to detach internet gateway igw-12345: Gateway.NotAttached"
        (.errorString "Gateway.NotAttached"))
      (cleanupVPCResources onlyGatewayDetachFailure.client "vpc-12345" (World.init 0)).2
      rfl rfl (by decide)⟩

/-- C19, worked example: detaching the only gateway of the first VPC fails, and
deleting the first VPC fails; each time the worker exits with status 1 without
touching the second VPC. -/
theorem regionWorker_exits_on_the_first_vpc_error_witness :
    (regionWorkerLoop onlyGatewayDetachFailure.client "us-east-1"
        ([] ++ "vpc-12345" :: ["vpc-67890"]) (World.init 0)).1 = .exited 1 ∧
      (regionWorkerLoop vpcDeleteFailure.client "us-east-1"
        ([] ++ "vpc-12345" :: ["vpc-67890"]) (World.init 0)).1 = .exited 1 :=
  ⟨congrArg Prod.fst
      ((regionWorker_exits_on_the_first_vpc_error onlyGatewayDetachFailure.client "us-east-1"
        [] "vpc-12345" ["vpc-67890"] (World.init 0) (World.init 0) rfl).1
        (.wrapError "failed to detach internet gateway igw-12345: Gateway.NotAttached"
          (.errorString "Gateway.NotAttached"))
        (cleanupVPCResources onlyGatewayDetachFailure.client "vpc-12345" (World.init 0)).2
        (by decide)),
    congrArg Prod.fst
      ((regionWorker_exits_on_the_first_vpc_error vpcDeleteFailure.client "us-east-1"
        [] "vpc-12345" ["vpc-67890"] (World.init 0) (World.init 0) rfl).2.1
        (cleanupVPCResources vpcDeleteFailure.client "vpc-12345" (World.init 0)).2
        (.wrapError "failed to delete VPC vpc-12345: DependencyViolation"
          (.errorString "DependencyViolation"))
        (deleteVPC vpcDeleteFailure.client "vpc-12345"
          ((cleanupVPCResources vpcDeleteFailure.client "vpc-12345" (World.init 0)).2.printf
            ("Deleting default VPC " ++ "vpc-12345" ++ " in region " ++ "us-east-1" ++
              "\n"))).2
        (by decide) (by decide))⟩

theorem cleanerAt_handsOn {σ : Type} (client : EC2API σ) (vpcID : String) (k : Nat)
    (s : σ) (ev : Event) (e : GoError)
    (hmem : ev ∈ (cleanerAt k client vpcID (World.init s)).2.trace)
    (he : ev.failure = some e) :
    ∃ err, (cleanerAt k client vpcID (World.init s)).1 = .ret (some err) ∧ Carries err e := by
  match k with
  | 0 =>
    obtain ⟨evs, ht, hr⟩ := deleteInternetGateways_run client vpcID (World.init s)
    simp only [cleanerAt] at hmem ⊢
    rw [ht] at hmem
    exact handsOn_internetGateways vpcID evs _ hr ev (by simpa [World.init] using hmem) e he
  | 1 =>
    obtain ⟨evs, ht, hr⟩ := deleteSubnets_run client vpcID (World.init s)
    simp only [cleanerAt] at hmem ⊢
    rw [ht] at hmem
    exact handsOn_subnets vpcID evs _ hr ev (by simpa [World.init] using hmem) e he
  | 2 =>
    obtain ⟨evs, ht, hr⟩ := deleteRouteTables_run client vpcID (World.init s)
    simp only [cleanerAt] at hmem ⊢
    rw [ht] at hmem
    exact handsOn_routeTables vpcID evs _ hr ev (by simpa [World.init] using hmem) e he
  | 3 =>
    obtain ⟨evs, ht, hr⟩ := deleteNetworkACLs_run client vpcID (World.init s)
    simp only [cleanerAt] at hmem ⊢
    rw [ht] at hmem
    exact handsOn_networkACLs vpcID evs _ hr ev (by simpa [World.init] using hmem) e he
  | n + 4 =>
    obtain ⟨evs, ht, hr⟩ := deleteSecurityGroups_run client vpcID (World.init s)
    simp only [cleanerAt] at hmem ⊢
    rw [ht] at hmem
    exact handsOn_securityGroups vpcID evs _ hr ev (by simpa [World.init] using hmem) e he

/-- What the region worker does after its listing of default VPCs. -/
theorem regionWorker_cases {σ : Type} (client : EC2API σ) (region : String) (s : σ) :
    (∃ e, (client.DescribeVpcs s).1 = .failed e ∧
      regionWorker client region (World.init s) =
        (.returned,
          { gw := (client.DescribeVpcs s).2
            trace := [.DescribeVpcs (.failed e)]
            out := ["Processing region: " ++ region ++ "\n",
              "Error fetching default VPCs in region " ++ region ++ ": " ++ e.Error ++
                "\n"] })) ∨
    ((client.DescribeVpcs s).1 ≠ .nilOutput ∧
      (regionWorker client region (World.init s)).1 = .panicked ∧
      (regionWorker client region (World.init s)).2.trace =
        [.DescribeVpcs (client.DescribeVpcs s).1] ∧
      ∀ e, (client.DescribeVpcs s).1 ≠ .failed e) ∨
    ((client.DescribeVpcs s).1 = .nilOutput ∧
      (regionWorker client region (World.init s)).2.trace = [.DescribeVpcs .nilOutput]) ∨
    (∃ vpcs ids w1, (client.DescribeVpcs s).1 = .listed vpcs ∧
      w1.trace = [.DescribeVpcs (.listed vpcs)] ∧
      regionWorker client region (World.init s) = regionWorkerLoop client region ids w1) := by
  cases hl : (client.DescribeVpcs s).1 with
  | failed e =>
    left
    exact ⟨e, rfl, by
      simp [regionWorker, getDefaultVPCs, callDescribeVpcs, World.init, World.printf, hl,
        World.record]⟩
  | nilOutput =>
    right; right; left
    exact ⟨rfl, by
      simp [regionWorker, getDefaultVPCs, callDescribeVpcs, World.init, World.printf, hl,
        World.record]⟩
  | listed vpcs =>
    by_cases h0 : vpcs.length = 0
    · right; right; right
      refine ⟨vpcs, [], (((World.init s).printf ("Processing region: " ++ region ++ "\n")).record
        (.DescribeVpcs (.listed vpcs)) (client.DescribeVpcs s).2), rfl, ?_, ?_⟩
      · simp [World.record, World.printf, World.init]
      · simp [regionWorker, getDefaultVPCs, callDescribeVpcs, World.init, World.printf,
          hl, h0, World.record]
    · cases hloop : getDefaultVPCsLoop vpcs [] with
      | panic =>
        right; left
        refine ⟨by simp, ?_, ?_, by simp⟩
        · simp [regionWorker, getDefaultVPCs, callDescribeVpcs, World.init, World.printf, hl,
            h0, hloop]
        · simp [regionWorker, getDefaultVPCs, callDescribeVpcs, World.init, World.printf, hl,
            h0, hloop, World.record]
      | ret ids =>
        right; right; right
        refine ⟨vpcs, ids, (((World.init s).printf ("Processing region: " ++ region ++ "\n")).record
        (.DescribeVpcs (.listed vpcs)) (client.DescribeVpcs s).2), rfl, ?_, ?_⟩
        · simp [World.record, World.printf, World.init]
        · simp [regionWorker, getDefaultVPCs, callDescribeVpcs, World.init, World.printf,
            hl, h0, hloop, World.record]

theorem getRegions_failure {σ : Type} (client : EC2API σ) (s : σ) (ev : Event)
    (e : GoError) (hmem : ev ∈ (getRegions client (World.init s)).2.trace)
    (he : ev.failure = some e) :
    (getRegions client (World.init s)).1 = .ret (none, some e) := by
  cases hl : (client.DescribeRegions s).1 with
  | failed e1 =>
    simp [getRegions, callDescribeRegions, World.init, hl, World.record] at hmem ⊢
    subst hmem
    simpa [Event.failure] using he
  | nilOutput =>
    simp [getRegions, callDescribeRegions, World.init, hl, World.record] at hmem
    subst hmem
    simp [Event.failure] at he
  | listed regions =>
    have ht : (getRegions client (World.init s)).2.trace =
        [.DescribeRegions (.listed regions)] := by
      simp only [getRegions, callDescribeRegions, World.init, hl]
      split
      · simp [World.record]
      · split <;> simp [World.record]
    rw [ht] at hmem
    simp at hmem
    subst hmem
    simp [Event.failure] at he

theorem getDefaultVPCs_failure {σ : Type} (client : EC2API σ) (s : σ) (ev : Event)
    (e : GoError) (hmem : ev ∈ (getDefaultVPCs client (World.init s)).2.trace)
    (he : ev.failure = some e) :
    (getDefaultVPCs client (World.init s)).1 = .ret (none, some e) := by
  cases hl : (client.DescribeVpcs s).1 with
  | failed e1 =>
    simp [getDefaultVPCs, callDescribeVpcs, World.init, hl, World.record] at hmem ⊢
    subst hmem
    simpa [Event.failure] using he
  | nilOutput =>
    simp [getDefaultVPCs, callDescribeVpcs, World.init, hl, World.record] at hmem
    subst hmem
    simp [Event.failure] at he
  | listed vpcs =>
    have ht : (getDefaultVPCs client (World.init s)).2.trace =
        [.DescribeVpcs (.listed vpcs)] := by
      simp only [getDefaultVPCs, callDescribeVpcs, World.init, hl]
      split
      · simp [World.record]
      · split <;> simp [World.record]
    rw [ht] at hmem
    simp at hmem
    subst hmem
    simp [Event.failure] at he

/-- C20 (as amended). Whenever a call through the client returned an error `e`:
a cleaner, `cleanupVPCResources` and `deleteVPC` return an error that is `e`
or wraps `e`; `getRegions` and `getDefaultVPCs` return `e` itself; a region
worker either ends the process with `os.Exit(1)` (a failure during cleanup or
VPC deletion) or, when the failed call is its listing of default VPCs, prints
`Error fetching default VPCs in region <region>: <text of e>` and returns.
In this last case the failure is reported but neither returned to a caller
nor the cause of process termination. -/
theorem failures_are_returned_or_fatal_or_reported {σ : Type} (client : EC2API σ)
    (vpcID region : String) (s : σ) (ev : Event) (e : GoError)
    (he : ev.failure = some e) :
    (∀ k, ev ∈ (cleanerAt k client vpcID (World.init s)).2.trace →
      ∃ err, (cleanerAt k client vpcID (World.init s)).1 = .ret (some err) ∧ Carries err e) ∧
    (ev ∈ (cleanupVPCResources client vpcID (World.init s)).2.trace →
      ∃ err, (cleanupVPCResources client vpcID (World.init s)).1 = .ret (some err) ∧
        Carries err e) ∧
    (ev ∈ (deleteVPC client vpcID (World.init s)).2.trace →
      ∃ err, (deleteVPC client vpcID (World.init s)).1 = .ret (some err) ∧ Carries err e) ∧
    (ev ∈ (getRegions client (World.init s)).2.trace →
      (getRegions client (World.init s)).1 = .ret (none, some e)) ∧
    (ev ∈ (getDefaultVPCs client (World.init s)).2.trace →
      (getDefaultVPCs client (World.init s)).1 = .ret (none, some e)) ∧
    (ev ∈ (regionWorker client region (World.init s)).2.trace →
      (regionWorker client region (World.init s)).1 = .exited 1 ∨
      (ev = .DescribeVpcs (.failed e) ∧
        (regionWorker client region (World.init s)).1 = .returned ∧
        (regionWorker client region (World.init s)).2.out =
          ["Processing region: " ++ region ++ "\n",
            "Error fetching default VPCs in region " ++ region ++ ": " ++ e.Error ++
              "\n"])) := by
  refine ⟨fun k hmem => cleanerAt_handsOn client vpcID k s ev e hmem he, fun hmem => ?_,
    fun hmem => ?_, fun hmem => getRegions_failure client s ev e hmem he,
    fun hmem => getDefaultVPCs_failure client s ev e hmem he, fun hmem => ?_⟩
  · obtain ⟨evs, ht, hr⟩ := cleanupVPCResources_run client vpcID (World.init s)
    rw [ht] at hmem
    exact hr.handsOn (cleanupSteps_handsOn vpcID) ev (by simpa [World.init] using hmem) e he
  · rcases deleteVPC_cases client vpcID (World.init s) with ⟨e1, w2, h1, h2, _⟩ | ⟨w2, h1, h2⟩
    · rw [h1] at hmem ⊢
      simp only [h2, World.init, List.nil_append, List.mem_singleton] at hmem
      subst hmem
      simp only [Event.failure, Option.some.injEq] at he
      subst he
      exact ⟨_, rfl, Or.inr rfl⟩
    · rw [h1] at hmem
      simp only [h2, World.init, List.nil_append, List.mem_singleton] at hmem
      subst hmem
      simp [Event.failure] at he
  · rcases regionWorker_cases client region s with ⟨e1, hl, hw⟩ | ⟨_, _, ht, hne⟩ | ⟨hl, ht⟩ |
      ⟨vpcs, ids, w1, hl, ht1, hw⟩
    · right
      rw [hw] at hmem ⊢
      simp only [List.mem_singleton] at hmem
      subst hmem
      simp only [Event.failure, Option.some.injEq] at he
      subst he
      exact ⟨rfl, rfl, rfl⟩
    · exfalso
      rw [ht] at hmem
      simp only [List.mem_singleton] at hmem
      subst hmem
      cases hr : (client.DescribeVpcs s).1 with
      | failed e1 => exact hne e1 hr
      | nilOutput => rw [hr] at he; simp [Event.failure] at he
      | listed vpcs => rw [hr] at he; simp [Event.failure] at he
    · exfalso
      rw [ht] at hmem
      simp only [List.mem_singleton] at hmem
      subst hmem
      simp [Event.failure] at he
    · left
      obtain ⟨evs, h1, h2, _⟩ := regionWorkerLoop_failure client region ids w1
      rw [hw] at hmem ⊢
      rw [h1, ht1] at hmem
      simp only [List.singleton_append, List.mem_cons] at hmem
      rcases hmem with rfl | hmem
      · simp [Event.failure] at he
      · exact h2 ev hmem e he

/-- C20, worked example: a failed subnet delete comes back from
`cleanupVPCResources` as a wrapping error, and a failed delete-VPC call makes
the region worker exit with status 1. -/
theorem failures_are_returned_or_fatal_or_reported_witness :
    (∃ err, (cleanupVPCResources deleteFailureVpc.client "vpc-12345" (World.init 0)).1 =
        .ret (some err) ∧ Carries err (.errorString "DependencyViolation")) ∧
    ((regionWorker (vpcDeleteFailure.regionClient sampleRegions sampleVpcs) "us-east-1"
        (World.init 0)).1 = .exited 1 ∨
      (Event.DeleteVpc (some "vpc-12345") (some (.errorString "DependencyViolation")) =
          .DescribeVpcs (.failed (.errorString "DependencyViolation")) ∧
        (regionWorker (vpcDeleteFailure.regionClient sampleRegions sampleVpcs) "us-east-1"
          (World.init 0)).1 = .returned ∧
        (regionWorker (vpcDeleteFailure.regionClient sampleRegions sampleVpcs) "us-east-1"
          (World.init 0)).2.out =
          ["Processing region: " ++ "us-east-1" ++ "\n",
            "Error fetching default VPCs in region " ++ "us-east-1" ++ ": " ++
              (GoError.errorString "DependencyViolation").Error ++ "\n"])) :=
  ⟨(failures_are_returned_or_fatal_or_reported deleteFailureVpc.client "vpc-12345"
      "us-east-1" 0 (.DeleteSubnet (some "subnet-2") (some (.errorString "DependencyViolation")))
      (.errorString "DependencyViolation") rfl).2.1 (by decide),
    (failures_are_returned_or_fatal_or_reported
      (vpcDeleteFailure.regionClient sampleRegions sampleVpcs) "vpc-12345" "us-east-1" 0
      (.DeleteVpc (some "vpc-12345") (some (.errorString "DependencyViolation")))
      (.errorString "DependencyViolation") rfl).2.2.2.2.2 (by decide)⟩

/-- C20 as stated fails: when the listing of default VPCs fails inside a region
worker, that is the only call made, the worker prints the error and returns;
the goroutine has no result, so the failure is not returned to any caller, and
the process is not ended. -/
theorem regionWorker_only_reports_a_failed_vpc_listing :
    (regionWorker (listFailureVpc.regionClient sampleRegions sampleVpcs) "us-east-1"
        (World.init 0)).2.trace =
        [.DescribeVpcs (.failed (.errorString "RequestLimitExceeded"))] ∧
      regionWorker (listFailureVpc.regionClient sampleRegions sampleVpcs) "us-east-1"
        (World.init 0) =
        (.returned,
          { gw := 1
            trace := [.DescribeVpcs (.failed (.errorString "RequestLimitExceeded"))]
            out := ["Processing region: us-east-1\n",
              "Error fetching default VPCs in region us-east-1: RequestLimitExceeded\n"] }) ∧
      ∀ status, (regionWorker (listFailureVpc.regionClient sampleRegions sampleVpcs)
        "us-east-1" (World.init 0)).1 ≠ .exited status := by
  refine ⟨by decide, by decide, ?_⟩
  intro status
  have h : (regionWorker (listFailureVpc.regionClient sampleRegions sampleVpcs) "us-east-1"
      (World.init 0)).1 = .returned := by decide
  rw [h]
  simp

/-- The calls of a cleaner begin with its listing; further calls exist only
when the listing returned records, and are then the calls of the loop. -/
theorem CleanerRun.listing_first {α : Type} {describe : ListResp α → Event}
    {onListError : GoError → GoError}
    {loop : List α → List Event → Outcome (Option GoError) → Prop}
    {evs : List Event} {o : Outcome (Option GoError)}
    (h : CleanerRun describe onListError loop evs o) :
    ∃ resp rest, evs = describe resp :: rest ∧
      ((∃ xs, resp = .listed xs ∧ loop xs rest o) ∨
        ((∀ xs, resp ≠ .listed xs) ∧ rest = [])) := by
  cases h with
  | listFailed e => exact ⟨.failed e, [], rfl, .inr ⟨by simp, rfl⟩⟩
  | nilOutput => exact ⟨.nilOutput, [], rfl, .inr ⟨by simp, rfl⟩⟩
  | listed xs evs o hl => exact ⟨.listed xs, evs, rfl, .inl ⟨xs, rfl, hl⟩⟩

theorem LoopRun.ids_sublist {α : Type} {skip : α → Option Bool} {idOf : α → Option String}
    {failText : String} {xs : List α} {recs : List (Option String × Option GoError)}
    {o : Outcome (Option GoError)} (h : LoopRun skip idOf failText xs recs o) :
    (recs.map Prod.fst).Sublist (xs.map idOf) := by
  induction h with
  | done => simp
  | nilDeref x rest hs => simp
  | skipped x rest recs o hs _ ih => exact ih.cons _
  | failed x rest e hs => simp
  | deleted x rest recs o hs _ ih => simpa using ih.cons₂ (idOf x)

theorem IgwLoopRun.igw_ids_sublist {vpcID : String} {xs : List InternetGateway}
    {evs : List Event} {o : Outcome (Option GoError)} (h : IgwLoopRun vpcID xs evs o) :
    (evs.filterMap Event.detachedId).Sublist (xs.map InternetGateway.InternetGatewayId) ∧
      (evs.filterMap Event.deletedId).Sublist (xs.map InternetGateway.InternetGatewayId) ∧
      ∀ ev ∈ evs, (∃ id err, ev = .DetachInternetGateway id (some vpcID) err) ∨
        ∃ id err, ev = .DeleteInternetGateway id err := by
  induction h with
  | done => simp
  | detachFailed igw rest e => simp [Event.detachedId, Event.deletedId]
  | deleteFailed igw rest e => simp [Event.detachedId, Event.deletedId]
  | deleted igw rest evs o _ ih =>
    obtain ⟨h1, h2, h3⟩ := ih
    refine ⟨?_, ?_, ?_⟩
    · simpa [Event.detachedId] using h1.cons₂ igw.InternetGatewayId
    · simpa [Event.deletedId] using h2.cons₂ igw.InternetGatewayId
    · intro ev hev
      simp only [List.mem_cons] at hev
      rcases hev with rfl | rfl | hev
      · exact .inl ⟨_, _, rfl⟩
      · exact .inr ⟨_, _, rfl⟩
      · exact h3 ev hev

/-- The shape of the calls of a cleaner with a plain delete loop: the listing,
then delete calls only, made only after the listing returned records, for ids
that form a subsequence of the listed ids. -/
theorem CleanerRun.del_shape {α : Type} {describe : ListResp α → Event}
    {onListError : GoError → GoError} {mk : Option String → Option GoError → Event}
    {skip : α → Option Bool} {idOf : α → Option String} {failText : String}
    {evs : List Event} {o : Outcome (Option GoError)}
    (hmk : ∀ id err, (mk id err).deletedId = some id)
    (hd : ∀ xs, (describe (.listed xs)).listedIds = xs.map idOf)
    (h : CleanerRun describe onListError (DelLoopRun mk skip idOf failText) evs o) :
    ∃ resp rest, evs = describe resp :: rest ∧
      (rest = [] ∨ ∃ xs, resp = .listed xs) ∧
      (∀ ev ∈ rest, ∃ id err, ev = mk id err) ∧
      (rest.filterMap Event.deletedId).Sublist (describe resp).listedIds := by
  obtain ⟨resp, rest, rfl, hcase⟩ := h.listing_first
  refine ⟨resp, rest, rfl, ?_⟩
  rcases hcase with ⟨xs, rfl, recs, rfl, hr⟩ | ⟨_, rfl⟩
  · refine ⟨.inr ⟨xs, rfl⟩, ?_, ?_⟩
    · intro ev hev
      obtain ⟨r, _, rfl⟩ := List.mem_map.mp hev
      exact ⟨r.1, r.2, rfl⟩
    · have hf : ∀ rs : List (Option String × Option GoError),
          (rs.map (delEvent mk)).filterMap Event.deletedId = rs.map Prod.fst := by
        intro rs
        induction rs with
        | nil => rfl
        | cons r rs ih =>
          rw [List.map_cons, List.filterMap_cons, ih]
          simp [delEvent, hmk]
      rw [hf, hd]
      exact hr.ids_sublist
  · exact ⟨.inl rfl, by simp, by simp⟩

/-- The shape of the calls of `deleteInternetGateways`. -/
theorem InternetGatewaysRun.igw_shape {vpcID : String} {evs : List Event}
    {o : Outcome (Option GoError)} (h : InternetGatewaysRun vpcID evs o) :
    ∃ resp rest, evs = .DescribeInternetGateways (attachmentVpcIdFilter vpcID) resp :: rest ∧
      (rest = [] ∨ ∃ xs, resp = .listed xs) ∧
      (∀ ev ∈ rest, (∃ id err, ev = .DetachInternetGateway id (some vpcID) err) ∨
        ∃ id err, ev = .DeleteInternetGateway id err) ∧
      (rest.filterMap Event.detachedId).Sublist
        (Event.DescribeInternetGateways (attachmentVpcIdFilter vpcID) resp).listedIds ∧
      (rest.filterMap Event.deletedId).Sublist
        (Event.DescribeInternetGateways (attachmentVpcIdFilter vpcID) resp).listedIds := by
  obtain ⟨resp, rest, rfl, hcase⟩ := CleanerRun.listing_first h
  refine ⟨resp, rest, rfl, ?_⟩
  rcases hcase with ⟨xs, rfl, hl⟩ | ⟨_, rfl⟩
  · obtain ⟨h1, h2, h3⟩ := hl.igw_ids_sublist
    exact ⟨.inr ⟨xs, rfl⟩, h3, h1, h2⟩
  · exact ⟨.inl rfl, by simp, by simp, by simp⟩

theorem SubnetsRun.subnet_shape {vpcID : String} {evs : List Event}
    {o : Outcome (Option GoError)} (h : SubnetsRun vpcID evs o) :
    ∃ resp rest, evs = .DescribeSubnets (vpcIdFilter vpcID) resp :: rest ∧
      (rest = [] ∨ ∃ xs, resp = .listed xs) ∧
      (∀ ev ∈ rest, ∃ id err, ev = .DeleteSubnet id err) ∧
      (rest.filterMap Event.deletedId).Sublist
        (Event.DescribeSubnets (vpcIdFilter vpcID) resp).listedIds :=
  CleanerRun.del_shape (by intro id err; rfl) (by intro xs; rfl) h

theorem RouteTablesRun.routeTable_shape {vpcID : String} {evs : List Event}
    {o : Outcome (Option GoError)} (h : RouteTablesRun vpcID evs o) :
    ∃ resp rest, evs = .DescribeRouteTables (vpcIdFilter vpcID) resp :: rest ∧
      (rest = [] ∨ ∃ xs, resp = .listed xs) ∧
      (∀ ev ∈ rest, ∃ id err, ev = .DeleteRouteTable id err) ∧
      (rest.filterMap Event.deletedId).Sublist
        (Event.DescribeRouteTables (vpcIdFilter vpcID) resp).listedIds :=
  CleanerRun.del_shape (by intro id err; rfl) (by intro xs; rfl) h

theorem NetworkACLsRun.acl_shape {vpcID : String} {evs : List Event}
    {o : Outcome (Option GoError)} (h : NetworkACLsRun vpcID evs o) :
    ∃ resp rest, evs = .DescribeNetworkAcls (vpcIdFilter vpcID) resp :: rest ∧
      (rest = [] ∨ ∃ xs, resp = .listed xs) ∧
      (∀ ev ∈ rest, ∃ id err, ev = .DeleteNetworkAcl id err) ∧
      (rest.filterMap Event.deletedId).Sublist
        (Event.DescribeNetworkAcls (vpcIdFilter vpcID) resp).listedIds :=
  CleanerRun.del_shape (by intro id err; rfl) (by intro xs; rfl) h

theorem SecurityGroupsRun.group_shape {vpcID : String} {evs : List Event}
    {o : Outcome (Option GoError)} (h : SecurityGroupsRun vpcID evs o) :
    ∃ resp rest, evs = .DescribeSecurityGroups (vpcIdFilter vpcID) resp :: rest ∧
      (rest = [] ∨ ∃ xs, resp = .listed xs) ∧
      (∀ ev ∈ rest, ∃ id err, ev = .DeleteSecurityGroup id err) ∧
      (rest.filterMap Event.deletedId).Sublist
        (Event.DescribeSecurityGroups (vpcIdFilter vpcID) resp).listedIds :=
  CleanerRun.del_shape (by intro id err; rfl) (by intro xs; rfl) h

/-- C21. For every VPC id `vpcID`, from any world: the first call each cleaner
makes is its listing, the request carries exactly one filter, the only value
of that filter is `vpcID`, and its key is `vpc-id` for subnets, route tables,
network ACLs and security groups and `attachment.vpc-id` for internet
gateways; the cleaner sends no other listing request. -/
theorem cleaners_list_with_a_single_vpc_filter {σ : Type} (client : EC2API σ)
    (vpcID : String) (w : World σ) :
    (∃ resp rest, (deleteSubnets client vpcID w).2.trace = w.trace ++
        .DescribeSubnets [{ Name := some "vpc-id", Values := [vpcID] }] resp :: rest ∧
      ∀ ev ∈ rest, ev.isListing = false) ∧
    (∃ resp rest, (deleteRouteTables client vpcID w).2.trace = w.trace ++
        .DescribeRouteTables [{ Name := some "vpc-id", Values := [vpcID] }] resp :: rest ∧
      ∀ ev ∈ rest, ev.isListing = false) ∧
    (∃ resp rest, (deleteNetworkACLs client vpcID w).2.trace = w.trace ++
        .DescribeNetworkAcls [{ Name := some "vpc-id", Values := [vpcID] }] resp :: rest ∧
      ∀ ev ∈ rest, ev.isListing = false) ∧
    (∃ resp rest, (deleteSecurityGroups client vpcID w).2.trace = w.trace ++
        .DescribeSecurityGroups [{ Name := some "vpc-id", Values := [vpcID] }] resp :: rest ∧
      ∀ ev ∈ rest, ev.isListing = false) ∧
    (∃ resp rest, (deleteInternetGateways client vpcID w).2.trace = w.trace ++
        .DescribeInternetGateways [{ Name := some "attachment.vpc-id", Values := [vpcID] }]
          resp :: rest ∧
      ∀ ev ∈ rest, ev.isListing = false) := by
  refine ⟨?_, ?_, ?_, ?_, ?_⟩
  · obtain ⟨evs, ht, hr⟩ := deleteSubnets_run client vpcID w
    obtain ⟨resp, rest, rfl, _, hk, _⟩ := hr.subnet_shape
    refine ⟨resp, rest, ht, fun ev hev => ?_⟩
    obtain ⟨id, err, rfl⟩ := hk ev hev
    rfl
  · obtain ⟨evs, ht, hr⟩ := deleteRouteTables_run client vpcID w
    obtain ⟨resp, rest, rfl, _, hk, _⟩ := hr.routeTable_shape
    refine ⟨resp, rest, ht, fun ev hev => ?_⟩
    obtain ⟨id, err, rfl⟩ := hk ev hev
    rfl
  · obtain ⟨evs, ht, hr⟩ := deleteNetworkACLs_run client vpcID w
    obtain ⟨resp, rest, rfl, _, hk, _⟩ := hr.acl_shape
    refine ⟨resp, rest, ht, fun ev hev => ?_⟩
    obtain ⟨id, err, rfl⟩ := hk ev hev
    rfl
  · obtain ⟨evs, ht, hr⟩ := deleteSecurityGroups_run client vpcID w
    obtain ⟨resp, rest, rfl, _, hk, _⟩ := hr.group_shape
    refine ⟨resp, rest, ht, fun ev hev => ?_⟩
    obtain ⟨id, err, rfl⟩ := hk ev hev
    rfl
  · obtain ⟨evs, ht, hr⟩ := deleteInternetGateways_run client vpcID w
    obtain ⟨resp, rest, rfl, _, hk, _⟩ := hr.igw_shape
    refine ⟨resp, rest, ht, fun ev hev => ?_⟩
    rcases hk ev hev with ⟨id, err, rfl⟩ | ⟨id, err, rfl⟩ <;> rfl

/-- C24. In every invocation of every cleaner, from any world: the calls it
makes begin with one listing call of its own kind; every other call is a
delete call of that kind (for internet gateways a detach call for this VPC or
a delete call), so none is a listing; and there are other calls only if the
listing call, whose response is recorded with it, returned a result set: when
the listing fails, the listing is the only call. -/
theorem cleaners_list_once_before_any_delete {σ : Type} (client : EC2API σ)
    (vpcID : String) (w : World σ) :
    (∃ filters resp rest, (deleteInternetGateways client vpcID w).2.trace =
        w.trace ++ .DescribeInternetGateways filters resp :: rest ∧
      (∀ ev ∈ rest, (∃ id err, ev = .DetachInternetGateway id (some vpcID) err) ∨
        ∃ id err, ev = .DeleteInternetGateway id err) ∧
      (rest = [] ∨ ∃ gateways, resp = .listed gateways)) ∧
    (∃ filters resp rest, (deleteSubnets client vpcID w).2.trace =
        w.trace ++ .DescribeSubnets filters resp :: rest ∧
      (∀ ev ∈ rest, ∃ id err, ev = .DeleteSubnet id err) ∧
      (rest = [] ∨ ∃ subnets, resp = .listed subnets)) ∧
    (∃ filters resp rest, (deleteRouteTables client vpcID w).2.trace =
        w.trace ++ .DescribeRouteTables filters resp :: rest ∧
      (∀ ev ∈ rest, ∃ id err, ev = .DeleteRouteTable id err) ∧
      (rest = [] ∨ ∃ routeTables, resp = .listed routeTables)) ∧
    (∃ filters resp rest, (deleteNetworkACLs client vpcID w).2.trace =
        w.trace ++ .DescribeNetworkAcls filters resp :: rest ∧
      (∀ ev ∈ rest, ∃ id err, ev = .DeleteNetworkAcl id err) ∧
      (rest = [] ∨ ∃ acls, resp = .listed acls)) ∧
    (∃ filters resp rest, (deleteSecurityGroups client vpcID w).2.trace =
        w.trace ++ .DescribeSecurityGroups filters resp :: rest ∧
      (∀ ev ∈ rest, ∃ id err, ev = .DeleteSecurityGroup id err) ∧
      (rest = [] ∨ ∃ groups, resp = .listed groups)) := by
  refine ⟨?_, ?_, ?_, ?_, ?_⟩
  · obtain ⟨evs, ht, hr⟩ := deleteInternetGateways_run client vpcID w
    obtain ⟨resp, rest, rfl, hl, hk, _⟩ := hr.igw_shape
    exact ⟨_, resp, rest, ht, hk, hl⟩
  · obtain ⟨evs, ht, hr⟩ := deleteSubnets_run client vpcID w
    obtain ⟨resp, rest, rfl, hl, hk, _⟩ := hr.subnet_shape
    exact ⟨_, resp, rest, ht, hk, hl⟩
  · obtain ⟨evs, ht, hr⟩ := deleteRouteTables_run client vpcID w
    obtain ⟨resp, rest, rfl, hl, hk, _⟩ := hr.routeTable_shape
    exact ⟨_, resp, rest, ht, hk, hl⟩
  · obtain ⟨evs, ht, hr⟩ := deleteNetworkACLs_run client vpcID w
    obtain ⟨resp, rest, rfl, hl, hk, _⟩ := hr.acl_shape
    exact ⟨_, resp, rest, ht, hk, hl⟩
  · obtain ⟨evs, ht, hr⟩ := deleteSecurityGroups_run client vpcID w
    obtain ⟨resp, rest, rfl, hl, hk, _⟩ := hr.group_shape
    exact ⟨_, resp, rest, ht, hk, hl⟩

/-- C25. In every invocation of every cleaner, from any world and whatever its
outcome: the ids passed to its delete calls, in call order, are a subsequence
of the ids of the records its own listing call returned, in listing order
(and of no ids at all when the listing failed); for internet gateways the
same holds for the ids passed to the detach calls. So nothing is deleted that
was not listed, and a listed record gets at most one delete call. -/
theorem cleaners_delete_a_subsequence_of_the_listed_ids {σ : Type} (client : EC2API σ)
    (vpcID : String) (w : World σ) :
    (∃ listing rest, (deleteInternetGateways client vpcID w).2.trace =
        w.trace ++ listing :: rest ∧ listing.isListing = true ∧
      (rest.filterMap Event.detachedId).Sublist listing.listedIds ∧
      (rest.filterMap Event.deletedId).Sublist listing.listedIds) ∧
    (∃ listing rest, (deleteSubnets client vpcID w).2.trace =
        w.trace ++ listing :: rest ∧ listing.isListing = true ∧
      (rest.filterMap Event.deletedId).Sublist listing.listedIds) ∧
    (∃ listing rest, (deleteRouteTables client vpcID w).2.trace =
        w.trace ++ listing :: rest ∧ listing.isListing = true ∧
      (rest.filterMap Event.deletedId).Sublist listing.listedIds) ∧
    (∃ listing rest, (deleteNetworkACLs client vpcID w).2.trace =
        w.trace ++ listing :: rest ∧ listing.isListing = true ∧
      (rest.filterMap Event.deletedId).Sublist listing.listedIds) ∧
    (∃ listing rest, (deleteSecurityGroups client vpcID w).2.trace =
        w.trace ++ listing :: rest ∧ listing.isListing = true ∧
      (rest.filterMap Event.deletedId).Sublist listing.listedIds) := by
  refine ⟨?_, ?_, ?_, ?_, ?_⟩
  · obtain ⟨evs, ht, hr⟩ := deleteInternetGateways_run client vpcID w
    obtain ⟨resp, rest, rfl, _, _, h1, h2⟩ := hr.igw_shape
    exact ⟨_, rest, ht, rfl, h1, h2⟩
  · obtain ⟨evs, ht, hr⟩ := deleteSubnets_run client vpcID w
    obtain ⟨resp, rest, rfl, _, _, h1⟩ := hr.subnet_shape
    exact ⟨_, rest, ht, rfl, h1⟩
  · obtain ⟨evs, ht, hr⟩ := deleteRouteTables_run client vpcID w
    obtain ⟨resp, rest, rfl, _, _, h1⟩ := hr.routeTable_shape
    exact ⟨_, rest, ht, rfl, h1⟩
  · obtain ⟨evs, ht, hr⟩ := deleteNetworkACLs_run client vpcID w
    obtain ⟨resp, rest, rfl, _, _, h1⟩ := hr.acl_shape
    exact ⟨_, rest, ht, rfl, h1⟩
  · obtain ⟨evs, ht, hr⟩ := deleteSecurityGroups_run client vpcID w
    obtain ⟨resp, rest, rfl, _, _, h1⟩ := hr.group_shape
    exact ⟨_, rest, ht, rfl, h1⟩

theorem isMainRouteTableLoopDeref_eq (associations : List RouteTableAssociation) :
    isMainRouteTableLoopDeref associations = .ret (isMainRouteTableLoop associations) := by
  induction associations with
  | nil => rfl
  | cons a rest ih =>
    cases hm : a.Main with
    | none => simp [isMainRouteTableLoopDeref, isMainRouteTableLoop, hm, ih]
    | some b => cases b <;> simp [isMainRouteTableLoopDeref, isMainRouteTableLoop, hm, ih]

theorem getRegionsLoop_total (regions : List Region) :
    ∀ acc : List String, (∀ region ∈ regions, region.RegionName ≠ none) →
      getRegionsLoop regions acc ≠ .panic := by
  intro acc h
  obtain ⟨names, h1, _⟩ := getRegionsLoop_present regions acc h
  rw [h1]; simp

theorem getDefaultVPCsLoop_total (vpcs : List Vpc) :
    ∀ acc : List String,
      (∀ vpc ∈ vpcs, vpc.IsDefault ≠ none ∧ (vpc.IsDefault = some true → vpc.VpcId ≠ none)) →
      getDefaultVPCsLoop vpcs acc ≠ .panic := by
  induction vpcs with
  | nil => intro acc _; simp [getDefaultVPCsLoop]
  | cons v rest ih =>
    intro acc h
    obtain ⟨hd, hi⟩ := h v (by simp)
    cases hdv : v.IsDefault with
    | none => exact absurd hdv hd
    | some b =>
      cases b with
      | false =>
        simpa [getDefaultVPCsLoop, hdv] using ih acc (fun x hx => h x (by simp [hx]))
      | true =>
        cases hiv : v.VpcId with
        | none => exact absurd hiv (hi hdv)
        | some id =>
          simpa [getDefaultVPCsLoop, hdv, hiv] using
            ih (acc ++ [id]) (fun x hx => h x (by simp [hx]))

theorem LoopRun.panic_skip {α : Type} {skip : α → Option Bool} {idOf : α → Option String}
    {failText : String} {xs : List α} {recs : List (Option String × Option GoError)}
    {o : Outcome (Option GoError)} (h : LoopRun skip idOf failText xs recs o)
    (hp : o = .panic) : ∃ x ∈ xs, skip x = none := by
  induction h with
  | done => cases hp
  | nilDeref x rest hs => exact ⟨x, by simp, hs⟩
  | skipped x rest recs o hs _ ih =>
    obtain ⟨y, hy, h1⟩ := ih hp
    exact ⟨y, by simp [hy], h1⟩
  | failed x rest e hs => cases hp
  | deleted x rest recs o hs _ ih =>
    obtain ⟨y, hy, h1⟩ := ih hp
    exact ⟨y, by simp [hy], h1⟩

/-- A cleaner with a plain delete loop panics only on a listing without output
or on a listed record whose skip test dereferences a nil pointer. -/
theorem CleanerRun.panic_cause {α : Type} {describe : ListResp α → Event}
    {onListError : GoError → GoError} {mk : Option String → Option GoError → Event}
    {skip : α → Option Bool} {idOf : α → Option String} {failText : String}
    {evs : List Event} {o : Outcome (Option GoError)}
    (h : CleanerRun describe onListError (DelLoopRun mk skip idOf failText) evs o)
    (hp : o = .panic) :
    describe .nilOutput ∈ evs ∨ ∃ xs, describe (.listed xs) ∈ evs ∧ ∃ x ∈ xs, skip x = none := by
  cases h with
  | listFailed e => cases hp
  | nilOutput => left; simp
  | listed xs evs o hl =>
    obtain ⟨recs, _, hr⟩ := hl
    right
    exact ⟨xs, by simp, hr.panic_skip hp⟩

/-- C27. Under the precondition that every listing call of the run that did
not fail returned a result set whose records carry the fields the function
dereferences (the name of every region; the default flag of every VPC, and
the id of every default VPC; the default flag of every network ACL; the name
of every security group), `getRegions`, `getDefaultVPCs`, `deleteNetworkACLs`
and `deleteSecurityGroups` do not panic on a nil pointer. `isMainRouteTable`
needs no precondition: with its dereference written out as a step that can
panic, it returns a boolean for every route table, the one the embedding
without that step computes. -/
theorem no_nil_dereference_when_the_fields_are_present {σ : Type} (client : EC2API σ)
    (vpcID : String) (s : σ) :
    ((∀ resp, Event.DescribeRegions resp ∈ (getRegions client (World.init s)).2.trace →
        (∃ e, resp = .failed e) ∨
          ∃ regions, resp = .listed regions ∧
            ∀ region ∈ regions, region.RegionName ≠ none) →
      (getRegions client (World.init s)).1 ≠ .panic) ∧
    ((∀ resp, Event.DescribeVpcs resp ∈ (getDefaultVPCs client (World.init s)).2.trace →
        (∃ e, resp = .failed e) ∨
          ∃ vpcs, resp = .listed vpcs ∧
            ∀ vpc ∈ vpcs, vpc.IsDefault ≠ none ∧
              (vpc.IsDefault = some true → vpc.VpcId ≠ none)) →
      (getDefaultVPCs client (World.init s)).1 ≠ .panic) ∧
    ((∀ filters resp, Event.DescribeNetworkAcls filters resp ∈
          (deleteNetworkACLs client vpcID (World.init s)).2.trace →
        (∃ e, resp = .failed e) ∨
          ∃ acls, resp = .listed acls ∧ ∀ acl ∈ acls, acl.IsDefault ≠ none) →
      (deleteNetworkACLs client vpcID (World.init s)).1 ≠ .panic) ∧
    ((∀ filters resp, Event.DescribeSecurityGroups filters resp ∈
          (deleteSecurityGroups client vpcID (World.init s)).2.trace →
        (∃ e, resp = .failed e) ∨
          ∃ groups, resp = .listed groups ∧ ∀ sg ∈ groups, sg.GroupName ≠ none) →
      (deleteSecurityGroups client vpcID (World.init s)).1 ≠ .panic) ∧
    (∀ rt : RouteTable, isMainRouteTableDeref rt = .ret (isMainRouteTable rt)) := by
  refine ⟨fun h => ?_, fun h => ?_, fun h => ?_, fun h => ?_, fun rt => ?_⟩
  · cases hl : (client.DescribeRegions s).1 with
    | failed e => simp [getRegions, callDescribeRegions, World.init, hl]
    | nilOutput =>
      have := h .nilOutput (by simp [getRegions, callDescribeRegions, World.init, hl])
      simp at this
    | listed regions =>
      by_cases h0 : regions.length = 0
      · simp [getRegions, callDescribeRegions, World.init, hl, h0]
      · have hm : Event.DescribeRegions (.listed regions) ∈
            (getRegions client (World.init s)).2.trace := by
          cases hloop : getRegionsLoop regions [] <;>
            simp [getRegions, callDescribeRegions, World.init, hl, h0, hloop]
        rcases h _ hm with ⟨e, he⟩ | ⟨rs, hrs, hp⟩
        · cases he
        · cases hrs
          have ht := getRegionsLoop_total regions [] hp
          cases hloop : getRegionsLoop regions [] with
          | panic => exact absurd hloop ht
          | ret names => simp [getRegions, callDescribeRegions, World.init, hl, h0, hloop]
  · cases hl : (client.DescribeVpcs s).1 with
    | failed e => simp [getDefaultVPCs, callDescribeVpcs, World.init, hl]
    | nilOutput =>
      have := h .nilOutput (by simp [getDefaultVPCs, callDescribeVpcs, World.init, hl])
      simp at this
    | listed vpcs =>
      by_cases h0 : vpcs.length = 0
      · simp [getDefaultVPCs, callDescribeVpcs, World.init, hl, h0]
      · have hm : Event.DescribeVpcs (.listed vpcs) ∈
            (getDefaultVPCs client (World.init s)).2.trace := by
          cases hloop : getDefaultVPCsLoop vpcs [] <;>
            simp [getDefaultVPCs, callDescribeVpcs, World.init, hl, h0, hloop]
        rcases h _ hm with ⟨e, he⟩ | ⟨rs, hrs, hp⟩
        · cases he
        · cases hrs
          have ht := getDefaultVPCsLoop_total vpcs [] hp
          cases hloop : getDefaultVPCsLoop vpcs [] with
          | panic => exact absurd hloop ht
          | ret ids => simp [getDefaultVPCs, callDescribeVpcs, World.init, hl, h0, hloop]
  · intro hpanic
    obtain ⟨evs, ht, hr⟩ := deleteNetworkACLs_run client vpcID (World.init s)
    rw [ht] at h
    simp only [World.init, List.nil_append] at h
    rcases CleanerRun.panic_cause hr hpanic with hn | ⟨xs, hmem, x, hx, hs⟩
    · rcases h _ _ hn with ⟨e, he⟩ | ⟨acls, ha, _⟩
      · cases he
      · cases ha
    · rcases h _ _ hmem with ⟨e, he⟩ | ⟨acls, ha, hp⟩
      · cases he
      · cases ha
        exact hp x hx hs
  · intro hpanic
    obtain ⟨evs, ht, hr⟩ := deleteSecurityGroups_run client vpcID (World.init s)
    rw [ht] at h
    simp only [World.init, List.nil_append] at h
    rcases CleanerRun.panic_cause hr hpanic with hn | ⟨xs, hmem, x, hx, hs⟩
    · rcases h _ _ hn with ⟨e, he⟩ | ⟨groups, ha, _⟩
      · cases he
      · cases ha
    · rcases h _ _ hmem with ⟨e, he⟩ | ⟨groups, ha, hp⟩
      · cases he
      · cases ha
        apply hp x hx
        simpa [skipSecurityGroup] using hs
  · exact isMainRouteTableLoopDeref_eq rt.Associations

/-- C27, worked example: a client that lists two named regions, a default VPC
and a custom VPC without an id, and the network ACLs and security groups of
the sample VPC; none of the four functions panics, and `isMainRouteTable`
returns false for a route table with a nil main flag. -/
theorem no_nil_dereference_when_the_fields_are_present_witness :
    (getRegions (sampleVpc.regionClient sampleRegions
        [{ VpcId := some "vpc-12345", IsDefault := some true },
          { VpcId := none, IsDefault := some false }]) (World.init 0)).1 ≠ .panic ∧
      (getDefaultVPCs (sampleVpc.regionClient sampleRegions
        [{ VpcId := some "vpc-12345", IsDefault := some true },
          { VpcId := none, IsDefault := some false }]) (World.init 0)).1 ≠ .panic ∧
      (deleteNetworkACLs (sampleVpc.regionClient sampleRegions
        [{ VpcId := some "vpc-12345", IsDefault := some true },
          { VpcId := none, IsDefault := some false }]) "vpc-12345" (World.init 0)).1 ≠ .panic ∧
      (deleteSecurityGroups (sampleVpc.regionClient sampleRegions
        [{ VpcId := some "vpc-12345", IsDefault := some true },
          { VpcId := none, IsDefault := some false }]) "vpc-12345" (World.init 0)).1 ≠ .panic ∧
      isMainRouteTableDeref
        { RouteTableId := some "rtb-2", Associations := [{ Main := none }] } = .ret false :=
  ⟨(no_nil_dereference_when_the_fields_are_present (sampleVpc.regionClient sampleRegions
        [{ VpcId := some "vpc-12345", IsDefault := some true },
          { VpcId := none, IsDefault := some false }]) "vpc-12345" 0).1 (by
      intro resp hmem
      have ht : (getRegions (sampleVpc.regionClient sampleRegions
          [{ VpcId := some "vpc-12345", IsDefault := some true },
            { VpcId := none, IsDefault := some false }]) (World.init 0)).2.trace =
          [.DescribeRegions (.listed sampleRegions)] := by decide
      rw [ht] at hmem
      simp only [List.mem_singleton, Event.DescribeRegions.injEq] at hmem
      exact .inr ⟨sampleRegions, hmem, by decide⟩),
    (no_nil_dereference_when_the_fields_are_present (sampleVpc.regionClient sampleRegions
        [{ VpcId := some "vpc-12345", IsDefault := some true },
          { VpcId := none, IsDefault := some false }]) "vpc-12345" 0).2.1 (by
      intro resp hmem
      have ht : (getDefaultVPCs (sampleVpc.regionClient sampleRegions
          [{ VpcId := some "vpc-12345", IsDefault := some true },
            { VpcId := none, IsDefault := some false }]) (World.init 0)).2.trace =
          [.DescribeVpcs (.listed [{ VpcId := some "vpc-12345", IsDefault := some true },
            { VpcId := none, IsDefault := some false }])] := by decide
      rw [ht] at hmem
      simp only [List.mem_singleton, Event.DescribeVpcs.injEq] at hmem
      exact .inr ⟨_, hmem, by decide⟩),
    (no_nil_dereference_when_the_fields_are_present (sampleVpc.regionClient sampleRegions
        [{ VpcId := some "vpc-12345", IsDefault := some true },
          { VpcId := none, IsDefault := some false }]) "vpc-12345" 0).2.2.1 (by
      intro filters resp hmem
      have ht : (deleteNetworkACLs (sampleVpc.regionClient sampleRegions
          [{ VpcId := some "vpc-12345", IsDefault := some true },
            { VpcId := none, IsDefault := some false }]) "vpc-12345" (World.init 0)).2.trace =
          [.DescribeNetworkAcls (vpcIdFilter "vpc-12345") (.listed sampleVpc.acls),
            .DeleteNetworkAcl (some "acl-67890") none] := by decide
      rw [ht] at hmem
      simp only [List.mem_cons, Event.DescribeNetworkAcls.injEq, List.mem_singleton,
        reduceCtorEq, or_false, List.not_mem_nil] at hmem
      exact .inr ⟨_, hmem.2, by decide⟩),
    (no_nil_dereference_when_the_fields_are_present (sampleVpc.regionClient sampleRegions
        [{ VpcId := some "vpc-12345", IsDefault := some true },
          { VpcId := none, IsDefault := some false }]) "vpc-12345" 0).2.2.2.1 (by
      intro filters resp hmem
      have ht : (deleteSecurityGroups (sampleVpc.regionClient sampleRegions
          [{ VpcId := some "vpc-12345", IsDefault := some true },
            { VpcId := none, IsDefault := some false }]) "vpc-12345" (World.init 0)).2.trace =
          [.DescribeSecurityGroups (vpcIdFilter "vpc-12345") (.listed sampleVpc.groups),
            .DeleteSecurityGroup (some "sg-67890") none,
            .DeleteSecurityGroup (some "sg-24680") none] := by decide
      rw [ht] at hmem
      simp only [List.mem_cons, Event.DescribeSecurityGroups.injEq, List.mem_singleton,
        reduceCtorEq, or_false, List.not_mem_nil] at hmem
      exact .inr ⟨_, hmem.2, by decide⟩),
    (no_nil_dereference_when_the_fields_are_present (sampleVpc.regionClient sampleRegions
        [{ VpcId := some "vpc-12345", IsDefault := some true },
          { VpcId := none, IsDefault := some false }]) "vpc-12345" 0).2.2.2.2
      { RouteTableId := some "rtb-2", Associations := [{ Main := none }] }⟩

theorem Reports.refl {σ : Type} (w : World σ) : Reports w w :=
  ⟨[], by simp, by simp⟩

theorem Reports.trans {σ : Type} {w w1 w2 : World σ} (h1 : Reports w w1) (h2 : Reports w1 w2) :
    Reports w w2 := by
  obtain ⟨e1, t1, o1⟩ := h1
  obtain ⟨e2, t2, o2⟩ := h2
  exact ⟨e1 ++ e2, by rw [t2, t1, List.append_assoc],
    by rw [o2, o1, List.filterMap_append, List.append_assoc]⟩

theorem Reports.silent {σ : Type} (w : World σ) (ev : Event) (s : σ)
    (h : ev.notification = none) : Reports w (w.record ev s) :=
  ⟨[ev], rfl, by simp [World.record, h]⟩

theorem Reports.noted {σ : Type} (w : World σ) (ev : Event) (s : σ) (line : String)
    (h : ev.notification = some line) : Reports w ((w.record ev s).printf line) :=
  ⟨[ev], rfl, by simp [World.record, World.printf, h]⟩

theorem deleteSubnetsLoop_reports {σ : Type} (client : EC2API σ) (xs : List Subnet) :
    ∀ w : World σ, Reports w (deleteSubnetsLoop client xs w).2 := by
  induction xs with
  | nil => intro w; exact Reports.refl w
  | cons x rest ih =>
    intro w
    cases h : (client.DeleteSubnet w.gw x.SubnetId).1 with
    | some e =>
      simp only [deleteSubnetsLoop, callDeleteSubnet, h]
      exact Reports.silent w _ _ rfl
    | none =>
      simp only [deleteSubnetsLoop, callDeleteSubnet, h]
      exact (Reports.noted w _ _ _ (by rfl)).trans (ih _)

theorem deleteRouteTablesLoop_reports {σ : Type} (client : EC2API σ) (xs : List RouteTable) :
    ∀ w : World σ, Reports w (deleteRouteTablesLoop client xs w).2 := by
  induction xs with
  | nil => intro w; exact Reports.refl w
  | cons x rest ih =>
    intro w
    cases hm : isMainRouteTable x with
    | true =>
      simp only [deleteRouteTablesLoop, hm, if_true]
      exact ih w
    | false =>
      cases h : (client.DeleteRouteTable w.gw x.RouteTableId).1 with
      | some e =>
        simp only [deleteRouteTablesLoop, callDeleteRouteTable, h, hm]
        exact Reports.silent w _ _ rfl
      | none =>
        simp only [deleteRouteTablesLoop, callDeleteRouteTable, h, hm]
        exact (Reports.noted w _ _ _ (by rfl)).trans (ih _)

theorem deleteNetworkACLsLoop_reports {σ : Type} (client : EC2API σ) (xs : List NetworkAcl) :
    ∀ w : World σ, Reports w (deleteNetworkACLsLoop client xs w).2 := by
  induction xs with
  | nil => intro w; exact Reports.refl w
  | cons x rest ih =>
    intro w
    cases hd : x.IsDefault with
    | none =>
      simp only [deleteNetworkACLsLoop, hd]
      exact Reports.refl w
    | some b =>
      cases b with
      | true =>
        simp only [deleteNetworkACLsLoop, hd, if_true]
        exact ih w
      | false =>
        cases h : (client.DeleteNetworkAcl w.gw x.NetworkAclId).1 with
        | some e =>
          simp only [deleteNetworkACLsLoop, callDeleteNetworkAcl, h, hd]
          exact Reports.silent w _ _ rfl
        | none =>
          simp only [deleteNetworkACLsLoop, callDeleteNetworkAcl, h, hd]
          exact (Reports.noted w _ _ _ (by rfl)).trans (ih _)

theorem deleteSecurityGroupsLoop_reports {σ : Type} (client : EC2API σ)
    (xs : List SecurityGroup) :
    ∀ w : World σ, Reports w (deleteSecurityGroupsLoop client xs w).2 := by
  induction xs with
  | nil => intro w; exact Reports.refl w
  | cons x rest ih =>
    intro w
    cases hd : x.GroupName with
    | none =>
      simp only [deleteSecurityGroupsLoop, hd]
      exact Reports.refl w
    | some name =>
      by_cases hn : name = "default"
      · simp only [deleteSecurityGroupsLoop, hd, hn, if_true]
        exact ih w
      · cases h : (client.DeleteSecurityGroup w.gw x.GroupId).1 with
        | some e =>
          simp only [deleteSecurityGroupsLoop, callDeleteSecurityGroup, h, hd, hn, if_false]
          exact Reports.silent w _ _ rfl
        | none =>
          simp only [deleteSecurityGroupsLoop, callDeleteSecurityGroup, h, hd, hn, if_false]
          exact (Reports.noted w _ _ _ (by rfl)).trans (ih _)

theorem deleteInternetGatewaysLoop_reports {σ : Type} (client : EC2API σ) (vpcID : String)
    (xs : List InternetGateway) :
    ∀ w : World σ, Reports w (deleteInternetGatewaysLoop client vpcID xs w).2 := by
  induction xs with
  | nil => intro w; exact Reports.refl w
  | cons x rest ih =>
    intro w
    cases h : (client.DetachInternetGateway w.gw x.InternetGatewayId (some vpcID)).1 with
    | some e =>
      simp only [deleteInternetGatewaysLoop, callDetachInternetGateway, h]
      exact Reports.silent w _ _ rfl
    | none =>
      cases h2 : (client.DeleteInternetGateway
          (client.DetachInternetGateway w.gw x.InternetGatewayId (some vpcID)).2
          x.InternetGatewayId).1 with
      | some e =>
        simp only [deleteInternetGatewaysLoop, callDetachInternetGateway, h,
          callDeleteInternetGateway, World.record_gw, h2]
        exact (Reports.silent w _ _ (by rfl)).trans (Reports.silent _ _ _ (by rfl))
      | none =>
        simp only [deleteInternetGatewaysLoop, callDetachInternetGateway, h,
          callDeleteInternetGateway, World.record_gw, h2]
        exact ((Reports.silent w _ _ (by rfl)).trans (Reports.noted _ _ _ _ (by rfl))).trans (ih _)

theorem deleteSubnets_reports {σ : Type} (client : EC2API σ) (vpcID : String)
    (w : World σ) : Reports w (deleteSubnets client vpcID w).2 := by
  cases h : (client.DescribeSubnets w.gw (vpcIdFilter vpcID)).1 with
  | failed e =>
    simp only [deleteSubnets, callDescribeSubnets, h]
    exact Reports.silent w _ _ (by rfl)
  | nilOutput =>
    simp only [deleteSubnets, callDescribeSubnets, h]
    exact Reports.silent w _ _ (by rfl)
  | listed xs =>
    simp only [deleteSubnets, callDescribeSubnets, h]
    exact (Reports.silent w _ _ (by rfl)).trans (deleteSubnetsLoop_reports client xs _)

theorem deleteRouteTables_reports {σ : Type} (client : EC2API σ) (vpcID : String)
    (w : World σ) : Reports w (deleteRouteTables client vpcID w).2 := by
  cases h : (client.DescribeRouteTables w.gw (vpcIdFilter vpcID)).1 with
  | failed e =>
    simp only [deleteRouteTables, callDescribeRouteTables, h]
    exact Reports.silent w _ _ (by rfl)
  | nilOutput =>
    simp only [deleteRouteTables, callDescribeRouteTables, h]
    exact Reports.silent w _ _ (by rfl)
  | listed xs =>
    simp only [deleteRouteTables, callDescribeRouteTables, h]
    exact (Reports.silent w _ _ (by rfl)).trans (deleteRouteTablesLoop_reports client xs _)

theorem deleteNetworkACLs_reports {σ : Type} (client : EC2API σ) (vpcID : String)
    (w : World σ) : Reports w (deleteNetworkACLs client vpcID w).2 := by
  cases h : (client.DescribeNetworkAcls w.gw (vpcIdFilter vpcID)).1 with
  | failed e =>
    simp only [deleteNetworkACLs, callDescribeNetworkAcls, h]
    exact Reports.silent w _ _ (by rfl)
  | nilOutput =>
    simp only [deleteNetworkACLs, callDescribeNetworkAcls, h]
    exact Reports.silent w _ _ (by rfl)
  | listed xs =>
    simp only [deleteNetworkACLs, callDescribeNetworkAcls, h]
    exact (Reports.silent w _ _ (by rfl)).trans (deleteNetworkACLsLoop_reports client xs _)

theorem deleteSecurityGroups_reports {σ : Type} (client : EC2API σ) (vpcID : String)
    (w : World σ) : Reports w (deleteSecurityGroups client vpcID w).2 := by
  cases h : (client.DescribeSecurityGroups w.gw (vpcIdFilter vpcID)).1 with
  | failed e =>
    simp only [deleteSecurityGroups, callDescribeSecurityGroups, h]
    exact Reports.silent w _ _ (by rfl)
  | nilOutput =>
    simp only [deleteSecurityGroups, callDescribeSecurityGroups, h]
    exact Reports.silent w _ _ (by rfl)
  | listed xs =>
    simp only [deleteSecurityGroups, callDescribeSecurityGroups, h]
    exact (Reports.silent w _ _ (by rfl)).trans (deleteSecurityGroupsLoop_reports client xs _)

theorem deleteInternetGateways_reports {σ : Type} (client : EC2API σ) (vpcID : String)
    (w : World σ) : Reports w (deleteInternetGateways client vpcID w).2 := by
  cases h : (client.DescribeInternetGateways w.gw (attachmentVpcIdFilter vpcID)).1 with
  | failed e =>
    simp only [deleteInternetGateways, callDescribeInternetGateways, h]
    exact Reports.silent w _ _ (by rfl)
  | nilOutput =>
    simp only [deleteInternetGateways, callDescribeInternetGateways, h]
    exact Reports.silent w _ _ (by rfl)
  | listed xs =>
    simp only [deleteInternetGateways, callDescribeInternetGateways, h]
    exact (Reports.silent w _ _ (by rfl)).trans
      (deleteInternetGatewaysLoop_reports client vpcID xs _)

/-- One step of a sequence keeps the report property. -/
theorem reports_step {σ : Type} (r1 : Outcome (Option GoError) × World σ)
    (k : World σ → Outcome (Option GoError) × World σ) (w : World σ)
    (h1 : Reports w r1.2) (hk : ∀ w1 : World σ, Reports w1 (k w1).2) :
    Reports w
      (match r1 with
        | (.panic, w1) => (Outcome.panic, w1)
        | (.ret (some err), w1) => (.ret (some err), w1)
        | (.ret none, w1) => k w1).2 := by
  obtain ⟨o, w1⟩ := r1
  cases o with
  | panic => exact h1
  | ret v =>
    cases v with
    | some err => exact h1
    | none => exact h1.trans (hk w1)

/-- Everything `cleanupVPCResources` prints is the notification of a delete
call that succeeded, printed in call order. -/
theorem cleanupVPCResources_reports {σ : Type} (client : EC2API σ) (vpcID : String)
    (w : World σ) : Reports w (cleanupVPCResources client vpcID w).2 := by
  unfold cleanupVPCResources
  refine reports_step _ _ w (deleteInternetGateways_reports client vpcID w) (fun w1 => ?_)
  refine reports_step _ _ w1 (deleteSubnets_reports client vpcID w1) (fun w2 => ?_)
  refine reports_step _ _ w2 (deleteRouteTables_reports client vpcID w2) (fun w3 => ?_)
  refine reports_step _ _ w3 (deleteNetworkACLs_reports client vpcID w3) (fun w4 => ?_)
  have h := deleteSecurityGroups_reports client vpcID w4
  generalize deleteSecurityGroups client vpcID w4 = r at h ⊢
  obtain ⟨o, w5⟩ := r
  cases o with
  | panic => exact h
  | ret v => cases v <;> exact h

theorem CleanerRun.of_empty {α : Type} {describe : ListResp α → Event}
    {onListError : GoError → GoError}
    {loop : List α → List Event → Outcome (Option GoError) → Prop}
    {evs : List Event} {o : Outcome (Option GoError)}
    (hloop : ∀ evs1 o1, loop [] evs1 o1 → evs1 = [] ∧ o1 = .ret none)
    (hempty : ∀ resp, describe resp ∈ evs → resp = .listed [])
    (h : CleanerRun describe onListError loop evs o) :
    evs = [describe (.listed [])] ∧ o = .ret none := by
  cases h with
  | listFailed e => exact absurd (hempty (.failed e) (by simp)) (by simp)
  | nilOutput => exact absurd (hempty .nilOutput (by simp)) (by simp)
  | listed xs evs o hl =>
    have hx := hempty (.listed xs) (List.mem_cons_self _ _)
    simp only [ListResp.listed.injEq] at hx
    subst hx
    obtain ⟨rfl, rfl⟩ := hloop _ _ hl
    exact ⟨rfl, rfl⟩

theorem DelLoopRun.del_of_nil {α : Type} {mk : Option String → Option GoError → Event}
    {skip : α → Option Bool} {idOf : α → Option String} {failText : String}
    (evs : List Event) (o : Outcome (Option GoError))
    (h : DelLoopRun mk skip idOf failText [] evs o) : evs = [] ∧ o = .ret none := by
  obtain ⟨recs, rfl, hr⟩ := h
  cases hr
  exact ⟨rfl, rfl⟩

theorem IgwLoopRun.igw_of_nil {vpcID : String} (evs : List Event) (o : Outcome (Option GoError))
    (h : IgwLoopRun vpcID [] evs o) : evs = [] ∧ o = .ret none := by
  cases h
  exact ⟨rfl, rfl⟩

/-- The calls of a cleanup whose five listings each return no record: the
five listings, in order, and a nil error. -/
theorem cleanupSteps_of_empty_listings {vpcID : String} {evs : List Event}
    {o : Outcome (Option GoError)} (h : SeqRun (cleanupSteps vpcID) evs o)
    (higw : ∀ filters resp, Event.DescribeInternetGateways filters resp ∈ evs →
      resp = .listed [])
    (hsub : ∀ filters resp, Event.DescribeSubnets filters resp ∈ evs → resp = .listed [])
    (hrt : ∀ filters resp, Event.DescribeRouteTables filters resp ∈ evs → resp = .listed [])
    (hacl : ∀ filters resp, Event.DescribeNetworkAcls filters resp ∈ evs → resp = .listed [])
    (hsg : ∀ filters resp, Event.DescribeSecurityGroups filters resp ∈ evs →
      resp = .listed []) :
    evs = [.DescribeInternetGateways (attachmentVpcIdFilter vpcID) (.listed []),
        .DescribeSubnets (vpcIdFilter vpcID) (.listed []),
        .DescribeRouteTables (vpcIdFilter vpcID) (.listed []),
        .DescribeNetworkAcls (vpcIdFilter vpcID) (.listed []),
        .DescribeSecurityGroups (vpcIdFilter vpcID) (.listed [])] ∧
      o = .ret none := by
  unfold cleanupSteps at h
  cases h with
  | stop _ _ _ _ h0 hne =>
    exact absurd (CleanerRun.of_empty IgwLoopRun.igw_of_nil (fun r hm => higw _ r hm) h0).2 hne
  | next _ _ e0 r0 _ h0 h =>
    obtain ⟨rfl, -⟩ := CleanerRun.of_empty IgwLoopRun.igw_of_nil
      (fun r hm => higw _ r (List.mem_append_left _ hm)) h0
    cases h with
    | stop _ _ _ _ h1 hne =>
      exact absurd (CleanerRun.of_empty DelLoopRun.del_of_nil
        (fun r hm => hsub (vpcIdFilter vpcID) r (by simp [hm])) h1).2 hne
    | next _ _ e1 r1 _ h1 h =>
      obtain ⟨rfl, -⟩ := CleanerRun.of_empty DelLoopRun.del_of_nil
        (fun r hm => hsub (vpcIdFilter vpcID) r (by simp [hm])) h1
      cases h with
      | stop _ _ _ _ h2 hne =>
        exact absurd (CleanerRun.of_empty DelLoopRun.del_of_nil
          (fun r hm => hrt (vpcIdFilter vpcID) r (by simp [hm])) h2).2 hne
      | next _ _ e2 r2 _ h2 h =>
        obtain ⟨rfl, -⟩ := CleanerRun.of_empty DelLoopRun.del_of_nil
          (fun r hm => hrt (vpcIdFilter vpcID) r (by simp [hm])) h2
        cases h with
        | stop _ _ _ _ h3 hne =>
          exact absurd (CleanerRun.of_empty DelLoopRun.del_of_nil
            (fun r hm => hacl (vpcIdFilter vpcID) r (by simp [hm])) h3).2 hne
        | next _ _ e3 r3 _ h3 h =>
          obtain ⟨rfl, -⟩ := CleanerRun.of_empty DelLoopRun.del_of_nil
            (fun r hm => hacl (vpcIdFilter vpcID) r (by simp [hm])) h3
          cases h with
          | stop _ _ _ _ h4 hne =>
            exact absurd (CleanerRun.of_empty DelLoopRun.del_of_nil
              (fun r hm => hsg (vpcIdFilter vpcID) r (by simp [hm])) h4).2 hne
          | next _ _ e4 r4 _ h4 h =>
            obtain ⟨rfl, -⟩ := CleanerRun.of_empty DelLoopRun.del_of_nil
              (fun r hm => hsg (vpcIdFilter vpcID) r (by simp [hm])) h4
            cases h
            exact ⟨rfl, rfl⟩

theorem getDefaultVPCsLoop_defaults (vpcs : List Vpc) :
    ∀ acc : List String,
      (∀ vpc ∈ vpcs, vpc.IsDefault ≠ none ∧ (vpc.IsDefault = some true → vpc.VpcId ≠ none)) →
      ∃ ids, getDefaultVPCsLoop vpcs acc = .ret (acc ++ ids) ∧
        ids.map some =
          (vpcs.filter (fun vpc => decide (vpc.IsDefault = some true))).map Vpc.VpcId := by
  induction vpcs with
  | nil => intro acc _; exact ⟨[], by simp [getDefaultVPCsLoop], rfl⟩
  | cons v rest ih =>
    intro acc h
    obtain ⟨hd, hi⟩ := h v (by simp)
    cases hdv : v.IsDefault with
    | none => exact absurd hdv hd
    | some b =>
      cases b with
      | false =>
        obtain ⟨ids, h1, h2⟩ := ih acc (fun x hx => h x (by simp [hx]))
        exact ⟨ids, by simp [getDefaultVPCsLoop, hdv, h1], by simp [hdv, h2]⟩
      | true =>
        cases hiv : v.VpcId with
        | none => exact absurd hiv (hi hdv)
        | some id =>
          obtain ⟨ids, h1, h2⟩ := ih (acc ++ [id]) (fun x hx => h x (by simp [hx]))
          exact ⟨id :: ids, by simp [getDefaultVPCsLoop, hdv, hiv, h1],
            by simp [hdv, hiv, h2]⟩

theorem processing_ne_deleted (region v : String) :
    "Processing region: " ++ region ++ "\n" ≠ "Deleted VPC: " ++ v ++ "\n" := by
  intro h
  have h2 := congrArg String.data h
  simp only [String.data_append] at h2
  simp at h2

theorem deleting_ne_deleted (region v : String) :
    "Deleting default VPC " ++ v ++ " in region " ++ region ++ "\n" ≠
      "Deleted VPC: " ++ v ++ "\n" := by
  intro h
  have h2 := congrArg String.data h
  simp only [String.data_append] at h2
  simp at h2

/-- The worker of a region whose listing returns exactly one default VPC runs
the worker loop over that VPC, from the world the listing left. -/
theorem regionWorker_of_one_default {σ : Type} (client : EC2API σ) (region v : String)
    (s : σ) (vpcs : List Vpc) (hl : (client.DescribeVpcs s).1 = .listed vpcs)
    (hflag : ∀ vpc ∈ vpcs, vpc.IsDefault ≠ none)
    (hone : vpcs.filter (fun vpc => decide (vpc.IsDefault = some true)) =
      [{ VpcId := some v, IsDefault := some true }]) :
    regionWorker client region (World.init s) =
      regionWorkerLoop client region [v]
        { gw := (client.DescribeVpcs s).2
          trace := [.DescribeVpcs (.listed vpcs)]
          out := ["Processing region: " ++ region ++ "\n"] } := by
  have hpre : ∀ vpc ∈ vpcs,
      vpc.IsDefault ≠ none ∧ (vpc.IsDefault = some true → vpc.VpcId ≠ none) := by
    intro vpc hv
    refine ⟨hflag vpc hv, fun hd => ?_⟩
    have : vpc ∈ vpcs.filter (fun vpc => decide (vpc.IsDefault = some true)) := by
      simp [List.mem_filter, hv, hd]
    rw [hone] at this
    simp only [List.mem_singleton] at this
    rw [this]; simp
  obtain ⟨ids, h1, h2⟩ := getDefaultVPCsLoop_defaults vpcs [] hpre
  rw [hone] at h2
  have hids : ids = [v] := by
    apply List.map_injective_iff.mpr (Option.some_injective String)
    simpa using h2
  subst hids
  have h0 : vpcs.length ≠ 0 := by
    intro h0
    have : vpcs = [] := List.length_eq_zero.mp h0
    subst this
    simp at hone
  simp only [List.nil_append] at h1
  simp [regionWorker, getDefaultVPCs, callDescribeVpcs, World.init, World.printf, hl, h0, h1,
    World.record]

/-- C22. For the worker of a region in whose run the default-VPC listing
returns VPCs that all carry a default flag, exactly one of them a default VPC,
with id `v`, and every listing of a dependent resource returns no record: the
calls of the worker are exactly the default-VPC listing, the listings of
internet gateways, subnets, route tables, network ACLs and security groups of
`v` in this order, and one delete-VPC call for `v`; no detach or resource
delete call is made. When the delete-VPC call succeeds the worker returns
without ending the process, and its output is the start line of the region,
the line announcing the deletion and one `Deleted VPC: v` notification. -/
theorem regionWorker_deletes_a_default_vpc_without_resources {σ : Type}
    (client : EC2API σ) (region v : String) (s : σ)
    (hvpcs : ∀ resp, Event.DescribeVpcs resp ∈
        (regionWorker client region (World.init s)).2.trace →
      ∃ vpcs, resp = .listed vpcs ∧ (∀ vpc ∈ vpcs, vpc.IsDefault ≠ none) ∧
        vpcs.filter (fun vpc => decide (vpc.IsDefault = some true)) =
          [{ VpcId := some v, IsDefault := some true }])
    (higw : ∀ filters resp, Event.DescribeInternetGateways filters resp ∈
        (regionWorker client region (World.init s)).2.trace → resp = .listed [])
    (hsub : ∀ filters resp, Event.DescribeSubnets filters resp ∈
        (regionWorker client region (World.init s)).2.trace → resp = .listed [])
    (hrt : ∀ filters resp, Event.DescribeRouteTables filters resp ∈
        (regionWorker client region (World.init s)).2.trace → resp = .listed [])
    (hacl : ∀ filters resp, Event.DescribeNetworkAcls filters resp ∈
        (regionWorker client region (World.init s)).2.trace → resp = .listed [])
    (hsg : ∀ filters resp, Event.DescribeSecurityGroups filters resp ∈
        (regionWorker client region (World.init s)).2.trace → resp = .listed []) :
    ∃ vpcs err,
      (regionWorker client region (World.init s)).2.trace =
        [.DescribeVpcs (.listed vpcs),
          .DescribeInternetGateways [{ Name := some "attachment.vpc-id", Values := [v] }]
            (.listed []),
          .DescribeSubnets [{ Name := some "vpc-id", Values := [v] }] (.listed []),
          .DescribeRouteTables [{ Name := some "vpc-id", Values := [v] }] (.listed []),
          .DescribeNetworkAcls [{ Name := some "vpc-id", Values := [v] }] (.listed []),
          .DescribeSecurityGroups [{ Name := some "vpc-id", Values := [v] }] (.listed []),
          .DeleteVpc (some v) err] ∧
      (err = none →
        (regionWorker client region (World.init s)).1 = .returned ∧
        (regionWorker client region (World.init s)).2.out =
          ["Processing region: " ++ region ++ "\n",
            "Deleting default VPC " ++ v ++ " in region " ++ region ++ "\n",
            "Deleted VPC: " ++ v ++ "\n"] ∧
        (regionWorker client region (World.init s)).2.out.count
          ("Deleted VPC: " ++ v ++ "\n") = 1) := by
  -- the listing of default VPCs is the first call of the run
  have hfirst : Event.DescribeVpcs (client.DescribeVpcs s).1 ∈
      (regionWorker client region (World.init s)).2.trace := by
    rcases regionWorker_cases client region s with
      ⟨e, h1, h2⟩ | ⟨_, _, h2, _⟩ | ⟨h1, h2⟩ | ⟨vpcs, ids, w1, h1, h2, h3⟩
    · rw [h2, h1]; simp
    · rw [h2]; simp
    · rw [h2, h1]; simp
    · obtain ⟨evs, ht⟩ := regionWorkerLoop_trace client region ids w1
      rw [h3, ht, h2, h1]; simp
  obtain ⟨vpcs, hl, hflag, hone⟩ := hvpcs _ hfirst
  have hw := regionWorker_of_one_default client region v s vpcs hl hflag hone
  rw [hw] at higw hsub hrt hacl hsg ⊢
  generalize hw1 : World.mk (client.DescribeVpcs s).2 [Event.DescribeVpcs (.listed vpcs)]
    ["Processing region: " ++ region ++ "\n"] = w1 at higw hsub hrt hacl hsg ⊢
  have hw1t : w1.trace = [.DescribeVpcs (.listed vpcs)] := by rw [← hw1]
  have hw1o : w1.out = ["Processing region: " ++ region ++ "\n"] := by rw [← hw1]
  -- the calls of the cleanup are part of the run
  obtain ⟨o, w2, evs, hc, ht, -, hseq, hcase⟩ := regionWorkerLoop_cons client region v [] w1
  have hext : ∃ extra, (regionWorkerLoop client region [v] w1).2.trace =
      w1.trace ++ evs ++ extra := by
    rcases hcase with ⟨_, h⟩ | ⟨_, _, h⟩ | ⟨_, e, w3, _, h3, h⟩ | ⟨_, w3, _, h3, h⟩
    · exact ⟨[], by rw [h]; simpa using ht⟩
    · exact ⟨[], by rw [h]; simpa using ht⟩
    · exact ⟨[.DeleteVpc (some v) (some e)], by rw [h]; simp [h3, ht]⟩
    · exact ⟨[.DeleteVpc (some v) none], by rw [h]; simp [regionWorkerLoop, h3, ht]⟩
  obtain ⟨extra, hext⟩ := hext
  have hin : ∀ ev ∈ evs, ev ∈ (regionWorkerLoop client region [v] w1).2.trace := by
    intro ev hev; rw [hext]; simp [hev]
  obtain ⟨hevs, ho⟩ := cleanupSteps_of_empty_listings hseq
    (fun f r hm => higw f r (hin _ hm)) (fun f r hm => hsub f r (hin _ hm))
    (fun f r hm => hrt f r (hin _ hm)) (fun f r hm => hacl f r (hin _ hm))
    (fun f r hm => hsg f r (hin _ hm))
  subst ho
  -- the cleanup printed nothing
  have hout : w2.out = w1.out := by
    obtain ⟨evs1, t1, o1⟩ := cleanupVPCResources_reports client v w1
    rw [hc] at t1 o1
    simp only at t1 o1
    have : evs1 = evs := List.append_cancel_left (t1.symm.trans ht)
    rw [o1, this, hevs]
    simp [Event.notification]
  refine ⟨vpcs, (client.DeleteVpc w2.gw (some v)).1, ?_, ?_⟩
  · cases hd : (client.DeleteVpc w2.gw (some v)).1 <;>
      simp [regionWorkerLoop, hc, deleteVPC, callDeleteVpc, hd, ht, hevs, hw1t,
        vpcIdFilter, attachmentVpcIdFilter]
  · intro hd
    have hres : (regionWorkerLoop client region [v] w1).2.out =
        ["Processing region: " ++ region ++ "\n",
          "Deleting default VPC " ++ v ++ " in region " ++ region ++ "\n",
          "Deleted VPC: " ++ v ++ "\n"] := by
      simp [regionWorkerLoop, hc, deleteVPC, callDeleteVpc, hd, World.printf, World.record,
        hout, hw1o]
    refine ⟨?_, hres, ?_⟩
    · simp [regionWorkerLoop, hc, deleteVPC, callDeleteVpc, hd]
    · rw [hres]
      simp [List.count_cons, processing_ne_deleted, deleting_ne_deleted]

/-- C22, worked example: the region `us-east-1` with the default VPC
`vpc-12345`, a custom VPC and no dependent resources. -/
theorem regionWorker_deletes_a_default_vpc_without_resources_witness :
    ∃ vpcs err,
      (regionWorker (emptyVpc.regionClient sampleRegions oneDefaultVpc) "us-east-1"
          (World.init 0)).2.trace =
        [.DescribeVpcs (.listed vpcs),
          .DescribeInternetGateways
            [{ Name := some "attachment.vpc-id", Values := ["vpc-12345"] }] (.listed []),
          .DescribeSubnets [{ Name := some "vpc-id", Values := ["vpc-12345"] }] (.listed []),
          .DescribeRouteTables [{ Name := some "vpc-id", Values := ["vpc-12345"] }]
            (.listed []),
          .DescribeNetworkAcls [{ Name := some "vpc-id", Values := ["vpc-12345"] }]
            (.listed []),
          .DescribeSecurityGroups [{ Name := some "vpc-id", Values := ["vpc-12345"] }]
            (.listed []),
          .DeleteVpc (some "vpc-12345") err] ∧
      (err = none →
        (regionWorker (emptyVpc.regionClient sampleRegions oneDefaultVpc) "us-east-1"
          (World.init 0)).1 = .returned ∧
        (regionWorker (emptyVpc.regionClient sampleRegions oneDefaultVpc) "us-east-1"
          (World.init 0)).2.out =
          ["Processing region: " ++ "us-east-1" ++ "\n",
            "Deleting default VPC " ++ "vpc-12345" ++ " in region " ++ "us-east-1" ++ "\n",
            "Deleted VPC: " ++ "vpc-12345" ++ "\n"] ∧
        (regionWorker (emptyVpc.regionClient sampleRegions oneDefaultVpc) "us-east-1"
          (World.init 0)).2.out.count ("Deleted VPC: " ++ "vpc-12345" ++ "\n") = 1) :=
  have ht : (regionWorker (emptyVpc.regionClient sampleRegions oneDefaultVpc) "us-east-1"
      (World.init 0)).2.trace =
      [.DescribeVpcs (.listed oneDefaultVpc),
        .DescribeInternetGateways (attachmentVpcIdFilter "vpc-12345") (.listed []),
        .DescribeSubnets (vpcIdFilter "vpc-12345") (.listed []),
        .DescribeRouteTables (vpcIdFilter "vpc-12345") (.listed []),
        .DescribeNetworkAcls (vpcIdFilter "vpc-12345") (.listed []),
        .DescribeSecurityGroups (vpcIdFilter "vpc-12345") (.listed []),
        .DeleteVpc (some "vpc-12345") none] := by decide
  regionWorker_deletes_a_default_vpc_without_resources
    (emptyVpc.regionClient sampleRegions oneDefaultVpc) "us-east-1" "vpc-12345" 0
    (by
      intro resp hmem
      rw [ht] at hmem
      simp only [List.mem_cons, Event.DescribeVpcs.injEq, reduceCtorEq, List.not_mem_nil,
        or_false] at hmem
      exact ⟨oneDefaultVpc, hmem, by decide, by decide⟩)
    (by intro filters resp hmem; rw [ht] at hmem; simp at hmem; exact hmem.2)
    (by intro filters resp hmem; rw [ht] at hmem; simp at hmem; exact hmem.2)
    (by intro filters resp hmem; rw [ht] at hmem; simp at hmem; exact hmem.2)
    (by intro filters resp hmem; rw [ht] at hmem; simp at hmem; exact hmem.2)
    (by intro filters resp hmem; rw [ht] at hmem; simp at hmem; exact hmem.2)

theorem Holdings.foldl_removeSubnet (ids : List (Option String)) :
    ∀ h : Holdings,
      (∀ u, (ids.foldl Holdings.removeSubnet h).subnets u =
        (h.subnets u).filter (fun x => decide (x.SubnetId ∉ ids))) ∧
      (ids.foldl Holdings.removeSubnet h).gateways = h.gateways ∧
      (ids.foldl Holdings.removeSubnet h).routeTables = h.routeTables ∧
      (ids.foldl Holdings.removeSubnet h).acls = h.acls ∧
      (ids.foldl Holdings.removeSubnet h).groups = h.groups := by
  induction ids with
  | nil => intro h; simp
  | cons id rest ih =>
    intro h
    obtain ⟨h1, h2, h3, h4, h5⟩ := ih (h.removeSubnet id)
    refine ⟨fun u => ?_, ?_, ?_, ?_, ?_⟩
    · rw [List.foldl_cons, h1 u]
      simp only [Holdings.removeSubnet, List.filter_filter]
      apply List.filter_congr
      intro x _
      simp only [List.mem_cons, not_or, Bool.decide_and, ne_eq]
      rw [Bool.and_comm]
    · rw [List.foldl_cons, h2]; rfl
    · rw [List.foldl_cons, h3]; rfl
    · rw [List.foldl_cons, h4]; rfl
    · rw [List.foldl_cons, h5]; rfl

theorem Holdings.foldl_removeRouteTable (ids : List (Option String)) :
    ∀ h : Holdings,
      (∀ u, (ids.foldl Holdings.removeRouteTable h).routeTables u =
        (h.routeTables u).filter (fun x => decide (x.RouteTableId ∉ ids))) ∧
      (ids.foldl Holdings.removeRouteTable h).gateways = h.gateways ∧
      (ids.foldl Holdings.removeRouteTable h).subnets = h.subnets ∧
      (ids.foldl Holdings.removeRouteTable h).acls = h.acls ∧
      (ids.foldl Holdings.removeRouteTable h).groups = h.groups := by
  induction ids with
  | nil => intro h; simp
  | cons id rest ih =>
    intro h
    obtain ⟨h1, h2, h3, h4, h5⟩ := ih (h.removeRouteTable id)
    refine ⟨fun u => ?_, ?_, ?_, ?_, ?_⟩
    · rw [List.foldl_cons, h1 u]
      simp only [Holdings.removeRouteTable, List.filter_filter]
      apply List.filter_congr
      intro x _
      simp only [List.mem_cons, not_or, Bool.decide_and, ne_eq]
      rw [Bool.and_comm]
    · rw [List.foldl_cons, h2]; rfl
    · rw [List.foldl_cons, h3]; rfl
    · rw [List.foldl_cons, h4]; rfl
    · rw [List.foldl_cons, h5]; rfl

theorem Holdings.foldl_removeAcl (ids : List (Option String)) :
    ∀ h : Holdings,
      (∀ u, (ids.foldl Holdings.removeAcl h).acls u =
        (h.acls u).filter (fun x => decide (x.NetworkAclId ∉ ids))) ∧
      (ids.foldl Holdings.removeAcl h).gateways = h.gateways ∧
      (ids.foldl Holdings.removeAcl h).subnets = h.subnets ∧
      (ids.foldl Holdings.removeAcl h).routeTables = h.routeTables ∧
      (ids.foldl Holdings.removeAcl h).groups = h.groups := by
  induction ids with
  | nil => intro h; simp
  | cons id rest ih =>
    intro h
    obtain ⟨h1, h2, h3, h4, h5⟩ := ih (h.removeAcl id)
    refine ⟨fun u => ?_, ?_, ?_, ?_, ?_⟩
    · rw [List.foldl_cons, h1 u]
      simp only [Holdings.removeAcl, List.filter_filter]
      apply List.filter_congr
      intro x _
      simp only [List.mem_cons, not_or, Bool.decide_and, ne_eq]
      rw [Bool.and_comm]
    · rw [List.foldl_cons, h2]; rfl
    · rw [List.foldl_cons, h3]; rfl
    · rw [List.foldl_cons, h4]; rfl
    · rw [List.foldl_cons, h5]; rfl

theorem Holdings.foldl_removeGroup (ids : List (Option String)) :
    ∀ h : Holdings,
      (∀ u, (ids.foldl Holdings.removeGroup h).groups u =
        (h.groups u).filter (fun x => decide (x.GroupId ∉ ids))) ∧
      (ids.foldl Holdings.removeGroup h).gateways = h.gateways ∧
      (ids.foldl Holdings.removeGroup h).subnets = h.subnets ∧
      (ids.foldl Holdings.removeGroup h).routeTables = h.routeTables ∧
      (ids.foldl Holdings.removeGroup h).acls = h.acls := by
  induction ids with
  | nil => intro h; simp
  | cons id rest ih =>
    intro h
    obtain ⟨h1, h2, h3, h4, h5⟩ := ih (h.removeGroup id)
    refine ⟨fun u => ?_, ?_, ?_, ?_, ?_⟩
    · rw [List.foldl_cons, h1 u]
      simp only [Holdings.removeGroup, List.filter_filter]
      apply List.filter_congr
      intro x _
      simp only [List.mem_cons, not_or, Bool.decide_and, ne_eq]
      rw [Bool.and_comm]
    · rw [List.foldl_cons, h2]; rfl
    · rw [List.foldl_cons, h3]; rfl
    · rw [List.foldl_cons, h4]; rfl
    · rw [List.foldl_cons, h5]; rfl

theorem Holdings.detach_then_remove (h : Holdings) (v : String) (id : Option String) :
    (h.detachGateway v id).removeGateway id = h.removeGateway id := by
  simp only [Holdings.detachGateway, Holdings.removeGateway, Holdings.mk.injEq, and_self,
    and_true]
  funext u
  by_cases hu : u = v
  · simp [hu, List.filter_filter]
  · simp [hu]

theorem Holdings.foldl_removeGateway (v : String) (ids : List (Option String)) :
    ∀ h : Holdings,
      (∀ u, (ids.foldl (fun g id => (g.detachGateway v id).removeGateway id) h).gateways u =
        (h.gateways u).filter (fun x => decide (x.InternetGatewayId ∉ ids))) ∧
      (ids.foldl (fun g id => (g.detachGateway v id).removeGateway id) h).subnets =
        h.subnets ∧
      (ids.foldl (fun g id => (g.detachGateway v id).removeGateway id) h).routeTables =
        h.routeTables ∧
      (ids.foldl (fun g id => (g.detachGateway v id).removeGateway id) h).acls = h.acls ∧
      (ids.foldl (fun g id => (g.detachGateway v id).removeGateway id) h).groups =
        h.groups := by
  induction ids with
  | nil => intro h; simp
  | cons id rest ih =>
    intro h
    obtain ⟨h1, h2, h3, h4, h5⟩ := ih ((h.detachGateway v id).removeGateway id)
    refine ⟨fun u => ?_, ?_, ?_, ?_, ?_⟩
    · rw [List.foldl_cons, h1 u, Holdings.detach_then_remove]
      simp only [Holdings.removeGateway, List.filter_filter]
      apply List.filter_congr
      intro x _
      simp only [List.mem_cons, not_or, Bool.decide_and, ne_eq]
      rw [Bool.and_comm]
    · rw [List.foldl_cons, h2]; rfl
    · rw [List.foldl_cons, h3]; rfl
    · rw [List.foldl_cons, h4]; rfl
    · rw [List.foldl_cons, h5]; rfl

theorem deleteSubnetsLoop_holds {σ : Type} {client : EC2API σ} {holds : σ → Holdings}
    (hgw : InMemoryGateway client holds) (xs : List Subnet) :
    ∀ w : World σ, (deleteSubnetsLoop client xs w).1 = .ret none ∧
      holds (deleteSubnetsLoop client xs w).2.gw =
        (xs.map Subnet.SubnetId).foldl Holdings.removeSubnet (holds w.gw) := by
  induction xs with
  | nil => intro w; simp [deleteSubnetsLoop]
  | cons x rest ih =>
    intro w
    obtain ⟨h1, h2⟩ := hgw.deleteSubnet w.gw x.SubnetId
    simp only [deleteSubnetsLoop, callDeleteSubnet, h1]
    obtain ⟨i1, i2⟩ := ih ((w.record (.DeleteSubnet x.SubnetId none)
      (client.DeleteSubnet w.gw x.SubnetId).2).printf
        ("Deleted subnet: " ++ awsToString x.SubnetId ++ "\n"))
    exact ⟨i1, by rw [i2]; simp [h2]⟩

theorem deleteRouteTablesLoop_holds {σ : Type} {client : EC2API σ} {holds : σ → Holdings}
    (hgw : InMemoryGateway client holds) (xs : List RouteTable) :
    ∀ w : World σ, (deleteRouteTablesLoop client xs w).1 = .ret none ∧
      holds (deleteRouteTablesLoop client xs w).2.gw =
        ((xs.filter (fun rt => !isMainRouteTable rt)).map RouteTable.RouteTableId).foldl
          Holdings.removeRouteTable (holds w.gw) := by
  induction xs with
  | nil => intro w; simp [deleteRouteTablesLoop]
  | cons x rest ih =>
    intro w
    cases hm : isMainRouteTable x with
    | true =>
      simp only [deleteRouteTablesLoop, hm, if_true]
      obtain ⟨i1, i2⟩ := ih w
      exact ⟨i1, by rw [i2]; simp [hm]⟩
    | false =>
      obtain ⟨h1, h2⟩ := hgw.deleteRouteTable w.gw x.RouteTableId
      simp only [deleteRouteTablesLoop, callDeleteRouteTable, h1, hm, Bool.false_eq_true, if_false]
      obtain ⟨i1, i2⟩ := ih ((w.record (.DeleteRouteTable x.RouteTableId none)
        (client.DeleteRouteTable w.gw x.RouteTableId).2).printf
          ("Deleted route table: " ++ awsToString x.RouteTableId ++ "\n"))
      exact ⟨i1, by rw [i2]; simp [h2, hm]⟩

theorem deleteNetworkACLsLoop_holds {σ : Type} {client : EC2API σ} {holds : σ → Holdings}
    (hgw : InMemoryGateway client holds) (xs : List NetworkAcl) :
    ∀ w : World σ,
      ((∀ x ∈ xs, x.IsDefault ≠ none) → (deleteNetworkACLsLoop client xs w).1 = .ret none) ∧
      ((deleteNetworkACLsLoop client xs w).1 = .ret none →
        (∀ x ∈ xs, x.IsDefault ≠ none) ∧
        holds (deleteNetworkACLsLoop client xs w).2.gw =
          ((xs.filter (fun acl => decide (acl.IsDefault = some false))).map
            NetworkAcl.NetworkAclId).foldl Holdings.removeAcl (holds w.gw)) := by
  induction xs with
  | nil => intro w; simp [deleteNetworkACLsLoop]
  | cons x rest ih =>
    intro w
    cases hd : x.IsDefault with
    | none =>
      simp only [deleteNetworkACLsLoop, hd]
      exact ⟨fun h => absurd hd (h x (by simp)), fun h => by cases h⟩
    | some b =>
      cases b with
      | true =>
        simp only [deleteNetworkACLsLoop, hd, if_true]
        obtain ⟨i1, i2⟩ := ih w
        refine ⟨fun h => i1 (fun y hy => h y (by simp [hy])), fun h => ⟨?_, ?_⟩⟩
        · intro y hy
          rcases List.mem_cons.mp hy with rfl | hy
          · simp [hd]
          · exact (i2 h).1 y hy
        · rw [(i2 h).2]; simp [hd]
      | false =>
        obtain ⟨h1, h2⟩ := hgw.deleteAcl w.gw x.NetworkAclId
        simp only [deleteNetworkACLsLoop, callDeleteNetworkAcl, h1, hd, Bool.false_eq_true, if_false]
        obtain ⟨i1, i2⟩ := ih ((w.record (.DeleteNetworkAcl x.NetworkAclId none)
          (client.DeleteNetworkAcl w.gw x.NetworkAclId).2).printf
            ("Deleted network ACL: " ++ awsToString x.NetworkAclId ++ "\n"))
        refine ⟨fun h => i1 (fun y hy => h y (by simp [hy])), fun h => ⟨?_, ?_⟩⟩
        · intro y hy
          rcases List.mem_cons.mp hy with rfl | hy
          · simp [hd]
          · exact (i2 h).1 y hy
        · rw [(i2 h).2]; simp [h2, hd]

theorem deleteSecurityGroupsLoop_holds {σ : Type} {client : EC2API σ} {holds : σ → Holdings}
    (hgw : InMemoryGateway client holds) (xs : List SecurityGroup) :
    ∀ w : World σ,
      ((∀ x ∈ xs, x.GroupName ≠ none) →
        (deleteSecurityGroupsLoop client xs w).1 = .ret none) ∧
      ((deleteSecurityGroupsLoop client xs w).1 = .ret none →
        (∀ x ∈ xs, x.GroupName ≠ none) ∧
        holds (deleteSecurityGroupsLoop client xs w).2.gw =
          ((xs.filter (fun sg => decide (sg.GroupName ≠ some "default"))).map
            SecurityGroup.GroupId).foldl Holdings.removeGroup (holds w.gw)) := by
  induction xs with
  | nil => intro w; simp [deleteSecurityGroupsLoop]
  | cons x rest ih =>
    intro w
    cases hd : x.GroupName with
    | none =>
      simp only [deleteSecurityGroupsLoop, hd]
      exact ⟨fun h => absurd hd (h x (by simp)), fun h => by cases h⟩
    | some name =>
      by_cases hn : name = "default"
      · simp only [deleteSecurityGroupsLoop, hd, hn, if_true]
        obtain ⟨i1, i2⟩ := ih w
        refine ⟨fun h => i1 (fun y hy => h y (by simp [hy])), fun h => ⟨?_, ?_⟩⟩
        · intro y hy
          rcases List.mem_cons.mp hy with rfl | hy
          · simp [hd]
          · exact (i2 h).1 y hy
        · rw [(i2 h).2]; simp [hd, hn]
      · obtain ⟨h1, h2⟩ := hgw.deleteGroup w.gw x.GroupId
        simp only [deleteSecurityGroupsLoop, callDeleteSecurityGroup, h1, hd, hn, if_false]
        obtain ⟨i1, i2⟩ := ih ((w.record (.DeleteSecurityGroup x.GroupId none)
          (client.DeleteSecurityGroup w.gw x.GroupId).2).printf
            ("Deleted security group: " ++ awsToString x.GroupId ++ "\n"))
        refine ⟨fun h => i1 (fun y hy => h y (by simp [hy])), fun h => ⟨?_, ?_⟩⟩
        · intro y hy
          rcases List.mem_cons.mp hy with rfl | hy
          · simp [hd]
          · exact (i2 h).1 y hy
        · rw [(i2 h).2]; simp [h2, hd, hn]

theorem deleteInternetGatewaysLoop_holds {σ : Type} {client : EC2API σ}
    {holds : σ → Holdings} (hgw : InMemoryGateway client holds) (vpcID : String)
    (xs : List InternetGateway) :
    ∀ w : World σ, (deleteInternetGatewaysLoop client vpcID xs w).1 = .ret none ∧
      holds (deleteInternetGatewaysLoop client vpcID xs w).2.gw =
        (xs.map InternetGateway.InternetGatewayId).foldl
          (fun g id => (g.detachGateway vpcID id).removeGateway id) (holds w.gw) := by
  induction xs with
  | nil => intro w; simp [deleteInternetGatewaysLoop]
  | cons x rest ih =>
    intro w
    obtain ⟨h1, h2⟩ := hgw.detachGateway w.gw x.InternetGatewayId vpcID
    obtain ⟨h3, h4⟩ := hgw.deleteGateway
      (client.DetachInternetGateway w.gw x.InternetGatewayId (some vpcID)).2 x.InternetGatewayId
    simp only [deleteInternetGatewaysLoop, callDetachInternetGateway, h1,
      callDeleteInternetGateway, World.record_gw, h3]
    obtain ⟨i1, i2⟩ := ih (((w.record
      (.DetachInternetGateway x.InternetGatewayId (some vpcID) none)
      (client.DetachInternetGateway w.gw x.InternetGatewayId (some vpcID)).2).record
      (.DeleteInternetGateway x.InternetGatewayId none)
      (client.DeleteInternetGateway
        (client.DetachInternetGateway w.gw x.InternetGatewayId (some vpcID)).2
        x.InternetGatewayId).2).printf
        ("Deleted internet gateway: " ++ awsToString x.InternetGatewayId ++ "\n"))
    exact ⟨i1, by rw [i2]; simp [h4, h2]⟩

theorem deleteInternetGateways_holds {σ : Type} {client : EC2API σ} {holds : σ → Holdings}
    (hgw : InMemoryGateway client holds) (vpcID : String) (w : World σ) :
    (deleteInternetGateways client vpcID w).1 = .ret none ∧
      holds (deleteInternetGateways client vpcID w).2.gw =
        (holds w.gw).dropGateways vpcID := by
  obtain ⟨l1, l2⟩ := hgw.listGateways w.gw vpcID
  simp only [deleteInternetGateways, callDescribeInternetGateways, attachmentVpcIdFilter, l1]
  obtain ⟨i1, i2⟩ := deleteInternetGatewaysLoop_holds hgw vpcID ((holds w.gw).gateways vpcID)
    (w.record (.DescribeInternetGateways
      [{ Name := some "attachment.vpc-id", Values := [vpcID] }]
      (.listed ((holds w.gw).gateways vpcID)))
      (client.DescribeInternetGateways w.gw
        [{ Name := some "attachment.vpc-id", Values := [vpcID] }]).2)
  exact ⟨i1, by rw [i2]; simp [l2, Holdings.dropGateways]⟩

theorem deleteSubnets_holds {σ : Type} {client : EC2API σ} {holds : σ → Holdings}
    (hgw : InMemoryGateway client holds) (vpcID : String) (w : World σ) :
    (deleteSubnets client vpcID w).1 = .ret none ∧
      holds (deleteSubnets client vpcID w).2.gw = (holds w.gw).dropSubnets vpcID := by
  obtain ⟨l1, l2⟩ := hgw.listSubnets w.gw vpcID
  simp only [deleteSubnets, callDescribeSubnets, vpcIdFilter, l1]
  obtain ⟨i1, i2⟩ := deleteSubnetsLoop_holds hgw ((holds w.gw).subnets vpcID)
    (w.record (.DescribeSubnets [{ Name := some "vpc-id", Values := [vpcID] }]
      (.listed ((holds w.gw).subnets vpcID)))
      (client.DescribeSubnets w.gw [{ Name := some "vpc-id", Values := [vpcID] }]).2)
  exact ⟨i1, by rw [i2]; simp [l2, Holdings.dropSubnets]⟩

theorem deleteRouteTables_holds {σ : Type} {client : EC2API σ} {holds : σ → Holdings}
    (hgw : InMemoryGateway client holds) (vpcID : String) (w : World σ) :
    (deleteRouteTables client vpcID w).1 = .ret none ∧
      holds (deleteRouteTables client vpcID w).2.gw =
        (holds w.gw).dropRouteTables vpcID := by
  obtain ⟨l1, l2⟩ := hgw.listRouteTables w.gw vpcID
  simp only [deleteRouteTables, callDescribeRouteTables, vpcIdFilter, l1]
  obtain ⟨i1, i2⟩ := deleteRouteTablesLoop_holds hgw ((holds w.gw).routeTables vpcID)
    (w.record (.DescribeRouteTables [{ Name := some "vpc-id", Values := [vpcID] }]
      (.listed ((holds w.gw).routeTables vpcID)))
      (client.DescribeRouteTables w.gw [{ Name := some "vpc-id", Values := [vpcID] }]).2)
  exact ⟨i1, by rw [i2]; simp [l2, Holdings.dropRouteTables]⟩

theorem deleteNetworkACLs_holds {σ : Type} {client : EC2API σ} {holds : σ → Holdings}
    (hgw : InMemoryGateway client holds) (vpcID : String) (w : World σ) :
    ((∀ x ∈ (holds w.gw).acls vpcID, x.IsDefault ≠ none) →
      (deleteNetworkACLs client vpcID w).1 = .ret none) ∧
    ((deleteNetworkACLs client vpcID w).1 = .ret none →
      (∀ x ∈ (holds w.gw).acls vpcID, x.IsDefault ≠ none) ∧
      holds (deleteNetworkACLs client vpcID w).2.gw = (holds w.gw).dropAcls vpcID) := by
  obtain ⟨l1, l2⟩ := hgw.listAcls w.gw vpcID
  simp only [deleteNetworkACLs, callDescribeNetworkAcls, vpcIdFilter, l1]
  obtain ⟨i1, i2⟩ := deleteNetworkACLsLoop_holds hgw ((holds w.gw).acls vpcID)
    (w.record (.DescribeNetworkAcls [{ Name := some "vpc-id", Values := [vpcID] }]
      (.listed ((holds w.gw).acls vpcID)))
      (client.DescribeNetworkAcls w.gw [{ Name := some "vpc-id", Values := [vpcID] }]).2)
  exact ⟨i1, fun h => ⟨(i2 h).1, by rw [(i2 h).2]; simp [l2, Holdings.dropAcls]⟩⟩

theorem deleteSecurityGroups_holds {σ : Type} {client : EC2API σ} {holds : σ → Holdings}
    (hgw : InMemoryGateway client holds) (vpcID : String) (w : World σ) :
    ((∀ x ∈ (holds w.gw).groups vpcID, x.GroupName ≠ none) →
      (deleteSecurityGroups client vpcID w).1 = .ret none) ∧
    ((deleteSecurityGroups client vpcID w).1 = .ret none →
      (∀ x ∈ (holds w.gw).groups vpcID, x.GroupName ≠ none) ∧
      holds (deleteSecurityGroups client vpcID w).2.gw = (holds w.gw).dropGroups vpcID) := by
  obtain ⟨l1, l2⟩ := hgw.listGroups w.gw vpcID
  simp only [deleteSecurityGroups, callDescribeSecurityGroups, vpcIdFilter, l1]
  obtain ⟨i1, i2⟩ := deleteSecurityGroupsLoop_holds hgw ((holds w.gw).groups vpcID)
    (w.record (.DescribeSecurityGroups [{ Name := some "vpc-id", Values := [vpcID] }]
      (.listed ((holds w.gw).groups vpcID)))
      (client.DescribeSecurityGroups w.gw [{ Name := some "vpc-id", Values := [vpcID] }]).2)
  exact ⟨i1, fun h => ⟨(i2 h).1, by rw [(i2 h).2]; simp [l2, Holdings.dropGroups]⟩⟩

theorem Holdings.dropGateways_fields (h : Holdings) (v : String) :
    (∀ u, (h.dropGateways v).gateways u =
        (h.gateways u).filter (fun x => decide (x.InternetGatewayId ∉
          (h.gateways v).map InternetGateway.InternetGatewayId))) ∧
      (h.dropGateways v).subnets = h.subnets ∧
      (h.dropGateways v).routeTables = h.routeTables ∧
      (h.dropGateways v).acls = h.acls ∧
      (h.dropGateways v).groups = h.groups :=
  Holdings.foldl_removeGateway v _ h

theorem Holdings.dropSubnets_fields (h : Holdings) (v : String) :
    (∀ u, (h.dropSubnets v).subnets u =
        (h.subnets u).filter (fun x => decide (x.SubnetId ∉
          (h.subnets v).map Subnet.SubnetId))) ∧
      (h.dropSubnets v).gateways = h.gateways ∧
      (h.dropSubnets v).routeTables = h.routeTables ∧
      (h.dropSubnets v).acls = h.acls ∧
      (h.dropSubnets v).groups = h.groups :=
  Holdings.foldl_removeSubnet _ h

theorem Holdings.dropRouteTables_fields (h : Holdings) (v : String) :
    (∀ u, (h.dropRouteTables v).routeTables u =
        (h.routeTables u).filter (fun x => decide (x.RouteTableId ∉
          ((h.routeTables v).filter (fun rt => !isMainRouteTable rt)).map RouteTable.RouteTableId))) ∧
      (h.dropRouteTables v).gateways = h.gateways ∧
      (h.dropRouteTables v).subnets = h.subnets ∧
      (h.dropRouteTables v).acls = h.acls ∧
      (h.dropRouteTables v).groups = h.groups :=
  Holdings.foldl_removeRouteTable _ h

theorem Holdings.dropAcls_fields (h : Holdings) (v : String) :
    (∀ u, (h.dropAcls v).acls u =
        (h.acls u).filter (fun x => decide (x.NetworkAclId ∉
          ((h.acls v).filter (fun acl => decide (acl.IsDefault = some false))).map NetworkAcl.NetworkAclId))) ∧
      (h.dropAcls v).gateways = h.gateways ∧
      (h.dropAcls v).subnets = h.subnets ∧
      (h.dropAcls v).routeTables = h.routeTables ∧
      (h.dropAcls v).groups = h.groups :=
  Holdings.foldl_removeAcl _ h

theorem Holdings.dropGroups_fields (h : Holdings) (v : String) :
    (∀ u, (h.dropGroups v).groups u =
        (h.groups u).filter (fun x => decide (x.GroupId ∉
          ((h.groups v).filter (fun sg => decide (sg.GroupName ≠ some "default"))).map SecurityGroup.GroupId))) ∧
      (h.dropGroups v).gateways = h.gateways ∧
      (h.dropGroups v).subnets = h.subnets ∧
      (h.dropGroups v).routeTables = h.routeTables ∧
      (h.dropGroups v).acls = h.acls :=
  Holdings.foldl_removeGroup _ h

/-- What `cleanupVPCResources` does to an in-memory gateway: it returns a nil
error when the network ACLs and security groups held for the VPC carry the
fields the cleaners dereference, and whenever it returns a nil error the
gateway holds what is left after the five removals in order. -/
theorem cleanupVPCResources_holds {σ : Type} {client : EC2API σ} {holds : σ → Holdings}
    (hgw : InMemoryGateway client holds) (v : String) (w : World σ) :
    ((∀ x ∈ (holds w.gw).acls v, x.IsDefault ≠ none) →
      (∀ x ∈ (holds w.gw).groups v, x.GroupName ≠ none) →
      (cleanupVPCResources client v w).1 = .ret none) ∧
    ((cleanupVPCResources client v w).1 = .ret none →
      (∀ x ∈ (holds w.gw).acls v, x.IsDefault ≠ none) ∧
      (∀ x ∈ (holds w.gw).groups v, x.GroupName ≠ none) ∧
      holds (cleanupVPCResources client v w).2.gw =
        (((((holds w.gw).dropGateways v).dropSubnets v).dropRouteTables v).dropAcls
          v).dropGroups v) := by
  obtain ⟨a1, a2⟩ := deleteInternetGateways_holds hgw v w
  cases hc0 : deleteInternetGateways client v w with
  | mk o0 w1 =>
    rw [hc0] at a1 a2
    simp only at a1 a2
    subst a1
    obtain ⟨b1, b2⟩ := deleteSubnets_holds hgw v w1
    cases hc1 : deleteSubnets client v w1 with
    | mk o1 w2 =>
      rw [hc1] at b1 b2
      simp only at b1 b2
      subst b1
      obtain ⟨c1, c2⟩ := deleteRouteTables_holds hgw v w2
      cases hc2 : deleteRouteTables client v w2 with
      | mk o2 w3 =>
        rw [hc2] at c1 c2
        simp only at c1 c2
        subst c1
        have h3 : holds w3.gw = (((holds w.gw).dropGateways v).dropSubnets v).dropRouteTables
            v := by rw [c2, b2, a2]
        have hacls : (holds w3.gw).acls = (holds w.gw).acls := by
          rw [h3, (Holdings.dropRouteTables_fields _ v).2.2.2.1,
            (Holdings.dropSubnets_fields _ v).2.2.2.1,
            (Holdings.dropGateways_fields _ v).2.2.2.1]
        have hgroups : (holds w3.gw).groups = (holds w.gw).groups := by
          rw [h3, (Holdings.dropRouteTables_fields _ v).2.2.2.2,
            (Holdings.dropSubnets_fields _ v).2.2.2.2,
            (Holdings.dropGateways_fields _ v).2.2.2.2]
        obtain ⟨d1, d2⟩ := deleteNetworkACLs_holds hgw v w3
        cases hc3 : deleteNetworkACLs client v w3 with
        | mk o3 w4 =>
          rw [hc3] at d1 d2
          simp only at d1 d2
          rw [hacls] at d1 d2
          obtain ⟨e1, e2⟩ := deleteSecurityGroups_holds hgw v w4
          cases hc4 : deleteSecurityGroups client v w4 with
          | mk o4 w5 =>
            rw [hc4] at e1 e2
            simp only at e1 e2
            simp only [cleanupVPCResources, hc0, hc1, hc2, hc3]
            cases o3 with
            | panic => exact ⟨fun ha _ => absurd (d1 ha) (by simp), fun h => by cases h⟩
            | ret r3 =>
              cases r3 with
              | some err => exact ⟨fun ha _ => absurd (d1 ha) (by simp), fun h => by cases h⟩
              | none =>
                have h4 : holds w4.gw = (holds w3.gw).dropAcls v := (d2 rfl).2
                have hgroups4 : (holds w4.gw).groups = (holds w.gw).groups := by
                  rw [h4, (Holdings.dropAcls_fields _ v).2.2.2.2, hgroups]
                rw [hgroups4] at e1 e2
                simp only [hc4]
                cases o4 with
                | panic => exact ⟨fun _ hg => absurd (e1 hg) (by simp), fun h => by cases h⟩
                | ret r4 =>
                  cases r4 with
                  | some err => exact ⟨fun _ hg => absurd (e1 hg) (by simp), fun h => by cases h⟩
                  | none =>
                    refine ⟨fun _ _ => rfl, fun _ => ⟨(d2 rfl).1, (e2 rfl).1, ?_⟩⟩
                    simp only
                    rw [(e2 rfl).2, h4, h3]

theorem filter_not_mem_map_self {α : Type} (f : α → Option String) (xs : List α) :
    xs.filter (fun x => decide (f x ∉ xs.map f)) = [] := by
  rw [List.filter_eq_nil_iff]
  intro x hx
  simp only [decide_eq_true_eq, not_not]
  exact List.mem_map_of_mem f hx

theorem filter_not_mem_map_filter {α : Type} (f : α → Option String) (q : α → Bool)
    (xs : List α) (hkey : ∀ x ∈ xs, ∀ y ∈ xs, f x = f y → x = y) :
    xs.filter (fun x => decide (f x ∉ (xs.filter q).map f)) = xs.filter (fun x => !q x) := by
  apply List.filter_congr
  intro x hx
  cases hq : q x with
  | true =>
    simp only [Bool.not_true, decide_eq_false_iff_not, not_not]
    exact List.mem_map_of_mem f (List.mem_filter.mpr ⟨hx, hq⟩)
  | false =>
    simp only [Bool.not_false, decide_eq_true_eq]
    intro hmem
    obtain ⟨y, hy, hfy⟩ := List.mem_map.mp hmem
    obtain ⟨hy1, hy2⟩ := List.mem_filter.mp hy
    have := hkey y hy1 x hx hfy
    subst this
    rw [hq] at hy2
    cases hy2

theorem filter_not_mem_map_of_disjoint {α : Type} (f : α → Option String) (ys ds : List α)
    (h : ∀ y ∈ ys, ∀ x ∈ ds, f x ≠ f y) :
    ys.filter (fun y => decide (f y ∉ ds.map f)) = ys := by
  rw [List.filter_eq_self]
  intro y hy
  simp only [decide_eq_true_eq]
  intro hmem
  obtain ⟨x, hx, hfx⟩ := List.mem_map.mp hmem
  exact h y hy x hx hfx

/-- C26. Against a client that behaves as an in-memory gateway (a listing
filtered by a VPC id returns exactly the records held for that VPC, a detach
or delete call never fails and removes the named resource) in which an id
names one resource: `cleanupVPCResources` for the VPC `v` returns a nil error
when the network ACLs and security groups of `v` carry a default flag and a
name; and whenever it returns a nil error, the gateway then holds for `v` no
internet gateway and no subnet, exactly the main route tables, the default
network ACLs and the security groups named `default` that it held for `v`
before, in the same order, and for every other VPC exactly what it held
before. -/
theorem cleanupVPCResources_leaves_only_the_protected_resources {σ : Type}
    (client : EC2API σ) (holds : σ → Holdings) (hgw : InMemoryGateway client holds)
    (v : String) (s : σ) (hkeys : (holds s).Keyed) :
    ((∀ acl ∈ (holds s).acls v, acl.IsDefault ≠ none) →
      (∀ sg ∈ (holds s).groups v, sg.GroupName ≠ none) →
      (cleanupVPCResources client v (World.init s)).1 = .ret none) ∧
    ((cleanupVPCResources client v (World.init s)).1 = .ret none →
      (holds (cleanupVPCResources client v (World.init s)).2.gw).gateways v = [] ∧
      (holds (cleanupVPCResources client v (World.init s)).2.gw).subnets v = [] ∧
      (holds (cleanupVPCResources client v (World.init s)).2.gw).routeTables v =
        ((holds s).routeTables v).filter isMainRouteTable ∧
      (holds (cleanupVPCResources client v (World.init s)).2.gw).acls v =
        ((holds s).acls v).filter (fun acl => decide (acl.IsDefault = some true)) ∧
      (holds (cleanupVPCResources client v (World.init s)).2.gw).groups v =
        ((holds s).groups v).filter (fun sg => decide (sg.GroupName = some "default")) ∧
      ∀ u, u ≠ v →
        (holds (cleanupVPCResources client v (World.init s)).2.gw).gateways u =
          (holds s).gateways u ∧
        (holds (cleanupVPCResources client v (World.init s)).2.gw).subnets u =
          (holds s).subnets u ∧
        (holds (cleanupVPCResources client v (World.init s)).2.gw).routeTables u =
          (holds s).routeTables u ∧
        (holds (cleanupVPCResources client v (World.init s)).2.gw).acls u =
          (holds s).acls u ∧
        (holds (cleanupVPCResources client v (World.init s)).2.gw).groups u =
          (holds s).groups u) := by
  obtain ⟨hok, hres⟩ := cleanupVPCResources_holds hgw v (World.init s)
  refine ⟨hok, fun hret => ?_⟩
  obtain ⟨hflags, hnames, hfin⟩ := hres hret
  have hinit : (World.init s).gw = s := rfl
  rw [hinit] at hflags hnames hfin
  rw [hfin]
  -- every field of the final holdings, in terms of the holdings at the start
  have G := Holdings.dropGateways_fields (holds s) v
  have S := Holdings.dropSubnets_fields ((holds s).dropGateways v) v
  have R := Holdings.dropRouteTables_fields (((holds s).dropGateways v).dropSubnets v) v
  have A := Holdings.dropAcls_fields
    ((((holds s).dropGateways v).dropSubnets v).dropRouteTables v) v
  have P := Holdings.dropGroups_fields
    (((((holds s).dropGateways v).dropSubnets v).dropRouteTables v).dropAcls v) v
  have hg : ∀ u, ((((((holds s).dropGateways v).dropSubnets v).dropRouteTables v).dropAcls
      v).dropGroups v).gateways u = ((holds s).gateways u).filter (fun x =>
        decide (x.InternetGatewayId ∉
          ((holds s).gateways v).map InternetGateway.InternetGatewayId)) := by
    intro u
    rw [P.2.1, A.2.1, R.2.1, S.2.1, G.1 u]
  have hs : ∀ u, ((((((holds s).dropGateways v).dropSubnets v).dropRouteTables v).dropAcls
      v).dropGroups v).subnets u = ((holds s).subnets u).filter (fun x =>
        decide (x.SubnetId ∉ ((holds s).subnets v).map Subnet.SubnetId)) := by
    intro u
    rw [P.2.2.1, A.2.2.1, R.2.2.1, S.1 u, G.2.1]
  have hr : ∀ u, ((((((holds s).dropGateways v).dropSubnets v).dropRouteTables v).dropAcls
      v).dropGroups v).routeTables u = ((holds s).routeTables u).filter (fun x =>
        decide (x.RouteTableId ∉ (((holds s).routeTables v).filter
          (fun rt => !isMainRouteTable rt)).map RouteTable.RouteTableId)) := by
    intro u
    rw [P.2.2.2.1, A.2.2.2.1, R.1 u, S.2.2.1, G.2.2.1]
  have ha : ∀ u, ((((((holds s).dropGateways v).dropSubnets v).dropRouteTables v).dropAcls
      v).dropGroups v).acls u = ((holds s).acls u).filter (fun x =>
        decide (x.NetworkAclId ∉ (((holds s).acls v).filter
          (fun acl => decide (acl.IsDefault = some false))).map NetworkAcl.NetworkAclId)) := by
    intro u
    rw [P.2.2.2.2, A.1 u, R.2.2.2.1, S.2.2.2.1, G.2.2.2.1]
  have hp : ∀ u, ((((((holds s).dropGateways v).dropSubnets v).dropRouteTables v).dropAcls
      v).dropGroups v).groups u = ((holds s).groups u).filter (fun x =>
        decide (x.GroupId ∉ (((holds s).groups v).filter
          (fun sg => decide (sg.GroupName ≠ some "default"))).map SecurityGroup.GroupId)) := by
    intro u
    rw [P.1 u, A.2.2.2.2, R.2.2.2.2, S.2.2.2.2, G.2.2.2.2]
  refine ⟨?_, ?_, ?_, ?_, ?_, fun u hu => ⟨?_, ?_, ?_, ?_, ?_⟩⟩
  · rw [hg v]; exact filter_not_mem_map_self _ _
  · rw [hs v]; exact filter_not_mem_map_self _ _
  · rw [hr v, filter_not_mem_map_filter _ _ _
      (fun x hx y hy h => (hkeys.routeTables v v x hx y hy h).2)]
    simp
  · rw [ha v, filter_not_mem_map_filter _ _ _
      (fun x hx y hy h => (hkeys.acls v v x hx y hy h).2)]
    apply List.filter_congr
    intro x hx
    have := hflags x hx
    cases hd : x.IsDefault with
    | none => exact absurd hd this
    | some b => cases b <;> simp
  · rw [hp v, filter_not_mem_map_filter _ _ _
      (fun x hx y hy h => (hkeys.groups v v x hx y hy h).2)]
    apply List.filter_congr
    intro x _
    simp
  · rw [hg u]
    exact filter_not_mem_map_of_disjoint _ _ _
      (fun y hy x hx h => hu (hkeys.gateways v u x hx y hy h).1.symm)
  · rw [hs u]
    exact filter_not_mem_map_of_disjoint _ _ _
      (fun y hy x hx h => hu (hkeys.subnets v u x hx y hy h).1.symm)
  · rw [hr u]
    exact filter_not_mem_map_of_disjoint _ _ _
      (fun y hy x hx h => hu (hkeys.routeTables v u x (List.mem_of_mem_filter hx) y hy h).1.symm)
  · rw [ha u]
    exact filter_not_mem_map_of_disjoint _ _ _
      (fun y hy x hx h => hu (hkeys.acls v u x (List.mem_of_mem_filter hx) y hy h).1.symm)
  · rw [hp u]
    exact filter_not_mem_map_of_disjoint _ _ _
      (fun y hy x hx h => hu (hkeys.groups v u x (List.mem_of_mem_filter hx) y hy h).1.symm)

theorem passesFilters_single (key v u : String) :
    passesFilters key [{ Name := some key, Values := [v] }] u = decide (u = v) := by
  simp [passesFilters]

theorem filter_map_snd_comm {α : Type} (l : List (String × α)) (u : String) (q : α → Bool) :
    ((l.filter (fun p => q p.2)).filter (fun p => decide (p.1 = u))).map Prod.snd =
      ((l.filter (fun p => decide (p.1 = u))).map Prod.snd).filter q := by
  rw [List.filter_map]
  congr 1
  simp only [List.filter_filter]
  apply List.filter_congr
  intro p _
  simp only [Function.comp]
  rw [Bool.and_comm]

/-- The client of an in-memory gateway obeys the laws of `InMemoryGateway`. -/
theorem Inventory.client_inMemory : InMemoryGateway Inventory.client Inventory.holdings where
  listGateways := fun s v => by
    simp [Inventory.client, Inventory.holdings, passesFilters_single]
  listSubnets := fun s v => by
    simp [Inventory.client, Inventory.holdings, passesFilters_single]
  listRouteTables := fun s v => by
    simp [Inventory.client, Inventory.holdings, passesFilters_single]
  listAcls := fun s v => by
    simp [Inventory.client, Inventory.holdings, passesFilters_single]
  listGroups := fun s v => by
    simp [Inventory.client, Inventory.holdings, passesFilters_single]
  detachGateway := fun s id v => by
    refine ⟨rfl, ?_⟩
    simp only [Inventory.client, Inventory.holdings, Holdings.detachGateway, Holdings.mk.injEq,
      and_self, and_true]
    funext u
    by_cases hu : u = v
    · subst hu
      simp only [if_true]
      rw [← filter_map_snd_comm]
      congr 1
      simp only [List.filter_filter]
      apply List.filter_congr
      intro p _
      by_cases hp : p.1 = u <;> simp [hp]
    · simp only [hu, if_false]
      congr 1
      simp only [List.filter_filter]
      apply List.filter_congr
      intro p _
      by_cases hp : p.1 = u
      · simp [hp, hu]
      · simp [hp]
  deleteGateway := fun s id => by
    refine ⟨rfl, ?_⟩
    simp only [Inventory.client, Inventory.holdings, Holdings.removeGateway, Holdings.mk.injEq,
      and_self, and_true]
    funext u
    exact filter_map_snd_comm s.gateways u (fun x => decide (x.InternetGatewayId ≠ id))
  deleteSubnet := fun s id => by
    refine ⟨rfl, ?_⟩
    simp only [Inventory.client, Inventory.holdings, Holdings.removeSubnet, Holdings.mk.injEq,
      and_self, and_true, true_and]
    funext u
    exact filter_map_snd_comm s.subnets u (fun x => decide (x.SubnetId ≠ id))
  deleteRouteTable := fun s id => by
    refine ⟨rfl, ?_⟩
    simp only [Inventory.client, Inventory.holdings, Holdings.removeRouteTable,
      Holdings.mk.injEq, and_self, and_true, true_and]
    funext u
    exact filter_map_snd_comm s.routeTables u (fun x => decide (x.RouteTableId ≠ id))
  deleteAcl := fun s id => by
    refine ⟨rfl, ?_⟩
    simp only [Inventory.client, Inventory.holdings, Holdings.removeAcl, Holdings.mk.injEq,
      and_self, and_true, true_and]
    funext u
    exact filter_map_snd_comm s.acls u (fun x => decide (x.NetworkAclId ≠ id))
  deleteGroup := fun s id => by
    refine ⟨rfl, ?_⟩
    simp only [Inventory.client, Inventory.holdings, Holdings.removeGroup, Holdings.mk.injEq,
      and_self, and_true, true_and]
    funext u
    exact filter_map_snd_comm s.groups u (fun x => decide (x.GroupId ≠ id))

theorem keyed_of_nodup_ids {α : Type} (l : List (String × α)) (f : α → Option String)
    (h : (l.map (fun p => f p.2)).Nodup) :
    ∀ u1 u2, ∀ x ∈ (l.filter (fun p => decide (p.1 = u1))).map Prod.snd,
      ∀ y ∈ (l.filter (fun p => decide (p.1 = u2))).map Prod.snd,
        f x = f y → u1 = u2 ∧ x = y := by
  intro u1 u2 x hx y hy hxy
  obtain ⟨p, hp, rfl⟩ := List.mem_map.mp hx
  obtain ⟨r, hr, rfl⟩ := List.mem_map.mp hy
  obtain ⟨hp1, hp2⟩ := List.mem_filter.mp hp
  obtain ⟨hr1, hr2⟩ := List.mem_filter.mp hr
  have hpr : p = r := List.inj_on_of_nodup_map h hp1 hr1 hxy
  subst hpr
  simp only [decide_eq_true_eq] at hp2 hr2
  exact ⟨hp2.symm.trans hr2, rfl⟩

/-- In an in-memory gateway whose records of each kind have pairwise different
ids, an id names one resource. -/
theorem Inventory.keyed_of_nodup (inv : Inventory)
    (hg : (inv.gateways.map (fun p => p.2.InternetGatewayId)).Nodup)
    (hs : (inv.subnets.map (fun p => p.2.SubnetId)).Nodup)
    (hr : (inv.routeTables.map (fun p => p.2.RouteTableId)).Nodup)
    (ha : (inv.acls.map (fun p => p.2.NetworkAclId)).Nodup)
    (hp : (inv.groups.map (fun p => p.2.GroupId)).Nodup) :
    inv.holdings.Keyed where
  gateways := keyed_of_nodup_ids inv.gateways InternetGateway.InternetGatewayId hg
  subnets := keyed_of_nodup_ids inv.subnets Subnet.SubnetId hs
  routeTables := keyed_of_nodup_ids inv.routeTables RouteTable.RouteTableId hr
  acls := keyed_of_nodup_ids inv.acls NetworkAcl.NetworkAclId ha
  groups := keyed_of_nodup_ids inv.groups SecurityGroup.GroupId hp

/-- C26, worked example: the cleanup of `vpc-12345` in the sample in-memory
gateway returns a nil error; afterwards the gateway holds for `vpc-12345` the
main route table `rtb-1`, the default network ACL and the security group
`default` only, and for `vpc-67890` the subnet, route table and security
group it held before. -/
theorem cleanupVPCResources_leaves_only_the_protected_resources_witness :
    (cleanupVPCResources Inventory.client "vpc-12345" (World.init sampleInventory)).1 =
        .ret none ∧
      (cleanupVPCResources Inventory.client "vpc-12345"
          (World.init sampleInventory)).2.gw.holdings.gateways "vpc-12345" = [] ∧
      (cleanupVPCResources Inventory.client "vpc-12345"
          (World.init sampleInventory)).2.gw.holdings.subnets "vpc-12345" = [] ∧
      (cleanupVPCResources Inventory.client "vpc-12345"
          (World.init sampleInventory)).2.gw.holdings.routeTables "vpc-12345" =
        [{ RouteTableId := some "rtb-1", Associations := [{ Main := some true }] }] ∧
      (cleanupVPCResources Inventory.client "vpc-12345"
          (World.init sampleInventory)).2.gw.holdings.acls "vpc-12345" =
        [{ NetworkAclId := some "acl-12345", IsDefault := some true }] ∧
      (cleanupVPCResources Inventory.client "vpc-12345"
          (World.init sampleInventory)).2.gw.holdings.groups "vpc-12345" =
        [{ GroupId := some "sg-12345", GroupName := some "default" }] ∧
      (cleanupVPCResources Inventory.client "vpc-12345"
          (World.init sampleInventory)).2.gw.holdings.subnets "vpc-67890" =
        [{ SubnetId := some "subnet-9" }] ∧
      (cleanupVPCResources Inventory.client "vpc-12345"
          (World.init sampleInventory)).2.gw.holdings.routeTables "vpc-67890" =
        [{ RouteTableId := some "rtb-9", Associations := [] }] ∧
      (cleanupVPCResources Inventory.client "vpc-12345"
          (World.init sampleInventory)).2.gw.holdings.groups "vpc-67890" =
        [{ GroupId := some "sg-9", GroupName := some "custom" }] :=
  have hkeys : sampleInventory.holdings.Keyed :=
    Inventory.keyed_of_nodup sampleInventory (by decide) (by decide) (by decide) (by decide)
      (by decide)
  have hc := cleanupVPCResources_leaves_only_the_protected_resources Inventory.client
    Inventory.holdings Inventory.client_inMemory "vpc-12345" sampleInventory hkeys
  have hret := hc.1 (by decide) (by decide)
  have h := hc.2 hret
  have hu := h.2.2.2.2.2 "vpc-67890" (by decide)
  ⟨hret, h.1, h.2.1, h.2.2.1, h.2.2.2.1, h.2.2.2.2.1, hu.2.1, hu.2.2.1, hu.2.2.2.2⟩

theorem countP_set_add {α : Type} (q : α → Bool) (l : List α) :
    ∀ (i : Nat) (a b : α), l[i]? = some a →
      (l.set i b).countP q + (if q a then 1 else 0) = l.countP q + (if q b then 1 else 0) := by
  induction l with
  | nil => intro i a b h; simp at h
  | cons x rest ih =>
    intro i a b h
    cases i with
    | zero =>
      simp only [List.getElem?_cons_zero, Option.some.injEq] at h
      subst h
      simp only [List.set_cons_zero, List.countP_cons]
      omega
    | succ n =>
      simp only [List.getElem?_cons_succ] at h
      have := ih n a b h
      simp only [List.set_cons_succ, List.countP_cons]
      omega

theorem sum_zipWith_set_add {α β : Type} (f : α → β → Nat) (rs : List α) :
    ∀ (gs : List β) (i : Nat) (r : α) (a b : β), rs[i]? = some r → gs[i]? = some a →
      (List.zipWith f rs (gs.set i b)).sum + f r a = (List.zipWith f rs gs).sum + f r b := by
  induction rs with
  | nil => intro gs i r a b h; simp at h
  | cons x rest ih =>
    intro gs i r a b h1 h2
    cases gs with
    | nil => simp at h2
    | cons g gs =>
      cases i with
      | zero =>
        simp only [List.getElem?_cons_zero, Option.some.injEq] at h1 h2
        subst h1 h2
        simp only [List.set_cons_zero, List.zipWith_cons_cons, List.sum_cons]
        omega
      | succ n =>
        simp only [List.getElem?_cons_succ] at h1 h2
        have := ih gs n r a b h1 h2
        simp only [List.set_cons_succ, List.zipWith_cons_cons, List.sum_cons]
        omega

theorem exists_running_of_countP_pos (gs : List Goroutine)
    (h : 0 < gs.countP Goroutine.isRunning) :
    ∃ (j : Nat) (k : Nat), gs[j]? = some (Goroutine.running k) := by
  obtain ⟨g, hg, hr⟩ := List.countP_pos_iff.mp h
  obtain ⟨j, hj, rfl⟩ := List.getElem_of_mem hg
  cases hgj : gs[j] with
  | running k => exact ⟨j, k, by rw [List.getElem?_eq_getElem hj, hgj]⟩
  | notStarted => rw [hgj] at hr; cases hr
  | finished => rw [hgj] at hr; cases hr
  | panicking => rw [hgj] at hr; cases hr

/-- The ways `DeleteAllDefaultVPCs` itself can take a step. -/
theorem Deployment.stepMain_cases {σ : Type} (d : Deployment σ) (p p1 : Process)
    (h : d.stepMain p = some p1) :
    (∃ i, p.main = .spawning i ∧ i < d.regions.length ∧
      p1 = { p with
        main := .spawning (i + 1)
        wg := p.wg + 1
        goroutines := p.goroutines.set i (.running 0) }) ∨
    (∃ i, p.main = .spawning i ∧ ¬ i < d.regions.length ∧ p1 = { p with main := .waiting }) ∨
    (p.main = .waiting ∧ p.wg = 0 ∧
      p1 = { p with main := .returned, out := p.out ++ ["All default VPCs deleted.\n"] }) := by
  unfold Deployment.stepMain at h
  cases hm : p.main with
  | spawning i =>
    rw [hm] at h
    by_cases hi : i < d.regions.length
    · simp only [hi, if_true, Option.some.injEq] at h
      exact .inl ⟨i, rfl, hi, h.symm⟩
    · simp only [hi, if_false, Option.some.injEq] at h
      exact .inr (.inl ⟨i, rfl, hi, h.symm⟩)
  | waiting =>
    rw [hm] at h
    by_cases hw : p.wg = 0
    · rw [if_pos hw] at h
      simp only [Option.some.injEq] at h
      exact .inr (.inr ⟨rfl, hw, h.symm⟩)
    · simp [hw] at h
  | returned => rw [hm] at h; simp at h

/-- The ways the goroutine of the region with index `i` can take a step. -/
theorem Deployment.stepGoroutine_cases {σ : Type} (d : Deployment σ) (i : Nat)
    (p p1 : Process) (h : d.stepGoroutine i p = some p1) :
    ∃ region, d.regions[i]? = some region ∧
      ((∃ k, p.goroutines[i]? = some (Goroutine.running k) ∧ k < (d.run region).2.trace.length ∧
          p1 = { p with goroutines := p.goroutines.set i (.running (k + 1)) }) ∨
        (∃ k, p.goroutines[i]? = some (Goroutine.running k) ∧
          ¬ k < (d.run region).2.trace.length ∧ (d.run region).1 = .returned ∧
          p1 = { p with goroutines := p.goroutines.set i .finished, wg := p.wg - 1 }) ∨
        (∃ k status, p.goroutines[i]? = some (Goroutine.running k) ∧
          ¬ k < (d.run region).2.trace.length ∧ (d.run region).1 = .exited status ∧
          p1 = { p with ended := some status }) ∨
        (∃ k, p.goroutines[i]? = some (Goroutine.running k) ∧
          ¬ k < (d.run region).2.trace.length ∧ (d.run region).1 = .panicked ∧
          p1 = { p with goroutines := p.goroutines.set i .panicking, wg := p.wg - 1 }) ∨
        (p.goroutines[i]? = some Goroutine.panicking ∧ p1 = { p with ended := some 2 })) := by
  unfold Deployment.stepGoroutine at h
  cases hr : d.regions[i]? with
  | none => rw [hr] at h; simp at h
  | some region =>
    refine ⟨region, rfl, ?_⟩
    rw [hr] at h
    cases hg : p.goroutines[i]? with
    | none => rw [hg] at h; simp at h
    | some g =>
      rw [hg] at h
      cases g with
      | notStarted => simp at h
      | finished => simp at h
      | panicking =>
        simp only [Option.some.injEq] at h
        exact .inr (.inr (.inr (.inr ⟨rfl, h.symm⟩)))
      | running k =>
        simp only at h
        by_cases hk : k < (d.run region).2.trace.length
        · simp only [hk, if_true, Option.some.injEq] at h
          exact .inl ⟨k, rfl, hk, h.symm⟩
        · simp only [hk, if_false] at h
          cases he : (d.run region).1 with
          | returned =>
            rw [he] at h
            simp only [Option.some.injEq] at h
            exact .inr (.inl ⟨k, rfl, hk, rfl, h.symm⟩)
          | exited status =>
            rw [he] at h
            simp only [Option.some.injEq] at h
            exact .inr (.inr (.inl ⟨k, status, rfl, hk, rfl, h.symm⟩))
          | panicked =>
            rw [he] at h
            simp only [Option.some.injEq] at h
            exact .inr (.inr (.inr (.inl ⟨k, rfl, hk, rfl, h.symm⟩)))

theorem Deployment.init_goroutine {σ : Type} (d : Deployment σ) (j : Nat) (g : Goroutine)
    (h : d.init.goroutines[j]? = some g) : g = .notStarted := by
  simp only [Deployment.init, List.getElem?_map, Option.map_eq_some'] at h
  obtain ⟨_, _, rfl⟩ := h
  rfl

theorem Deployment.init_sound {σ : Type} (d : Deployment σ) : d.Sound d.init where
  length := by simp [Deployment.init]
  counter := by
    simp only [Deployment.init]
    symm
    rw [List.countP_eq_zero]
    intro g hg
    obtain ⟨_, _, rfl⟩ := List.mem_map.mp hg
    simp [Goroutine.isRunning]
  notStarted := by
    intro j g h
    have := d.init_goroutine j g h
    subst this
    simp [Deployment.init]
  calls := by
    intro j region k _ h
    cases d.init_goroutine j _ h
  finished := by
    intro j region _ h
    cases d.init_goroutine j _ h
  panicking := by
    intro j region _ h
    cases d.init_goroutine j _ h
  joined := by simp [Deployment.init]
  printed := by simp [Deployment.init]

/-- A step that changes the state of the goroutine with index `i` from `a` to
`b` and nothing else about the goroutines and the function keeps the process
sound, when `b` is not the state of a goroutine not yet started and the facts
recorded about `b` hold. -/
theorem Deployment.Sound.set {σ : Type} {d : Deployment σ} {p : Process}
    (hs : d.Sound p) (i : Nat) (region : String) (a b : Goroutine) (wg : Nat)
    (hr : d.regions[i]? = some region) (ha : p.goroutines[i]? = some a)
    (hna : a ≠ .notStarted) (hnb : b ≠ .notStarted)
    (hwg : wg + (if a.isRunning then 1 else 0) = p.wg + (if b.isRunning then 1 else 0))
    (hcalls : ∀ k, b = .running k → k ≤ (d.run region).2.trace.length)
    (hfin : b = .finished → (d.run region).1 = .returned)
    (hpan : b = .panicking → (d.run region).1 = .panicked)
    (hjoin : p.main = .returned → wg = 0) :
    d.Sound { p with goroutines := p.goroutines.set i b, wg := wg } where
  length := by simp [hs.length]
  counter := by
    have := countP_set_add Goroutine.isRunning p.goroutines i a b ha
    have hc := hs.counter
    simp only
    omega
  notStarted := by
    intro j g h
    simp only at h ⊢
    by_cases hij : i = j
    · subst hij
      have hlt : i < p.goroutines.length := by
        rw [hs.length]
        exact (List.getElem?_eq_some_iff.mp hr).1
      rw [List.getElem?_set_self hlt, Option.some.injEq] at h
      subst h
      have := (hs.notStarted i a ha)
      constructor
      · intro hb; exact absurd hb hnb
      · intro hex; exact absurd (this.mpr hex) hna
    · rw [List.getElem?_set_ne hij] at h
      exact hs.notStarted j g h
  calls := by
    intro j r k hrj h
    simp only at h
    by_cases hij : i = j
    · subst hij
      have hlt : i < p.goroutines.length := by
        rw [hs.length]
        exact (List.getElem?_eq_some_iff.mp hr).1
      rw [List.getElem?_set_self hlt, Option.some.injEq] at h
      rw [hr, Option.some.injEq] at hrj
      subst hrj
      exact hcalls k h
    · rw [List.getElem?_set_ne hij] at h
      exact hs.calls j r k hrj h
  finished := by
    intro j r hrj h
    simp only at h
    by_cases hij : i = j
    · subst hij
      have hlt : i < p.goroutines.length := by
        rw [hs.length]
        exact (List.getElem?_eq_some_iff.mp hr).1
      rw [List.getElem?_set_self hlt, Option.some.injEq] at h
      rw [hr, Option.some.injEq] at hrj
      subst hrj
      exact hfin h
    · rw [List.getElem?_set_ne hij] at h
      exact hs.finished j r hrj h
  panicking := by
    intro j r hrj h
    simp only at h
    by_cases hij : i = j
    · subst hij
      have hlt : i < p.goroutines.length := by
        rw [hs.length]
        exact (List.getElem?_eq_some_iff.mp hr).1
      rw [List.getElem?_set_self hlt, Option.some.injEq] at h
      rw [hr, Option.some.injEq] at hrj
      subst hrj
      exact hpan h
    · rw [List.getElem?_set_ne hij] at h
      exact hs.panicking j r hrj h
  joined := hjoin
  printed := hs.printed

/-- Every step keeps the process sound. -/
theorem Deployment.Sound.step {σ : Type} {d : Deployment σ} {p p1 : Process} (c : Choice)
    (hs : d.Sound p) (h : d.step c p = some p1) : d.Sound p1 := by
  unfold Deployment.step at h
  by_cases he : p.ended ≠ none
  · simp [he] at h
  · simp only [he, if_false] at h
    cases c with
    | main =>
      simp only at h
      rcases d.stepMain_cases p p1 h with ⟨i, hm, hi, rfl⟩ | ⟨i, hm, hi, rfl⟩ | ⟨hm, hw, rfl⟩
      · -- `wg.Add(1)` and the `go` statement for the region with index `i`
        have hlt : i < p.goroutines.length := by rw [hs.length]; exact hi
        have ha : p.goroutines[i]? = some p.goroutines[i] := List.getElem?_eq_getElem hlt
        have hns : p.goroutines[i] = .notStarted :=
          (hs.notStarted i _ ha).mpr ⟨i, hm, le_refl i⟩
        rw [hns] at ha
        refine ⟨by simp [hs.length], ?_, ?_, ?_, ?_, ?_, by simp, by simpa [hm] using hs.printed⟩
        · have := countP_set_add Goroutine.isRunning p.goroutines i _ (.running 0) ha
          have hc := hs.counter
          simp only [Goroutine.isRunning] at this ⊢
          simp only [Bool.false_eq_true, if_false, if_true] at this
          omega
        · intro j g hg
          simp only at hg ⊢
          by_cases hij : i = j
          · subst hij
            rw [List.getElem?_set_self hlt, Option.some.injEq] at hg
            subst hg
            simp
          · rw [List.getElem?_set_ne hij] at hg
            rw [hs.notStarted j g hg]
            constructor
            · rintro ⟨i1, h1, h2⟩
              rw [hm, MainPoint.spawning.injEq] at h1
              subst h1
              exact ⟨i + 1, rfl, by omega⟩
            · rintro ⟨i1, h1, h2⟩
              rw [MainPoint.spawning.injEq] at h1
              subst h1
              exact ⟨i, hm, by omega⟩
        · intro j r k hrj hg
          simp only at hg
          by_cases hij : i = j
          · subst hij
            rw [List.getElem?_set_self hlt, Option.some.injEq, Goroutine.running.injEq] at hg
            omega
          · rw [List.getElem?_set_ne hij] at hg
            exact hs.calls j r k hrj hg
        · intro j r hrj hg
          simp only at hg
          by_cases hij : i = j
          · subst hij
            rw [List.getElem?_set_self hlt, Option.some.injEq] at hg
            cases hg
          · rw [List.getElem?_set_ne hij] at hg
            exact hs.finished j r hrj hg
        · intro j r hrj hg
          simp only at hg
          by_cases hij : i = j
          · subst hij
            rw [List.getElem?_set_self hlt, Option.some.injEq] at hg
            cases hg
          · rw [List.getElem?_set_ne hij] at hg
            exact hs.panicking j r hrj hg
      · -- the loop is over
        refine ⟨hs.length, hs.counter, ?_, hs.calls, hs.finished, hs.panicking, by simp,
          by simpa [hm] using hs.printed⟩
        intro j g hg
        simp only at hg ⊢
        rw [hs.notStarted j g hg]
        have hj : j < d.regions.length := by
          rw [← hs.length]
          exact (List.getElem?_eq_some_iff.mp hg).1
        constructor
        · rintro ⟨i1, h1, h2⟩
          rw [hm, MainPoint.spawning.injEq] at h1
          omega
        · rintro ⟨i1, h1, _⟩
          cases h1
      · -- `wg.Wait()` returns
        refine ⟨hs.length, hs.counter, ?_, hs.calls, hs.finished, hs.panicking, fun _ => hw,
          by have := hs.printed; simp [hm] at this; simp [this]⟩
        intro j g hg
        simp only at hg ⊢
        rw [hs.notStarted j g hg]
        constructor
        · rintro ⟨i1, h1, _⟩
          rw [hm] at h1
          cases h1
        · rintro ⟨i1, h1, _⟩
          cases h1
    | goroutine i =>
      simp only at h
      obtain ⟨region, hr, hcase⟩ := d.stepGoroutine_cases i p p1 h
      rcases hcase with ⟨k, hg, hk, rfl⟩ | ⟨k, hg, hk, hend, rfl⟩ | ⟨k, status, hg, hk, hend, rfl⟩ |
        ⟨k, hg, hk, hend, rfl⟩ | ⟨hg, rfl⟩
      · exact hs.set i region (.running k) (.running (k + 1)) p.wg hr hg (by simp) (by simp)
          (by simp [Goroutine.isRunning])
          (fun k1 h1 => by cases h1; omega) (by simp) (by simp) hs.joined
      · have hpos : 0 < p.wg := by
          rw [hs.counter]
          exact List.countP_pos_iff.mpr ⟨_, List.getElem?_mem hg, rfl⟩
        exact hs.set i region (.running k) .finished (p.wg - 1) hr hg (by simp) (by simp)
          (by simp [Goroutine.isRunning]; omega)
          (by simp) (fun _ => hend) (by simp) (fun hm => by have := hs.joined hm; omega)
      · exact ⟨hs.length, hs.counter, hs.notStarted, hs.calls, hs.finished, hs.panicking,
          hs.joined, hs.printed⟩
      · have hpos : 0 < p.wg := by
          rw [hs.counter]
          exact List.countP_pos_iff.mpr ⟨_, List.getElem?_mem hg, rfl⟩
        exact hs.set i region (.running k) .panicking (p.wg - 1) hr hg (by simp) (by simp)
          (by simp [Goroutine.isRunning]; omega)
          (by simp) (by simp) (fun _ => hend) (fun hm => by have := hs.joined hm; omega)
      · exact ⟨hs.length, hs.counter, hs.notStarted, hs.calls, hs.finished, hs.panicking,
          hs.joined, hs.printed⟩

/-- Every process a schedule leads to is sound. -/
theorem Deployment.Sound.exec {σ : Type} {d : Deployment σ} (schedule : List Choice) :
    ∀ p p1 : Process, d.Sound p → d.exec schedule p = some p1 → d.Sound p1 := by
  induction schedule with
  | nil =>
    intro p p1 hs h
    simp only [Deployment.exec, Option.some.injEq] at h
    rw [← h]; exact hs
  | cons c rest ih =>
    intro p p1 hs h
    simp only [Deployment.exec] at h
    cases hstep : d.step c p with
    | none => rw [hstep] at h; simp at h
    | some p2 =>
      rw [hstep] at h
      exact ih p2 p1 (hs.step c hstep) h

/-- The steps left to the goroutines when the goroutine with index `i` moves
from `a` to `b`. -/
theorem Deployment.goroutineSteps_set {σ : Type} (d : Deployment σ) (gs : List Goroutine)
    (i : Nat) (region : String) (a b : Goroutine) (hr : d.regions[i]? = some region)
    (ha : gs[i]? = some a) :
    (List.zipWith (fun region g => g.stepsLeft (d.run region).2.trace.length)
        d.regions (gs.set i b)).sum + a.stepsLeft (d.run region).2.trace.length =
      (List.zipWith (fun region g => g.stepsLeft (d.run region).2.trace.length)
        d.regions gs).sum + b.stepsLeft (d.run region).2.trace.length :=
  sum_zipWith_set_add (fun region g => Goroutine.stepsLeft (d.run region).2.trace.length g)
    d.regions gs i region a b hr ha

/-- Every step uses up one of the steps left. -/
theorem Deployment.stepsLeft_step {σ : Type} {d : Deployment σ} {p p1 : Process} (c : Choice)
    (hs : d.Sound p) (h : d.step c p = some p1) : d.stepsLeft p1 < d.stepsLeft p := by
  unfold Deployment.step at h
  by_cases he : p.ended ≠ none
  · simp [he] at h
  · simp only [he, if_false] at h
    have he1 : p.ended = none := by simpa using he
    cases c with
    | main =>
      simp only at h
      rcases d.stepMain_cases p p1 h with ⟨i, hm, hi, rfl⟩ | ⟨i, hm, hi, rfl⟩ | ⟨hm, hw, rfl⟩
      · have hlt : i < p.goroutines.length := by rw [hs.length]; exact hi
        have ha : p.goroutines[i]? = some p.goroutines[i] := List.getElem?_eq_getElem hlt
        have hns : p.goroutines[i] = .notStarted :=
          (hs.notStarted i _ ha).mpr ⟨i, hm, le_refl i⟩
        rw [hns] at ha
        have hr : d.regions[i]? = some d.regions[i] := List.getElem?_eq_getElem hi
        have := d.goroutineSteps_set p.goroutines i _ .notStarted (.running 0) hr ha
        have e1 : Goroutine.notStarted.stepsLeft (d.run d.regions[i]).2.trace.length =
            (d.run d.regions[i]).2.trace.length + 2 := rfl
        have e2 : (Goroutine.running 0).stepsLeft (d.run d.regions[i]).2.trace.length =
            (d.run d.regions[i]).2.trace.length - 0 + 2 := rfl
        simp only [Deployment.stepsLeft, hm, MainPoint.stepsLeft, he1, if_true]
        omega
      · simp only [Deployment.stepsLeft, hm, MainPoint.stepsLeft, he1, if_true]
        omega
      · simp only [Deployment.stepsLeft, hm, MainPoint.stepsLeft, he1, if_true]
        omega
    | goroutine i =>
      simp only at h
      obtain ⟨region, hr, hcase⟩ := d.stepGoroutine_cases i p p1 h
      rcases hcase with ⟨k, hg, hk, rfl⟩ | ⟨k, hg, hk, hend, rfl⟩ | ⟨k, status, hg, hk, hend, rfl⟩ |
        ⟨k, hg, hk, hend, rfl⟩ | ⟨hg, rfl⟩
      · have := d.goroutineSteps_set p.goroutines i region (.running k) (.running (k + 1)) hr hg
        have e1 : (Goroutine.running k).stepsLeft (d.run region).2.trace.length =
            (d.run region).2.trace.length - k + 2 := rfl
        have e2 : (Goroutine.running (k + 1)).stepsLeft (d.run region).2.trace.length =
            (d.run region).2.trace.length - (k + 1) + 2 := rfl
        simp only [Deployment.stepsLeft, he1, if_true]
        omega
      · have := d.goroutineSteps_set p.goroutines i region (.running k) .finished hr hg
        have e1 : (Goroutine.running k).stepsLeft (d.run region).2.trace.length =
            (d.run region).2.trace.length - k + 2 := rfl
        have e2 : Goroutine.finished.stepsLeft (d.run region).2.trace.length = 0 := rfl
        simp only [Deployment.stepsLeft, he1, if_true]
        omega
      · simp only [Deployment.stepsLeft, he1]
        simp
      · have := d.goroutineSteps_set p.goroutines i region (.running k) .panicking hr hg
        have e1 : (Goroutine.running k).stepsLeft (d.run region).2.trace.length =
            (d.run region).2.trace.length - k + 2 := rfl
        have e2 : Goroutine.panicking.stepsLeft (d.run region).2.trace.length = 1 := rfl
        simp only [Deployment.stepsLeft, he1, if_true]
        omega
      · simp only [Deployment.stepsLeft, he1]
        simp

/-- No schedule is longer than the number of steps left at its start. -/
theorem Deployment.length_le_stepsLeft {σ : Type} {d : Deployment σ}
    (schedule : List Choice) :
    ∀ p p1 : Process, d.Sound p → d.exec schedule p = some p1 →
      schedule.length + d.stepsLeft p1 ≤ d.stepsLeft p := by
  induction schedule with
  | nil =>
    intro p p1 _ h
    simp only [Deployment.exec, Option.some.injEq] at h
    rw [← h]; simp
  | cons c rest ih =>
    intro p p1 hs h
    simp only [Deployment.exec] at h
    cases hstep : d.step c p with
    | none => rw [hstep] at h; simp at h
    | some p2 =>
      rw [hstep] at h
      have h1 := ih p2 p1 (hs.step c hstep) h
      have h2 := Deployment.stepsLeft_step c hs hstep
      simp only [List.length_cons]
      omega

/-- When the run of every region returns, no step ends the process. -/
theorem Deployment.step_not_ended {σ : Type} {d : Deployment σ} {p p1 : Process} (c : Choice)
    (hall : ∀ region ∈ d.regions, (d.run region).1 = .returned)
    (hs : d.Sound p) (h : d.step c p = some p1) : p1.ended = none := by
  unfold Deployment.step at h
  by_cases he : p.ended ≠ none
  · simp [he] at h
  · simp only [he, if_false] at h
    have he1 : p.ended = none := by simpa using he
    cases c with
    | main =>
      simp only at h
      rcases d.stepMain_cases p p1 h with ⟨i, hm, hi, rfl⟩ | ⟨i, hm, hi, rfl⟩ | ⟨hm, hw, rfl⟩ <;>
        exact he1
    | goroutine i =>
      simp only at h
      obtain ⟨region, hr, hcase⟩ := d.stepGoroutine_cases i p p1 h
      have hret := hall region (List.getElem?_mem hr)
      rcases hcase with ⟨k, hg, hk, rfl⟩ | ⟨k, hg, hk, hend, rfl⟩ | ⟨k, status, hg, hk, hend, rfl⟩ |
        ⟨k, hg, hk, hend, rfl⟩ | ⟨hg, rfl⟩
      · exact he1
      · exact he1
      · rw [hret] at hend; cases hend
      · exact he1
      · have := hs.panicking i region hr hg
        rw [hret] at this; cases this

/-- A process that has not ended and in which `DeleteAllDefaultVPCs` has not
returned can take a step. -/
theorem Deployment.can_step {σ : Type} {d : Deployment σ} {p : Process}
    (hs : d.Sound p) (he : p.ended = none) (hm : p.main ≠ .returned) :
    ∃ c, (d.step c p).isSome = true := by
  cases hmain : p.main with
  | returned => exact absurd hmain hm
  | spawning i =>
    by_cases hi : i < d.regions.length
    · exact ⟨.main, by simp [Deployment.step, he, Deployment.stepMain, hmain, hi]⟩
    · exact ⟨.main, by simp [Deployment.step, he, Deployment.stepMain, hmain, hi]⟩
  | waiting =>
    by_cases hw : p.wg = 0
    · exact ⟨.main, by simp [Deployment.step, he, Deployment.stepMain, hmain, hw]⟩
    · have hpos : 0 < p.goroutines.countP Goroutine.isRunning := by
        rw [← hs.counter]; omega
      obtain ⟨j, k, hg⟩ := exists_running_of_countP_pos p.goroutines hpos
      have hj : j < d.regions.length := by
        rw [← hs.length]
        exact (List.getElem?_eq_some_iff.mp hg).1
      have hr : d.regions[j]? = some d.regions[j] := List.getElem?_eq_getElem hj
      by_cases hk : k < (d.run d.regions[j]).2.trace.length
      · exact ⟨.goroutine j, by
          simp [Deployment.step, he, Deployment.stepGoroutine, hr, hg, hk]⟩
      · cases hend : (d.run d.regions[j]).1 with
        | returned =>
          exact ⟨.goroutine j, by
            simp [Deployment.step, he, Deployment.stepGoroutine, hr, hg, hk, hend]⟩
        | exited status =>
          exact ⟨.goroutine j, by
            simp [Deployment.step, he, Deployment.stepGoroutine, hr, hg, hk, hend]⟩
        | panicked =>
          exact ⟨.goroutine j, by
            simp [Deployment.step, he, Deployment.stepGoroutine, hr, hg, hk, hend]⟩

/-- When the run of every region returns, every process that has not ended can
be led on to the return of `DeleteAllDefaultVPCs`. -/
theorem Deployment.completes {σ : Type} {d : Deployment σ}
    (hall : ∀ region ∈ d.regions, (d.run region).1 = .returned) :
    ∀ (n : Nat) (p : Process), d.Sound p → p.ended = none → d.stepsLeft p ≤ n →
      ∃ schedule p1, d.exec schedule p = some p1 ∧ p1.main = .returned ∧
        p1.ended = none := by
  intro n
  induction n with
  | zero =>
    intro p hs he hn
    by_cases hm : p.main = .returned
    · exact ⟨[], p, rfl, hm, he⟩
    · obtain ⟨c, hc⟩ := Deployment.can_step hs he hm
      obtain ⟨p2, hp2⟩ := Option.isSome_iff_exists.mp hc
      have := Deployment.stepsLeft_step c hs hp2
      omega
  | succ n ih =>
    intro p hs he hn
    by_cases hm : p.main = .returned
    · exact ⟨[], p, rfl, hm, he⟩
    · obtain ⟨c, hc⟩ := Deployment.can_step hs he hm
      obtain ⟨p2, hp2⟩ := Option.isSome_iff_exists.mp hc
      have hlt := Deployment.stepsLeft_step c hs hp2
      obtain ⟨schedule, p1, h1, h2, h3⟩ := ih p2 (hs.step c hp2)
        (Deployment.step_not_ended c hall hs hp2) (by omega)
      exact ⟨c :: schedule, p1, by simp [Deployment.exec, hp2, h1], h2, h3⟩

/-- The run of a region whose listing of VPCs fails: that one call, after
which the goroutine returns. -/
theorem Deployment.run_of_failed_listing {σ : Type} (d : Deployment σ) (region : String)
    (e : GoError) (h : ((d.newClient region).DescribeVpcs (d.remote region)).1 = .failed e) :
    (d.run region).1 = .returned ∧ (d.run region).2.trace = [.DescribeVpcs (.failed e)] := by
  simp [Deployment.run, regionWorker, getDefaultVPCs, callDescribeVpcs, World.init,
    World.printf, World.record, h]

/-- When the run of every region returns, no process of a run has ended. -/
theorem Deployment.exec_not_ended {σ : Type} {d : Deployment σ}
    (hall : ∀ region ∈ d.regions, (d.run region).1 = .returned) (schedule : List Choice) :
    ∀ p p1 : Process, d.Sound p → p.ended = none → d.exec schedule p = some p1 →
      p1.ended = none := by
  induction schedule with
  | nil =>
    intro p p1 _ he h
    simp only [Deployment.exec, Option.some.injEq] at h
    rw [← h]; exact he
  | cons c rest ih =>
    intro p p1 hs he h
    simp only [Deployment.exec] at h
    cases hstep : d.step c p with
    | none => rw [hstep] at h; simp at h
    | some p2 =>
      rw [hstep] at h
      exact ih p2 p1 (hs.step c hstep) (Deployment.step_not_ended c hall hs hstep) h

/-- In a sound process in which `DeleteAllDefaultVPCs` has returned, the
goroutine of every region has finished or is panicking. -/
theorem Deployment.Sound.all_done {σ : Type} {d : Deployment σ} {p : Process}
    (hs : d.Sound p) (hm : p.main = .returned) (j : Nat) (region : String) (g : Goroutine)
    (hr : d.regions[j]? = some region) (hg : p.goroutines[j]? = some g) :
    (g = .finished ∧ (d.run region).1 = .returned) ∨
      (g = .panicking ∧ (d.run region).1 = .panicked) := by
  have hzero : p.goroutines.countP Goroutine.isRunning = 0 := by
    rw [← hs.counter]; exact hs.joined hm
  cases g with
  | notStarted =>
    obtain ⟨i, hi, _⟩ := (hs.notStarted j _ hg).mp rfl
    rw [hm] at hi; cases hi
  | running k =>
    have := List.countP_eq_zero.mp hzero _ (List.getElem?_mem hg)
    simp [Goroutine.isRunning] at this
  | finished => exact .inl ⟨rfl, hs.finished j region hr hg⟩
  | panicking => exact .inr ⟨rfl, hs.panicking j region hr hg⟩

/-- Whether the goroutine with index `j` can take a step depends only on where
it stands and on whether the process has ended. -/
theorem Deployment.step_goroutine_isSome_congr {σ : Type} (d : Deployment σ) (j : Nat)
    (p p1 : Process) (he : p1.ended = p.ended) (hg : p1.goroutines[j]? = p.goroutines[j]?) :
    (d.step (.goroutine j) p1).isSome = (d.step (.goroutine j) p).isSome := by
  unfold Deployment.step
  rw [he]
  by_cases hp : p.ended ≠ none
  · simp [hp]
  · simp only [hp, if_false]
    unfold Deployment.stepGoroutine
    rw [hg]
    cases d.regions[j]? with
    | none => rfl
    | some region =>
      cases p.goroutines[j]? with
      | none => rfl
      | some g =>
        cases g with
        | notStarted => rfl
        | finished => rfl
        | panicking => rfl
        | running k =>
          simp only
          by_cases hk : k < (d.run region).2.trace.length
          · simp [hk]
          · simp only [hk, if_false]
            cases (d.run region).1 <;> rfl

/-- C23. For `DeleteAllDefaultVPCs` with one goroutine per region, under every
schedule. (1) When the listing of default VPCs fails in a region, the run of
that region's goroutine is that one call and then returns; every step of that
goroutine leaves the process alive, leaves `DeleteAllDefaultVPCs` where it
stands and leaves the goroutine of every other region where it stands and as
able to take its next step as before. (2) Whenever
`DeleteAllDefaultVPCs` has returned, a goroutine has been started for every
region and each of them has ended: it finished, having made all the calls of
its own run and returned, or its run panicked. (3) If in every region the
listing fails or the run of the goroutine returns, then no schedule ends the
process, no schedule is longer than a fixed bound, the process can take a step
as long as `DeleteAllDefaultVPCs` has not returned, and there is a schedule
under which it returns; at its return every goroutine has finished and the
final line is all the function has printed. -/
theorem DeleteAllDefaultVPCs_isolates_a_failed_vpc_listing {σ : Type} (d : Deployment σ) :
    (∀ region e, ((d.newClient region).DescribeVpcs (d.remote region)).1 = .failed e →
      (d.run region).1 = .returned ∧
      (d.run region).2.trace = [.DescribeVpcs (.failed e)] ∧
      ∀ schedule p (i : Nat) p1, DeleteAllDefaultVPCs d schedule = some p →
        d.regions[i]? = some region → d.step (.goroutine i) p = some p1 →
        p1.ended = none ∧ p1.main = p.main ∧
          ∀ j : Nat, j ≠ i → p1.goroutines[j]? = p.goroutines[j]? ∧
            (d.step (.goroutine j) p1).isSome = (d.step (.goroutine j) p).isSome) ∧
    (∀ schedule p, DeleteAllDefaultVPCs d schedule = some p → p.main = .returned →
      p.goroutines.length = d.regions.length ∧
      ∀ (j : Nat) (region : String) (g : Goroutine), d.regions[j]? = some region →
        p.goroutines[j]? = some g →
        (g = .finished ∧ (d.run region).1 = .returned) ∨
          (g = .panicking ∧ (d.run region).1 = .panicked)) ∧
    ((∀ region ∈ d.regions,
        (∃ e, ((d.newClient region).DescribeVpcs (d.remote region)).1 = .failed e) ∨
          (d.run region).1 = .returned) →
      (∀ schedule p, DeleteAllDefaultVPCs d schedule = some p →
        p.ended = none ∧ schedule.length ≤ d.stepsLeft d.init ∧
        (p.main ≠ .returned → ∃ c, (d.step c p).isSome = true) ∧
        (p.main = .returned →
          (∀ g ∈ p.goroutines, g = .finished) ∧ p.out = ["All default VPCs deleted.\n"])) ∧
      ∃ schedule p, DeleteAllDefaultVPCs d schedule = some p ∧ p.main = .returned) := by
  refine ⟨fun region e hfail => ?_, fun schedule p hp hm => ?_, fun hall => ?_⟩
  · obtain ⟨h1, h2⟩ := d.run_of_failed_listing region e hfail
    refine ⟨h1, h2, fun schedule p i p1 hp hr hstep => ?_⟩
    have hs : d.Sound p := Deployment.Sound.exec schedule _ _ d.init_sound hp
    unfold Deployment.step at hstep
    by_cases he : p.ended ≠ none
    · simp [he] at hstep
    · simp only [he, if_false] at hstep
      have he1 : p.ended = none := by simpa using he
      obtain ⟨region1, hr1, hcase⟩ := d.stepGoroutine_cases i p p1 hstep
      rw [hr, Option.some.injEq] at hr1
      subst hr1
      rcases hcase with ⟨k, hg, hk, rfl⟩ | ⟨k, hg, hk, hend, rfl⟩ |
        ⟨k, status, hg, hk, hend, rfl⟩ | ⟨k, hg, hk, hend, rfl⟩ | ⟨hg, rfl⟩
      · exact ⟨he1, rfl, fun j hj => ⟨List.getElem?_set_ne (Ne.symm hj),
          d.step_goroutine_isSome_congr j p _ rfl (List.getElem?_set_ne (Ne.symm hj))⟩⟩
      · exact ⟨he1, rfl, fun j hj => ⟨List.getElem?_set_ne (Ne.symm hj),
          d.step_goroutine_isSome_congr j p _ rfl (List.getElem?_set_ne (Ne.symm hj))⟩⟩
      · rw [h1] at hend; cases hend
      · rw [h1] at hend; cases hend
      · have := hs.panicking i region hr hg
        rw [h1] at this; cases this
  · have hs : d.Sound p := Deployment.Sound.exec schedule _ _ d.init_sound hp
    exact ⟨hs.length, fun j region g hr hg => hs.all_done hm j region g hr hg⟩
  · have hret : ∀ region ∈ d.regions, (d.run region).1 = .returned := by
      intro region hmem
      rcases hall region hmem with ⟨e, he⟩ | h
      · exact (d.run_of_failed_listing region e he).1
      · exact h
    refine ⟨fun schedule p hp => ?_, ?_⟩
    · have hs : d.Sound p := Deployment.Sound.exec schedule _ _ d.init_sound hp
      have he : p.ended = none :=
        Deployment.exec_not_ended hret schedule _ _ d.init_sound rfl hp
      refine ⟨he, ?_, fun hm => Deployment.can_step hs he hm, fun hm => ⟨?_, ?_⟩⟩
      · have := Deployment.length_le_stepsLeft schedule _ _ d.init_sound hp
        omega
      · intro g hg
        obtain ⟨j, hj⟩ := List.mem_iff_getElem?.mp hg
        have hlt : j < d.regions.length := by
          rw [← hs.length]
          exact (List.getElem?_eq_some_iff.mp hj).1
        have hr : d.regions[j]? = some d.regions[j] := List.getElem?_eq_getElem hlt
        rcases hs.all_done hm j _ g hr hj with ⟨h1, _⟩ | ⟨_, h2⟩
        · exact h1
        · rw [hret _ (List.getElem?_mem hr)] at h2; cases h2
      · have := hs.printed
        simpa [hm] using this
    · obtain ⟨schedule, p, h1, h2, _⟩ := Deployment.completes hret (d.stepsLeft d.init) d.init
        d.init_sound rfl (le_refl _)
      exact ⟨schedule, p, h1, h2⟩

/-- C23, worked example: the listing of VPCs fails in `us-east-1`, and
`us-west-2` has one default VPC without resources. The goroutine of
`us-east-1` ends after its one call while the one of `us-west-2` is running,
and leaves it as it is; under a schedule that lets both goroutines run to
their end `DeleteAllDefaultVPCs` returns with both finished; and no schedule
ends the process. -/
theorem DeleteAllDefaultVPCs_isolates_a_failed_vpc_listing_witness :
    ((sampleDeployment.run "us-east-1").1 = .returned ∧
      (sampleDeployment.run "us-east-1").2.trace =
        [.DescribeVpcs (.failed (.errorString "RequestLimitExceeded"))]) ∧
    ((Process.mk (.spawning 2) 1 [.finished, .running 1] [] none).ended = none ∧
      ∀ j : Nat, j ≠ 0 →
        (Process.mk (.spawning 2) 1 [.finished, .running 1] [] none).goroutines[j]? =
        (Process.mk (.spawning 2) 2 [.running 1, .running 1] [] none).goroutines[j]?) ∧
    (∀ (j : Nat) (region : String) (g : Goroutine),
      sampleDeployment.regions[j]? = some region →
      (Process.mk .returned 0 [.finished, .finished] ["All default VPCs deleted.\n"]
        none).goroutines[j]? = some g →
      (g = .finished ∧ (sampleDeployment.run region).1 = .returned) ∨
        (g = .panicking ∧ (sampleDeployment.run region).1 = .panicked)) ∧
    (∃ schedule p, DeleteAllDefaultVPCs sampleDeployment schedule = some p ∧
      p.main = .returned) :=
  have hfail : ((sampleDeployment.newClient "us-east-1").DescribeVpcs
      (sampleDeployment.remote "us-east-1")).1 =
      .failed (.errorString "RequestLimitExceeded") := by decide
  have hall : ∀ region ∈ sampleDeployment.regions,
      (∃ e, ((sampleDeployment.newClient region).DescribeVpcs
        (sampleDeployment.remote region)).1 = .failed e) ∨
        (sampleDeployment.run region).1 = .returned := by
    intro region hmem
    simp only [sampleDeployment, List.mem_cons, List.mem_singleton, List.not_mem_nil,
      or_false] at hmem
    rcases hmem with rfl | rfl
    · exact .inl ⟨_, hfail⟩
    · exact .inr (by decide)
  have h := DeleteAllDefaultVPCs_isolates_a_failed_vpc_listing sampleDeployment
  have h1 := h.1 "us-east-1" _ hfail
  have hstep := h1.2.2 [.main, .goroutine 0, .main, .goroutine 1]
    (Process.mk (.spawning 2) 2 [.running 1, .running 1] [] none) 0
    (Process.mk (.spawning 2) 1 [.finished, .running 1] [] none) (by decide) (by decide)
    (by decide)
  ⟨⟨h1.1, h1.2.1⟩, ⟨hstep.1, fun j hj => (hstep.2.2 j hj).1⟩,
    (h.2.1 [.main, .goroutine 0, .main, .goroutine 1, .goroutine 0, .goroutine 1, .main,
      .goroutine 1, .goroutine 1, .goroutine 1, .goroutine 1, .goroutine 1, .goroutine 1,
      .main]
      (Process.mk .returned 0 [.finished, .finished] ["All default VPCs deleted.\n"] none)
      (by decide) rfl).2,
    (h.2.2 hall).2⟩

end RemoveDefaultVpc
